import Mathlib

set_option exponentiation.threshold 4096

/-!
# ucuzu-scrapper: a shallow embedding of the scraper core

The Go sources embedded here are `scrappers/registry.go`, `scrappers/irshad.go`,
`scrappers/kontakt.go` and `main.go`.  Go strings are modelled by `String`
(valid UTF-8 text), `float64` by the type `F64` below (sign, 53-bit mantissa,
binary exponent, with round-to-nearest-even arithmetic), the registry map by an
association list with unique keys.  The case mapping `strings.ToLower` and the
decimal reader `strconv.ParseFloat` belong to the Go library; the definitions
take them as parameters, and `asciiLower` / `strconv.ParseDecimal` are concrete
instances that agree with the library on ASCII text and on plain decimal
literals.  A parsed page is modelled by the texts of the elements that each
`Find(...).Each` visits, the regular expressions of `irshad.go` by matchers
written out by hand, and a run-time panic of an index or slice expression by
`none` in the checked variant of each extraction.
-/

/-! ## Go `strings` -/

namespace strings

/-- Scan for `sub` at every position of the text: `strings.Contains` on characters. -/
def containsChars (sub : List Char) : List Char → Bool
  | [] => sub.isEmpty
  | c :: t => sub.isPrefixOf (c :: t) || containsChars sub t

/-- Go `strings.Contains(s, substr)`. -/
def Contains (s substr : String) : Bool :=
  containsChars substr.data s.data

/-- Go `unicode.IsSpace`: the white-space code points that `TrimSpace` strips. -/
def isSpace (c : Char) : Bool :=
  let n := c.toNat
  n == 0x20 || (0x09 ≤ n && n ≤ 0x0D) || n == 0x85 || n == 0xA0 || n == 0x1680 ||
  (0x2000 ≤ n && n ≤ 0x200A) || n == 0x2028 || n == 0x2029 || n == 0x202F ||
  n == 0x205F || n == 0x3000

/-- Go `strings.TrimSpace(s)`. -/
def TrimSpace (s : String) : String :=
  ⟨((s.data.dropWhile isSpace).reverse.dropWhile isSpace).reverse⟩

/-- Left-to-right, non-overlapping replacement; the counter skips the rest of a
match that has just been replaced. -/
def replaceChars (old new : List Char) : Nat → List Char → List Char
  | _, [] => []
  | k + 1, _ :: t => replaceChars old new k t
  | 0, c :: t =>
    if old.isPrefixOf (c :: t) then new ++ replaceChars old new (old.length - 1) t
    else c :: replaceChars old new 0 t

/-- Go `strings.ReplaceAll(s, old, new)` for a non-empty `old`. -/
def ReplaceAll (s old new : String) : String :=
  ⟨replaceChars old.data new.data 0 s.data⟩

/-- Pieces of the text between non-overlapping occurrences of `sep`, left to
right; `cur` is the piece being read (reversed). -/
def splitChars (sep : List Char) : Nat → List Char → List Char → List (List Char)
  | _, cur, [] => [cur.reverse]
  | k + 1, cur, _ :: t => splitChars sep k cur t
  | 0, cur, c :: t =>
    if sep.isPrefixOf (c :: t) then cur.reverse :: splitChars sep (sep.length - 1) [] t
    else splitChars sep 0 (c :: cur) t

/-- Go `strings.Split(s, sep)` for a non-empty `sep`. -/
def Split (s sep : String) : List String :=
  (splitChars sep.data 0 [] s.data).map String.mk

end strings

/-- Lower-casing of the ASCII letters, every other character unchanged: what
`strings.ToLower` does on ASCII text. -/
def asciiLower (s : String) : String :=
  ⟨s.data.map Char.toLower⟩

/-! ## `float64` -/

/-- A `float64` value: NaN, an infinity, or the finite number
`(-1)^neg * man * 2^exp`. -/
inductive F64 where
  | nan : F64
  | inf (neg : Bool) : F64
  | fin (neg : Bool) (man : Nat) (exp : Int) : F64
deriving DecidableEq

namespace F64

/-- The test `2^k ≤ (num / den) * 2^e2`. -/
def pow2Le (k : Int) (num den : Nat) (e2 : Int) : Bool :=
  if 0 ≤ k - e2 then decide (2 ^ (k - e2).toNat * den ≤ num)
  else decide (den ≤ num * 2 ^ (e2 - k).toNat)

/-- Binary search for the binade of `(num / den) * 2^e2`: the largest `k` in
`[base, base + 2^i)` with `2^k ≤` the value (or `base` when there is none). -/
def binade (num den : Nat) (e2 : Int) : Nat → Int → Int
  | 0, base => base
  | i + 1, base =>
    if pow2Le (base + (2 ^ i : Nat)) num den e2 then
      binade num den e2 i (base + (2 ^ i : Nat))
    else binade num den e2 i base

/-- The integer nearest to `a / b`, ties going to the even one. -/
def roundHalfEven (a b : Nat) : Nat :=
  if 2 * (a % b) < b then a / b
  else if b < 2 * (a % b) then a / b + 1
  else if (a / b) % 2 = 0 then a / b else a / b + 1

/-- IEEE 754 binary64 rounding (nearest, ties to even) of the exact value
`(-1)^neg * (num / den) * 2^e2`: 53 significant bits, exponents of the unit in
the last place from -1074 (subnormal) to 971, overflow to infinity. -/
def round (neg : Bool) (num den : Nat) (e2 : Int) : F64 :=
  if num = 0 then fin neg 0 (-1074)
  else
    let ulp := binade num den e2 11 (-1022) - 52
    let n :=
      if 0 ≤ e2 - ulp then roundHalfEven (num * 2 ^ (e2 - ulp).toNat) den
      else roundHalfEven num (den * 2 ^ (ulp - e2).toNat)
    if n = 2 ^ 53 then (if 971 < ulp + 1 then inf neg else fin neg (2 ^ 52) (ulp + 1))
    else if 971 < ulp then inf neg
    else fin neg n ulp

/-- The float64 nearest to a natural number. -/
def ofNat (n : Nat) : F64 := round false n 1 0

/-- The signed integer `(-1)^neg * man * 2^(exp - e0)`, for `e0 ≤ exp`. -/
def scaled (neg : Bool) (man : Nat) (exp e0 : Int) : Int :=
  if neg then -((man * 2 ^ (exp - e0).toNat : Nat) : Int)
  else ((man * 2 ^ (exp - e0).toNat : Nat) : Int)

/-- Go `x < y` on float64. -/
def lt : F64 → F64 → Bool
  | nan, _ => false
  | _, nan => false
  | inf n1, inf n2 => n1 && !n2
  | inf n1, fin _ _ _ => n1
  | fin _ _ _, inf n2 => !n2
  | fin n1 m1 e1, fin n2 m2 e2 =>
    decide (scaled n1 m1 e1 (min e1 e2) < scaled n2 m2 e2 (min e1 e2))

/-- Go `x == y` on float64 (NaN differs from everything, `+0 == -0`). -/
def eq : F64 → F64 → Bool
  | nan, _ => false
  | _, nan => false
  | inf n1, inf n2 => n1 == n2
  | inf _, fin _ _ _ => false
  | fin _ _ _, inf _ => false
  | fin n1 m1 e1, fin n2 m2 e2 =>
    decide (scaled n1 m1 e1 (min e1 e2) = scaled n2 m2 e2 (min e1 e2))

/-- Go `x - y` on float64. -/
def sub : F64 → F64 → F64
  | nan, _ => nan
  | _, nan => nan
  | inf n1, inf n2 => if n1 = n2 then nan else inf n1
  | inf n1, fin _ _ _ => inf n1
  | fin _ _ _, inf n2 => inf (!n2)
  | fin n1 m1 e1, fin n2 m2 e2 =>
    let d := scaled n1 m1 e1 (min e1 e2) - scaled n2 m2 e2 (min e1 e2)
    if d = 0 then fin (n1 && !n2) 0 (-1074)
    else round (decide (d < 0)) d.natAbs 1 (min e1 e2)

/-- Go `x / y` on float64. -/
def div : F64 → F64 → F64
  | nan, _ => nan
  | _, nan => nan
  | inf _, inf _ => nan
  | inf n1, fin n2 _ _ => inf (xor n1 n2)
  | fin n1 _ _, inf n2 => fin (xor n1 n2) 0 (-1074)
  | fin n1 m1 e1, fin n2 m2 e2 =>
    if m2 = 0 then (if m1 = 0 then nan else inf (xor n1 n2))
    else round (xor n1 n2) m1 m2 (e1 - e2)

/-- Go `x * y` on float64. -/
def mul : F64 → F64 → F64
  | nan, _ => nan
  | _, nan => nan
  | inf n1, inf n2 => inf (xor n1 n2)
  | inf n1, fin n2 m2 _ => if m2 = 0 then nan else inf (xor n1 n2)
  | fin n1 m1 _, inf n2 => if m1 = 0 then nan else inf (xor n1 n2)
  | fin n1 m1 e1, fin n2 m2 e2 => round (xor n1 n2) (m1 * m2) 1 (e1 + e2)

/-- The exact rational value of a finite float (0 for NaN and infinities). -/
def toRat : F64 → ℚ
  | fin neg m e => (if neg then -1 else 1) * (m : ℚ) * (2 : ℚ) ^ e
  | _ => 0

/-- Neither NaN nor an infinity. -/
def isFinite : F64 → Bool
  | fin _ _ _ => true
  | _ => false

/-- The finite values that exist as a float64: a mantissa below `2^53` with an
exponent from -1074 to 971. -/
def isBinary64 : F64 → Bool
  | fin _ m e => decide (m < 2 ^ 53) && decide (-1074 ≤ e) && decide (e ≤ 971)
  | _ => true

end F64

namespace strconv

/-- The number read from a run of decimal digits, most significant first;
`none` when a character is not a digit. -/
def digitsValue : List Char → Nat → Option Nat
  | [], acc => some acc
  | c :: t, acc =>
    if c.isDigit then digitsValue t (acc * 10 + (c.toNat - 48)) else none

/-- Unsigned `digits [ "." digits ]` with at least one digit, correctly rounded. -/
def parseUnsigned (neg : Bool) (cs : List Char) : Option F64 :=
  let ip := cs.takeWhile (· != '.')
  let rest := cs.dropWhile (· != '.')
  let fp := rest.drop 1
  if ip.length + fp.length = 0 then none
  else
    match digitsValue (ip ++ fp) 0 with
    | none => none
    | some n =>
      match F64.round neg n (10 ^ fp.length) 0 with
      | F64.fin s m e => some (F64.fin s m e)
      | _ => none

/-- Go `strconv.ParseFloat(s, 64)` with a nil error, on plain decimal literals
`[+-] digits [ "." digits ]`: the nearest float64, `none` for a syntax or range
error.  (The library also reads exponents, hexadecimal literals, digit
separators and the words Inf and NaN; this instance rejects them.) -/
def ParseDecimal (s : String) : Option F64 :=
  match s.data with
  | '-' :: cs => parseUnsigned true cs
  | '+' :: cs => parseUnsigned false cs
  | cs => parseUnsigned false cs

end strconv

namespace fmt

/-- Left-pad a digit string with zeros to at least `n` characters. -/
def padZeros (n : Nat) (ds : List Char) : List Char :=
  List.replicate (n - ds.length) '0' ++ ds

/-- Go `fmt.Sprintf("%.<prec>f", x)`: the exact value rounded to `prec` decimals
(ties to even), a minus sign whenever the sign bit is set. -/
def fixed (prec : Nat) : F64 → String
  | F64.nan => "NaN"
  | F64.inf false => "+Inf"
  | F64.inf true => "-Inf"
  | F64.fin neg m e =>
    let n :=
      if 0 ≤ e then m * 2 ^ e.toNat * 10 ^ prec
      else F64.roundHalfEven (m * 10 ^ prec) (2 ^ (-e).toNat)
    let ds := padZeros (prec + 1) (Nat.repr n).data
    let ip := ds.take (ds.length - prec)
    let fp := ds.drop (ds.length - prec)
    ⟨(if neg then ['-'] else []) ++ ip ++ (if prec = 0 then [] else '.' :: fp)⟩

end fmt

/-! ## `scrappers/registry.go` -/

/-- The standardized product record (`type Product struct`). -/
structure Product where
  Name : String := ""
  SKU : String := ""
  CurrentPrice : String := ""
  OriginalPrice : String := ""
  Discount : String := ""
  Currency : String := ""
  Availability : String := ""
  Rating : String := ""
  ReviewCount : String := ""
  Brand : String := ""
  InternalMemory : String := ""
  RAM : String := ""
  MainCamera : String := ""
  FrontCamera : String := ""
  Processor : String := ""
  OS : String := ""
  Display : String := ""
  URL : String := ""
  Site : String := ""
  ScrapedAt : String := ""
deriving DecidableEq

/-- The pair `(*Product, error)` that `Scrape` returns. -/
structure ScrapeResult where
  product : Option Product
  err : Option String
deriving DecidableEq

/-- A value of the `Scraper` interface other than nil: a strategy with its three
methods.  The interface values as a whole, nil included, are `Option Scraper`,
with `none` for nil. -/
structure Scraper where
  Scrape : String → ScrapeResult
  GetSiteName : String
  IsValidURL : String → Bool

/-- Information about a supported site (`type SiteInfo struct`). -/
structure SiteInfo where
  Name : String
  Identifier : String
  BaseURL : String
  Description : String
deriving DecidableEq

/-- The package-level `scraperRegistry` map when it holds strategies only: its
entries, one per key. -/
abbrev Registry := List (String × Scraper)

/-- The map assignment `scraperRegistry[identifier] = scraper`.  The assignment
never looks at the value stored: `V` is `Scraper` for a map of strategies and
`Option Scraper` for a map that may hold the nil interface value as well. -/
def RegisterScraper {V : Type} : List (String × V) → String → V → List (String × V)
  | [], identifier, scraper => [(identifier, scraper)]
  | (k, v) :: rest, identifier, scraper =>
    if k = identifier then (identifier, scraper) :: rest
    else (k, v) :: RegisterScraper rest identifier scraper

/-- The map read `scraperRegistry[siteIdentifier]`. -/
def registryLookup {V : Type} : List (String × V) → String → Option V
  | [], _ => none
  | (k, v) :: rest, siteIdentifier =>
    if k = siteIdentifier then some v else registryLookup rest siteIdentifier

/-- Go `GetScraper`: the value stored under the identifier, or the not-found
error. -/
def GetScraper {V : Type} (reg : List (String × V)) (siteIdentifier : String) :
    Except String V :=
  match registryLookup reg siteIdentifier with
  | some scraper => Except.ok scraper
  | none => Except.error ("no scraper found for site: " ++ siteIdentifier)

/-- Go `getBaseURL`: the static table of base URLs. -/
def getBaseURL (identifier : String) : String :=
  if identifier = "kontakt" then "https://kontakt.az"
  else if identifier = "irshad" then "https://irshad.az"
  else if identifier = "optimal" then "https://optimal.az"
  else ""

/-- Go `GetAvailableSites`, given the entries in the order in which the `range`
over the map visits them (Go leaves that order unspecified).  The call
`scraper.GetSiteName()` on the nil interface value is a run-time panic: the
result is then `none`. -/
def GetAvailableSites (visited : List (String × Option Scraper)) : Option (List SiteInfo) :=
  visited.mapM fun entry =>
    entry.2.map fun scraper =>
      { Name := scraper.GetSiteName
        Identifier := entry.1
        BaseURL := getBaseURL entry.1
        Description := "Scraper for " ++ scraper.GetSiteName }

/-- The registry after a sequence of `RegisterScraper` calls on the empty map. -/
def registryAfter {V : Type} (calls : List (String × V)) : List (String × V) :=
  calls.foldl (fun reg call => RegisterScraper reg call.1 call.2) []

/-! ## `scrappers/irshad.go` -/

/-- The outside world of one `Scrape` call: the clock and the page fetch
(request, status check, body read and HTML parse, or the headless-browser
navigation), which yields the parsed document or the error `Scrape` returns. -/
structure Web (Doc : Type) where
  now : String
  newRequestErr : String → Option String
  get : String → Except String Doc

/-- What one `Scrape` call did: its return value and the URLs it tried to fetch. -/
structure Run where
  result : ScrapeResult
  fetched : List String
deriving DecidableEq

namespace IrshadScraper

/-- Go `(*IrshadScraper).GetSiteName`. -/
def GetSiteName : String := "Irshad.az"

/-- Go `(*IrshadScraper).IsValidURL`. -/
def IsValidURL (ToLower : String → String) (url : String) : Bool :=
  strings.Contains (ToLower url) "irshad.az"

/-- Go `(*IrshadScraper).Scrape`: the URL check, the fetch, and the field
extraction `extract` applied to the fresh product. -/
def Scrape {Doc : Type} (ToLower : String → String) (web : Web Doc)
    (extract : Doc → Product → Product) (url : String) : Run :=
  if !IsValidURL ToLower url then
    ⟨⟨none, some ("URL does not belong to irshad.az: " ++ url)⟩, []⟩
  else
    let product : Product := { URL := url, Site := "irshad", ScrapedAt := web.now }
    match web.newRequestErr url with
    | some err => ⟨⟨none, some ("failed to create request: " ++ err)⟩, []⟩
    | none =>
      match web.get url with
      | Except.error err => ⟨⟨none, some err⟩, [url]⟩
      | Except.ok doc => ⟨⟨some (extract doc product), none⟩, [url]⟩

end IrshadScraper

/-- Go `extractNumericPrice`, over the library reader `ParseFloat` (`none` when
it returns an error). -/
def extractNumericPrice (ParseFloat : String → Option F64) (priceStr : String) : F64 :=
  if priceStr = "" then F64.fin false 0 (-1074)
  else
    match ParseFloat (strings.TrimSpace (strings.ReplaceAll priceStr "AZN" "")) with
    | some price => price
    | none => F64.fin false 0 (-1074)

namespace IrshadScraper

/-- Lines 262-271 of `Scrape`: assign the extracted prices and compute the
discount when both are present and positive. -/
def assignPrices (ParseFloat : String → Option F64) (product : Product)
    (currentPrice originalPrice : String) : Product :=
  let product := { product with CurrentPrice := currentPrice, OriginalPrice := originalPrice }
  if product.CurrentPrice ≠ "" ∧ product.OriginalPrice ≠ "" then
    let currentFloat := extractNumericPrice ParseFloat product.CurrentPrice
    let originalFloat := extractNumericPrice ParseFloat product.OriginalPrice
    if F64.lt (F64.ofNat 0) originalFloat && F64.lt (F64.ofNat 0) currentFloat then
      let discountPercent :=
        F64.mul (F64.div (F64.sub originalFloat currentFloat) originalFloat) (F64.ofNat 100)
      { product with Discount := "-" ++ fmt.fixed 0 discountPercent ++ "%" }
    else product
  else product

/-- The `regexp` class `\s`. -/
def regexSpace (c : Char) : Bool :=
  c == ' ' || c == '\t' || c == '\n' || c == '\r' || c.toNat == 12

/-- Group 1 of `^(\d+(?:\.\d+)?)\s*AZN$` on the text, when it matches. -/
def matchPriceStrict (text : String) : Option String :=
  let ip := text.data.takeWhile Char.isDigit
  let r1 := text.data.dropWhile Char.isDigit
  if ip.isEmpty then none
  else
    let fp := (r1.drop 1).takeWhile Char.isDigit
    let dotted := r1.head? == some '.' && !fp.isEmpty
    let r2 := if dotted then (r1.drop 1).dropWhile Char.isDigit else r1
    if r2.dropWhile regexSpace = ['A', 'Z', 'N'] then
      some ⟨if dotted then ip ++ '.' :: fp else ip⟩
    else none

/-- Group 1 of `^(\d+\.?\d*)\s*AZN$` on the text, when it matches. -/
def matchPriceLoose (text : String) : Option String :=
  let ip := text.data.takeWhile Char.isDigit
  let r1 := text.data.dropWhile Char.isDigit
  if ip.isEmpty then none
  else
    let dot := r1.head? == some '.'
    let r2 := if dot then r1.drop 1 else r1
    let fp := r2.takeWhile Char.isDigit
    if (r2.dropWhile Char.isDigit).dropWhile regexSpace = ['A', 'Z', 'N'] then
      some ⟨ip ++ (if dot then ['.'] else []) ++ fp⟩
    else none

/-- The numeric filter of the fallback: `price > 100 && price < 10000`. -/
def priceInRange (price : F64) : Bool :=
  F64.lt (F64.ofNat 100) price && F64.lt price (F64.ofNat 10000)

/-- The body of the `doc.Find("*").Each` callback of the free-text fallback: the
price an element text contributes, if any. -/
def priceCandidate (ToLower : String → String) (ParseFloat : String → Option F64)
    (re : String → Option String) (raw : String) : Option F64 :=
  let text := strings.TrimSpace raw
  if strings.Contains text "AZN" && !strings.Contains text "x" &&
      !strings.Contains (ToLower text) "aylıq" && !strings.Contains text "ay" &&
      !strings.Contains (ToLower text) "credit" &&
      !strings.Contains (ToLower text) "kredit" && text.utf8ByteSize < 20 then
    match re text with
    | some number =>
      match ParseFloat number with
      | some price => if priceInRange price then some price else none
      | none => none
    | none => none
  else none

/-- The loop over `prices` that fills `finalPrices` through the `uniquePrices` map. -/
def uniquePrices (prices : List F64) : List F64 :=
  prices.foldl (fun final price => if final.any (fun q => F64.eq q price) then final
    else final ++ [price]) []

/-- The order of `sort.Float64s`: `x < y`, NaN before everything else. -/
def float64Less (x y : F64) : Bool :=
  F64.lt x y || (decide (x = F64.nan) && !decide (y = F64.nan))

/-- Go `sort.Float64s`. -/
def sortFloat64s (xs : List F64) : List F64 :=
  xs.insertionSort (fun a b => float64Less b a = false)

/-- Go `fmt.Sprintf("%.2f AZN", price)`. -/
def sprintfAZN (price : F64) : String := fmt.fixed 2 price ++ " AZN"

/-- Lines 190-209: deduplicate, sort, and take the lowest as current and the
highest as original price. -/
def pickPrices (prices : List F64) (currentPrice originalPrice : String) : String × String :=
  if prices.length > 0 then
    match sortFloat64s (uniquePrices prices) with
    | [] => (currentPrice, originalPrice)
    | [p] => (sprintfAZN p, originalPrice)
    | p :: q :: rest => (sprintfAZN p, sprintfAZN ((q :: rest).getLast (List.cons_ne_nil q rest)))
  else (currentPrice, originalPrice)

/-- One pass of the free-text fallback (lines 166-210, and again 215-259 with
the looser pattern) over the texts of all elements in document order. -/
def textFallback (ToLower : String → String) (ParseFloat : String → Option F64)
    (re : String → Option String) (texts : List String) (prices : String × String) :
    String × String :=
  if prices.1 = "" then
    pickPrices (texts.filterMap (priceCandidate ToLower ParseFloat re)) prices.1 prices.2
  else prices

/-- Both passes of the free-text fallback, in source order. -/
def visibleTextPrices (ToLower : String → String) (ParseFloat : String → Option F64)
    (texts : List String) (prices : String × String) : String × String :=
  textFallback ToLower ParseFloat matchPriceLoose texts
    (textFallback ToLower ParseFloat matchPriceStrict texts prices)

/-- The `switch` of the specification callback (lines 373-389) on `parts[0]` and
`parts[1]`. -/
def specPair (ToLower : String → String) (product : Product) (part0 part1 : String) : Product :=
  let label := strings.TrimSpace (ToLower part0)
  let value := strings.TrimSpace part1
  if strings.Contains label "daxili yaddaş" && product.InternalMemory == "" then
    { product with InternalMemory := value }
  else if strings.Contains label "operativ yaddaş" && product.RAM == "" then
    { product with RAM := value }
  else if strings.Contains label "prosessor" && product.Processor == "" then
    { product with Processor := value }
  else if strings.Contains label "qrafik prosessor" && product.Display == "" then
    { product with Display := value }
  else if strings.Contains label "çəki" && product.Brand != "" && product.OS == "" then
    { product with OS := "Çəki: " ++ value }
  else product

/-- The body of the specification callback (lines 366-392) on one element text. -/
def specText (ToLower : String → String) (product : Product) (raw : String) : Product :=
  let text := strings.TrimSpace raw
  if strings.Contains text " : " then
    match strings.Split text " : " with
    | part0 :: part1 :: _ => specPair ToLower product part0 part1
    | _ => product
  else product

/-- The specification pass over the texts of all elements in document order. -/
def specTexts (ToLower : String → String) (product : Product) (texts : List String) : Product :=
  texts.foldl (specText ToLower) product

end IrshadScraper

/-! ## `scrappers/kontakt.go` -/

namespace KontaktScraper

/-- Go `(*KontaktScraper).GetSiteName`. -/
def GetSiteName : String := "Kontakt.az"

/-- Go `(*KontaktScraper).IsValidURL`. -/
def IsValidURL (ToLower : String → String) (url : String) : Bool :=
  strings.Contains (ToLower url) "kontakt.az"

/-- Go `(*KontaktScraper).Scrape`: the URL check, the headless-browser fetch, and
the field extraction `extract` applied to the fresh product. -/
def Scrape {Doc : Type} (ToLower : String → String) (web : Web Doc)
    (extract : Doc → Product → Product) (url : String) : Run :=
  if !IsValidURL ToLower url then
    ⟨⟨none, some ("URL does not belong to kontakt.az: " ++ url)⟩, []⟩
  else
    let product : Product := { URL := url, Site := "kontakt", ScrapedAt := web.now }
    match web.get url with
    | Except.error err => ⟨⟨none, some err⟩, [url]⟩
    | Except.ok doc => ⟨⟨some (extract doc product), none⟩, [url]⟩

/-- The callback of `doc.Find("div.har__row").Each` (lines 194-223) on one row,
given the texts of its `div.har__title` and `div.har__znach`. -/
def harRow (ToLower : String → String) (product : Product) (row : String × String) : Product :=
  let label := strings.TrimSpace row.1
  let value := strings.TrimSpace row.2
  if label = "" ∨ value = "" then product
  else
    let labelLower := ToLower label
    if strings.Contains labelLower "brend" then { product with Brand := value }
    else if strings.Contains labelLower "daxili yaddaş" then
      { product with InternalMemory := value }
    else if strings.Contains labelLower "operativ yaddaş" then { product with RAM := value }
    else if strings.Contains labelLower "əsas kamera" then { product with MainCamera := value }
    else if strings.Contains labelLower "ön kamera" then { product with FrontCamera := value }
    else if strings.Contains labelLower "prosessorun adı" ||
        strings.Contains labelLower "prosessorun növü" then
      if product.Processor = "" then { product with Processor := value }
      else if !strings.Contains product.Processor value then
        { product with Processor := product.Processor ++ " " ++ value }
      else product
    else if strings.Contains labelLower "əməliyyat sistemi" then { product with OS := value }
    else if strings.Contains labelLower "displey növü" then { product with Display := value }
    else product

/-- The pass over all `div.har__row` rows in document order. -/
def harRows (ToLower : String → String) (product : Product) (rows : List (String × String)) :
    Product :=
  rows.foldl (harRow ToLower) product

/-- The callback of the table fallback (lines 226-251) on one `tr`, given the
texts of its `th` and `td`. -/
def tableRow (ToLower : String → String) (product : Product) (row : String × String) : Product :=
  let label := strings.TrimSpace row.1
  let value := strings.TrimSpace row.2
  if label = "" ∨ value = "" then product
  else
    let labelLower := ToLower label
    if strings.Contains labelLower "brend" && product.Brand == "" then
      { product with Brand := value }
    else if strings.Contains labelLower "daxili yaddaş" && product.InternalMemory == "" then
      { product with InternalMemory := value }
    else if strings.Contains labelLower "operativ yaddaş" && product.RAM == "" then
      { product with RAM := value }
    else if strings.Contains labelLower "əsas kamera" && product.MainCamera == "" then
      { product with MainCamera := value }
    else if strings.Contains labelLower "ön kamera" && product.FrontCamera == "" then
      { product with FrontCamera := value }
    else if (strings.Contains labelLower "prosessorun adı" ||
        strings.Contains labelLower "prosessorun növü") && product.Processor == "" then
      { product with Processor := value }
    else if strings.Contains labelLower "əməliyyat sistemi" && product.OS == "" then
      { product with OS := value }
    else if strings.Contains labelLower "displey növü" && product.Display == "" then
      { product with Display := value }
    else product

/-- The pass over all rows of the attribute tables in document order. -/
def tableRows (ToLower : String → String) (product : Product) (rows : List (String × String)) :
    Product :=
  rows.foldl (tableRow ToLower) product

end KontaktScraper

/-! ## `main.go` -/

/-- The JSON error object (`type ErrorResponse struct`, tags `error` and `message`). -/
structure ErrorResponse where
  Error : String
  Message : String
deriving DecidableEq

/-- What a handler wrote as the response body: a literal text (`http.Error`), or
the JSON encoding of an `ErrorResponse` or of the product pointer. -/
inductive Body where
  | text (s : String) : Body
  | errorJSON (e : ErrorResponse) : Body
  | productJSON (p : Option Product) : Body
deriving DecidableEq

/-- An HTTP response: status code, `Content-Type` header and body. -/
structure Response where
  status : Nat
  contentType : String
  body : Body
deriving DecidableEq

/-- The message literal of the first branch of `handleScrape`. -/
def missingParametersBody : String :=
  "\x7b\"error\":\"missing_parameters\",\"message\":\"Both \x27site\x27 and \x27uri\x27 parameters are required\"\x7d"

/-- Go `handleScrape`, on the values of the `site` and `uri` query parameters
(empty when absent). -/
def handleScrape (reg : Registry) (site uri : String) : Response :=
  if site = "" ∨ uri = "" then
    ⟨400, "text/plain; charset=utf-8", Body.text (missingParametersBody ++ "\n")⟩
  else
    match GetScraper reg site with
    | Except.error _ =>
      ⟨400, "application/json", Body.errorJSON
        ⟨"unsupported_site",
          "Site \x27" ++ site ++ "\x27 is not supported. Use /api/v1/sites to see available sites"⟩⟩
    | Except.ok scraper =>
      match (scraper.Scrape uri).err with
      | some err =>
        ⟨500, "application/json", Body.errorJSON
          ⟨"scraping_failed", "Failed to scrape URL: " ++ err⟩⟩
      | none => ⟨200, "application/json", Body.productJSON (scraper.Scrape uri).product⟩

/-- Read a JSON string without escapes, after its opening quote: the content and
the text after the closing quote. -/
def readQuoted : List Char → List Char → Option (List Char × List Char)
  | _, [] => none
  | acc, c :: t =>
    if c = '"' then some (acc.reverse, t)
    else if c = '\\' then none
    else readQuoted (c :: acc) t

/-- Read the members `"key":"value"` of a flat JSON object up to the closing
brace; only white space may follow it. -/
def readMembers : Nat → List Char → Option (List (String × String))
  | 0, _ => none
  | fuel + 1, cs =>
    match cs with
    | '"' :: t =>
      match readQuoted [] t with
      | some (key, ':' :: '"' :: t2) =>
        match readQuoted [] t2 with
        | some (value, ',' :: t3) =>
          (readMembers fuel t3).map fun rest => (String.mk key, String.mk value) :: rest
        | some (value, c :: t3) =>
          if c.toNat = 0x7d ∧ t3.all strings.isSpace then some [(String.mk key, String.mk value)]
          else none
        | _ => none
      | _ => none
    | _ => none

/-- The members of a flat JSON object with string values, `none` when the text
is not one. -/
def jsonObject (s : String) : Option (List (String × String)) :=
  match s.data with
  | c :: t => if c.toNat = 0x7b then readMembers s.length t else none
  | [] => none

/-- The field names of the JSON object in an error body. -/
def Body.fieldNames : Body → Option (List String)
  | Body.text s => (jsonObject s).map fun members => members.map Prod.fst
  | Body.errorJSON _ => some ["error", "message"]
  | Body.productJSON _ => none

/-- The values of `error` and `message` in an error body. -/
def Body.errorFields : Body → Option (String × String)
  | Body.text s =>
    match jsonObject s with
    | some [("error", e), ("message", m)] => some (e, m)
    | _ => none
  | Body.errorJSON e => some (e.Error, e.Message)
  | Body.productJSON _ => none

/-! ## The host of a URL, as the specification words it -/

/-- Follows the specification text ("a URL whose host does not match its site"):
the host is what stands between `://` and the next `/`, `?` or `#`. -/
def specHost (url : String) : String :=
  match strings.Split url "://" with
  | _ :: rest :: _ => ⟨rest.data.takeWhile fun c => c != '/' && c != '?' && c != '#'⟩
  | _ => ""

/-! ## Concrete values for the worked examples -/

/-- A scraper value with a fixed display name, for concrete registries. -/
def namedScraper (name : String) : Scraper :=
  ⟨fun _ => ⟨none, some "unused"⟩, name, fun _ => false⟩


/-- A web in which every fetch succeeds with an empty document. -/
def webStub : Web Unit :=
  ⟨"2026-01-01T00:00:00Z", fun _ => none, fun _ => Except.ok ()⟩

/-! ## Indexing, slicing and iteration as Go has them

`none` stands for the run-time panic of an index or slice bound out of range.
Positions count characters; the source counts bytes, and every position it
computes comes from `strings.Index` on ASCII patterns or is a constant applied
to ASCII text, so both select the same substrings. -/

/-- Go `xs[i]`. -/
def indexAt {α : Type} (xs : List α) (i : Nat) : Option α := xs[i]?

/-- Go `s[lo:hi]` on a string. -/
def sliceStr (s : String) (lo hi : Int) : Option String :=
  if 0 ≤ lo ∧ lo ≤ hi ∧ hi ≤ (s.length : Int) then
    some ⟨(s.data.drop lo.toNat).take (hi - lo).toNat⟩
  else none

/-- Go `s[lo:]` on a string. -/
def sliceFrom (s : String) (lo : Int) : Option String :=
  sliceStr s lo (s.length : Int)

/-- Go `s[:hi]` on a string. -/
def sliceTo (s : String) (hi : Int) : Option String :=
  sliceStr s 0 hi

/-- A goquery `Each` whose callback may panic: the state after the last element,
or the panic of the first callback that panics. -/
def eachChecked {σ α : Type} (step : σ → α → Option σ) (xs : List α) (s : σ) : Option σ :=
  xs.foldlM step s

/-- The same `Each`, as a total function: the state after the last element (a
callback that panicked would leave the state as it was). -/
def each {σ α : Type} (step : σ → α → Option σ) (xs : List α) (s : σ) : σ :=
  xs.foldl (fun st x => (step st x).getD st) s

namespace strings

/-- The position of the first occurrence of `sub` in the text. -/
def indexChars (sub : List Char) : List Char → Option Nat
  | [] => if sub.isEmpty then some 0 else none
  | c :: t => if sub.isPrefixOf (c :: t) then some 0 else (indexChars sub t).map (· + 1)

/-- Go `strings.Index(s, substr)`: the position of the first occurrence, or -1. -/
def Index (s substr : String) : Int :=
  match indexChars substr.data s.data with
  | some n => (n : Int)
  | none => -1

end strings

/-- Upper-casing of the ASCII letters, every other character unchanged: what
`strings.ToUpper` does on ASCII text (the source applies it to the first letter
of its fixed brand tokens only). -/
def asciiUpper (s : String) : String :=
  ⟨s.data.map Char.toUpper⟩

/-! ## The regular expressions of `irshad.go`

Each pattern is given by its match at the start of a text (the whole match and
group 1); the patterns have no alternative that a backtracking matcher could
prefer, so the leftmost match is the match at the first position that has one. -/

namespace regexp

/-- Go `FindAllStringSubmatch(s, -1)` for a pattern given by its match at the start
of a text; the counter skips the rest of a match just found. -/
def findAllChars (here : List Char → Option (List Char × List Char)) :
    Nat → List Char → List (List String)
  | _, [] => []
  | k + 1, _ :: t => findAllChars here k t
  | 0, c :: t =>
    match here (c :: t) with
    | some (whole, group) =>
      [String.mk whole, String.mk group] :: findAllChars here (whole.length - 1) t
    | none => findAllChars here 0 t

/-- Go `re.FindAllStringSubmatch(s, -1)`. -/
def FindAllStringSubmatch (here : List Char → Option (List Char × List Char)) (s : String) :
    List (List String) :=
  findAllChars here 0 s.data

/-- The leftmost match of a pattern given by its match at the start of a text. -/
def findChars (here : List Char → Option (List Char × List Char)) : List Char → List String
  | [] => []
  | c :: t =>
    match here (c :: t) with
    | some (whole, group) => [String.mk whole, String.mk group]
    | none => findChars here t

/-- Go `re.FindStringSubmatch(s)`: the whole match and group 1, or nil. -/
def FindStringSubmatch (here : List Char → Option (List Char × List Char)) (s : String) :
    List String :=
  findChars here s.data

/-- The pattern `\d+(?:\.\d+)?` at the start of a text: the number and what follows. -/
def number (cs : List Char) : Option (List Char × List Char) :=
  let ip := cs.takeWhile Char.isDigit
  let r1 := cs.dropWhile Char.isDigit
  if ip.isEmpty then none
  else
    let fp := (r1.drop 1).takeWhile Char.isDigit
    if r1.head? == some '.' && !fp.isEmpty then
      some (ip ++ '.' :: fp, (r1.drop 1).dropWhile Char.isDigit)
    else some (ip, r1)

/-- The pattern `<key>\s*:\s*(\d+(?:\.\d+)?)` at the start of a text. -/
def keyNumber (key : String) (cs : List Char) : Option (List Char × List Char) :=
  if key.data.isPrefixOf cs then
    match (cs.drop key.length).dropWhile IrshadScraper.regexSpace with
    | ':' :: r =>
      match number (r.dropWhile IrshadScraper.regexSpace) with
      | some (group, rest) => some (cs.take (cs.length - rest.length), group)
      | none => none
    | _ => none
  else none

/-- The pattern `"price"\s*:\s*(\d+(?:\.\d+)?)`. -/
def price : List Char → Option (List Char × List Char) := keyNumber "\"price\""

/-- The pattern `"installment_price"\s*:\s*(\d+(?:\.\d+)?)`. -/
def installmentPrice : List Char → Option (List Char × List Char) :=
  keyNumber "\"installment_price\""

/-- The pattern `"price"\s*:\s*"?(\d+(?:\.\d+)?)"?` at the start of a text. -/
def quotedPrice (cs : List Char) : Option (List Char × List Char) :=
  if "\"price\"".data.isPrefixOf cs then
    match (cs.drop 7).dropWhile IrshadScraper.regexSpace with
    | ':' :: r =>
      let r1 := r.dropWhile IrshadScraper.regexSpace
      match number (if r1.head? == some '"' then r1.drop 1 else r1) with
      | some (group, rest) =>
        let rest := if rest.head? == some '"' then rest.drop 1 else rest
        some (cs.take (cs.length - rest.length), group)
      | none => none
    | _ => none
  else none

/-- The pattern `(\d+)` at the start of a text. -/
def digits (cs : List Char) : Option (List Char × List Char) :=
  if (cs.takeWhile Char.isDigit).isEmpty then none
  else some (cs.takeWhile Char.isDigit, cs.takeWhile Char.isDigit)

/-- The pattern `"code"\s*:\s*"(\d+)"` at the start of a text. -/
def codeSpaced (cs : List Char) : Option (List Char × List Char) :=
  if "\"code\"".data.isPrefixOf cs then
    match (cs.drop 6).dropWhile IrshadScraper.regexSpace with
    | ':' :: r =>
      match r.dropWhile IrshadScraper.regexSpace with
      | '"' :: r2 =>
        match r2.dropWhile Char.isDigit with
        | '"' :: rest =>
          if (r2.takeWhile Char.isDigit).isEmpty then none
          else some (cs.take (cs.length - rest.length), r2.takeWhile Char.isDigit)
        | _ => none
      | _ => none
    | _ => none
  else none

/-- The pattern `"code":"(\d+)"` at the start of a text. -/
def codeTight (cs : List Char) : Option (List Char × List Char) :=
  if "\"code\":\"".data.isPrefixOf cs then
    match (cs.drop 8).dropWhile Char.isDigit with
    | '"' :: rest =>
      if ((cs.drop 8).takeWhile Char.isDigit).isEmpty then none
      else some (cs.take (cs.length - rest.length), (cs.drop 8).takeWhile Char.isDigit)
    | _ => none
  else none

/-- The pattern `"title":"([^"]+)"` at the start of a text: group 1 and what
follows the match. -/
def titleValue (cs : List Char) : Option (List Char × List Char) :=
  if "\"title\":\"".data.isPrefixOf cs then
    match (cs.drop 9).dropWhile (· != '"') with
    | '"' :: rest =>
      if ((cs.drop 9).takeWhile (· != '"')).isEmpty then none
      else some ((cs.drop 9).takeWhile (· != '"'), rest)
    | _ => none
  else none

/-- The pattern `[^}]*"title":"([^"]+)"` at the start of a text: the greedy star
takes the longest run without a closing brace after which the rest matches. -/
def lastTitle : List Char → Option (List Char × List Char)
  | [] => none
  | c :: t =>
    match (if c.toNat = 0x7d then none else lastTitle t) with
    | some found => some found
    | none => titleValue (c :: t)

/-- The pattern `"brand"[^}]*"title":"([^"]+)"` at the start of a text. -/
def brandTitle (cs : List Char) : Option (List Char × List Char) :=
  if "\"brand\"".data.isPrefixOf cs then
    match lastTitle (cs.drop 7) with
    | some (group, rest) => some (cs.take (cs.length - rest.length), group)
    | none => none
  else none

end regexp

/-! ## `scrappers/irshad.go`: field extraction -/

/-- What `Scrape` reads from the parsed page: the texts of the elements that
`doc.Find("h1")`, `doc.Find("script")` and `doc.Find("*")` visit, in document
order. -/
structure IrshadDoc where
  h1 : List String
  scripts : List String
  all : List String
deriving DecidableEq

namespace IrshadScraper

/-- The callback of `doc.Find("h1").Each` (lines 81-88). -/
def nameFromH1 (ToLower : String → String) (product : Product) (raw : String) : Product :=
  if strings.TrimSpace raw != "" && product.Name == "" &&
      !strings.Contains (ToLower (strings.TrimSpace raw)) "irşad" &&
      !strings.Contains (ToLower (strings.TrimSpace raw)) "məhsul" &&
      decide ((strings.TrimSpace raw).utf8ByteSize > 5) then
    { product with Name := strings.TrimSpace raw }
  else product

/-- The body of the loop over the lines of a script (lines 98-109). -/
def titleFromLine (product : Product) (line : String) : Option Product :=
  if strings.Contains line "\"title\":" && strings.Contains line "PlayStation" then
    if strings.Index line "\"title\":\"" != -1 then do
      let tail ← sliceFrom line (strings.Index line "\"title\":\"" + 9)
      if strings.Index tail "\"," != -1 then do
        let title ← sliceStr line (strings.Index line "\"title\":\"" + 9)
          (strings.Index line "\"title\":\"" + 9 + strings.Index tail "\",")
        if decide (title.utf8ByteSize > 5) && product.Name == "" then
          pure { product with Name := title }
        else pure product
      else pure product
    else pure product
  else pure product

/-- The callback of the script pass for the name (lines 92-112). -/
def titleFromScript (product : Product) (content : String) : Option Product :=
  if strings.Contains content "\"title\":" then
    eachChecked titleFromLine (strings.Split content "\n") product
  else pure product

/-- The use of a `FindAllStringSubmatch` result in the price passes: under the
guard `len(matches) > 0 && len(matches[0]) > 1`, the value that `ParseFloat`
reads from `matches[0][1]` (`none` inside when there is no such value). -/
def firstGroupFloat (ParseFloat : String → Option F64) (found : List (List String)) :
    Option (Option F64) :=
  if found.length > 0 then do
    let first ← indexAt found 0
    if first.length > 1 then do
      let group ← indexAt first 1
      pure (ParseFloat group)
    else pure none
  else pure none

/-- The callback of the Calculator.init pass (lines 119-147) on the pair of the
local variables `currentPrice` and `originalPrice`. -/
def calculatorScript (ParseFloat : String → Option F64) (prices : String × String)
    (content : String) : Option (String × String) :=
  if strings.Contains content "Calculator.init" && strings.Contains content "price" then do
    let price ← firstGroupFloat ParseFloat
      (regexp.FindAllStringSubmatch regexp.price content)
    let current := match price with
      | some p => sprintfAZN p
      | none => prices.1
    let installment ← firstGroupFloat ParseFloat
      (regexp.FindAllStringSubmatch regexp.installmentPrice content)
    let original := match installment with
      | some p => sprintfAZN p
      | none => prices.2
    pure (current, original)
  else pure prices

/-- The callback of the JSON-LD pass (lines 151-162). -/
def jsonLdScript (ParseFloat : String → Option F64) (prices : String × String)
    (content : String) : Option (String × String) :=
  if strings.Contains content "\"@type\"" && strings.Contains content "Product" then do
    let price ← firstGroupFloat ParseFloat
      (regexp.FindAllStringSubmatch regexp.quotedPrice content)
    match price with
    | some p => if priceInRange p then pure (sprintfAZN p, prices.2) else pure prices
    | none => pure prices
  else pure prices

/-- The prices that the script passes find (lines 116-163), starting from the
empty `currentPrice` and `originalPrice`. -/
def scriptPrices (ParseFloat : String → Option F64) (scripts : List String) : String × String :=
  if (each (calculatorScript ParseFloat) scripts ("", "")).1 = "" then
    each (jsonLdScript ParseFloat) scripts (each (calculatorScript ParseFloat) scripts ("", ""))
  else each (calculatorScript ParseFloat) scripts ("", "")

/-- The callback body of the free-text fallback with its indexing spelled out:
`matches[1]` under the guard `len(matches) > 1`. -/
def priceCandidateChecked (ToLower : String → String) (ParseFloat : String → Option F64)
    (re : String → Option String) (raw : String) : Option (Option F64) :=
  if strings.Contains (strings.TrimSpace raw) "AZN" &&
      !strings.Contains (strings.TrimSpace raw) "x" &&
      !strings.Contains (ToLower (strings.TrimSpace raw)) "aylıq" &&
      !strings.Contains (strings.TrimSpace raw) "ay" &&
      !strings.Contains (ToLower (strings.TrimSpace raw)) "credit" &&
      !strings.Contains (ToLower (strings.TrimSpace raw)) "kredit" &&
      (strings.TrimSpace raw).utf8ByteSize < 20 then
    let found : List String := match re (strings.TrimSpace raw) with
      | some number => [strings.TrimSpace raw, number]
      | none => []
    if found.length > 1 then do
      let number ← indexAt found 1
      match ParseFloat number with
      | some price => if priceInRange price then pure (some price) else pure none
      | none => pure none
    else pure none
  else pure none

/-- The price selection with its indexing spelled out: `finalPrices[0]` and
`finalPrices[len(finalPrices)-1]` under the guards on `len(finalPrices)`. -/
def pickPricesChecked (prices : List F64) (currentPrice originalPrice : String) :
    Option (String × String) :=
  if prices.length > 0 then
    if (sortFloat64s (uniquePrices prices)).length ≥ 2 then do
      let lowest ← indexAt (sortFloat64s (uniquePrices prices)) 0
      let highest ← indexAt (sortFloat64s (uniquePrices prices))
        ((sortFloat64s (uniquePrices prices)).length - 1)
      pure (sprintfAZN lowest, sprintfAZN highest)
    else if (sortFloat64s (uniquePrices prices)).length = 1 then do
      let only ← indexAt (sortFloat64s (uniquePrices prices)) 0
      pure (sprintfAZN only, originalPrice)
    else pure (currentPrice, originalPrice)
  else pure (currentPrice, originalPrice)

/-- One pass of the free-text fallback with its indexing spelled out. -/
def textFallbackChecked (ToLower : String → String) (ParseFloat : String → Option F64)
    (re : String → Option String) (texts : List String) (prices : String × String) :
    Option (String × String) :=
  if prices.1 = "" then do
    let found ← texts.mapM (priceCandidateChecked ToLower ParseFloat re)
    pickPricesChecked (found.filterMap id) prices.1 prices.2
  else pure prices

/-- Lines 274-276: the currency follows from the current price. -/
def setCurrency (product : Product) : Product :=
  if strings.Contains product.CurrentPrice "AZN" then { product with Currency := "AZN" }
  else product

/-- The callback of the availability pass (lines 279-289). -/
def availabilityFromText (ToLower : String → String) (product : Product) (raw : String) :
    Product :=
  if product.Availability == "" then
    if ToLower (strings.TrimSpace raw) == "stokda var" ||
        ToLower (strings.TrimSpace raw) == "mövcuddur" ||
        ToLower (strings.TrimSpace raw) == "var" then
      { product with Availability := "Stokda var" }
    else if ToLower (strings.TrimSpace raw) == "stokda yoxdur" ||
        ToLower (strings.TrimSpace raw) == "yoxdur" then
      { product with Availability := "Stokda yoxdur" }
    else product
  else product

/-- The use of a `FindStringSubmatch` result: `matches[1]` under the guard
`len(matches) > 1` (`none` inside when the guard fails). -/
def groupOne (found : List String) : Option (Option String) :=
  if found.length > 1 then do
    let group ← indexAt found 1
    pure (some group)
  else pure none

/-- The callback of the product-code pass over all elements (lines 293-305). -/
def skuFromText (ToLower : String → String) (product : Product) (raw : String) :
    Option Product :=
  if strings.Contains (strings.TrimSpace raw) "93528" && product.SKU == "" then
    pure { product with SKU := "93528" }
  else if strings.Contains (ToLower (strings.TrimSpace raw)) "malın kodu" &&
      product.SKU == "" then do
    let group ← groupOne (regexp.FindStringSubmatch regexp.digits (strings.TrimSpace raw))
    match group with
    | some code => pure { product with SKU := code }
    | none => pure product
  else pure product

/-- The callback of the product-code pass over the scripts (lines 310-327). -/
def skuFromScript (product : Product) (content : String) : Option Product :=
  if strings.Contains content "Calculator.init" && strings.Contains content "code" then do
    let group ← groupOne (regexp.FindStringSubmatch regexp.codeSpaced content)
    match group with
    | some code => if product.SKU == "" then pure { product with SKU := code } else pure product
    | none => pure product
  else if strings.Contains content "\"id\":" && strings.Contains content "\"code\":" then do
    let group ← groupOne (regexp.FindStringSubmatch regexp.codeTight content)
    match group with
    | some code => if product.SKU == "" then pure { product with SKU := code } else pure product
    | none => pure product
  else pure product

/-- The callback of the brand pass over all elements (lines 331-345). -/
def brandFromText (ToLower : String → String) (product : Product) (raw : String) :
    Option Product :=
  if strings.Contains (ToLower (strings.TrimSpace raw)) "brend :" && product.Brand == "" then
    if (strings.Split (strings.TrimSpace raw) ":").length ≥ 2 then do
      let second ← indexAt (strings.Split (strings.TrimSpace raw) ":") 1
      let firstLine ← indexAt (strings.Split (strings.TrimSpace second) "\n") 0
      if strings.TrimSpace firstLine != "" &&
          decide ((strings.TrimSpace firstLine).utf8ByteSize < 20) &&
          !strings.Contains (strings.TrimSpace firstLine) "\x7b" then
        pure { product with Brand := strings.TrimSpace firstLine }
      else pure product
    else pure product
  else pure product

/-- The callback of the brand pass over the scripts (lines 349-362). -/
def brandFromScript (product : Product) (content : String) : Option Product :=
  if strings.Contains content "\"brand\"" then do
    let group ← groupOne (regexp.FindStringSubmatch regexp.brandTitle content)
    match group with
    | some title =>
      if product.Brand == "" then
        if strings.TrimSpace title != "" && decide ((strings.TrimSpace title).utf8ByteSize < 20) then
          pure { product with Brand := strings.TrimSpace title }
        else pure product
      else pure product
    | none => pure product
  else pure product

/-- The specification callback with its indexing spelled out: `parts[0]` and
`parts[1]` under the guard `len(parts) >= 2`. -/
def specTextChecked (ToLower : String → String) (product : Product) (raw : String) :
    Option Product :=
  if strings.Contains (strings.TrimSpace raw) " : " then
    if (strings.Split (strings.TrimSpace raw) " : ").length ≥ 2 then do
      let part0 ← indexAt (strings.Split (strings.TrimSpace raw) " : ") 0
      let part1 ← indexAt (strings.Split (strings.TrimSpace raw) " : ") 1
      pure (specPair ToLower product part0 part1)
    else pure product
  else pure product

/-- The fixed list of brand tokens (line 398). -/
def brands : List String :=
  ["sony", "samsung", "apple", "lg", "panasonic", "microsoft", "nintendo"]

/-- The expression `strings.ToUpper(brand[:1]) + brand[1:]`. -/
def capitalize (brand : String) : Option String := do
  let first ← sliceTo brand 1
  let rest ← sliceFrom brand 1
  pure (asciiUpper first ++ rest)

/-- Lines 395-405: the brand taken from the product name when none was found. -/
def brandFromName (ToLower : String → String) (product : Product) : Option Product :=
  if product.Brand == "" then
    match brands.find? (fun brand => strings.Contains (ToLower product.Name) brand) with
    | some brand => do
      let capital ← capitalize brand
      pure { product with Brand := capital }
    | none => pure product
  else pure product

/-- Lines 91-113: the script pass for the name runs only when no headline gave one. -/
def titleFromScripts (scripts : List String) (product : Product) : Option Product :=
  if product.Name = "" then eachChecked titleFromScript scripts product else pure product

/-- Lines 150-163: the JSON-LD pass runs only when the Calculator.init pass
left the current price empty. -/
def jsonLdPrices (ParseFloat : String → Option F64) (scripts : List String)
    (prices : String × String) : Option (String × String) :=
  if prices.1 = "" then eachChecked (jsonLdScript ParseFloat) scripts prices else pure prices

/-- Lines 308-328: the script pass for the product code runs only when the
element texts gave none. -/
def skuFromScripts (scripts : List String) (product : Product) : Option Product :=
  if product.SKU = "" then eachChecked skuFromScript scripts product else pure product

/-- Lines 348-363: the script pass for the brand runs only when the element
texts gave none. -/
def brandFromScripts (scripts : List String) (product : Product) : Option Product :=
  if product.Brand = "" then eachChecked brandFromScript scripts product else pure product

/-- The field extraction of `Scrape` (lines 80-405) with every index and slice
checked: the product, or `none` for a run-time panic. -/
def extractChecked (ToLower : String → String) (ParseFloat : String → Option F64)
    (doc : IrshadDoc) (product : Product) : Option Product := do
  let product ← titleFromScripts doc.scripts (doc.h1.foldl (nameFromH1 ToLower) product)
  let prices ← eachChecked (calculatorScript ParseFloat) doc.scripts ("", "")
  let prices ← jsonLdPrices ParseFloat doc.scripts prices
  let prices ← textFallbackChecked ToLower ParseFloat matchPriceStrict doc.all prices
  let prices ← textFallbackChecked ToLower ParseFloat matchPriceLoose doc.all prices
  let product ← eachChecked (skuFromText ToLower) doc.all
    (doc.all.foldl (availabilityFromText ToLower)
      (setCurrency (assignPrices ParseFloat product prices.1 prices.2)))
  let product ← skuFromScripts doc.scripts product
  let product ← eachChecked (brandFromText ToLower) doc.all product
  let product ← brandFromScripts doc.scripts product
  let product ← eachChecked (specTextChecked ToLower) doc.all product
  brandFromName ToLower product

/-- The product after the name passes (lines 80-113), as a total function. -/
def named (ToLower : String → String) (doc : IrshadDoc) (product : Product) : Product :=
  if (doc.h1.foldl (nameFromH1 ToLower) product).Name = "" then
    each titleFromScript doc.scripts (doc.h1.foldl (nameFromH1 ToLower) product)
  else doc.h1.foldl (nameFromH1 ToLower) product

/-- The pair of `currentPrice` and `originalPrice` after the whole price cascade
(lines 116-259). -/
def cascadePrices (ToLower : String → String) (ParseFloat : String → Option F64)
    (doc : IrshadDoc) : String × String :=
  visibleTextPrices ToLower ParseFloat doc.all (scriptPrices ParseFloat doc.scripts)

/-- The product after the price assignment and the currency (lines 80-276), as a
total function. -/
def priced (ToLower : String → String) (ParseFloat : String → Option F64)
    (doc : IrshadDoc) (product : Product) : Product :=
  setCurrency (assignPrices ParseFloat (named ToLower doc product)
    (cascadePrices ToLower ParseFloat doc).1 (cascadePrices ToLower ParseFloat doc).2)

/-- The product after the availability, product-code and brand passes
(lines 80-363), as a total function. -/
def branded (ToLower : String → String) (ParseFloat : String → Option F64)
    (doc : IrshadDoc) (product : Product) : Product :=
  let coded := each (skuFromText ToLower) doc.all
    (doc.all.foldl (availabilityFromText ToLower) (priced ToLower ParseFloat doc product))
  let coded := if coded.SKU = "" then each skuFromScript doc.scripts coded else coded
  let branded := each (brandFromText ToLower) doc.all coded
  if branded.Brand = "" then each brandFromScript doc.scripts branded else branded

/-- The field extraction of `Scrape` (lines 80-405) as a total function. -/
def extract (ToLower : String → String) (ParseFloat : String → Option F64)
    (doc : IrshadDoc) (product : Product) : Product :=
  (brandFromName ToLower (specTexts ToLower (branded ToLower ParseFloat doc product) doc.all)).getD
    (specTexts ToLower (branded ToLower ParseFloat doc product) doc.all)

end IrshadScraper

/-! ## `scrappers/kontakt.go`: field extraction -/

/-- What `Scrape` reads from the rendered page: for each selector it queries,
the texts of the matched elements in document order (`strongSpans` holds the
text of the first `span` inside each `div.prodCart__prices strong` that has
one; the rows are pairs of label text and value text). -/
structure KontaktDoc where
  names : List String
  skus : List String
  finalPrices : List String
  strongSpans : List String
  discounts : List String
  stocks : List String
  ratings : List String
  reviews : List String
  harRows : List (String × String)
  tableRows : List (String × String)
deriving DecidableEq

namespace KontaktScraper

/-- The callback of the name pass (lines 99-103). -/
def nameFromText (product : Product) (raw : String) : Product :=
  if product.Name == "" then { product with Name := strings.TrimSpace raw } else product

/-- The callback of the SKU pass (lines 106-108). -/
def skuFromText (product : Product) (raw : String) : Product :=
  { product with SKU := strings.TrimSpace raw }

/-- The callback of the `finalPrice` pass (lines 115-123). -/
def originalFromText (product : Product) (raw : String) : Product :=
  if product.OriginalPrice == "" && strings.Contains (strings.TrimSpace raw) "₼" then
    { product with OriginalPrice := strings.TrimSpace raw }
  else product

/-- The inner callback of the `strong` pass (lines 127-138). -/
def currentFromText (product : Product) (raw : String) : Product :=
  if product.CurrentPrice == "" && strings.Contains (strings.TrimSpace raw) "₼" then
    { product with CurrentPrice := strings.TrimSpace raw }
  else product

/-- Lines 141-144: the original price stands in for a missing current price. -/
def priceFallback (product : Product) : Product :=
  if product.CurrentPrice == "" && product.OriginalPrice != "" then
    { product with CurrentPrice := product.OriginalPrice, OriginalPrice := "" }
  else product

/-- The callback of the discount pass (lines 147-159). -/
def discountFromText (product : Product) (raw : String) : Option Product :=
  if product.Discount == "" && strings.Contains (strings.TrimSpace raw) "₼" &&
      strings.Contains (strings.TrimSpace raw) "-" then
    if (strings.Split (strings.TrimSpace raw) " ").length > 0 then do
      let first ← indexAt (strings.Split (strings.TrimSpace raw) " ") 0
      if strings.Contains first "-" then pure { product with Discount := first }
      else pure product
    else pure product
  else pure product

/-- Lines 162-164: the currency follows from the current price. -/
def setCurrency (product : Product) : Product :=
  if strings.Contains product.CurrentPrice "₼" then { product with Currency := "AZN" }
  else product

/-- The callback of the availability pass (lines 167-177). -/
def availabilityFromText (ToLower : String → String) (product : Product) (raw : String) :
    Product :=
  if product.Availability == "" then
    if strings.TrimSpace raw != "" &&
        (strings.Contains (ToLower (strings.TrimSpace raw)) "mövcud" ||
         strings.Contains (ToLower (strings.TrimSpace raw)) "available" ||
         strings.Contains (ToLower (strings.TrimSpace raw)) "stock") then
      { product with Availability := strings.TrimSpace raw }
    else product
  else product

/-- The callback of the rating pass (lines 180-184). -/
def ratingFromText (product : Product) (raw : String) : Product :=
  if product.Rating == "" then { product with Rating := strings.TrimSpace raw } else product

/-- The callback of the review-count pass (lines 187-191). -/
def reviewsFromText (product : Product) (raw : String) : Product :=
  if product.ReviewCount == "" then { product with ReviewCount := strings.TrimSpace raw }
  else product

/-- The product after the price passes and the currency assignment
(lines 99-164), as a total function. -/
def priced (doc : KontaktDoc) (product : Product) : Product :=
  setCurrency (each discountFromText doc.discounts
    (priceFallback (doc.strongSpans.foldl currentFromText
      (doc.finalPrices.foldl originalFromText
        (doc.skus.foldl skuFromText (doc.names.foldl nameFromText product))))))

/-- The field extraction of `Scrape` (lines 98-253) with every index checked:
the product, or `none` for a run-time panic. -/
def extractChecked (ToLower : String → String) (doc : KontaktDoc) (product : Product) :
    Option Product := do
  let product := doc.names.foldl nameFromText product
  let product := doc.skus.foldl skuFromText product
  let product := doc.finalPrices.foldl originalFromText product
  let product := doc.strongSpans.foldl currentFromText product
  let product := priceFallback product
  let product ← eachChecked discountFromText doc.discounts product
  let product := setCurrency product
  let product := doc.stocks.foldl (availabilityFromText ToLower) product
  let product := doc.ratings.foldl ratingFromText product
  let product := doc.reviews.foldl reviewsFromText product
  let product := harRows ToLower product doc.harRows
  pure (tableRows ToLower product doc.tableRows)

/-- The field extraction of `Scrape` (lines 98-253) as a total function. -/
def extract (ToLower : String → String) (doc : KontaktDoc) (product : Product) : Product :=
  tableRows ToLower
    (harRows ToLower
      (doc.reviews.foldl reviewsFromText
        (doc.ratings.foldl ratingFromText
          (doc.stocks.foldl (availabilityFromText ToLower) (priced doc product))))
      doc.harRows)
    doc.tableRows

end KontaktScraper

/-! ## The registered strategies -/

/-- Go `NewIrshadScraper()`, as a value of the `Scraper` interface. -/
def NewIrshadScraper (ToLower : String → String) (ParseFloat : String → Option F64)
    (web : Web IrshadDoc) : Scraper :=
  { Scrape := fun url =>
      (IrshadScraper.Scrape ToLower web (IrshadScraper.extract ToLower ParseFloat) url).result
    GetSiteName := IrshadScraper.GetSiteName
    IsValidURL := IrshadScraper.IsValidURL ToLower }

/-- Go `NewKontaktScraper()`, as a value of the `Scraper` interface. -/
def NewKontaktScraper (ToLower : String → String) (web : Web KontaktDoc) : Scraper :=
  { Scrape := fun url =>
      (KontaktScraper.Scrape ToLower web (KontaktScraper.extract ToLower) url).result
    GetSiteName := KontaktScraper.GetSiteName
    IsValidURL := KontaktScraper.IsValidURL ToLower }

/-- The registry after the two `init` functions of the package have run. -/
def initRegistry (ToLower : String → String) (ParseFloat : String → Option F64)
    (irshadWeb : Web IrshadDoc) (kontaktWeb : Web KontaktDoc) : Registry :=
  RegisterScraper
    (RegisterScraper [] "irshad" (NewIrshadScraper ToLower ParseFloat irshadWeb))
    "kontakt" (NewKontaktScraper ToLower kontaktWeb)

/-! ## Concrete pages for the worked examples -/

/-- The page `<html><head><script>S1</script><script>S2</script></head><body></body></html>`
with a `Calculator.init` payload in each script: the texts of its elements. -/
def twoCalculatorsPage : IrshadDoc :=
  { h1 := []
    scripts := ["Calculator.init(\x7b\"price\": 100\x7d)", "Calculator.init(\x7b\"price\": 200\x7d)"]
    all := ["Calculator.init(\x7b\"price\": 100\x7d)Calculator.init(\x7b\"price\": 200\x7d)",
      "Calculator.init(\x7b\"price\": 100\x7d)Calculator.init(\x7b\"price\": 200\x7d)",
      "Calculator.init(\x7b\"price\": 100\x7d)", "Calculator.init(\x7b\"price\": 200\x7d)", ""] }

/-- The page `<html><head><script>S1</script></head><body></body></html>` with the
first payload only. -/
def oneCalculatorPage : IrshadDoc :=
  { h1 := []
    scripts := ["Calculator.init(\x7b\"price\": 100\x7d)"]
    all := ["Calculator.init(\x7b\"price\": 100\x7d)", "Calculator.init(\x7b\"price\": 100\x7d)",
      "Calculator.init(\x7b\"price\": 100\x7d)", ""] }

/-- The page `<html><head><script>S</script></head><body></body></html>` whose
payload has an instalment price and no `"price"` key. -/
def installmentOnlyPage : IrshadDoc :=
  { h1 := []
    scripts := ["Calculator.init(\x7b\"installment_price\": 500\x7d)"]
    all := ["Calculator.init(\x7b\"installment_price\": 500\x7d)",
      "Calculator.init(\x7b\"installment_price\": 500\x7d)",
      "Calculator.init(\x7b\"installment_price\": 500\x7d)", ""] }

/-- A Kontakt page whose only matched element is the discount label
`<div class="label-discount"><span class="cash">-100₼</span></div>`. -/
def discountOnlyPage : KontaktDoc :=
  { names := [], skus := [], finalPrices := [], strongSpans := [], discounts := ["-100₼"],
    stocks := [], ratings := [], reviews := [], harRows := [], tableRows := [] }

/-- A Kontakt page with both prices and the discount label. -/
def discountedPage : KontaktDoc :=
  { names := ["  Telefon X  "], skus := ["TM-1"], finalPrices := ["1 299,99 ₼"],
    strongSpans := ["1 199,99 ₼"], discounts := ["-100₼ endirim"],
    stocks := ["Mövcuddur"], ratings := [], reviews := [], harRows := [("Brend", "Acme")],
    tableRows := [] }

/-- The page `<html><head><script>S</script></head><body><p>Stokda var</p>
<p>Prosessor : AMD Zen 2</p></body></html>` (without the line break) whose script
holds a product object and a `Calculator.init` payload: the texts of its
elements. -/
def consolePage : IrshadDoc :=
  { h1 := []
    scripts := ["var item = \x7b\"id\":7,\"title\":\"Sony PlayStation 5 Slim\",\"code\":\"93001\"\x7d;\nCalculator.init(\x7b\"price\": 1499.99, \"installment_price\": 1650\x7d)"]
    all := ["var item = \x7b\"id\":7,\"title\":\"Sony PlayStation 5 Slim\",\"code\":\"93001\"\x7d;\nCalculator.init(\x7b\"price\": 1499.99, \"installment_price\": 1650\x7d)Stokda varProsessor : AMD Zen 2",
      "var item = \x7b\"id\":7,\"title\":\"Sony PlayStation 5 Slim\",\"code\":\"93001\"\x7d;\nCalculator.init(\x7b\"price\": 1499.99, \"installment_price\": 1650\x7d)",
      "var item = \x7b\"id\":7,\"title\":\"Sony PlayStation 5 Slim\",\"code\":\"93001\"\x7d;\nCalculator.init(\x7b\"price\": 1499.99, \"installment_price\": 1650\x7d)",
      "Stokda varProsessor : AMD Zen 2", "Stokda var", "Prosessor : AMD Zen 2"] }

/-- A web that serves one Irshad document for every URL. -/
def irshadWebOf (doc : IrshadDoc) : Web IrshadDoc :=
  ⟨"2026-01-01T00:00:00Z", fun _ => none, fun _ => Except.ok doc⟩

/-- A web that serves one Kontakt document for every URL. -/
def kontaktWebOf (doc : KontaktDoc) : Web KontaktDoc :=
  ⟨"2026-01-01T00:00:00Z", fun _ => none, fun _ => Except.ok doc⟩

/-! ## Values of floats -/

theorem F64.scaled_cast (neg : Bool) (m : Nat) (e e0 : Int) (h : e0 ≤ e) :
    ((F64.scaled neg m e e0 : Int) : ℚ) * (2 : ℚ) ^ e0 = F64.toRat (F64.fin neg m e) := by
  have hpow : ((2 : ℚ) ^ (e - e0).toNat) * (2 : ℚ) ^ e0 = (2 : ℚ) ^ e := by
    rw [← zpow_natCast, Int.toNat_of_nonneg (by omega), ← zpow_add₀ (by norm_num)]
    congr 1
    omega
  cases neg with
  | true =>
    simp only [F64.scaled, if_true, F64.toRat]
    push_cast
    rw [neg_mul, mul_assoc, hpow]
    ring
  | false =>
    simp only [F64.scaled, Bool.false_eq_true, if_false, F64.toRat]
    push_cast
    rw [mul_assoc, hpow]
    ring

theorem F64.lt_fin_iff (n1 : Bool) (m1 : Nat) (e1 : Int) (n2 : Bool) (m2 : Nat) (e2 : Int) :
    F64.lt (F64.fin n1 m1 e1) (F64.fin n2 m2 e2) = true ↔
      F64.toRat (F64.fin n1 m1 e1) < F64.toRat (F64.fin n2 m2 e2) := by
  have hpos : (0 : ℚ) < (2 : ℚ) ^ (min e1 e2) := by positivity
  rw [← F64.scaled_cast n1 m1 e1 (min e1 e2) (min_le_left _ _),
    ← F64.scaled_cast n2 m2 e2 (min e1 e2) (min_le_right _ _), mul_lt_mul_right hpos,
    Int.cast_lt]
  simp [F64.lt]

theorem F64.eq_fin_iff (n1 : Bool) (m1 : Nat) (e1 : Int) (n2 : Bool) (m2 : Nat) (e2 : Int) :
    F64.eq (F64.fin n1 m1 e1) (F64.fin n2 m2 e2) = true ↔
      F64.toRat (F64.fin n1 m1 e1) = F64.toRat (F64.fin n2 m2 e2) := by
  have hpos : (2 : ℚ) ^ (min e1 e2) ≠ 0 := by positivity
  rw [← F64.scaled_cast n1 m1 e1 (min e1 e2) (min_le_left _ _),
    ← F64.scaled_cast n2 m2 e2 (min e1 e2) (min_le_right _ _), mul_left_inj' hpos,
    Int.cast_inj]
  simp [F64.eq]

/-! ## Rounding -/

theorem F64.round_zero (neg : Bool) (den : Nat) (e2 : Int) :
    F64.round neg 0 den e2 = F64.fin neg 0 (-1074) := by
  simp [F64.round]

/-- `roundHalfEven a b` is within one half of `a / b`, and even on a tie. -/
theorem F64.roundHalfEven_spec (a b : Nat) (hb : 0 < b) :
    2 * (F64.roundHalfEven a b * b) ≤ 2 * a + b ∧ 2 * a ≤ 2 * (F64.roundHalfEven a b * b) + b ∧
    ((2 * (F64.roundHalfEven a b * b) = 2 * a + b ∨ 2 * a = 2 * (F64.roundHalfEven a b * b) + b) →
      F64.roundHalfEven a b % 2 = 0) := by
  have hdm : b * (a / b) + a % b = a := Nat.div_add_mod a b
  have hlt : a % b < b := Nat.mod_lt a hb
  generalize hq : a / b = q at hdm
  generalize hr : a % b = r at hdm hlt
  have hcomm : b * q = q * b := Nat.mul_comm b q
  have hq1 : (q + 1) * b = q * b + b := by ring
  unfold F64.roundHalfEven
  rw [hq, hr]
  split
  · refine ⟨by omega, by omega, ?_⟩
    intro h
    omega
  · split
    · rw [hq1]
      refine ⟨by omega, by omega, ?_⟩
      intro h
      omega
    · split
      · refine ⟨by omega, by omega, fun _ => by assumption⟩
      · rw [hq1]
        refine ⟨by omega, by omega, fun _ => by omega⟩

theorem F64.roundHalfEven_le (a b k : Nat) (hb : 0 < b) (h : a ≤ k * b) :
    F64.roundHalfEven a b ≤ k := by
  have hdm : b * (a / b) + a % b = a := Nat.div_add_mod a b
  have hlt : a % b < b := Nat.mod_lt a hb
  have hqk : a / b ≤ k := by
    calc a / b ≤ k * b / b := Nat.div_le_div_right h
      _ = k := Nat.mul_div_cancel k hb
  rcases Nat.lt_or_ge (a / b) k with hlt2 | hge
  · have : F64.roundHalfEven a b ≤ a / b + 1 := by
      unfold F64.roundHalfEven
      split
      · omega
      · split
        · omega
        · split <;> omega
    omega
  · have hqe : a / b = k := by omega
    have hmod : a % b = 0 := by
      rw [hqe, Nat.mul_comm] at hdm
      omega
    unfold F64.roundHalfEven
    rw [hmod, hqe]
    simp [hb]

theorem F64.roundHalfEven_mul_le (a b : Nat) (hb : 0 < b) :
    F64.roundHalfEven a b * b ≤ 2 * a := by
  have hdm : b * (a / b) + a % b = a := Nat.div_add_mod a b
  have hlt : a % b < b := Nat.mod_lt a hb
  generalize hq : a / b = q at hdm
  generalize hr : a % b = r at hdm hlt
  have hcomm : b * q = q * b := Nat.mul_comm b q
  have hq1 : (q + 1) * b = q * b + b := by ring
  unfold F64.roundHalfEven
  rw [hq, hr]
  split
  · omega
  · split
    · rw [hq1]; omega
    · split
      · omega
      · rw [hq1]; omega

theorem F64.roundHalfEven_one (a : Nat) : F64.roundHalfEven a 1 = a := by
  simp [F64.roundHalfEven, Nat.mod_one]

theorem F64.pow2Le_iff (k : Int) (num den : Nat) (e2 : Int) (hden : 0 < den) :
    F64.pow2Le k num den e2 = true ↔ (2 : ℚ) ^ k ≤ (num : ℚ) / (den : ℚ) * (2 : ℚ) ^ e2 := by
  have hd : (0 : ℚ) < (den : ℚ) := by exact_mod_cast hden
  have h2 : (0 : ℚ) < (2 : ℚ) ^ e2 := by positivity
  unfold F64.pow2Le
  split
  · rename_i hk
    have hpow : ((2 : ℚ) ^ (k - e2).toNat) = (2 : ℚ) ^ k / (2 : ℚ) ^ e2 := by
      rw [← zpow_natCast, Int.toNat_of_nonneg hk, zpow_sub₀ (by norm_num)]
    rw [decide_eq_true_eq, ← @Nat.cast_le ℚ]
    push_cast
    rw [hpow, div_mul_eq_mul_div, div_le_iff₀ h2, div_mul_eq_mul_div, le_div_iff₀ hd]
  · rename_i hk
    have hpow : ((2 : ℚ) ^ (e2 - k).toNat) = (2 : ℚ) ^ e2 / (2 : ℚ) ^ k := by
      rw [← zpow_natCast, Int.toNat_of_nonneg (by omega), zpow_sub₀ (by norm_num)]
    have hk2 : (0 : ℚ) < (2 : ℚ) ^ k := by positivity
    rw [decide_eq_true_eq, ← @Nat.cast_le ℚ]
    push_cast
    rw [hpow, div_mul_eq_mul_div, le_div_iff₀ hd, mul_div_assoc', le_div_iff₀ hk2]
    constructor <;> intro h <;> linarith

/-- The binary search returns the binade of the value within its window. -/
theorem F64.binade_spec (num den : Nat) (e2 : Int) (hden : 0 < den) (i : Nat) (base : Int) :
    base ≤ F64.binade num den e2 i base ∧
    F64.binade num den e2 i base < base + (2 ^ i : Nat) ∧
    (F64.binade num den e2 i base ≠ base →
      (2 : ℚ) ^ (F64.binade num den e2 i base) ≤ (num : ℚ) / (den : ℚ) * (2 : ℚ) ^ e2) ∧
    (F64.binade num den e2 i base + 1 ≠ base + (2 ^ i : Nat) →
      (num : ℚ) / (den : ℚ) * (2 : ℚ) ^ e2 < (2 : ℚ) ^ (F64.binade num den e2 i base + 1)) := by
  induction i generalizing base with
  | zero => simp [F64.binade]
  | succ i ih =>
    have hpow : ((2 ^ (i + 1) : Nat) : Int) = (2 ^ i : Nat) + (2 ^ i : Nat) := by
      push_cast
      ring
    rw [F64.binade]
    split
    · rename_i htest
      have hle := (F64.pow2Le_iff _ num den e2 hden).mp htest
      obtain ⟨h1, h2, h3, h4⟩ := ih (base + (2 ^ i : Nat))
      have hp : (0 : Int) ≤ ((2 ^ i : Nat) : Int) := Int.natCast_nonneg _
      refine ⟨by omega, by omega, ?_, ?_⟩
      · intro _
        by_cases he : F64.binade num den e2 i (base + (2 ^ i : Nat)) = base + (2 ^ i : Nat)
        · rw [he]; exact hle
        · exact h3 he
      · intro hne
        apply h4
        omega
    · rename_i htest
      have hlt : (num : ℚ) / (den : ℚ) * (2 : ℚ) ^ e2 < (2 : ℚ) ^ (base + (2 ^ i : Nat)) := by
        rw [← not_le, ← F64.pow2Le_iff _ num den e2 hden]
        exact htest
      obtain ⟨h1, h2, h3, h4⟩ := ih base
      refine ⟨h1, by omega, h3, ?_⟩
      intro _
      by_cases he : F64.binade num den e2 i base + 1 = base + (2 ^ i : Nat)
      · rw [he]; exact hlt
      · exact h4 he

/-- Rounding a value that does not exceed the largest float gives a finite float
with the sign asked for, at most twice the value, and within half a unit in the
last place of it; the relative error is at most `2^-53` when the value is an
integer multiple of the smallest subnormal. -/
theorem F64.round_spec (neg : Bool) (num den : Nat) (e2 : Int) (hden : 0 < den)
    (hv : (num : ℚ) / (den : ℚ) * (2 : ℚ) ^ e2 ≤ (2 ^ 53 - 1) * (2 : ℚ) ^ (971 : Int)) :
    ∃ (m : Nat) (e : Int), F64.round neg num den e2 = F64.fin neg m e ∧
      (m : ℚ) * (2 : ℚ) ^ e ≤ 2 * ((num : ℚ) / (den : ℚ) * (2 : ℚ) ^ e2) ∧
      |(m : ℚ) * (2 : ℚ) ^ e - (num : ℚ) / (den : ℚ) * (2 : ℚ) ^ e2| ≤
        max ((num : ℚ) / (den : ℚ) * (2 : ℚ) ^ e2 * (2 : ℚ) ^ (-53 : Int))
          ((2 : ℚ) ^ (-1075 : Int)) ∧
      (den = 1 → -1074 ≤ e2 →
        |(m : ℚ) * (2 : ℚ) ^ e - (num : ℚ) / (den : ℚ) * (2 : ℚ) ^ e2| ≤
          (num : ℚ) / (den : ℚ) * (2 : ℚ) ^ e2 * (2 : ℚ) ^ (-53 : Int)) := by
  by_cases hnum : num = 0
  · subst hnum
    refine ⟨0, -1074, F64.round_zero neg den e2, by simp, ?_, ?_⟩
    · simp only [Nat.cast_zero, zero_mul, zero_div, sub_self, abs_zero]
      exact le_max_of_le_right (by positivity)
    · intro _ _
      simp
  · have hd : (0 : ℚ) < (den : ℚ) := by exact_mod_cast hden
    obtain ⟨hr1, hr2, hr3, hr4⟩ := F64.binade_spec num den e2 hden 11 (-1022)
    generalize hrdef : F64.binade num den e2 11 (-1022) = r at hr1 hr2 hr3 hr4
    set v : ℚ := (num : ℚ) / (den : ℚ) * (2 : ℚ) ^ e2 with hvdef
    have hr2b : r < 1026 := by
      have : ((2 ^ 11 : Nat) : Int) = 2048 := by norm_num
      omega
    have hbig : (2 ^ 53 - 1) * (2 : ℚ) ^ (971 : Int) < (2 : ℚ) ^ (1024 : Int) := by
      have : (2 : ℚ) ^ (1024 : Int) = 2 ^ 53 * (2 : ℚ) ^ (971 : Int) := by
        rw [show (1024 : Int) = 53 + 971 by norm_num, zpow_add₀ (by norm_num)]
        norm_num
      rw [this]
      have hp : (0 : ℚ) < (2 : ℚ) ^ (971 : Int) := by positivity
      nlinarith
    have hr1023 : r ≤ 1023 := by
      by_contra hcon
      have hge : (1024 : Int) ≤ r := by omega
      have h1 : (2 : ℚ) ^ r ≤ v := hr3 (by omega)
      have h2 : (2 : ℚ) ^ (1024 : Int) ≤ (2 : ℚ) ^ r := zpow_le_zpow_right₀ (by norm_num) hge
      linarith
    have hvlt : v < (2 : ℚ) ^ (r + 1) := hr4 (by
      have : ((2 ^ 11 : Nat) : Int) = 2048 := by norm_num
      omega)
    -- the scaled value and its rounding
    set ulp : Int := r - 52 with hulp
    have hup : (0 : ℚ) < (2 : ℚ) ^ ulp := by positivity
    obtain ⟨a, b, hb, hab, hn, hb1⟩ : ∃ a b : Nat, 0 < b ∧
        (a : ℚ) / (b : ℚ) = v / (2 : ℚ) ^ ulp ∧
        (if 0 ≤ e2 - ulp then F64.roundHalfEven (num * 2 ^ (e2 - ulp).toNat) den
          else F64.roundHalfEven num (den * 2 ^ (ulp - e2).toNat)) = F64.roundHalfEven a b ∧
        (den = 1 → ulp ≤ e2 → b = 1) := by
      by_cases hs : 0 ≤ e2 - ulp
      · refine ⟨num * 2 ^ (e2 - ulp).toNat, den, hden, ?_, by rw [if_pos hs], fun h _ => h⟩
        push_cast
        rw [← zpow_natCast, Int.toNat_of_nonneg hs, zpow_sub₀ (by norm_num), hvdef]
        field_simp
        ring
      · refine ⟨num, den * 2 ^ (ulp - e2).toNat, by positivity, ?_, by rw [if_neg hs],
          fun _ h => absurd (by omega : 0 ≤ e2 - ulp) hs⟩
        push_cast
        rw [← zpow_natCast, Int.toNat_of_nonneg (by omega), zpow_sub₀ (by norm_num), hvdef]
        field_simp
    have hbq : (0 : ℚ) < (b : ℚ) := by exact_mod_cast hb
    obtain ⟨hs1, hs2, _⟩ := F64.roundHalfEven_spec a b hb
    have hs3 := F64.roundHalfEven_mul_le a b hb
    have hexact : b = 1 → F64.roundHalfEven a b = a := by
      intro h1
      rw [h1]
      exact F64.roundHalfEven_one a
    generalize hndef : F64.roundHalfEven a b = n at hs1 hs2 hs3 hn hexact
    -- n as a rational, against x = v / 2^ulp
    have hax : (a : ℚ) = v / (2 : ℚ) ^ ulp * b := by
      rw [← hab]; field_simp
    have hnx1 : (n : ℚ) ≤ v / (2 : ℚ) ^ ulp + 1 / 2 := by
      have : (2 * (n * b) : ℚ) ≤ 2 * a + b := by exact_mod_cast hs1
      rw [hax] at this
      have h3 : (n : ℚ) * b ≤ (v / (2 : ℚ) ^ ulp + 1 / 2) * b := by linarith
      exact le_of_mul_le_mul_right h3 hbq
    have hnx2 : v / (2 : ℚ) ^ ulp - 1 / 2 ≤ (n : ℚ) := by
      have : (2 * a : ℚ) ≤ 2 * (n * b) + b := by exact_mod_cast hs2
      rw [hax] at this
      have h3 : (v / (2 : ℚ) ^ ulp - 1 / 2) * b ≤ (n : ℚ) * b := by linarith
      exact le_of_mul_le_mul_right h3 hbq
    have hnx3 : (n : ℚ) ≤ 2 * (v / (2 : ℚ) ^ ulp) := by
      have : ((n * b : Nat) : ℚ) ≤ ((2 * a : Nat) : ℚ) := by exact_mod_cast hs3
      push_cast at this
      rw [hax] at this
      have h3 : (n : ℚ) * b ≤ (2 * (v / (2 : ℚ) ^ ulp)) * b := by linarith
      exact le_of_mul_le_mul_right h3 hbq
    have hx53 : v / (2 : ℚ) ^ ulp < 2 ^ 53 := by
      rw [div_lt_iff₀ hup]
      have : (2 : ℚ) ^ (r + 1) = 2 ^ 53 * (2 : ℚ) ^ ulp := by
        rw [show r + 1 = 53 + ulp by omega, zpow_add₀ (by norm_num)]
        norm_num
      linarith
    have hn53 : n ≤ 2 ^ 53 := by
      rw [← hndef]
      apply F64.roundHalfEven_le a b _ hb
      have : (a : ℚ) ≤ ((2 ^ 53 * b : Nat) : ℚ) := by
        push_cast
        rw [hax]
        exact mul_le_mul_of_nonneg_right (le_of_lt hx53) (le_of_lt hbq)
      exact_mod_cast this
    -- value and error of n * 2^ulp
    have hval : (n : ℚ) * (2 : ℚ) ^ ulp ≤ 2 * v := by
      have := mul_le_mul_of_nonneg_right hnx3 (le_of_lt hup)
      calc (n : ℚ) * (2 : ℚ) ^ ulp ≤ 2 * (v / (2 : ℚ) ^ ulp) * (2 : ℚ) ^ ulp := this
        _ = 2 * v := by field_simp
    have herr : |(n : ℚ) * (2 : ℚ) ^ ulp - v| ≤
        max (v * (2 : ℚ) ^ (-53 : Int)) ((2 : ℚ) ^ (-1075 : Int)) := by
      have hhalf : |(n : ℚ) * (2 : ℚ) ^ ulp - v| ≤ (2 : ℚ) ^ ulp / 2 := by
        rw [abs_le]
        have e1 : v = v / (2 : ℚ) ^ ulp * (2 : ℚ) ^ ulp := by field_simp
        constructor
        · have := mul_le_mul_of_nonneg_right hnx2 (le_of_lt hup)
          nlinarith
        · have := mul_le_mul_of_nonneg_right hnx1 (le_of_lt hup)
          nlinarith
      have hhalf2 : (2 : ℚ) ^ ulp / 2 = (2 : ℚ) ^ r * (2 : ℚ) ^ (-53 : Int) := by
        have h52 : (2 : ℚ) ^ ulp = (2 : ℚ) ^ r * (2 : ℚ) ^ (-52 : Int) := by
          rw [← zpow_add₀ (by norm_num)]
          rfl
        rw [h52]
        norm_num
        ring
      by_cases hrb : r = -1022
      · apply le_trans hhalf
        apply le_max_of_le_right
        rw [hhalf2, hrb, ← zpow_add₀ (by norm_num)]
        norm_num
      · apply le_trans hhalf
        apply le_max_of_le_left
        rw [hhalf2]
        exact mul_le_mul_of_nonneg_right (hr3 hrb) (by positivity)
    have hvnn : 0 ≤ v := by
      rw [hvdef]
      positivity
    have hrel : den = 1 → -1074 ≤ e2 →
        |(n : ℚ) * (2 : ℚ) ^ ulp - v| ≤ v * (2 : ℚ) ^ (-53 : Int) := by
      intro hden1 he2
      by_cases hrb : r = -1022
      · have hbone : b = 1 := hb1 hden1 (by omega)
        have hna : (n : ℚ) = v / (2 : ℚ) ^ ulp := by
          rw [hexact hbone, hax, hbone]
          simp
        have : (n : ℚ) * (2 : ℚ) ^ ulp - v = 0 := by
          rw [hna]
          field_simp
        rw [this, abs_zero]
        positivity
      · have hm := max_eq_left (a := v * (2 : ℚ) ^ (-53 : Int)) (b := (2 : ℚ) ^ (-1075 : Int)) (by
          have h1 : (2 : ℚ) ^ r ≤ v := hr3 hrb
          have h2 : (2 : ℚ) ^ (-1022 : Int) ≤ (2 : ℚ) ^ r :=
            zpow_le_zpow_right₀ (by norm_num) hr1
          have h3 : (2 : ℚ) ^ (-1075 : Int) = (2 : ℚ) ^ (-1022 : Int) * (2 : ℚ) ^ (-53 : Int) := by
            rw [← zpow_add₀ (by norm_num)]
            norm_num
          rw [h3]
          exact mul_le_mul_of_nonneg_right (le_trans h2 h1) (by positivity))
        rw [← hm]
        exact herr
    -- the result of `round`
    unfold F64.round
    rw [if_neg hnum]
    simp only [hrdef]
    rw [show r - 52 = ulp from rfl, hn]
    by_cases hn2 : n = 2 ^ 53
    · have hr1022 : r ≤ 1022 := by
        by_contra hcon
        have hre : r = 1023 := by omega
        have hx : v / (2 : ℚ) ^ ulp ≤ 2 ^ 53 - 1 := by
          rw [div_le_iff₀ hup, show ulp = 971 by omega]
          exact hv
        have : n ≤ 2 ^ 53 - 1 := by
          rw [← hndef]
          apply F64.roundHalfEven_le a b _ hb
          have : (a : ℚ) ≤ (((2 ^ 53 - 1) * b : Nat) : ℚ) := by
            push_cast
            rw [hax]
            have hx2 : v / (2 : ℚ) ^ ulp ≤ 9007199254740991 := by
              have : ((2 : ℚ) ^ 53 - 1) = 9007199254740991 := by norm_num
              linarith
            exact mul_le_mul_of_nonneg_right hx2 (le_of_lt hbq)
          exact_mod_cast this
        omega
      rw [if_pos hn2, if_neg (by omega)]
      have hsame : ((2 ^ 52 : Nat) : ℚ) * (2 : ℚ) ^ (ulp + 1) = (n : ℚ) * (2 : ℚ) ^ ulp := by
        rw [hn2, zpow_add₀ (by norm_num)]
        push_cast
        ring
      refine ⟨2 ^ 52, ulp + 1, rfl, ?_, ?_, ?_⟩
      · rw [hsame]; exact hval
      · rw [hsame]; exact herr
      · rw [hsame]; exact hrel
    · rw [if_neg hn2, if_neg (by omega)]
      exact ⟨n, ulp, rfl, hval, herr, hrel⟩

/-! ## Registry lemmas -/

theorem registryLookup_register_same {V : Type} (reg : List (String × V)) (id : String) (s : V) :
    registryLookup (RegisterScraper reg id s) id = some s := by
  induction reg with
  | nil => simp [RegisterScraper, registryLookup]
  | cons entry rest ih =>
    obtain ⟨k, v⟩ := entry
    by_cases h : k = id
    · simp [RegisterScraper, registryLookup, h]
    · simp [RegisterScraper, registryLookup, h, ih]

theorem registryLookup_register_other {V : Type} (reg : List (String × V)) (id other : String)
    (s : V)
    (h : other ≠ id) :
    registryLookup (RegisterScraper reg other s) id = registryLookup reg id := by
  induction reg with
  | nil => simp [RegisterScraper, registryLookup, h]
  | cons entry rest ih =>
    obtain ⟨k, v⟩ := entry
    by_cases hk : k = other
    · subst hk
      simp [RegisterScraper, registryLookup, h]
    · simp [RegisterScraper, registryLookup, hk, ih]

theorem registryLookup_foldl {V : Type} (calls : List (String × V)) (reg : List (String × V))
    (id : String) :
    registryLookup (calls.foldl (fun r call => RegisterScraper r call.1 call.2) reg) id =
      match calls.reverse.find? (fun call => call.1 == id) with
      | some call => some call.2
      | none => registryLookup reg id := by
  induction calls generalizing reg with
  | nil => simp
  | cons call rest ih =>
    rw [List.foldl_cons, ih, List.reverse_cons, List.find?_append]
    cases hfind : rest.reverse.find? (fun call => call.1 == id) with
    | some found => simp
    | none =>
      by_cases hc : call.1 = id
      · subst hc
        simp [registryLookup_register_same]
      · simp [hc, registryLookup_register_other _ _ _ _ hc]

theorem registry_keys_register {V : Type} (reg : List (String × V)) (id : String) (s : V) :
    (RegisterScraper reg id s).map Prod.fst =
      if id ∈ reg.map Prod.fst then reg.map Prod.fst else reg.map Prod.fst ++ [id] := by
  induction reg with
  | nil => simp [RegisterScraper]
  | cons entry rest ih =>
    obtain ⟨k, v⟩ := entry
    by_cases h : k = id
    · simp [RegisterScraper, h]
    · have h2 : ¬ id = k := fun e => h e.symm
      simp only [RegisterScraper, h, if_false, List.map_cons, ih, List.mem_cons, h2, false_or]
      split <;> simp

theorem registry_keys_foldl {V : Type} (calls : List (String × V)) (reg : List (String × V))
    (hreg : (reg.map Prod.fst).Nodup) :
    ((calls.foldl (fun r call => RegisterScraper r call.1 call.2) reg).map Prod.fst).Nodup ∧
    ∀ id, id ∈ (calls.foldl (fun r call => RegisterScraper r call.1 call.2) reg).map Prod.fst ↔
      id ∈ reg.map Prod.fst ∨ id ∈ calls.map Prod.fst := by
  induction calls generalizing reg with
  | nil => simp [hreg]
  | cons call rest ih =>
    have hstep : ((RegisterScraper reg call.1 call.2).map Prod.fst).Nodup := by
      rw [registry_keys_register]
      split
      · exact hreg
      · rename_i hnot
        exact List.Nodup.append hreg (List.nodup_singleton _) (by simpa using hnot)
    obtain ⟨h1, h2⟩ := ih (RegisterScraper reg call.1 call.2) hstep
    refine ⟨h1, fun id => ?_⟩
    rw [List.foldl_cons, h2, registry_keys_register]
    split
    · rename_i hin
      simp only [List.map_cons, List.mem_cons]
      constructor
      · rintro (h | h)
        · exact Or.inl h
        · exact Or.inr (Or.inr h)
      · rintro (h | h | h)
        · exact Or.inl h
        · exact Or.inl (h ▸ hin)
        · exact Or.inr h
    · simp only [List.map_cons, List.mem_cons, List.mem_append, List.mem_singleton]
      tauto

/-- C6. After any sequence of `RegisterScraper` calls, `GetScraper id` returns the
strategy of the last call made with `id`, and fails with the not-found error
exactly when no call was made with `id`; a registration under another
identifier does not change the lookup of `id`, and a registration under `id`
makes the lookup return the new strategy. -/
theorem registry_last_registration_wins (calls : List (String × Scraper)) (id : String) :
    (GetScraper (registryAfter calls) id =
      match calls.reverse.find? (fun call => call.1 == id) with
      | some call => Except.ok call.2
      | none => Except.error ("no scraper found for site: " ++ id)) ∧
    (∀ (reg : Registry) (s : Scraper), GetScraper (RegisterScraper reg id s) id = Except.ok s) ∧
    (∀ (reg : Registry) (other : String) (s : Scraper), other ≠ id →
      GetScraper (RegisterScraper reg other s) id = GetScraper reg id) ∧
    (GetScraper (registryAfter calls) id = Except.error ("no scraper found for site: " ++ id) ↔
      ∀ call ∈ calls, call.1 ≠ id) ∧
    ((∃ s, GetScraper (registryAfter calls) id = Except.ok s) ↔ ∃ call ∈ calls, call.1 = id) := by
  have hlookup := registryLookup_foldl calls [] id
  have hget : GetScraper (registryAfter calls) id =
      match calls.reverse.find? (fun call => call.1 == id) with
      | some call => Except.ok call.2
      | none => Except.error ("no scraper found for site: " ++ id) := by
    unfold GetScraper registryAfter
    rw [hlookup]
    cases calls.reverse.find? (fun call => call.1 == id) <;> simp [registryLookup]
  refine ⟨hget, ?_, ?_, ?_, ?_⟩
  · intro reg s
    simp [GetScraper, registryLookup_register_same]
  · intro reg other s h
    simp [GetScraper, registryLookup_register_other _ _ _ _ h]
  · rw [hget]
    cases hfind : calls.reverse.find? (fun call => call.1 == id) with
    | some found =>
      have hmem := List.mem_of_find?_eq_some hfind
      have hp := List.find?_some hfind
      simp only [false_iff, reduceCtorEq]
      intro hall
      exact hall found (List.mem_reverse.mp hmem) (by simpa using hp)
    | none =>
      simp only [true_iff]
      intro call hcall hcid
      have := List.find?_eq_none.mp hfind call (List.mem_reverse.mpr hcall)
      simp [hcid] at this
  · rw [hget]
    cases hfind : calls.reverse.find? (fun call => call.1 == id) with
    | some found =>
      have hmem := List.mem_of_find?_eq_some hfind
      have hp := List.find?_some hfind
      constructor
      · intro _
        exact ⟨found, List.mem_reverse.mp hmem, by simpa using hp⟩
      · intro _
        exact ⟨found.2, rfl⟩
    | none =>
      constructor
      · rintro ⟨s, hs⟩
        simp at hs
      · rintro ⟨call, hcall, hcid⟩
        have := List.find?_eq_none.mp hfind call (List.mem_reverse.mpr hcall)
        simp [hcid] at this

theorem registryLookup_of_mem {V : Type} (reg : List (String × V))
    (hn : (reg.map Prod.fst).Nodup) (entry : String × V) (h : entry ∈ reg) : registryLookup reg entry.1 = some entry.2 := by
  induction reg with
  | nil => cases h
  | cons head rest ih =>
    obtain ⟨k, v⟩ := head
    rw [List.map_cons, List.nodup_cons] at hn
    rcases List.mem_cons.mp h with h1 | h1
    · subst h1
      simp [registryLookup]
    · have hne : k ≠ entry.1 := by
        intro e
        apply hn.1
        rw [e]
        exact List.mem_map.mpr ⟨entry, h1, rfl⟩
      simp [registryLookup, hne, ih hn.2 h1]

theorem registry_lookup_mem {V : Type} (calls : List (String × V)) (id : String) (scraper : V)
    (h : GetScraper (registryAfter calls) id = Except.ok scraper) : (id, scraper) ∈ calls := by
  unfold GetScraper registryAfter at h
  rw [registryLookup_foldl] at h
  cases hfind : calls.reverse.find? (fun call => call.1 == id) with
  | none =>
    rw [hfind] at h
    simp [registryLookup] at h
  | some call =>
    rw [hfind] at h
    simp only [Except.ok.injEq] at h
    have hmem := List.mem_of_find?_eq_some hfind
    have hkey := List.find?_some hfind
    simp only [beq_iff_eq] at hkey
    rw [List.mem_reverse] at hmem
    rw [← h, ← hkey]
    exact hmem

theorem registry_entry_mem {V : Type} (calls : List (String × V)) (entry : String × V)
    (h : entry ∈ registryAfter calls) : entry ∈ calls := by
  obtain ⟨hnodup, -⟩ := registry_keys_foldl calls [] (by simp)
  have hl := registryLookup_of_mem (registryAfter calls) hnodup entry h
  exact registry_lookup_mem calls entry.1 entry.2 (by simp only [GetScraper, hl])

theorem GetAvailableSites_of_strategies (visited : List (String × Option Scraper))
    (h : ∀ entry ∈ visited, entry.2 ≠ none) :
    ∃ sites, GetAvailableSites visited = some sites ∧
      sites.map SiteInfo.Identifier = visited.map Prod.fst ∧
      ∀ site ∈ sites, ∃ entry ∈ visited, ∃ s, entry.2 = some s ∧
        site.Identifier = entry.1 ∧ site.Name = s.GetSiteName ∧
        site.BaseURL = getBaseURL entry.1 := by
  induction visited with
  | nil => exact ⟨[], rfl, rfl, fun site hsite => by cases hsite⟩
  | cons entry rest ih =>
    obtain ⟨sites, hsites, hids, hinfo⟩ := ih (fun e he => h e (List.mem_cons_of_mem _ he))
    obtain ⟨k, v⟩ := entry
    cases v with
    | none => exact absurd rfl (h (k, none) (List.mem_cons_self _ _))
    | some s =>
      refine ⟨(⟨s.GetSiteName, k, getBaseURL k, "Scraper for " ++ s.GetSiteName⟩ : SiteInfo) ::
        sites, ?_, ?_, ?_⟩
      · unfold GetAvailableSites at hsites ⊢
        rw [List.mapM_cons, hsites]
        rfl
      · simp only [List.map_cons, hids]
      · intro site hsite
        rcases List.mem_cons.mp hsite with hhead | htail
        · exact ⟨(k, some s), List.mem_cons_self _ _, s, rfl, by rw [hhead], by rw [hhead],
            by rw [hhead]⟩
        · obtain ⟨e, he, s2, h1, h2, h3, h4⟩ := hinfo site htail
          exact ⟨e, List.mem_cons_of_mem _ he, s2, h1, h2, h3, h4⟩

theorem GetAvailableSites_of_nil (key : String) (visited : List (String × Option Scraper))
    (h : (key, none) ∈ visited) : GetAvailableSites visited = none := by
  induction visited with
  | nil => cases h
  | cons entry rest ih =>
    unfold GetAvailableSites at ih ⊢
    rw [List.mapM_cons]
    rcases List.mem_cons.mp h with hhead | htail
    · rw [← hhead]
      rfl
    · rw [ih htail]
      cases Option.map _ entry.2 <;> rfl

/-- C7 (as the code has it). For the registry reached by any sequence of
`RegisterScraper` calls none of which stores the nil interface value, and any
order in which the map is traversed, `GetAvailableSites` returns a list in
which every registered identifier appears exactly once and no other identifier
appears, so its length is the number of distinct registered identifiers; every
entry carries the display name of the strategy currently registered under its
identifier and the base URL of the static table, which is empty for an
identifier outside the table. -/
theorem sites_list_every_identifier_once (calls : List (String × Option Scraper))
    (hstrategies : ∀ call ∈ calls, call.2 ≠ none)
    (visited : List (String × Option Scraper)) (hvisit : visited.Perm (registryAfter calls)) :
    ∃ sites, GetAvailableSites visited = some sites ∧
      (∀ id, (sites.map SiteInfo.Identifier).count id =
        if id ∈ calls.map Prod.fst then 1 else 0) ∧
      sites.length = (calls.map Prod.fst).dedup.length ∧
      (∀ site ∈ sites, ∃ s,
        GetScraper (registryAfter calls) site.Identifier = Except.ok (some s) ∧
        site.Name = s.GetSiteName ∧ site.BaseURL = getBaseURL site.Identifier) ∧
      getBaseURL "kontakt" = "https://kontakt.az" ∧ getBaseURL "irshad" = "https://irshad.az" ∧
      getBaseURL "optimal" = "https://optimal.az" ∧
      (∀ id, id ≠ "kontakt" → id ≠ "irshad" → id ≠ "optimal" → getBaseURL id = "") := by
  obtain ⟨hnodup, hmem⟩ := registry_keys_foldl calls [] (by simp)
  have hsome : ∀ entry ∈ visited, entry.2 ≠ none := fun entry hentry =>
    hstrategies entry (registry_entry_mem calls entry (hvisit.mem_iff.mp hentry))
  obtain ⟨sites, hsites, hids, hinfo⟩ := GetAvailableSites_of_strategies visited hsome
  have hperm : (visited.map Prod.fst).Perm ((registryAfter calls).map Prod.fst) :=
    hvisit.map Prod.fst
  have hvnodup : (visited.map Prod.fst).Nodup := hperm.nodup_iff.mpr hnodup
  have hvmem : ∀ id, id ∈ visited.map Prod.fst ↔ id ∈ calls.map Prod.fst := by
    intro id
    rw [hperm.mem_iff]
    have := hmem id
    simpa [registryAfter] using this
  refine ⟨sites, hsites, ?_, ?_, ?_, by decide, by decide, by decide, ?_⟩
  · intro id
    rw [hids]
    by_cases hin : id ∈ calls.map Prod.fst
    · rw [if_pos hin]
      exact List.count_eq_one_of_mem hvnodup ((hvmem id).mpr hin)
    · rw [if_neg hin]
      exact List.count_eq_zero_of_not_mem (fun h => hin ((hvmem id).mp h))
  · have hlen : sites.length = (visited.map Prod.fst).length := by
      rw [← hids, List.length_map]
    rw [hlen]
    apply List.Perm.length_eq
    rw [List.perm_ext_iff_of_nodup hvnodup (List.nodup_dedup _)]
    intro id
    rw [hvmem, List.mem_dedup]
  · intro site hsite
    obtain ⟨entry, hentry, s, hs, hid, hname, hbase⟩ := hinfo site hsite
    refine ⟨s, ?_, hname, by rw [hbase, hid]⟩
    have hin : entry ∈ registryAfter calls := hvisit.mem_iff.mp hentry
    have hl := registryLookup_of_mem (registryAfter calls) hnodup entry hin
    rw [hid]
    simp only [GetScraper, hl, hs]
  · intro id h1 h2 h3
    simp [getBaseURL, h1, h2, h3]

/-- C7 at a registry built by three calls, two of them for "kontakt", traversed in
the reverse of the insertion order. -/
theorem sites_list_every_identifier_once_witness :
    (∀ call ∈ [("kontakt", some (namedScraper "first")),
        ("irshad", some (namedScraper "Irshad.az")),
        ("kontakt", some (namedScraper "second"))], call.2 ≠ none) ∧
    [("irshad", some (namedScraper "Irshad.az")), ("kontakt", some (namedScraper "second"))].Perm
      (registryAfter [("kontakt", some (namedScraper "first")),
        ("irshad", some (namedScraper "Irshad.az")),
        ("kontakt", some (namedScraper "second"))]) ∧
    ∃ sites, GetAvailableSites
        [("irshad", some (namedScraper "Irshad.az")),
          ("kontakt", some (namedScraper "second"))] = some sites ∧
      sites.length = (["kontakt", "irshad", "kontakt"] : List String).dedup.length :=
  have hs : ∀ call ∈ [("kontakt", some (namedScraper "first")),
      ("irshad", some (namedScraper "Irshad.az")),
      ("kontakt", some (namedScraper "second"))], call.2 ≠ none := by
    intro call hcall
    simp only [List.mem_cons, List.mem_singleton, List.not_mem_nil, or_false] at hcall
    rcases hcall with h | h | h <;> rw [h] <;> simp
  have hp : [("irshad", some (namedScraper "Irshad.az")),
      ("kontakt", some (namedScraper "second"))].Perm
      (registryAfter [("kontakt", some (namedScraper "first")),
        ("irshad", some (namedScraper "Irshad.az")),
        ("kontakt", some (namedScraper "second"))]) := by
    simp only [registryAfter, List.foldl, RegisterScraper]
    simp only [String.reduceEq, if_false, if_true, RegisterScraper]
    exact List.Perm.swap _ _ _
  ⟨hs, hp,
    (sites_list_every_identifier_once _ hs _ hp).imp fun _ h => ⟨h.1, h.2.2.1⟩⟩

/-- C7 as the specification has it fails: `RegisterScraper` stores the nil
interface value like any other, the identifier is then registered
(`GetScraper` returns nil and no error), and `GetAvailableSites` panics on
`scraper.GetSiteName()` in every traversal order instead of returning a list
with the identifier. -/
theorem sites_list_panics_on_nil_strategy :
    GetScraper (registryAfter [("irshad", some (namedScraper "Irshad.az")), ("ghost", none)])
      "ghost" = Except.ok none ∧
    ∀ visited : List (String × Option Scraper),
      visited.Perm
        (registryAfter [("irshad", some (namedScraper "Irshad.az")), ("ghost", none)]) →
      GetAvailableSites visited = none := by
  refine ⟨rfl, ?_⟩
  intro visited hvisit
  have hreg : registryAfter [("irshad", some (namedScraper "Irshad.az")), ("ghost", none)] =
      [("irshad", some (namedScraper "Irshad.az")), ("ghost", none)] := by
    simp only [registryAfter, List.foldl, RegisterScraper]
    simp only [String.reduceEq, if_false, RegisterScraper]
  rw [hreg] at hvisit
  exact GetAvailableSites_of_nil "ghost" visited (hvisit.mem_iff.mpr (by simp))

/-! ## The scrape handler -/

theorem missingParametersBody_fields :
    (Body.text (missingParametersBody ++ "\n")).errorFields =
      some ("missing_parameters", "Both \x27site\x27 and \x27uri\x27 parameters are required") ∧
    (Body.text (missingParametersBody ++ "\n")).fieldNames = some ["error", "message"] := by
  constructor <;> decide

/-- C8. The response of `handleScrape` is decided in this order: an empty `site`
or `uri` gives 400 `missing_parameters` (whatever the site); otherwise an
unregistered site gives 400 `unsupported_site`; otherwise an error of the
strategy gives 500 `scraping_failed` with the error text at the end of the
message; otherwise 200 with the product as body.  Every body sent with a status
other than 200 is a JSON object with exactly the fields `error` and `message`. -/
theorem handleScrape_response_order (reg : Registry) (site uri : String) :
    ((site = "" ∨ uri = "") →
      (handleScrape reg site uri).status = 400 ∧
      (handleScrape reg site uri).body.errorFields =
        some ("missing_parameters",
          "Both \x27site\x27 and \x27uri\x27 parameters are required")) ∧
    (site ≠ "" → uri ≠ "" → registryLookup reg site = none →
      (handleScrape reg site uri).status = 400 ∧
      (handleScrape reg site uri).body.errorFields =
        some ("unsupported_site", "Site \x27" ++ site ++
          "\x27 is not supported. Use /api/v1/sites to see available sites")) ∧
    (∀ scraper err, site ≠ "" → uri ≠ "" → registryLookup reg site = some scraper →
      (scraper.Scrape uri).err = some err →
      (handleScrape reg site uri).status = 500 ∧
      (handleScrape reg site uri).body.errorFields =
        some ("scraping_failed", "Failed to scrape URL: " ++ err)) ∧
    (∀ scraper, site ≠ "" → uri ≠ "" → registryLookup reg site = some scraper →
      (scraper.Scrape uri).err = none →
      (handleScrape reg site uri).status = 200 ∧
      (handleScrape reg site uri).body = Body.productJSON (scraper.Scrape uri).product) ∧
    ((handleScrape reg site uri).status ≠ 200 →
      (handleScrape reg site uri).body.fieldNames = some ["error", "message"]) := by
  refine ⟨?_, ?_, ?_, ?_, ?_⟩
  · intro h
    simp only [handleScrape, if_pos h, true_and]
    exact missingParametersBody_fields.1
  · intro h1 h2 h3
    have hn : ¬ (site = "" ∨ uri = "") := by simp [h1, h2]
    simp [handleScrape, if_neg hn, GetScraper, h3, Body.errorFields]
  · intro scraper err h1 h2 h3 h4
    have hn : ¬ (site = "" ∨ uri = "") := by simp [h1, h2]
    simp [handleScrape, if_neg hn, GetScraper, h3, h4, Body.errorFields]
  · intro scraper h1 h2 h3 h4
    have hn : ¬ (site = "" ∨ uri = "") := by simp [h1, h2]
    simp [handleScrape, if_neg hn, GetScraper, h3, h4]
  · by_cases h : site = "" ∨ uri = ""
    · intro _
      simp only [handleScrape, if_pos h]
      exact missingParametersBody_fields.2
    · simp only [handleScrape, if_neg h, GetScraper]
      cases registryLookup reg site with
      | none => simp [Body.fieldNames]
      | some scraper =>
        rcases hE : (scraper.Scrape uri).err with _ | err <;> simp [hE, Body.fieldNames]

/-- C8 at the request `site=unknown&uri=http://x` with only "irshad" registered. -/
theorem handleScrape_response_order_witness :
    (handleScrape (registryAfter [("irshad", namedScraper "Irshad.az")]) "unknown"
        "http://x").status = 400 ∧
    (handleScrape (registryAfter [("irshad", namedScraper "Irshad.az")]) "unknown"
        "http://x").body.errorFields =
      some ("unsupported_site",
        "Site \x27unknown\x27 is not supported. Use /api/v1/sites to see available sites") :=
  (handleScrape_response_order (registryAfter [("irshad", namedScraper "Irshad.az")])
    "unknown" "http://x").2.1 (by decide) (by decide) rfl

/-! ## URL validation -/

/-- What the check does reject: for both strategies and every URL that does not
contain the domain of the strategy anywhere once lower-cased, `Scrape` returns
the invalid-URL error and no product, and no fetch is attempted. -/
theorem scrape_rejects_url_without_domain {Doc : Type} (ToLower : String → String)
    (web : Web Doc) (extract : Doc → Product → Product) (url : String) :
    (strings.Contains (ToLower url) "irshad.az" = false →
      IrshadScraper.Scrape ToLower web extract url =
        ⟨⟨none, some ("URL does not belong to irshad.az: " ++ url)⟩, []⟩) ∧
    (strings.Contains (ToLower url) "kontakt.az" = false →
      KontaktScraper.Scrape ToLower web extract url =
        ⟨⟨none, some ("URL does not belong to kontakt.az: " ++ url)⟩, []⟩) := by
  constructor
  · intro h
    simp [IrshadScraper.Scrape, IrshadScraper.IsValidURL, h]
  · intro h
    simp [KontaktScraper.Scrape, KontaktScraper.IsValidURL, h]

/-- C5 (as the code has it). `IsValidURL` looks for the domain anywhere in the
lower-cased URL and not in its host: the host of `https://example.com/irshad.az`
(resp. `https://example.com/kontakt.az`) is `example.com`, which does not
contain the domain, yet `Scrape` accepts the URL, fetches it and returns a
product and no error. -/
theorem scrape_fetches_foreign_host :
    specHost "https://example.com/irshad.az" = "example.com" ∧
    strings.Contains (asciiLower "example.com") "irshad.az" = false ∧
    (IrshadScraper.Scrape asciiLower webStub (fun _ p => p)
      "https://example.com/irshad.az").fetched = ["https://example.com/irshad.az"] ∧
    (IrshadScraper.Scrape asciiLower webStub (fun _ p => p)
      "https://example.com/irshad.az").result.err = none ∧
    (IrshadScraper.Scrape asciiLower webStub (fun _ p => p)
      "https://example.com/irshad.az").result.product.isSome = true ∧
    specHost "https://example.com/kontakt.az" = "example.com" ∧
    strings.Contains (asciiLower "example.com") "kontakt.az" = false ∧
    (KontaktScraper.Scrape asciiLower webStub (fun _ p => p)
      "https://example.com/kontakt.az").fetched = ["https://example.com/kontakt.az"] ∧
    (KontaktScraper.Scrape asciiLower webStub (fun _ p => p)
      "https://example.com/kontakt.az").result.err = none ∧
    (KontaktScraper.Scrape asciiLower webStub (fun _ p => p)
      "https://example.com/kontakt.az").result.product.isSome = true := by
  decide

/-! ## The discount block -/

theorem F64.ofNat_zero : F64.ofNat 0 = F64.fin false 0 (-1074) := by decide

theorem F64.ofNat_hundred : F64.ofNat 100 = F64.fin false 7036874417766400 (-46) := by decide

/-- A float that equals zero is not greater than zero. -/
theorem F64.not_pos_of_eq_zero (z : F64) (h : F64.eq z (F64.ofNat 0) = true) :
    F64.lt (F64.ofNat 0) z = false := by
  rw [F64.ofNat_zero] at *
  cases z with
  | nan => rfl
  | inf neg => simp [F64.eq] at h
  | fin neg m e =>
    simp only [F64.eq, decide_eq_true_eq] at h
    simp only [F64.lt, decide_eq_false_iff_not, not_lt]
    rw [min_comm, h]

/-- A finite float greater than zero has a clear sign bit and a non-zero mantissa. -/
theorem F64.pos_fin (neg : Bool) (m : Nat) (e : Int)
    (h : F64.lt (F64.ofNat 0) (F64.fin neg m e) = true) : neg = false ∧ 0 < m := by
  rw [F64.ofNat_zero] at h
  simp only [F64.lt, decide_eq_true_eq, F64.scaled] at h
  cases neg with
  | true =>
    simp only [if_true, Bool.false_eq_true, if_false] at h
    omega
  | false =>
    refine ⟨rfl, ?_⟩
    simp only [Bool.false_eq_true, if_false, zero_mul, Nat.cast_zero] at h
    rcases Nat.eq_zero_or_pos m with h0 | h0
    · simp [h0] at h
    · exact h0

theorem extractNumericPrice_empty (ParseFloat : String → Option F64) :
    extractNumericPrice ParseFloat "" = F64.fin false 0 (-1074) := by
  simp [extractNumericPrice]

theorem extractNumericPrice_not_pos (ParseFloat : String → Option F64) (s : String)
    (h : s = "" ∨ ParseFloat (strings.TrimSpace (strings.ReplaceAll s "AZN" "")) = none ∨
      ∃ z, ParseFloat (strings.TrimSpace (strings.ReplaceAll s "AZN" "")) = some z ∧
        F64.eq z (F64.ofNat 0) = true) :
    F64.lt (F64.ofNat 0) (extractNumericPrice ParseFloat s) = false := by
  unfold extractNumericPrice
  by_cases hs : s = ""
  · rw [if_pos hs]; decide
  · rw [if_neg hs]
    rcases h with h | h | ⟨z, hz, hz0⟩
    · exact absurd h hs
    · rw [h]; decide
    · rw [hz]; exact F64.not_pos_of_eq_zero z hz0

/-- C10. When the current or the original price string is empty, is not read as
a number by `ParseFloat` once "AZN" and the surrounding spaces are removed, or
is read as zero, the discount block leaves the discount field as it was (empty,
in `Scrape`). -/
theorem discount_left_empty (ParseFloat : String → Option F64) (product : Product)
    (cur orig : String)
    (h : (cur = "" ∨ ParseFloat (strings.TrimSpace (strings.ReplaceAll cur "AZN" "")) = none ∨
        ∃ z, ParseFloat (strings.TrimSpace (strings.ReplaceAll cur "AZN" "")) = some z ∧
          F64.eq z (F64.ofNat 0) = true) ∨
      (orig = "" ∨ ParseFloat (strings.TrimSpace (strings.ReplaceAll orig "AZN" "")) = none ∨
        ∃ z, ParseFloat (strings.TrimSpace (strings.ReplaceAll orig "AZN" "")) = some z ∧
          F64.eq z (F64.ofNat 0) = true)) :
    (IrshadScraper.assignPrices ParseFloat product cur orig).Discount = product.Discount := by
  unfold IrshadScraper.assignPrices
  simp only
  split
  · rcases h with h | h
    · rw [extractNumericPrice_not_pos ParseFloat cur h]
      simp
    · rw [extractNumericPrice_not_pos ParseFloat orig h]
      simp
  · rfl

/-- C10 at a zero current price, at an unparsable original price and at an empty
current price. -/
theorem discount_left_empty_witness :
    (IrshadScraper.assignPrices strconv.ParseDecimal {} "0.00 AZN" "500.00 AZN").Discount = "" ∧
    (IrshadScraper.assignPrices strconv.ParseDecimal {} "450.00 AZN" "n/a").Discount = "" ∧
    (IrshadScraper.assignPrices strconv.ParseDecimal {} "" "500.00 AZN").Discount = "" :=
  ⟨discount_left_empty strconv.ParseDecimal {} "0.00 AZN" "500.00 AZN"
      (Or.inl (Or.inr (Or.inr ⟨F64.fin false 0 (-1074), by decide, by decide⟩))),
    discount_left_empty strconv.ParseDecimal {} "450.00 AZN" "n/a"
      (Or.inr (Or.inr (Or.inl (by decide)))),
    discount_left_empty strconv.ParseDecimal {} "" "500.00 AZN" (Or.inl (Or.inl rfl))⟩

theorem fixed_zero_of_zero : fmt.fixed 0 (F64.fin false 0 (-1074)) = "0" := by decide

/-- C9, as the code has it.  When the current and the original price string are
read as the same finite number greater than zero, the discount field is the
string "-0%". -/
theorem discount_of_equal_prices (ParseFloat : String → Option F64) (product : Product)
    (cur orig : String) (neg : Bool) (m : Nat) (e : Int)
    (hc : extractNumericPrice ParseFloat cur = F64.fin neg m e)
    (ho : extractNumericPrice ParseFloat orig = F64.fin neg m e)
    (hpos : F64.lt (F64.ofNat 0) (F64.fin neg m e) = true) :
    (IrshadScraper.assignPrices ParseFloat product cur orig).Discount = "-0%" := by
  obtain ⟨hneg, hm⟩ := F64.pos_fin neg m e hpos
  subst hneg
  have hcne : cur ≠ "" := by
    intro h0
    rw [h0, extractNumericPrice_empty] at hc
    rw [← hc] at hpos
    revert hpos; decide
  have hone : orig ≠ "" := by
    intro h0
    rw [h0, extractNumericPrice_empty] at ho
    rw [← ho] at hpos
    revert hpos; decide
  have hm0 : m ≠ 0 := by omega
  unfold IrshadScraper.assignPrices
  simp only [ne_eq, hcne, not_false_eq_true, hone, and_self, if_true, hc, ho, hpos,
    Bool.and_self]
  have hsub : F64.sub (F64.fin false m e) (F64.fin false m e) = F64.fin false 0 (-1074) := by
    simp [F64.sub]
  have hdiv : F64.div (F64.fin false 0 (-1074)) (F64.fin false m e) =
      F64.fin false 0 (-1074) := by
    simp [F64.div, hm0, F64.round_zero]
  have hmul : F64.mul (F64.fin false 0 (-1074)) (F64.ofNat 100) = F64.fin false 0 (-1074) := by
    rw [F64.ofNat_hundred]
    simp [F64.mul, F64.round_zero]
  rw [hsub, hdiv, hmul, fixed_zero_of_zero]
  rfl

/-- C9 at current and original price "450.00 AZN". -/
theorem discount_of_equal_prices_witness :
    (IrshadScraper.assignPrices strconv.ParseDecimal {} "450.00 AZN" "450.00 AZN").Discount =
      "-0%" :=
  discount_of_equal_prices strconv.ParseDecimal {} "450.00 AZN" "450.00 AZN" false
    7916483719987200 (-44) (by decide) (by decide) (by decide)

/-- C9 fails as stated: with current and original price both "450.00 AZN" the
discount field is "-0%", which is neither empty nor "0%". -/
theorem equal_prices_discount_not_omitted :
    (IrshadScraper.assignPrices strconv.ParseDecimal {} "450.00 AZN" "450.00 AZN").Discount ≠ "" ∧
    (IrshadScraper.assignPrices strconv.ParseDecimal {} "450.00 AZN" "450.00 AZN").Discount ≠
      "0%" ∧
    extractNumericPrice strconv.ParseDecimal "450.00 AZN" = F64.fin false 7916483719987200 (-44) ∧
    F64.lt (F64.ofNat 0) (extractNumericPrice strconv.ParseDecimal "450.00 AZN") = true := by
  decide

/-! ## The discount percentage -/

theorem toDigitsCore_length_ge (b : Nat) (f n : Nat) (ds : List Char) :
    ds.length ≤ (Nat.toDigitsCore b f n ds).length := by
  induction f generalizing n ds with
  | zero => simp [Nat.toDigitsCore]
  | succ f ih =>
    simp only [Nat.toDigitsCore]
    split
    · simp
    · exact le_trans (by simp) (ih _ _)

theorem repr_data_length_pos (n : Nat) : 1 ≤ (Nat.repr n).data.length := by
  simp only [Nat.repr, Nat.toDigits, List.asString, Nat.toDigitsCore]
  split
  · simp
  · exact le_trans (by simp) (toDigitsCore_length_ge _ _ _ _)

/-- With no decimals, a non-negative finite float is written as the integer
nearest to it, ties going to the even integer. -/
theorem fixed_zero_nearest (m : Nat) (e : Int) :
    ∃ n : Nat, fmt.fixed 0 (F64.fin false m e) = Nat.repr n ∧
      |(n : ℚ) - (m : ℚ) * (2 : ℚ) ^ e| ≤ 1 / 2 ∧
      (|(n : ℚ) - (m : ℚ) * (2 : ℚ) ^ e| = 1 / 2 → n % 2 = 0) := by
  have hstr : ∀ n : Nat, (⟨([] : List Char) ++
      List.take ((fmt.padZeros (0 + 1) (Nat.repr n).data).length - 0)
        (fmt.padZeros (0 + 1) (Nat.repr n).data) ++ []⟩ : String) = Nat.repr n := by
    intro n
    have hpad : fmt.padZeros (0 + 1) (Nat.repr n).data = (Nat.repr n).data := by
      have := repr_data_length_pos n
      simp only [fmt.padZeros, zero_add, Nat.sub_eq_zero_of_le this, List.replicate_zero,
        List.nil_append]
    rw [hpad, Nat.sub_zero, List.take_length, List.nil_append, List.append_nil]
  by_cases he : 0 ≤ e
  · refine ⟨m * 2 ^ e.toNat * 10 ^ 0, ?_, ?_, ?_⟩
    · simp only [fmt.fixed, if_pos he, Bool.false_eq_true, if_false, if_true]
      exact hstr _
    · have : ((m * 2 ^ e.toNat * 10 ^ 0 : Nat) : ℚ) = (m : ℚ) * (2 : ℚ) ^ e := by
        push_cast
        rw [← zpow_natCast, Int.toNat_of_nonneg he]
        ring
      rw [this]
      simp
    · intro h
      have : ((m * 2 ^ e.toNat * 10 ^ 0 : Nat) : ℚ) = (m : ℚ) * (2 : ℚ) ^ e := by
        push_cast
        rw [← zpow_natCast, Int.toNat_of_nonneg he]
        ring
      rw [this] at h
      simp at h
  · have hb : 0 < 2 ^ (-e).toNat := by positivity
    obtain ⟨h1, h2, h3⟩ := F64.roundHalfEven_spec (m * 10 ^ 0) (2 ^ (-e).toNat) hb
    generalize hn : F64.roundHalfEven (m * 10 ^ 0) (2 ^ (-e).toNat) = n at h1 h2 h3
    have hpow : (((2 ^ (-e).toNat : Nat)) : ℚ) = ((2 : ℚ) ^ e)⁻¹ := by
      push_cast
      rw [← zpow_natCast, Int.toNat_of_nonneg (by omega), zpow_neg]
    have hp : (0 : ℚ) < (2 : ℚ) ^ e := by positivity
    have q1 : (2 * (n * (2 ^ (-e).toNat : Nat)) : ℚ) ≤ 2 * (m * 10 ^ 0 : Nat) + (2 ^ (-e).toNat : Nat) := by
      exact_mod_cast h1
    have q2 : (2 * (m * 10 ^ 0 : Nat) : ℚ) ≤ 2 * (n * (2 ^ (-e).toNat : Nat)) + (2 ^ (-e).toNat : Nat) := by
      exact_mod_cast h2
    rw [hpow] at q1 q2
    simp only [pow_zero, mul_one, Nat.cast_mul, Nat.cast_one] at q1 q2
    have q1b : (n : ℚ) - (m : ℚ) * (2 : ℚ) ^ e ≤ 1 / 2 := by
      have := mul_le_mul_of_nonneg_right q1 (le_of_lt hp)
      field_simp at this
      linarith
    have q2b : -(1 / 2) ≤ (n : ℚ) - (m : ℚ) * (2 : ℚ) ^ e := by
      have := mul_le_mul_of_nonneg_right q2 (le_of_lt hp)
      field_simp at this
      linarith
    refine ⟨n, ?_, abs_le.mpr ⟨q2b, q1b⟩, ?_⟩
    · simp only [fmt.fixed, if_neg he, Bool.false_eq_true, if_false, if_true, hn]
      exact hstr _
    · intro habs
      apply h3
      have hcases : (n : ℚ) - (m : ℚ) * (2 : ℚ) ^ e = 1 / 2 ∨
          (n : ℚ) - (m : ℚ) * (2 : ℚ) ^ e = -(1 / 2) := by
        rcases abs_cases ((n : ℚ) - (m : ℚ) * (2 : ℚ) ^ e) with ⟨ha, _⟩ | ⟨ha, _⟩
        · left; rw [← ha]; exact habs
        · right; rw [← habs, ha]; ring
      rcases hcases with hc | hc
      · left
        have : (2 * (n * (2 ^ (-e).toNat : Nat)) : ℚ) =
            2 * (m * 10 ^ 0 : Nat) + (2 ^ (-e).toNat : Nat) := by
          rw [hpow]
          simp only [pow_zero, mul_one, Nat.cast_mul, Nat.cast_one]
          field_simp
          linarith
        exact_mod_cast this
      · right
        have : (2 * (m * 10 ^ 0 : Nat) : ℚ) =
            2 * (n * (2 ^ (-e).toNat : Nat)) + (2 ^ (-e).toNat : Nat) := by
          rw [hpow]
          simp only [pow_zero, mul_one, Nat.cast_mul, Nat.cast_one]
          field_simp
          linarith
        exact_mod_cast this

theorem F64.maxFloat_ge : (400 : ℚ) ≤ (2 ^ 53 - 1) * (2 : ℚ) ^ (971 : Int) := by
  have h : (1 : ℚ) ≤ (2 : ℚ) ^ (971 : Int) := one_le_zpow₀ (by norm_num) (by norm_num)
  have h2 : (400 : ℚ) ≤ 2 ^ 53 - 1 := by norm_num
  nlinarith

/-- The difference of two non-negative float64 values `c ≤ o`. -/
theorem F64.sub_fin_spec (mo : Nat) (eo : Int) (mc : Nat) (ec : Int)
    (hrange : (mo : ℚ) * (2 : ℚ) ^ eo ≤ (2 ^ 53 - 1) * (2 : ℚ) ^ (971 : Int))
    (heo : -1074 ≤ eo) (hec : -1074 ≤ ec)
    (hle : F64.lt (F64.fin false mo eo) (F64.fin false mc ec) = false) :
    ∃ (m : Nat) (e : Int),
      F64.sub (F64.fin false mo eo) (F64.fin false mc ec) = F64.fin false m e ∧
      0 ≤ (mo : ℚ) * (2 : ℚ) ^ eo - (mc : ℚ) * (2 : ℚ) ^ ec ∧
      (m : ℚ) * (2 : ℚ) ^ e ≤ 2 * ((mo : ℚ) * (2 : ℚ) ^ eo - (mc : ℚ) * (2 : ℚ) ^ ec) ∧
      |(m : ℚ) * (2 : ℚ) ^ e - ((mo : ℚ) * (2 : ℚ) ^ eo - (mc : ℚ) * (2 : ℚ) ^ ec)| ≤
        ((mo : ℚ) * (2 : ℚ) ^ eo - (mc : ℚ) * (2 : ℚ) ^ ec) * (2 : ℚ) ^ (-53 : Int) := by
  have hO := F64.scaled_cast false mo eo (min eo ec) (min_le_left _ _)
  have hC := F64.scaled_cast false mc ec (min eo ec) (min_le_right _ _)
  simp only [F64.toRat, Bool.false_eq_true, if_false, one_mul] at hO hC
  have hge : F64.scaled false mc ec (min eo ec) ≤ F64.scaled false mo eo (min eo ec) := by
    simp only [F64.lt, decide_eq_false_iff_not, not_lt] at hle
    exact hle
  have hCnn : (0 : ℚ) ≤ (mc : ℚ) * (2 : ℚ) ^ ec := by positivity
  have hdiff : ((F64.scaled false mo eo (min eo ec) - F64.scaled false mc ec (min eo ec) : Int) : ℚ)
      * (2 : ℚ) ^ (min eo ec) = (mo : ℚ) * (2 : ℚ) ^ eo - (mc : ℚ) * (2 : ℚ) ^ ec := by
    push_cast
    rw [sub_mul, hO, hC]
  have hnn : 0 ≤ (mo : ℚ) * (2 : ℚ) ^ eo - (mc : ℚ) * (2 : ℚ) ^ ec := by
    rw [← hdiff]
    apply mul_nonneg
    · exact_mod_cast sub_nonneg.mpr hge
    · positivity
  simp only [F64.sub]
  generalize hd : F64.scaled false mo eo (min eo ec) - F64.scaled false mc ec (min eo ec) = d
    at hdiff
  have hd0 : 0 ≤ d := by rw [← hd]; omega
  by_cases hz : d = 0
  · rw [if_pos hz]
    rw [hz] at hdiff
    simp only [Int.cast_zero, zero_mul] at hdiff
    refine ⟨0, -1074, by simp, hnn, ?_, ?_⟩
    · rw [← hdiff]; simp
    · rw [← hdiff]
      simp
  · rw [if_neg hz]
    have hneg : decide (d < 0) = false := by simp; omega
    rw [hneg]
    have hv : ((d.natAbs : Nat) : ℚ) / ((1 : Nat) : ℚ) * (2 : ℚ) ^ (min eo ec) =
        (mo : ℚ) * (2 : ℚ) ^ eo - (mc : ℚ) * (2 : ℚ) ^ ec := by
      rw [← hdiff]
      have : ((d.natAbs : Nat) : ℚ) = (d : ℚ) := by
        obtain ⟨k, hk⟩ := Int.eq_ofNat_of_zero_le hd0
        rw [hk]
        simp
      rw [this]
      simp
    obtain ⟨m, e, hr, hval, _, hrel⟩ := F64.round_spec false d.natAbs 1 (min eo ec)
      (by norm_num) (by rw [hv]; linarith)
    have hrel2 := hrel rfl (le_min heo hec)
    rw [hv] at hval hrel2
    exact ⟨m, e, hr, hnn, hval, hrel2⟩

/-- The quotient of two finite floats, when it does not exceed the largest float. -/
theorem F64.div_fin_spec (n1 : Bool) (m1 : Nat) (e1 : Int) (n2 : Bool) (m2 : Nat) (e2 : Int)
    (hm2 : 0 < m2)
    (hv : (m1 : ℚ) * (2 : ℚ) ^ e1 / ((m2 : ℚ) * (2 : ℚ) ^ e2) ≤
      (2 ^ 53 - 1) * (2 : ℚ) ^ (971 : Int)) :
    ∃ (m : Nat) (e : Int),
      F64.div (F64.fin n1 m1 e1) (F64.fin n2 m2 e2) = F64.fin (xor n1 n2) m e ∧
      (m : ℚ) * (2 : ℚ) ^ e ≤ 2 * ((m1 : ℚ) * (2 : ℚ) ^ e1 / ((m2 : ℚ) * (2 : ℚ) ^ e2)) ∧
      |(m : ℚ) * (2 : ℚ) ^ e - (m1 : ℚ) * (2 : ℚ) ^ e1 / ((m2 : ℚ) * (2 : ℚ) ^ e2)| ≤
        max ((m1 : ℚ) * (2 : ℚ) ^ e1 / ((m2 : ℚ) * (2 : ℚ) ^ e2) * (2 : ℚ) ^ (-53 : Int))
          ((2 : ℚ) ^ (-1075 : Int)) := by
  have hq : (m1 : ℚ) / (m2 : ℚ) * (2 : ℚ) ^ (e1 - e2) =
      (m1 : ℚ) * (2 : ℚ) ^ e1 / ((m2 : ℚ) * (2 : ℚ) ^ e2) := by
    have h2 : (m2 : ℚ) ≠ 0 := by exact_mod_cast (Nat.pos_iff_ne_zero.mp hm2)
    rw [zpow_sub₀ (by norm_num)]
    field_simp
  obtain ⟨m, e, hr, hval, herr, _⟩ := F64.round_spec (xor n1 n2) m1 m2 (e1 - e2) hm2
    (by rw [hq]; exact hv)
  rw [hq] at hval herr
  refine ⟨m, e, ?_, hval, herr⟩
  simp only [F64.div, if_neg (Nat.pos_iff_ne_zero.mp hm2)]
  exact hr

/-- The product of two finite floats, when it does not exceed the largest float. -/
theorem F64.mul_fin_spec (n1 : Bool) (m1 : Nat) (e1 : Int) (n2 : Bool) (m2 : Nat) (e2 : Int)
    (hv : (m1 : ℚ) * (2 : ℚ) ^ e1 * ((m2 : ℚ) * (2 : ℚ) ^ e2) ≤
      (2 ^ 53 - 1) * (2 : ℚ) ^ (971 : Int)) :
    ∃ (m : Nat) (e : Int),
      F64.mul (F64.fin n1 m1 e1) (F64.fin n2 m2 e2) = F64.fin (xor n1 n2) m e ∧
      (m : ℚ) * (2 : ℚ) ^ e ≤ 2 * ((m1 : ℚ) * (2 : ℚ) ^ e1 * ((m2 : ℚ) * (2 : ℚ) ^ e2)) ∧
      |(m : ℚ) * (2 : ℚ) ^ e - (m1 : ℚ) * (2 : ℚ) ^ e1 * ((m2 : ℚ) * (2 : ℚ) ^ e2)| ≤
        max ((m1 : ℚ) * (2 : ℚ) ^ e1 * ((m2 : ℚ) * (2 : ℚ) ^ e2) * (2 : ℚ) ^ (-53 : Int))
          ((2 : ℚ) ^ (-1075 : Int)) := by
  have hq : ((m1 * m2 : Nat) : ℚ) / ((1 : Nat) : ℚ) * (2 : ℚ) ^ (e1 + e2) =
      (m1 : ℚ) * (2 : ℚ) ^ e1 * ((m2 : ℚ) * (2 : ℚ) ^ e2) := by
    rw [zpow_add₀ (by norm_num)]
    push_cast
    ring
  obtain ⟨m, e, hr, hval, herr, _⟩ := F64.round_spec (xor n1 n2) (m1 * m2) 1 (e1 + e2)
    (by norm_num) (by rw [hq]; exact hv)
  rw [hq] at hval herr
  exact ⟨m, e, by simp only [F64.mul]; exact hr, hval, herr⟩

/-- The float64 evaluation of `((o - c) / o) * 100` for float64 values
`0 < c ≤ o`: a finite non-negative float within `10^-13` of the exact quotient. -/
theorem F64.percent_spec (mo : Nat) (eo : Int) (mc : Nat) (ec : Int)
    (hmo : 0 < mo) (hov : (F64.fin false mo eo).isBinary64 = true)
    (hcv : (F64.fin false mc ec).isBinary64 = true)
    (hle : F64.lt (F64.fin false mo eo) (F64.fin false mc ec) = false) :
    ∃ (m : Nat) (e : Int),
      F64.mul (F64.div (F64.sub (F64.fin false mo eo) (F64.fin false mc ec))
        (F64.fin false mo eo)) (F64.ofNat 100) = F64.fin false m e ∧
      |(m : ℚ) * (2 : ℚ) ^ e -
        ((mo : ℚ) * (2 : ℚ) ^ eo - (mc : ℚ) * (2 : ℚ) ^ ec) / ((mo : ℚ) * (2 : ℚ) ^ eo) * 100| ≤
        1 / 10 ^ 13 := by
  simp only [F64.isBinary64, Bool.and_eq_true, decide_eq_true_eq] at hov hcv
  obtain ⟨⟨hmo53, heo1⟩, heo2⟩ := hov
  obtain ⟨⟨_, hec1⟩, _⟩ := hcv
  have hOpos : (0 : ℚ) < (mo : ℚ) * (2 : ℚ) ^ eo := by
    have : (0 : ℚ) < (mo : ℚ) := by exact_mod_cast hmo
    positivity
  have hCnn : (0 : ℚ) ≤ (mc : ℚ) * (2 : ℚ) ^ ec := by positivity
  have hrange : (mo : ℚ) * (2 : ℚ) ^ eo ≤ (2 ^ 53 - 1) * (2 : ℚ) ^ (971 : Int) := by
    have h1 : (mo : ℚ) ≤ 2 ^ 53 - 1 := by
      have : mo ≤ 2 ^ 53 - 1 := by omega
      have h2 : ((mo : Nat) : ℚ) ≤ ((2 ^ 53 - 1 : Nat) : ℚ) := by exact_mod_cast this
      norm_num at h2 ⊢
      exact h2
    have h2 : (2 : ℚ) ^ eo ≤ (2 : ℚ) ^ (971 : Int) := zpow_le_zpow_right₀ (by norm_num) heo2
    exact mul_le_mul h1 h2 (by positivity) (by norm_num)
  have hB := F64.maxFloat_ge
  obtain ⟨ms, es, hs, hA, hSval, hSerr⟩ := F64.sub_fin_spec mo eo mc ec hrange heo1 hec1 hle
  set O : ℚ := (mo : ℚ) * (2 : ℚ) ^ eo with hOdef
  set A : ℚ := O - (mc : ℚ) * (2 : ℚ) ^ ec with hAdef
  set S : ℚ := (ms : ℚ) * (2 : ℚ) ^ es with hSdef
  have hS0 : 0 ≤ S := by positivity
  have hAO : A ≤ O := by linarith
  have hq2 : S / O ≤ 2 := by
    rw [div_le_iff₀ hOpos]
    linarith
  obtain ⟨mt, et, ht, hTval, hTerr⟩ := F64.div_fin_spec false ms es false mo eo hmo
    (by linarith)
  set T : ℚ := (mt : ℚ) * (2 : ℚ) ^ et with hTdef
  have hT0 : 0 ≤ T := by positivity
  have hT4 : T ≤ 4 := by linarith
  have hH : ((7036874417766400 : Nat) : ℚ) * (2 : ℚ) ^ (-46 : Int) = 100 := by
    norm_num
  obtain ⟨md, ed, hd, hDval, hDerr⟩ := F64.mul_fin_spec false mt et false 7036874417766400 (-46)
    (by rw [hH]; linarith)
  rw [hH] at hDval hDerr
  refine ⟨md, ed, ?_, ?_⟩
  · rw [hs, ht, F64.ofNat_hundred]
    exact hd
  · set D : ℚ := (md : ℚ) * (2 : ℚ) ^ ed with hDdef
    have hu : (2 : ℚ) ^ (-53 : Int) = 1 / 9007199254740992 := by norm_num
    have hη : (2 : ℚ) ^ (-1075 : Int) ≤ 1 / 9007199254740992 := by
      rw [← hu]
      exact zpow_le_zpow_right₀ (by norm_num) (by norm_num)
    have hηpos : (0 : ℚ) < (2 : ℚ) ^ (-1075 : Int) := by positivity
    rw [hu] at hSerr hTerr hDerr
    -- the three errors
    have e1 : |S / O - A / O| ≤ 1 / 9007199254740992 := by
      rw [← sub_div, abs_div, abs_of_pos hOpos, div_le_iff₀ hOpos]
      calc |S - A| ≤ A * (1 / 9007199254740992) := hSerr
        _ ≤ O * (1 / 9007199254740992) := by
          exact mul_le_mul_of_nonneg_right hAO (by norm_num)
        _ = 1 / 9007199254740992 * O := by ring
    have e2 : |T - S / O| ≤ 3 / 9007199254740992 := by
      apply le_trans hTerr
      apply max_le
      · have := mul_le_mul_of_nonneg_right hq2
          (show (0 : ℚ) ≤ 1 / 9007199254740992 by norm_num)
        linarith
      · linarith
    have e3 : |D - T * 100| ≤ 400 / 9007199254740992 := by
      apply le_trans hDerr
      apply max_le
      · have := mul_le_mul_of_nonneg_right hT4
          (show (0 : ℚ) ≤ 100 * (1 / 9007199254740992) by norm_num)
        linarith
      · linarith
    have e1' := abs_le.mp e1
    have e2' := abs_le.mp e2
    have e3' := abs_le.mp e3
    rw [abs_le]
    constructor
    · have : (-(1 / 10 ^ 13) : ℚ) ≤ -(801 / 9007199254740992) := by norm_num
      linarith [e1'.1, e2'.1, e3'.1]
    · have : (801 / 9007199254740992 : ℚ) ≤ 1 / 10 ^ 13 := by norm_num
      linarith [e1'.2, e2'.2, e3'.2]

theorem F64.toRat_fin_false (m : Nat) (e : Int) :
    F64.toRat (F64.fin false m e) = (m : ℚ) * (2 : ℚ) ^ e := by
  simp [F64.toRat]

/-- C1, as the code has it.  When the two price strings are read as float64
numbers `0 < c ≤ o` (current, original), the discount field is "-", the decimal
digits of a natural number `n`, and "%", where `n` is the integer nearest to the
float64 value `d` of `((o - c) / o) * 100`, ties going to the even integer; `d`
is finite and within `10^-13` of the exact quotient.  For "450.00 AZN" and
"500.00 AZN" the discount is "-10%". -/
theorem discount_is_rounded_float_percentage (ParseFloat : String → Option F64)
    (product : Product) (cur orig : String) (mc : Nat) (ec : Int) (mo : Nat) (eo : Int)
    (hc : extractNumericPrice ParseFloat cur = F64.fin false mc ec)
    (ho : extractNumericPrice ParseFloat orig = F64.fin false mo eo)
    (hcv : (F64.fin false mc ec).isBinary64 = true)
    (hov : (F64.fin false mo eo).isBinary64 = true)
    (hcpos : F64.lt (F64.ofNat 0) (F64.fin false mc ec) = true)
    (hle : F64.lt (F64.fin false mo eo) (F64.fin false mc ec) = false) :
    (∃ (d : F64) (n : Nat),
      d = F64.mul (F64.div (F64.sub (F64.fin false mo eo) (F64.fin false mc ec))
        (F64.fin false mo eo)) (F64.ofNat 100) ∧
      d.isFinite = true ∧
      (IrshadScraper.assignPrices ParseFloat product cur orig).Discount =
        "-" ++ Nat.repr n ++ "%" ∧
      |(n : ℚ) - d.toRat| ≤ 1 / 2 ∧
      (|(n : ℚ) - d.toRat| = 1 / 2 → n % 2 = 0) ∧
      |d.toRat - ((F64.fin false mo eo).toRat - (F64.fin false mc ec).toRat) /
        (F64.fin false mo eo).toRat * 100| ≤ 1 / 10 ^ 13) ∧
    (IrshadScraper.assignPrices strconv.ParseDecimal {} "450.00 AZN" "500.00 AZN").Discount =
      "-10%" := by
  refine ⟨?_, by decide⟩
  obtain ⟨_, hmc⟩ := F64.pos_fin false mc ec hcpos
  have hCpos : (0 : ℚ) < (F64.fin false mc ec).toRat := by
    have := (F64.lt_fin_iff false 0 (-1074) false mc ec).mp (by rw [← F64.ofNat_zero]; exact hcpos)
    simpa [F64.toRat] using this
  have hCO : (F64.fin false mc ec).toRat ≤ (F64.fin false mo eo).toRat := by
    rw [← not_lt, ← F64.lt_fin_iff]
    simp [hle]
  have hopos : F64.lt (F64.ofNat 0) (F64.fin false mo eo) = true := by
    rw [F64.ofNat_zero, F64.lt_fin_iff]
    have h0 : (F64.fin false 0 (-1074)).toRat = 0 := by simp [F64.toRat]
    rw [h0]
    linarith
  obtain ⟨_, hmo⟩ := F64.pos_fin false mo eo hopos
  have hcne : cur ≠ "" := by
    intro h0
    rw [h0, extractNumericPrice_empty] at hc
    rw [← hc] at hcpos
    revert hcpos; decide
  have hone : orig ≠ "" := by
    intro h0
    rw [h0, extractNumericPrice_empty] at ho
    rw [← ho] at hopos
    revert hopos; decide
  obtain ⟨md, ed, hd, herr⟩ := F64.percent_spec mo eo mc ec hmo hov hcv hle
  obtain ⟨n, hfmt, hnear, htie⟩ := fixed_zero_nearest md ed
  refine ⟨F64.fin false md ed, n, hd.symm, rfl, ?_, ?_, ?_, ?_⟩
  · unfold IrshadScraper.assignPrices
    simp only [ne_eq, hcne, not_false_eq_true, hone, and_self, if_true, hc, ho, hopos, hcpos,
      Bool.and_self, hd, hfmt]
  · rw [F64.toRat_fin_false]; exact hnear
  · rw [F64.toRat_fin_false]; exact htie
  · rw [F64.toRat_fin_false, F64.toRat_fin_false, F64.toRat_fin_false]; exact herr

/-- C1 at current "450.00 AZN" (450) and original "500.00 AZN" (500). -/
theorem discount_is_rounded_float_percentage_witness :
    ∃ (d : F64) (n : Nat),
      d = F64.mul (F64.div (F64.sub (F64.fin false 8796093022208000 (-44))
        (F64.fin false 7916483719987200 (-44))) (F64.fin false 8796093022208000 (-44)))
        (F64.ofNat 100) ∧
      d.isFinite = true ∧
      (IrshadScraper.assignPrices strconv.ParseDecimal {} "450.00 AZN" "500.00 AZN").Discount =
        "-" ++ Nat.repr n ++ "%" ∧
      |(n : ℚ) - d.toRat| ≤ 1 / 2 ∧
      (|(n : ℚ) - d.toRat| = 1 / 2 → n % 2 = 0) ∧
      |d.toRat - ((F64.fin false 8796093022208000 (-44)).toRat -
        (F64.fin false 7916483719987200 (-44)).toRat) /
        (F64.fin false 8796093022208000 (-44)).toRat * 100| ≤ 1 / 10 ^ 13 :=
  (discount_is_rounded_float_percentage strconv.ParseDecimal {} "450.00 AZN" "500.00 AZN"
    7916483719987200 (-44) 8796093022208000 (-44) (by decide) (by decide) (by decide)
    (by decide) (by decide) (by decide)).1

/-- C1 fails as stated.  With current "1001.00 AZN" and original "1000.00 AZN"
(read as 1001 and 1000) the exact percentage is -1/10, whose nearest integer is
0, and the discount field is "--0%", not "-0%".  With current "0.01 AZN" and
original "2.00 AZN" the percentage of the two numbers read is below 99.5, so
its nearest integer is 99, and the discount field is "-100%". -/
theorem discount_not_nearest_integer :
    (extractNumericPrice strconv.ParseDecimal "1001.00 AZN").toRat = 1001 ∧
    (extractNumericPrice strconv.ParseDecimal "1000.00 AZN").toRat = 1000 ∧
    |(0 : ℚ) - ((1000 : ℚ) - 1001) / 1000 * 100| < 1 / 2 ∧
    (IrshadScraper.assignPrices strconv.ParseDecimal {} "1001.00 AZN" "1000.00 AZN").Discount =
      "--0%" ∧
    "--0%" ≠ "-" ++ Nat.repr 0 ++ "%" ∧
    (extractNumericPrice strconv.ParseDecimal "0.01 AZN").toRat =
      5764607523034235 / 576460752303423488 ∧
    (extractNumericPrice strconv.ParseDecimal "2.00 AZN").toRat = 2 ∧
    |(99 : ℚ) - ((2 : ℚ) - 5764607523034235 / 576460752303423488) / 2 * 100| < 1 / 2 ∧
    (IrshadScraper.assignPrices strconv.ParseDecimal {} "0.01 AZN" "2.00 AZN").Discount =
      "-100%" ∧
    "-100%" ≠ "-" ++ Nat.repr 99 ++ "%" := by
  have h1 : extractNumericPrice strconv.ParseDecimal "1001.00 AZN" =
      F64.fin false 8804889115230208 (-43) := by decide
  have h2 : extractNumericPrice strconv.ParseDecimal "1000.00 AZN" =
      F64.fin false 8796093022208000 (-43) := by decide
  have h3 : extractNumericPrice strconv.ParseDecimal "0.01 AZN" =
      F64.fin false 5764607523034235 (-59) := by decide
  have h4 : extractNumericPrice strconv.ParseDecimal "2.00 AZN" =
      F64.fin false 4503599627370496 (-51) := by decide
  refine ⟨?_, ?_, ?_, by decide, by decide, ?_, ?_, ?_, by decide, by decide⟩
  · rw [h1, F64.toRat_fin_false]; norm_num
  · rw [h2, F64.toRat_fin_false]; norm_num
  · norm_num [abs_lt]
  · rw [h3, F64.toRat_fin_false]; norm_num
  · rw [h4, F64.toRat_fin_false]; norm_num
  · norm_num [abs_lt]

/-! ## The free-text price fallback -/

theorem F64.ofNat_tenThousand : F64.ofNat 10000 = F64.fin false 5497558138880000 (-39) := by
  decide

theorem IrshadScraper.priceInRange_fin (p : F64) (h : IrshadScraper.priceInRange p = true) :
    p.isFinite = true := by
  unfold IrshadScraper.priceInRange at h
  rw [F64.ofNat_hundred, F64.ofNat_tenThousand] at h
  cases p with
  | nan => simp [F64.lt] at h
  | inf neg => cases neg <;> simp [F64.lt] at h
  | fin neg m e => rfl

/-- The order that `sort.Float64s` uses agrees with the order of the values on
finite floats. -/
theorem IrshadScraper.float64Less_fin (a b : F64) (ha : a.isFinite = true)
    (hb : b.isFinite = true) :
    IrshadScraper.float64Less b a = false ↔ a.toRat ≤ b.toRat := by
  cases a with
  | nan => cases ha
  | inf _ => cases ha
  | fin n1 m1 e1 =>
    cases b with
    | nan => cases hb
    | inf _ => cases hb
    | fin n2 m2 e2 =>
      have h := F64.lt_fin_iff n2 m2 e2 n1 m1 e1
      simp only [IrshadScraper.float64Less, reduceCtorEq, decide_False, Bool.false_and,
        Bool.or_false]
      rw [← not_lt, ← h]
      simp

theorem F64.eq_iff_of_fin (a b : F64) (ha : a.isFinite = true) (hb : b.isFinite = true) :
    F64.eq a b = true ↔ a.toRat = b.toRat := by
  cases a with
  | nan => cases ha
  | inf _ => cases ha
  | fin n1 m1 e1 =>
    cases b with
    | nan => cases hb
    | inf _ => cases hb
    | fin n2 m2 e2 => exact F64.eq_fin_iff n1 m1 e1 n2 m2 e2

theorem F64.lt_iff_of_fin (a b : F64) (ha : a.isFinite = true) (hb : b.isFinite = true) :
    F64.lt a b = true ↔ a.toRat < b.toRat := by
  cases a with
  | nan => cases ha
  | inf _ => cases ha
  | fin n1 m1 e1 =>
    cases b with
    | nan => cases hb
    | inf _ => cases hb
    | fin n2 m2 e2 => exact F64.lt_fin_iff n1 m1 e1 n2 m2 e2

/-- Inserting into a sorted list keeps it sorted when the relation is total and
transitive on the elements at hand. -/
theorem sorted_orderedInsert_on {α : Type} (r : α → α → Prop) [DecidableRel r] (S : α → Prop)
    (htot : ∀ a b, S a → S b → r a b ∨ r b a)
    (htr : ∀ a b c, S a → S b → S c → r a b → r b c → r a c)
    (a : α) (ha : S a) (l : List α) (hl : ∀ x ∈ l, S x) (hs : l.Sorted r) :
    (l.orderedInsert r a).Sorted r := by
  induction l with
  | nil => simp
  | cons b l ih =>
    have hb : S b := hl b (List.mem_cons_self _ _)
    have hl2 : ∀ x ∈ l, S x := fun x hx => hl x (List.mem_cons_of_mem _ hx)
    rw [List.orderedInsert]
    have hs2 := List.sorted_cons.mp hs
    split
    · rename_i hab
      refine List.sorted_cons.mpr ⟨?_, hs⟩
      intro x hx
      rcases List.mem_cons.mp hx with rfl | hx
      · exact hab
      · exact htr a b x ha hb (hl2 x hx) hab (hs2.1 x hx)
    · rename_i hab
      have hba : r b a := (htot a b ha hb).resolve_left hab
      refine List.sorted_cons.mpr ⟨?_, ih hl2 hs2.2⟩
      intro x hx
      rcases (List.mem_orderedInsert r).mp hx with rfl | hx
      · exact hba
      · exact hs2.1 x hx

theorem sorted_insertionSort_on {α : Type} (r : α → α → Prop) [DecidableRel r] (S : α → Prop)
    (htot : ∀ a b, S a → S b → r a b ∨ r b a)
    (htr : ∀ a b c, S a → S b → S c → r a b → r b c → r a c)
    (l : List α) (hl : ∀ x ∈ l, S x) : (l.insertionSort r).Sorted r := by
  induction l with
  | nil => simp
  | cons a l ih =>
    rw [List.insertionSort]
    apply sorted_orderedInsert_on r S htot htr a (hl a (List.mem_cons_self _ _))
    · intro x hx
      exact hl x (List.mem_cons_of_mem _ ((List.mem_insertionSort r).mp hx))
    · exact ih fun x hx => hl x (List.mem_cons_of_mem _ hx)

theorem IrshadScraper.sortFloat64s_sorted (xs : List F64)
    (hfin : ∀ x ∈ xs, x.isFinite = true) :
    (IrshadScraper.sortFloat64s xs).Sorted (fun a b => a.toRat ≤ b.toRat) ∧
    (IrshadScraper.sortFloat64s xs).Perm xs := by
  refine ⟨?_, List.perm_insertionSort _ xs⟩
  have hs := sorted_insertionSort_on (fun a b => IrshadScraper.float64Less b a = false)
    (fun x => x.isFinite = true)
    (fun a b ha hb => by
      show IrshadScraper.float64Less b a = false ∨ IrshadScraper.float64Less a b = false
      rw [IrshadScraper.float64Less_fin a b ha hb, IrshadScraper.float64Less_fin b a hb ha]
      exact le_total _ _)
    (fun a b c ha hb hc hab hbc => by
      show IrshadScraper.float64Less c a = false
      have hab2 : IrshadScraper.float64Less b a = false := hab
      have hbc2 : IrshadScraper.float64Less c b = false := hbc
      rw [IrshadScraper.float64Less_fin _ _ ha hb] at hab2
      rw [IrshadScraper.float64Less_fin _ _ hb hc] at hbc2
      rw [IrshadScraper.float64Less_fin _ _ ha hc]
      exact le_trans hab2 hbc2)
    xs hfin
  unfold IrshadScraper.sortFloat64s
  refine List.Pairwise.imp_of_mem ?_ hs
  intro a b ha hb hab
  have ha2 := hfin a ((List.mem_insertionSort _).mp ha)
  have hb2 := hfin b ((List.mem_insertionSort _).mp hb)
  exact (IrshadScraper.float64Less_fin a b ha2 hb2).mp hab

/-- The deduplication loop keeps members of the input, keeps one representative of
every value, and keeps no two equal values. -/
theorem IrshadScraper.uniquePrices_spec (prices : List F64)
    (hfin : ∀ x ∈ prices, x.isFinite = true) :
    (∀ q ∈ IrshadScraper.uniquePrices prices, q ∈ prices) ∧
    (∀ p ∈ prices, ∃ q ∈ IrshadScraper.uniquePrices prices, q.toRat = p.toRat) ∧
    (IrshadScraper.uniquePrices prices).Pairwise (fun a b => a.toRat ≠ b.toRat) := by
  have key : ∀ (rest acc : List F64), (∀ x ∈ rest, x.isFinite = true) →
      (∀ x ∈ acc, x.isFinite = true) → acc.Pairwise (fun a b => a.toRat ≠ b.toRat) →
      let out := rest.foldl (fun final price =>
        if final.any (fun q => F64.eq q price) then final else final ++ [price]) acc
      (∀ q ∈ out, q ∈ acc ∨ q ∈ rest) ∧
      (∀ p, p ∈ acc ∨ p ∈ rest → ∃ q ∈ out, q.toRat = p.toRat) ∧
      out.Pairwise (fun a b => a.toRat ≠ b.toRat) := by
    intro rest
    induction rest with
    | nil =>
      intro acc _ _ hpw
      refine ⟨fun q hq => Or.inl hq, ?_, hpw⟩
      rintro p (hp | hp)
      · exact ⟨p, hp, rfl⟩
      · cases hp
    | cons price rest ih =>
      intro acc hrest hacc hpw
      have hprice : price.isFinite = true := hrest price (List.mem_cons_self _ _)
      have hrest2 : ∀ x ∈ rest, x.isFinite = true :=
        fun x hx => hrest x (List.mem_cons_of_mem _ hx)
      simp only [List.foldl_cons]
      by_cases hany : acc.any (fun q => F64.eq q price) = true
      · rw [if_pos hany]
        obtain ⟨h1, h2, h3⟩ := ih acc hrest2 hacc hpw
        refine ⟨?_, ?_, h3⟩
        · intro q hq
          rcases h1 q hq with h | h
          · exact Or.inl h
          · exact Or.inr (List.mem_cons_of_mem _ h)
        · rintro p (hp | hp)
          · exact h2 p (Or.inl hp)
          · rcases List.mem_cons.mp hp with rfl | hp
            · obtain ⟨q, hq, hqe⟩ := List.any_eq_true.mp hany
              have hqv := (F64.eq_iff_of_fin q p (hacc q hq) hprice).mp hqe
              obtain ⟨q2, hq2, hq2e⟩ := h2 q (Or.inl hq)
              exact ⟨q2, hq2, hq2e.trans hqv⟩
            · exact h2 p (Or.inr hp)
      · rw [if_neg hany]
        have hacc2 : ∀ x ∈ acc ++ [price], x.isFinite = true := by
          intro x hx
          rcases List.mem_append.mp hx with h | h
          · exact hacc x h
          · rw [List.mem_singleton.mp h]; exact hprice
        have hpw2 : (acc ++ [price]).Pairwise (fun a b => a.toRat ≠ b.toRat) := by
          rw [List.pairwise_append]
          refine ⟨hpw, List.pairwise_singleton _ _, ?_⟩
          intro a ha b hb
          rw [List.mem_singleton.mp hb]
          intro hab
          apply hany
          exact List.any_eq_true.mpr ⟨a, ha, (F64.eq_iff_of_fin a price (hacc a ha) hprice).mpr hab⟩
        obtain ⟨h1, h2, h3⟩ := ih (acc ++ [price]) hrest2 hacc2 hpw2
        refine ⟨?_, ?_, h3⟩
        · intro q hq
          rcases h1 q hq with h | h
          · rcases List.mem_append.mp h with h | h
            · exact Or.inl h
            · rw [List.mem_singleton.mp h]; exact Or.inr (List.mem_cons_self _ _)
          · exact Or.inr (List.mem_cons_of_mem _ h)
        · rintro p (hp | hp)
          · exact h2 p (Or.inl (List.mem_append_left _ hp))
          · rcases List.mem_cons.mp hp with rfl | hp
            · exact h2 p (Or.inl (List.mem_append_right _ (List.mem_singleton_self _)))
            · exact h2 p (Or.inr hp)
  obtain ⟨h1, h2, h3⟩ := key prices [] hfin (by simp) List.Pairwise.nil
  refine ⟨?_, ?_, h3⟩
  · intro q hq
    rcases h1 q hq with h | h
    · cases h
    · exact h
  · intro p hp
    exact h2 p (Or.inr hp)

theorem pairwise_le_getLast {α : Type} (f : α → ℚ) (l : List α) (h : l ≠ [])
    (hs : l.Pairwise (fun a b => f a ≤ f b)) : ∀ x ∈ l, f x ≤ f (l.getLast h) := by
  induction l with
  | nil => exact absurd rfl h
  | cons a t ih =>
    cases t with
    | nil =>
      intro x hx
      rw [List.mem_singleton.mp hx]
      simp
    | cons b t =>
      intro x hx
      rw [List.getLast_cons (List.cons_ne_nil b t)]
      rcases List.mem_cons.mp hx with rfl | hx
      · exact (List.pairwise_cons.mp hs).1 _ (List.getLast_mem _)
      · exact ih (List.cons_ne_nil b t) (List.pairwise_cons.mp hs).2 x hx

theorem IrshadScraper.priceCandidate_inRange (ToLower : String → String)
    (ParseFloat : String → Option F64) (re : String → Option String) (raw : String) (p : F64)
    (h : IrshadScraper.priceCandidate ToLower ParseFloat re raw = some p) :
    IrshadScraper.priceInRange p = true := by
  unfold IrshadScraper.priceCandidate at h
  simp only at h
  split at h
  · split at h
    · split at h
      · split at h
        · rename_i hin
          cases h
          exact hin
        · cases h
      · cases h
    · cases h
  · cases h

/-- C2. For every list of candidate prices that passed the numeric filter of the
fallback (strictly between 100 and 10000): if the list is empty both prices are
left as they were; if all candidates are the same value, that value becomes the
current price and the original price is left as it was; if two different values
occur, the current price is the lowest and the original price the highest
candidate; each is written with two decimals and the suffix " AZN".  Every
price the text filter collects passes the numeric filter, the fallback does
nothing once a current price is known, and the texts "499.00 AZN",
"650.00 AZN", "120.00 AZN" give current "120.00 AZN" and original
"650.00 AZN". -/
theorem fallback_lowest_current_highest_original (prices : List F64) (cur orig : String)
    (hacc : ∀ p ∈ prices, IrshadScraper.priceInRange p = true) :
    (prices = [] → IrshadScraper.pickPrices prices cur orig = (cur, orig)) ∧
    (prices ≠ [] → (∀ p ∈ prices, ∀ q ∈ prices, F64.eq p q = true) →
      ∃ p ∈ prices, IrshadScraper.pickPrices prices cur orig = (fmt.fixed 2 p ++ " AZN", orig)) ∧
    ((∃ p ∈ prices, ∃ q ∈ prices, F64.eq p q = false) →
      ∃ lo ∈ prices, ∃ hi ∈ prices,
        (∀ p ∈ prices, F64.lt p lo = false ∧ F64.lt hi p = false) ∧
        IrshadScraper.pickPrices prices cur orig =
          (fmt.fixed 2 lo ++ " AZN", fmt.fixed 2 hi ++ " AZN")) ∧
    (∀ (ToLower : String → String) (ParseFloat : String → Option F64)
      (re : String → Option String) (texts : List String),
      (∀ p ∈ texts.filterMap (IrshadScraper.priceCandidate ToLower ParseFloat re),
        IrshadScraper.priceInRange p = true) ∧
      (cur ≠ "" →
        IrshadScraper.textFallback ToLower ParseFloat re texts (cur, orig) = (cur, orig))) ∧
    IrshadScraper.visibleTextPrices asciiLower strconv.ParseDecimal
      ["499.00 AZN", "650.00 AZN", "120.00 AZN"] ("", "") = ("120.00 AZN", "650.00 AZN") := by
  have hfin : ∀ x ∈ prices, x.isFinite = true :=
    fun x hx => IrshadScraper.priceInRange_fin x (hacc x hx)
  obtain ⟨hsub, hrep, hdist⟩ := IrshadScraper.uniquePrices_spec prices hfin
  have hufin : ∀ x ∈ IrshadScraper.uniquePrices prices, x.isFinite = true :=
    fun x hx => hfin x (hsub x hx)
  obtain ⟨hsorted, hperm⟩ := IrshadScraper.sortFloat64s_sorted _ hufin
  have hsdist : (IrshadScraper.sortFloat64s (IrshadScraper.uniquePrices prices)).Pairwise
      (fun a b => a.toRat ≠ b.toRat) :=
    (hperm.pairwise_iff (fun {a b} (h : a.toRat ≠ b.toRat) => h.symm)).mpr hdist
  have hsmem : ∀ x, x ∈ IrshadScraper.sortFloat64s (IrshadScraper.uniquePrices prices) →
      x ∈ prices := fun x hx => hsub x (hperm.mem_iff.mp hx)
  have hsrep : ∀ p ∈ prices,
      ∃ q ∈ IrshadScraper.sortFloat64s (IrshadScraper.uniquePrices prices),
        q.toRat = p.toRat := by
    intro p hp
    obtain ⟨q, hq, hqe⟩ := hrep p hp
    exact ⟨q, hperm.mem_iff.mpr hq, hqe⟩
  refine ⟨?_, ?_, ?_, ?_, by decide⟩
  · intro h
    simp [IrshadScraper.pickPrices, h]
  · intro hne hall
    have hlen : prices.length > 0 := List.length_pos.mpr hne
    unfold IrshadScraper.pickPrices
    rw [if_pos hlen]
    rcases hS : IrshadScraper.sortFloat64s (IrshadScraper.uniquePrices prices) with
      _ | ⟨p, _ | ⟨q, rest⟩⟩
    · obtain ⟨x, hx⟩ := List.exists_mem_of_ne_nil prices hne
      obtain ⟨y, hy, _⟩ := hsrep x hx
      rw [hS] at hy
      cases hy
    · refine ⟨p, hsmem p (by rw [hS]; exact List.mem_cons_self _ _), rfl⟩
    · exfalso
      rw [hS] at hsdist hsmem
      have hp := hsmem p (List.mem_cons_self _ _)
      have hq := hsmem q (List.mem_cons_of_mem _ (List.mem_cons_self _ _))
      have hne2 := (List.pairwise_cons.mp hsdist).1 q (List.mem_cons_self _ _)
      exact hne2 ((F64.eq_iff_of_fin p q (hfin p hp) (hfin q hq)).mp (hall p hp q hq))
  · rintro ⟨a, ha, b, hb, hab⟩
    have hne : prices ≠ [] := List.ne_nil_of_mem ha
    have hlen : prices.length > 0 := List.length_pos.mpr hne
    have habv : a.toRat ≠ b.toRat := by
      intro h
      rw [(F64.eq_iff_of_fin a b (hfin a ha) (hfin b hb)).mpr h] at hab
      cases hab
    unfold IrshadScraper.pickPrices
    rw [if_pos hlen]
    rcases hS : IrshadScraper.sortFloat64s (IrshadScraper.uniquePrices prices) with
      _ | ⟨p, _ | ⟨q, rest⟩⟩
    · obtain ⟨y, hy, _⟩ := hsrep a ha
      rw [hS] at hy
      cases hy
    · exfalso
      obtain ⟨y, hy, hya⟩ := hsrep a ha
      obtain ⟨z, hz, hzb⟩ := hsrep b hb
      rw [hS] at hy hz
      rw [List.mem_singleton.mp hy] at hya
      rw [List.mem_singleton.mp hz] at hzb
      exact habv (hya.symm.trans hzb)
    · rw [hS] at hsorted hsmem hsrep
      have hlastmem : (q :: rest).getLast (List.cons_ne_nil q rest) ∈ p :: q :: rest :=
        List.mem_cons_of_mem _ (List.getLast_mem _)
      refine ⟨p, hsmem p (List.mem_cons_self _ _), _, hsmem _ hlastmem, ?_, rfl⟩
      intro x hx
      obtain ⟨y, hy, hyx⟩ := hsrep x hx
      have hlo : p.toRat ≤ y.toRat := by
        rcases List.mem_cons.mp hy with rfl | hy2
        · exact le_refl _
        · exact (List.pairwise_cons.mp hsorted).1 y hy2
      have hhi : y.toRat ≤ ((q :: rest).getLast (List.cons_ne_nil q rest)).toRat := by
        have := pairwise_le_getLast F64.toRat (p :: q :: rest) (List.cons_ne_nil _ _) hsorted y hy
        rwa [List.getLast_cons (List.cons_ne_nil q rest)] at this
      rw [hyx] at hlo hhi
      have hxf := hfin x hx
      have hpf := hfin p (hsmem p (List.mem_cons_self _ _))
      have hlf := hfin _ (hsmem _ hlastmem)
      constructor
      · rw [← Bool.not_eq_true, F64.lt_iff_of_fin x p hxf hpf]
        exact not_lt.mpr hlo
      · rw [← Bool.not_eq_true, F64.lt_iff_of_fin _ x hlf hxf]
        exact not_lt.mpr hhi
  · intro ToLower ParseFloat re texts
    constructor
    · intro p hp
      obtain ⟨raw, _, hraw⟩ := List.mem_filterMap.mp hp
      exact IrshadScraper.priceCandidate_inRange ToLower ParseFloat re raw p hraw
    · intro hcur
      simp [IrshadScraper.textFallback, hcur]

/-- C2 at the candidates 499, 650, 120 and 499 again. -/
theorem fallback_lowest_current_highest_original_witness :
    (∀ p ∈ [F64.fin false 8778500836163584 (-44), F64.fin false 5717460464435200 (-43),
        F64.fin false 8444249301319680 (-46), F64.fin false 8778500836163584 (-44)],
      IrshadScraper.priceInRange p = true) ∧
    ∃ lo ∈ [F64.fin false 8778500836163584 (-44), F64.fin false 5717460464435200 (-43),
        F64.fin false 8444249301319680 (-46), F64.fin false 8778500836163584 (-44)],
      ∃ hi ∈ [F64.fin false 8778500836163584 (-44), F64.fin false 5717460464435200 (-43),
          F64.fin false 8444249301319680 (-46), F64.fin false 8778500836163584 (-44)],
        (∀ p ∈ [F64.fin false 8778500836163584 (-44), F64.fin false 5717460464435200 (-43),
            F64.fin false 8444249301319680 (-46), F64.fin false 8778500836163584 (-44)],
          F64.lt p lo = false ∧ F64.lt hi p = false) ∧
        IrshadScraper.pickPrices
          [F64.fin false 8778500836163584 (-44), F64.fin false 5717460464435200 (-43),
            F64.fin false 8444249301319680 (-46), F64.fin false 8778500836163584 (-44)] "" "" =
          (fmt.fixed 2 lo ++ " AZN", fmt.fixed 2 hi ++ " AZN") :=
  ⟨by decide,
    (fallback_lowest_current_highest_original
      [F64.fin false 8778500836163584 (-44), F64.fin false 5717460464435200 (-43),
        F64.fin false 8444249301319680 (-46), F64.fin false 8778500836163584 (-44)] "" ""
      (by decide)).2.2.1
      ⟨F64.fin false 8778500836163584 (-44), by decide,
        F64.fin false 5717460464435200 (-43), by decide, by decide⟩⟩

/-! ## Specification rows -/

/-- C3 on the code.  With the rows ("Daxili yaddaş", "128 GB") and
("Daxili yaddaş", "256 GB") the `div.har__row` pass leaves "256 GB" in the
internal-memory field: the later row overwrites the earlier one.  The table
pass of the same function, on the same rows, keeps "128 GB". -/
theorem kontakt_harRows_later_row_overwrites :
    (KontaktScraper.harRows asciiLower {}
      [("Daxili yaddaş", "128 GB"), ("Daxili yaddaş", "256 GB")]).InternalMemory = "256 GB" ∧
    (KontaktScraper.tableRows asciiLower {}
      [("Daxili yaddaş", "128 GB"), ("Daxili yaddaş", "256 GB")]).InternalMemory = "128 GB" := by
  decide

/-- C4 on the code.  A pair whose label is "Qrafik prosessor" goes to the
processor field while that field is empty, because the "prosessor" case stands
before the "qrafik prosessor" case: a single such pair leaves display empty,
and on the element texts of a page whose body holds the row
"Qrafik prosessor : AMD RDNA 2" followed by the text "Stokda var", the first
matching pair (from `body`) fills processor and display gets the value of the
second one (from the row itself). -/
theorem irshad_gpu_row_fills_processor_first :
    (IrshadScraper.specPair asciiLower {} "Qrafik prosessor" "AMD RDNA 2").Display = "" ∧
    (IrshadScraper.specPair asciiLower {} "Qrafik prosessor" "AMD RDNA 2").Processor =
      "AMD RDNA 2" ∧
    (IrshadScraper.specTexts asciiLower {}
      ["PS5 : SonyQrafik prosessor : AMD RDNA 2Stokda var", "PS5 : Sony", "PS5 : Sony",
        "Qrafik prosessor : AMD RDNA 2Stokda var", "Qrafik prosessor : AMD RDNA 2",
        "Stokda var"]).Processor = "AMD RDNA 2Stokda var" ∧
    (IrshadScraper.specTexts asciiLower {}
      ["PS5 : SonyQrafik prosessor : AMD RDNA 2Stokda var", "PS5 : Sony", "PS5 : Sony",
        "Qrafik prosessor : AMD RDNA 2Stokda var", "Qrafik prosessor : AMD RDNA 2",
        "Stokda var"]).Display = "AMD RDNA 2" := by
  decide

/-! ## The error kind of a request without parameters -/

/-- C14 (as the code has it). For every request to the scrape handler in which
the `site` or the `uri` query parameter is missing, the response has status 400
and the error kind in its body is "missing_parameters". -/
theorem handleScrape_missing_parameter_kind (reg : Registry) (site uri : String)
    (hmissing : site = "" ∨ uri = "") :
    (handleScrape reg site uri).status = 400 ∧
    ((handleScrape reg site uri).body.errorFields.map Prod.fst) = some "missing_parameters" := by
  have hbody := missingParametersBody_fields.1
  constructor
  · simp only [handleScrape, if_pos hmissing]
  · simp only [handleScrape, if_pos hmissing]
    rw [hbody]
    rfl

/-- C14 at the request `uri=https://irshad.az/p/1` without `site`. -/
theorem handleScrape_missing_parameter_kind_witness :
    ("" = "" ∨ "https://irshad.az/p/1" = "") ∧
    (handleScrape [] "" "https://irshad.az/p/1").status = 400 ∧
    ((handleScrape [] "" "https://irshad.az/p/1").body.errorFields.map Prod.fst) =
      some "missing_parameters" :=
  ⟨Or.inl rfl, handleScrape_missing_parameter_kind [] "" "https://irshad.az/p/1" (Or.inl rfl)⟩

/-- C14 as the specification has it fails: a request without any parameter is
answered with a kind other than "invalid_parameters". -/
theorem missing_parameter_kind_not_invalid :
    ("" = "" ∨ "" = "") ∧
    ((handleScrape [] "" "").body.errorFields.map Prod.fst) ≠ some "invalid_parameters" := by
  decide

/-! ## The brand taken from the name -/

theorem IrshadScraper.capitalize_spec (brand : String) (h : brand ∈ IrshadScraper.brands) :
    IrshadScraper.capitalize brand =
      some ⟨(brand.data.take 1).map Char.toUpper ++ brand.data.drop 1⟩ := by
  simp only [IrshadScraper.brands, List.mem_cons, List.mem_singleton, List.not_mem_nil,
    or_false] at h
  rcases h with h | h | h | h | h | h | h <;> subst h <;> decide

theorem IrshadScraper.find_first (p : String → Bool) (xs : List String) (i : Nat)
    (hi : i < xs.length) (hp : p (xs.get ⟨i, hi⟩) = true)
    (hfirst : ∀ j (hj : j < xs.length), j < i → p (xs.get ⟨j, hj⟩) = false) :
    xs.find? p = some (xs.get ⟨i, hi⟩) := by
  induction xs generalizing i with
  | nil => simp at hi
  | cons x rest ih =>
    cases i with
    | zero => simp at hp; simp [List.find?, hp]
    | succ k =>
      have hx : p x = false := hfirst 0 (by simp) (by omega)
      simp only [List.find?, hx]
      simp only [List.length_cons, Nat.add_lt_add_iff_right] at hi
      have := ih k hi (by simpa using hp) (fun j hj hjk => by
        have := hfirst (j + 1) (by simp; omega) (by omega)
        simpa using this)
      simpa using this

/-- C16. In the Irshad strategy the name-based brand fallback never fails, and:
when a brand was already found it leaves the product unchanged; when no brand
was found, the brand becomes the first token of the list sony, samsung, apple,
lg, panasonic, microsoft, nintendo (in that order) that occurs in the
lower-cased name, with its first letter upper-cased and the rest unchanged
(Sony, Samsung, Apple, Lg, Panasonic, Microsoft, Nintendo); and when no token
occurs the product, and with it the empty brand, stays as it was. -/
theorem brand_fallback_first_token (ToLower : String → String) (product : Product) :
    (product.Brand ≠ "" → IrshadScraper.brandFromName ToLower product = some product) ∧
    (product.Brand = "" →
      ∀ (i : Nat) (hi : i < IrshadScraper.brands.length),
        strings.Contains (ToLower product.Name) (IrshadScraper.brands.get ⟨i, hi⟩) = true →
        (∀ (j : Nat) (hj : j < IrshadScraper.brands.length), j < i →
          strings.Contains (ToLower product.Name) (IrshadScraper.brands.get ⟨j, hj⟩) = false) →
        IrshadScraper.brandFromName ToLower product =
          some { product with
            Brand := ⟨((IrshadScraper.brands.get ⟨i, hi⟩).data.take 1).map Char.toUpper ++
              (IrshadScraper.brands.get ⟨i, hi⟩).data.drop 1⟩ } ∧
        (IrshadScraper.brandFromName ToLower product).map Product.Brand =
          ["Sony", "Samsung", "Apple", "Lg", "Panasonic", "Microsoft", "Nintendo"][i]?) ∧
    (product.Brand = "" →
      (∀ brand ∈ IrshadScraper.brands,
        strings.Contains (ToLower product.Name) brand = false) →
      IrshadScraper.brandFromName ToLower product = some product) := by
  refine ⟨?_, ?_, ?_⟩
  · intro h
    simp [IrshadScraper.brandFromName, h]
  · intro h i hi hp hfirst
    have hfind := IrshadScraper.find_first
      (fun brand => strings.Contains (ToLower product.Name) brand) IrshadScraper.brands i hi hp
      hfirst
    have hcap := IrshadScraper.capitalize_spec (IrshadScraper.brands.get ⟨i, hi⟩)
      (List.get_mem _ _ _)
    have hbrand : IrshadScraper.brandFromName ToLower product =
        some { product with
          Brand := ⟨((IrshadScraper.brands.get ⟨i, hi⟩).data.take 1).map Char.toUpper ++
            (IrshadScraper.brands.get ⟨i, hi⟩).data.drop 1⟩ } := by
      simp only [IrshadScraper.brandFromName, h, beq_self_eq_true, if_true, hfind, hcap]
      rfl
    refine ⟨hbrand, ?_⟩
    rw [hbrand]
    have hlen : i < 7 := hi
    interval_cases i <;> rfl
  · intro h hnone
    have hfind : IrshadScraper.brands.find?
        (fun brand => strings.Contains (ToLower product.Name) brand) = none := by
      rw [List.find?_eq_none]
      intro brand hmem
      simp [hnone brand hmem]
    simp only [IrshadScraper.brandFromName, h, beq_self_eq_true, if_true, hfind]
    rfl

/-- C16 on a product named "Apple and Samsung chargers" without a brand: the
token samsung precedes apple in the list, so the brand is "Samsung". -/
theorem brand_fallback_first_token_witness :
    IrshadScraper.brandFromName asciiLower { Name := "Apple and Samsung chargers" } =
      some { Name := "Apple and Samsung chargers", Brand := "Samsung" } :=
  ((brand_fallback_first_token asciiLower { Name := "Apple and Samsung chargers" }).2.1 rfl
    1 (by decide) (by decide) (by decide)).1

/-! ## Iteration -/

theorem eachChecked_of_total {σ α : Type} (step : σ → α → Option σ) (f : σ → α → σ)
    (h : ∀ s x, step s x = some (f s x)) (xs : List α) (s : σ) :
    eachChecked step xs s = some (xs.foldl f s) := by
  induction xs generalizing s with
  | nil => rfl
  | cons x rest ih =>
    simp only [eachChecked, List.foldlM_cons, List.foldl_cons, h s x]
    exact ih (f s x)

theorem each_of_total {σ α : Type} (step : σ → α → Option σ) (f : σ → α → σ)
    (h : ∀ s x, step s x = some (f s x)) (xs : List α) (s : σ) :
    each step xs s = xs.foldl f s := by
  induction xs generalizing s with
  | nil => rfl
  | cons x rest ih =>
    simp only [each, List.foldl_cons, h s x, Option.getD_some]
    exact ih (f s x)

theorem eachChecked_eq_some {σ α : Type} (step : σ → α → Option σ)
    (h : ∀ s x, ∃ next, step s x = some next) (xs : List α) (s : σ) :
    eachChecked step xs s = some (each step xs s) := by
  have htotal : ∀ s x, step s x = some ((step s x).getD s) := by
    intro s x
    obtain ⟨next, hnext⟩ := h s x
    rw [hnext]
    rfl
  rw [eachChecked_of_total step (fun s x => (step s x).getD s) htotal]
  rfl

theorem each_append {σ α : Type} (step : σ → α → Option σ) (xs ys : List α) (s : σ) :
    each step (xs ++ ys) s = each step ys (each step xs s) := by
  simp [each, List.foldl_append]

theorem each_invariant {σ α : Type} (step : σ → α → Option σ) (P : σ → Prop)
    (h : ∀ s x next, P s → step s x = some next → P next) (xs : List α) (s : σ) (hs : P s) :
    P (each step xs s) := by
  induction xs generalizing s with
  | nil => exact hs
  | cons x rest ih =>
    simp only [each, List.foldl_cons]
    apply ih
    cases hstep : step s x with
    | none => exact hs
    | some next => exact h s x next hs hstep

theorem foldl_invariant {σ α : Type} (f : σ → α → σ) (P : σ → Prop)
    (h : ∀ s x, P s → P (f s x)) (xs : List α) (s : σ) (hs : P s) :
    P (xs.foldl f s) := by
  induction xs generalizing s with
  | nil => exact hs
  | cons x rest ih => exact ih (f s x) (h s x hs)

/-! ## Indexing and slicing stay in range -/

theorem strings.length_le_of_starts (sub cs : List Char) (h : sub.isPrefixOf cs = true) :
    sub.length ≤ cs.length := by
  induction sub generalizing cs with
  | nil => simp
  | cons a rest ih =>
    cases cs with
    | nil => simp [List.isPrefixOf] at h
    | cons b more =>
      simp only [List.isPrefixOf, Bool.and_eq_true] at h
      simp only [List.length_cons]
      exact Nat.succ_le_succ (ih more h.2)

theorem strings.indexChars_le (sub : List Char) (cs : List Char) (n : Nat)
    (h : strings.indexChars sub cs = some n) : n + sub.length ≤ cs.length := by
  induction cs generalizing n with
  | nil =>
    simp only [strings.indexChars] at h
    split at h
    · rename_i hempty
      simp only [Option.some.injEq] at h
      subst h
      simp [List.isEmpty_iff.mp hempty]
    · cases h
  | cons c t ih =>
    simp only [strings.indexChars] at h
    split at h
    · rename_i hstarts
      simp only [Option.some.injEq] at h
      subst h
      have := strings.length_le_of_starts sub (c :: t) hstarts
      simpa using this
    · cases hrec : strings.indexChars sub t with
      | none => simp [hrec] at h
      | some m =>
        simp only [hrec, Option.map_some', Option.some.injEq] at h
        subst h
        have := ih m hrec
        simp only [List.length_cons]
        omega

theorem strings.Index_range (s substr : String) :
    strings.Index s substr = -1 ∨
    (0 ≤ strings.Index s substr ∧
      strings.Index s substr + (substr.length : Int) ≤ (s.length : Int)) := by
  unfold strings.Index
  cases h : strings.indexChars substr.data s.data with
  | none => exact Or.inl rfl
  | some n =>
    right
    have := strings.indexChars_le substr.data s.data n h
    simp only [String.length]
    constructor
    · exact Int.ofNat_nonneg n
    · exact_mod_cast this

theorem sliceStr_isSome (s : String) (lo hi : Int) (h0 : 0 ≤ lo) (h1 : lo ≤ hi)
    (h2 : hi ≤ (s.length : Int)) :
    ∃ piece, sliceStr s lo hi = some piece ∧
      piece = ⟨(s.data.drop lo.toNat).take (hi - lo).toNat⟩ := by
  refine ⟨_, ?_, rfl⟩
  simp [sliceStr, h0, h1, h2]

theorem strings.splitChars_ne_nil (sep : List Char) (k : Nat) (cur cs : List Char) :
    strings.splitChars sep k cur cs ≠ [] := by
  induction cs generalizing k cur with
  | nil => cases k <;> simp [strings.splitChars]
  | cons c t ih =>
    cases k with
    | zero =>
      simp only [strings.splitChars]
      split
      · simp
      · exact ih 0 (c :: cur)
    | succ k =>
      simp only [strings.splitChars]
      exact ih k cur

theorem strings.Split_head (s sep : String) :
    ∃ first rest, strings.Split s sep = first :: rest := by
  unfold strings.Split
  cases h : strings.splitChars sep.data 0 [] s.data with
  | nil => exact absurd h (strings.splitChars_ne_nil _ _ _ _)
  | cons first rest => exact ⟨String.mk first, rest.map String.mk, rfl⟩

/-! ## Every callback of the Irshad extraction returns -/

theorem IrshadScraper.titleFromLine_shape (product : Product) (line : String) :
    ∃ name, IrshadScraper.titleFromLine product line = some { product with Name := name } := by
  unfold IrshadScraper.titleFromLine
  split
  · split
    · rename_i hstart
      rcases strings.Index_range line "\"title\":\"" with hneg | ⟨h0, hlen⟩
      · simp [hneg] at hstart
      · have h9 : ((("\"title\":\"" : String).length : Nat) : Int) = 9 := by decide
        rw [h9] at hlen
        obtain ⟨tail, htail, htaildef⟩ := sliceStr_isSome line
          (strings.Index line "\"title\":\"" + 9) line.length (by omega) hlen le_rfl
        simp only [sliceFrom, htail, Option.bind_eq_bind, Option.some_bind]
        split
        · rcases strings.Index_range tail "\"," with hneg2 | ⟨h02, hlen2⟩
          · rename_i hend
            simp [hneg2] at hend
          · have htl : (tail.length : Int) =
                (line.length : Int) - (strings.Index line "\"title\":\"" + 9) := by
              rw [htaildef]
              simp only [String.length, List.length_take, List.length_drop]
              simp only [String.length] at hlen
              omega
            have h2 : ((("\"," : String).length : Nat) : Int) = 2 := by decide
            rw [h2] at hlen2
            obtain ⟨title, htitle, -⟩ := sliceStr_isSome line
              (strings.Index line "\"title\":\"" + 9)
              (strings.Index line "\"title\":\"" + 9 + strings.Index tail "\",")
              (by omega) (by omega) (by omega)
            simp only [htitle, Option.some_bind]
            split
            · exact ⟨title, rfl⟩
            · exact ⟨product.Name, rfl⟩
        · exact ⟨product.Name, rfl⟩
    · exact ⟨product.Name, rfl⟩
  · exact ⟨product.Name, rfl⟩

theorem IrshadScraper.titleFromScript_shape (product : Product) (content : String) :
    ∃ name, IrshadScraper.titleFromScript product content =
      some { product with Name := name } := by
  unfold IrshadScraper.titleFromScript
  split
  · have hloop : ∀ (lines : List String) (p : Product),
        ∃ name, eachChecked IrshadScraper.titleFromLine lines p =
          some { p with Name := name } := by
      intro lines
      induction lines with
      | nil => intro p; exact ⟨p.Name, rfl⟩
      | cons line rest ih =>
        intro p
        obtain ⟨name, hname⟩ := IrshadScraper.titleFromLine_shape p line
        obtain ⟨last, hlast⟩ := ih { p with Name := name }
        refine ⟨last, ?_⟩
        simp only [eachChecked, List.foldlM_cons, hname, Option.bind_eq_bind,
          Option.some_bind]
        exact hlast
    exact hloop _ product
  · exact ⟨product.Name, rfl⟩

theorem IrshadScraper.firstGroupFloat_total (ParseFloat : String → Option F64)
    (found : List (List String)) :
    ∃ value, IrshadScraper.firstGroupFloat ParseFloat found = some value := by
  unfold IrshadScraper.firstGroupFloat
  rcases found with _ | ⟨first, rest⟩
  · exact ⟨none, rfl⟩
  · rcases first with _ | ⟨whole, _ | ⟨group, more⟩⟩
    · exact ⟨none, by simp [indexAt]⟩
    · exact ⟨none, by simp [indexAt]⟩
    · exact ⟨ParseFloat group, by simp [indexAt]⟩

theorem IrshadScraper.calculatorScript_total (ParseFloat : String → Option F64)
    (prices : String × String) (content : String) :
    ∃ next, IrshadScraper.calculatorScript ParseFloat prices content = some next := by
  unfold IrshadScraper.calculatorScript
  split
  · obtain ⟨price, hprice⟩ := IrshadScraper.firstGroupFloat_total ParseFloat
      (regexp.FindAllStringSubmatch regexp.price content)
    obtain ⟨installment, hinstallment⟩ := IrshadScraper.firstGroupFloat_total ParseFloat
      (regexp.FindAllStringSubmatch regexp.installmentPrice content)
    simp only [hprice, hinstallment, Option.bind_eq_bind, Option.some_bind]
    exact ⟨_, rfl⟩
  · exact ⟨prices, rfl⟩

theorem IrshadScraper.jsonLdScript_total (ParseFloat : String → Option F64)
    (prices : String × String) (content : String) :
    ∃ next, IrshadScraper.jsonLdScript ParseFloat prices content = some next := by
  unfold IrshadScraper.jsonLdScript
  split
  · obtain ⟨price, hprice⟩ := IrshadScraper.firstGroupFloat_total ParseFloat
      (regexp.FindAllStringSubmatch regexp.quotedPrice content)
    simp only [hprice, Option.bind_eq_bind, Option.some_bind]
    rcases price with _ | p
    · exact ⟨prices, rfl⟩
    · by_cases hrange : IrshadScraper.priceInRange p = true
      · exact ⟨_, by simp only [hrange, if_true]; rfl⟩
      · exact ⟨prices, by simp only [hrange]; rfl⟩
  · exact ⟨prices, rfl⟩

theorem IrshadScraper.groupOne_total (found : List String) :
    ∃ value, IrshadScraper.groupOne found = some value := by
  unfold IrshadScraper.groupOne
  rcases found with _ | ⟨whole, _ | ⟨group, more⟩⟩
  · exact ⟨none, rfl⟩
  · exact ⟨none, by simp⟩
  · exact ⟨some group, by simp [indexAt]⟩

theorem IrshadScraper.skuFromText_shape (ToLower : String → String) (product : Product)
    (raw : String) :
    ∃ sku, IrshadScraper.skuFromText ToLower product raw = some { product with SKU := sku } := by
  unfold IrshadScraper.skuFromText
  split
  · exact ⟨_, rfl⟩
  · split
    · obtain ⟨group, hgroup⟩ := IrshadScraper.groupOne_total
        (regexp.FindStringSubmatch regexp.digits (strings.TrimSpace raw))
      simp only [hgroup, Option.bind_eq_bind, Option.some_bind]
      rcases group with _ | code
      · exact ⟨product.SKU, rfl⟩
      · exact ⟨code, rfl⟩
    · exact ⟨product.SKU, rfl⟩

theorem IrshadScraper.skuFromScript_shape (product : Product) (content : String) :
    ∃ sku, IrshadScraper.skuFromScript product content = some { product with SKU := sku } := by
  unfold IrshadScraper.skuFromScript
  split
  · obtain ⟨group, hgroup⟩ := IrshadScraper.groupOne_total
      (regexp.FindStringSubmatch regexp.codeSpaced content)
    simp only [hgroup, Option.bind_eq_bind, Option.some_bind]
    rcases group with _ | code
    · exact ⟨product.SKU, rfl⟩
    · by_cases hempty : (product.SKU == "") = true
      · exact ⟨code, by simp only [hempty, if_true]; rfl⟩
      · exact ⟨product.SKU, by simp only [hempty]; rfl⟩
  · split
    · obtain ⟨group, hgroup⟩ := IrshadScraper.groupOne_total
        (regexp.FindStringSubmatch regexp.codeTight content)
      simp only [hgroup, Option.bind_eq_bind, Option.some_bind]
      rcases group with _ | code
      · exact ⟨product.SKU, rfl⟩
      · by_cases hempty : (product.SKU == "") = true
        · exact ⟨code, by simp only [hempty, if_true]; rfl⟩
        · exact ⟨product.SKU, by simp only [hempty]; rfl⟩
    · exact ⟨product.SKU, rfl⟩

theorem IrshadScraper.brandFromText_shape (ToLower : String → String) (product : Product)
    (raw : String) :
    ∃ brand, IrshadScraper.brandFromText ToLower product raw =
      some { product with Brand := brand } := by
  unfold IrshadScraper.brandFromText
  split
  · split
    · rename_i hlen
      rcases hparts : strings.Split (strings.TrimSpace raw) ":" with _ | ⟨p0, _ | ⟨p1, more⟩⟩
      · simp [hparts] at hlen
      · simp [hparts] at hlen
      · obtain ⟨first, rest, hsplit⟩ := strings.Split_head (strings.TrimSpace p1) "\n"
        simp only [indexAt, List.getElem?_cons_succ, List.getElem?_cons_zero,
          Option.bind_eq_bind, Option.some_bind, hsplit]
        split
        · exact ⟨_, rfl⟩
        · exact ⟨product.Brand, rfl⟩
    · exact ⟨product.Brand, rfl⟩
  · exact ⟨product.Brand, rfl⟩

theorem IrshadScraper.brandFromScript_shape (product : Product) (content : String) :
    ∃ brand, IrshadScraper.brandFromScript product content =
      some { product with Brand := brand } := by
  unfold IrshadScraper.brandFromScript
  split
  · obtain ⟨group, hgroup⟩ := IrshadScraper.groupOne_total
      (regexp.FindStringSubmatch regexp.brandTitle content)
    simp only [hgroup, Option.bind_eq_bind, Option.some_bind]
    rcases group with _ | title
    · exact ⟨product.Brand, rfl⟩
    · simp only []
      split
      · split
        · exact ⟨_, rfl⟩
        · exact ⟨product.Brand, rfl⟩
      · exact ⟨product.Brand, rfl⟩
  · exact ⟨product.Brand, rfl⟩

theorem IrshadScraper.specTextChecked_eq (ToLower : String → String) (product : Product)
    (raw : String) :
    IrshadScraper.specTextChecked ToLower product raw =
      some (IrshadScraper.specText ToLower product raw) := by
  unfold IrshadScraper.specTextChecked IrshadScraper.specText
  simp only []
  split
  · rcases hparts : strings.Split (strings.TrimSpace raw) " : " with _ | ⟨p0, _ | ⟨p1, more⟩⟩
    · rfl
    · rfl
    · simp [indexAt]
  · rfl

theorem IrshadScraper.priceCandidateChecked_eq (ToLower : String → String)
    (ParseFloat : String → Option F64) (re : String → Option String) (raw : String) :
    IrshadScraper.priceCandidateChecked ToLower ParseFloat re raw =
      some (IrshadScraper.priceCandidate ToLower ParseFloat re raw) := by
  unfold IrshadScraper.priceCandidateChecked IrshadScraper.priceCandidate
  simp only []
  split
  · rcases hre : re (strings.TrimSpace raw) with _ | number
    · rfl
    · simp only [indexAt, List.length_cons, List.length_nil, List.getElem?_cons_succ,
        List.getElem?_cons_zero, Option.bind_eq_bind, Option.some_bind]
      rcases hparse : ParseFloat number with _ | price
      · rfl
      · by_cases hrange : IrshadScraper.priceInRange price = true
        · simp [hrange]
        · simp [hrange]
  · rfl

theorem IrshadScraper.pickPricesChecked_eq (prices : List F64)
    (currentPrice originalPrice : String) :
    IrshadScraper.pickPricesChecked prices currentPrice originalPrice =
      some (IrshadScraper.pickPrices prices currentPrice originalPrice) := by
  unfold IrshadScraper.pickPricesChecked IrshadScraper.pickPrices
  split
  · rcases hsorted : IrshadScraper.sortFloat64s (IrshadScraper.uniquePrices prices) with
      _ | ⟨p, _ | ⟨q, rest⟩⟩
    · rfl
    · rfl
    · have hlast : (p :: q :: rest)[(p :: q :: rest).length - 1]? =
          some ((q :: rest).getLast (List.cons_ne_nil q rest)) := by
        rw [← List.getLast?_eq_getElem?, List.getLast?_cons_cons,
          List.getLast?_eq_getLast _ (List.cons_ne_nil q rest)]
      simp only [indexAt, hlast, List.length_cons, List.getElem?_cons_zero,
        Option.bind_eq_bind, Option.some_bind]
      simp [List.getLast_eq_getElem]
  · rfl

theorem List.mapM_option_of_total {α β : Type} (f : α → Option β) (g : α → β)
    (h : ∀ x, f x = some (g x)) (xs : List α) : xs.mapM f = some (xs.map g) := by
  induction xs with
  | nil => rfl
  | cons x rest ih =>
    simp only [List.mapM_cons, h x, ih, Option.bind_eq_bind, Option.some_bind, List.map_cons]
    rfl

theorem IrshadScraper.textFallbackChecked_eq (ToLower : String → String)
    (ParseFloat : String → Option F64) (re : String → Option String) (texts : List String)
    (prices : String × String) :
    IrshadScraper.textFallbackChecked ToLower ParseFloat re texts prices =
      some (IrshadScraper.textFallback ToLower ParseFloat re texts prices) := by
  unfold IrshadScraper.textFallbackChecked IrshadScraper.textFallback
  split
  · rw [List.mapM_option_of_total _ _
      (IrshadScraper.priceCandidateChecked_eq ToLower ParseFloat re) texts]
    simp only [Option.bind_eq_bind, Option.some_bind, List.filterMap_map]
    rw [IrshadScraper.pickPricesChecked_eq]
    rfl
  · rfl

theorem IrshadScraper.brandFromName_shape (ToLower : String → String) (product : Product) :
    ∃ brand, IrshadScraper.brandFromName ToLower product =
      some { product with Brand := brand } := by
  unfold IrshadScraper.brandFromName
  split
  · cases hfind : IrshadScraper.brands.find?
        (fun brand => strings.Contains (ToLower product.Name) brand) with
    | none => exact ⟨product.Brand, rfl⟩
    | some brand =>
      have hcap := IrshadScraper.capitalize_spec brand (List.mem_of_find?_eq_some hfind)
      simp only [hcap, Option.bind_eq_bind, Option.some_bind]
      exact ⟨_, rfl⟩
  · exact ⟨product.Brand, rfl⟩

/-! ## The extraction never panics -/

theorem IrshadScraper.irshadExtractChecked_eq (ToLower : String → String)
    (ParseFloat : String → Option F64) (doc : IrshadDoc) (product : Product) :
    IrshadScraper.extractChecked ToLower ParseFloat doc product =
      some (IrshadScraper.extract ToLower ParseFloat doc product) := by
  have htitle := eachChecked_eq_some IrshadScraper.titleFromScript (fun s x => by
    obtain ⟨name, h⟩ := IrshadScraper.titleFromScript_shape s x
    exact ⟨_, h⟩) doc.scripts
  have hcalc := eachChecked_eq_some (IrshadScraper.calculatorScript ParseFloat)
    (IrshadScraper.calculatorScript_total ParseFloat) doc.scripts
  have hjson := eachChecked_eq_some (IrshadScraper.jsonLdScript ParseFloat)
    (IrshadScraper.jsonLdScript_total ParseFloat) doc.scripts
  have hsku := eachChecked_eq_some (IrshadScraper.skuFromText ToLower) (fun s x => by
    obtain ⟨sku, h⟩ := IrshadScraper.skuFromText_shape ToLower s x
    exact ⟨_, h⟩) doc.all
  have hsku2 := eachChecked_eq_some IrshadScraper.skuFromScript (fun s x => by
    obtain ⟨sku, h⟩ := IrshadScraper.skuFromScript_shape s x
    exact ⟨_, h⟩) doc.scripts
  have hbrand := eachChecked_eq_some (IrshadScraper.brandFromText ToLower) (fun s x => by
    obtain ⟨brand, h⟩ := IrshadScraper.brandFromText_shape ToLower s x
    exact ⟨_, h⟩) doc.all
  have hbrand2 := eachChecked_eq_some IrshadScraper.brandFromScript (fun s x => by
    obtain ⟨brand, h⟩ := IrshadScraper.brandFromScript_shape s x
    exact ⟨_, h⟩) doc.scripts
  have hspec := eachChecked_of_total (IrshadScraper.specTextChecked ToLower)
    (IrshadScraper.specText ToLower) (IrshadScraper.specTextChecked_eq ToLower) doc.all
  have hname : ∀ p, IrshadScraper.brandFromName ToLower p =
      some ((IrshadScraper.brandFromName ToLower p).getD p) := by
    intro p
    obtain ⟨brand, h⟩ := IrshadScraper.brandFromName_shape ToLower p
    rw [h]
    rfl
  have htitles : ∀ p, IrshadScraper.titleFromScripts doc.scripts p =
      some (if p.Name = "" then each IrshadScraper.titleFromScript doc.scripts p else p) := by
    intro p
    unfold IrshadScraper.titleFromScripts
    split
    · exact htitle p
    · rfl
  have hjsons : ∀ q, IrshadScraper.jsonLdPrices ParseFloat doc.scripts q =
      some (if q.1 = "" then each (IrshadScraper.jsonLdScript ParseFloat) doc.scripts q
        else q) := by
    intro q
    unfold IrshadScraper.jsonLdPrices
    split
    · exact hjson q
    · rfl
  have hskus : ∀ p, IrshadScraper.skuFromScripts doc.scripts p =
      some (if p.SKU = "" then each IrshadScraper.skuFromScript doc.scripts p else p) := by
    intro p
    unfold IrshadScraper.skuFromScripts
    split
    · exact hsku2 p
    · rfl
  have hbrands : ∀ p, IrshadScraper.brandFromScripts doc.scripts p =
      some (if p.Brand = "" then each IrshadScraper.brandFromScript doc.scripts p else p) := by
    intro p
    unfold IrshadScraper.brandFromScripts
    split
    · exact hbrand2 p
    · rfl
  unfold IrshadScraper.extractChecked IrshadScraper.extract
  simp only [htitles, hcalc, hjsons, hsku, hskus, hbrand, hbrands, hspec,
    IrshadScraper.textFallbackChecked_eq, Option.bind_eq_bind, Option.some_bind,
    IrshadScraper.visibleTextPrices, IrshadScraper.scriptPrices, IrshadScraper.specTexts,
    IrshadScraper.branded, IrshadScraper.priced, IrshadScraper.cascadePrices,
    IrshadScraper.named]
  rw [hname]
  rfl

theorem KontaktScraper.discountFromText_shape (product : Product) (raw : String) :
    ∃ discount, KontaktScraper.discountFromText product raw =
      some { product with Discount := discount } := by
  unfold KontaktScraper.discountFromText
  split
  · obtain ⟨first, rest, hsplit⟩ := strings.Split_head (strings.TrimSpace raw) " "
    simp only [hsplit, indexAt, List.length_cons, List.getElem?_cons_zero,
      Option.bind_eq_bind, Option.some_bind]
    split
    · split
      · exact ⟨first, rfl⟩
      · exact ⟨product.Discount, rfl⟩
    · exact ⟨product.Discount, rfl⟩
  · exact ⟨product.Discount, rfl⟩

theorem KontaktScraper.kontaktExtractChecked_eq (ToLower : String → String) (doc : KontaktDoc)
    (product : Product) :
    KontaktScraper.extractChecked ToLower doc product =
      some (KontaktScraper.extract ToLower doc product) := by
  have hdiscount := eachChecked_eq_some KontaktScraper.discountFromText (fun s x => by
    obtain ⟨discount, h⟩ := KontaktScraper.discountFromText_shape s x
    exact ⟨_, h⟩) doc.discounts
  unfold KontaktScraper.extractChecked KontaktScraper.extract KontaktScraper.priced
  simp only [hdiscount, Option.bind_eq_bind, Option.some_bind]
  rfl

/-! ## Fields that a pass leaves alone -/

theorem each_view {σ α β : Type} (step : σ → α → Option σ) (view : σ → β)
    (h : ∀ s x next, step s x = some next → view next = view s) (xs : List α) (s : σ) :
    view (each step xs s) = view s :=
  each_invariant step (fun q => view q = view s)
    (fun q x next hq hstep => (h q x next hstep).trans hq) xs s rfl

theorem foldl_view {σ α β : Type} (f : σ → α → σ) (view : σ → β)
    (h : ∀ s x, view (f s x) = view s) (xs : List α) (s : σ) :
    view (xs.foldl f s) = view s :=
  foldl_invariant f (fun q => view q = view s) (fun q x hq => (h q x).trans hq) xs s rfl

theorem IrshadScraper.named_view {β : Type} (view : Product → β)
    (hName : ∀ p v, view { p with Name := v } = view p)
    (ToLower : String → String) (doc : IrshadDoc) (product : Product) :
    view (IrshadScraper.named ToLower doc product) = view product := by
  have hh1 : view (doc.h1.foldl (IrshadScraper.nameFromH1 ToLower) product) = view product :=
    foldl_view _ view (fun s x => by
      unfold IrshadScraper.nameFromH1
      split
      · exact hName s _
      · rfl) doc.h1 product
  unfold IrshadScraper.named
  split
  · rw [each_view IrshadScraper.titleFromScript view (fun s x next hstep => by
      obtain ⟨name, hname⟩ := IrshadScraper.titleFromScript_shape s x
      rw [hname] at hstep
      cases hstep
      exact hName s name)]
    exact hh1
  · exact hh1

theorem IrshadScraper.specPair_view {β : Type} (view : Product → β)
    (hMemory : ∀ p v, view { p with InternalMemory := v } = view p)
    (hRAM : ∀ p v, view { p with RAM := v } = view p)
    (hProcessor : ∀ p v, view { p with Processor := v } = view p)
    (hDisplay : ∀ p v, view { p with Display := v } = view p)
    (hOS : ∀ p v, view { p with OS := v } = view p)
    (ToLower : String → String) (product : Product) (part0 part1 : String) :
    view (IrshadScraper.specPair ToLower product part0 part1) = view product := by
  unfold IrshadScraper.specPair
  simp only []
  split
  · exact hMemory _ _
  · split
    · exact hRAM _ _
    · split
      · exact hProcessor _ _
      · split
        · exact hDisplay _ _
        · split
          · exact hOS _ _
          · rfl

theorem IrshadScraper.irshadExtract_view {β : Type} (view : Product → β)
    (hAvailability : ∀ p v, view { p with Availability := v } = view p)
    (hSKU : ∀ p v, view { p with SKU := v } = view p)
    (hBrand : ∀ p v, view { p with Brand := v } = view p)
    (hMemory : ∀ p v, view { p with InternalMemory := v } = view p)
    (hRAM : ∀ p v, view { p with RAM := v } = view p)
    (hProcessor : ∀ p v, view { p with Processor := v } = view p)
    (hDisplay : ∀ p v, view { p with Display := v } = view p)
    (hOS : ∀ p v, view { p with OS := v } = view p)
    (ToLower : String → String) (ParseFloat : String → Option F64) (doc : IrshadDoc)
    (product : Product) :
    view (IrshadScraper.extract ToLower ParseFloat doc product) =
      view (IrshadScraper.priced ToLower ParseFloat doc product) := by
  have hsku1 : ∀ p, view (each (IrshadScraper.skuFromText ToLower) doc.all p) = view p :=
    each_view _ view (fun s x next hstep => by
      obtain ⟨v, hv⟩ := IrshadScraper.skuFromText_shape ToLower s x
      rw [hv] at hstep
      cases hstep
      exact hSKU s v) doc.all
  have hsku2 : ∀ p, view (each IrshadScraper.skuFromScript doc.scripts p) = view p :=
    each_view _ view (fun s x next hstep => by
      obtain ⟨v, hv⟩ := IrshadScraper.skuFromScript_shape s x
      rw [hv] at hstep
      cases hstep
      exact hSKU s v) doc.scripts
  have hbrand1 : ∀ p, view (each (IrshadScraper.brandFromText ToLower) doc.all p) = view p :=
    each_view _ view (fun s x next hstep => by
      obtain ⟨v, hv⟩ := IrshadScraper.brandFromText_shape ToLower s x
      rw [hv] at hstep
      cases hstep
      exact hBrand s v) doc.all
  have hbrand2 : ∀ p, view (each IrshadScraper.brandFromScript doc.scripts p) = view p :=
    each_view _ view (fun s x next hstep => by
      obtain ⟨v, hv⟩ := IrshadScraper.brandFromScript_shape s x
      rw [hv] at hstep
      cases hstep
      exact hBrand s v) doc.scripts
  have havail : ∀ p, view (doc.all.foldl (IrshadScraper.availabilityFromText ToLower) p) =
      view p :=
    foldl_view _ view (fun s x => by
      unfold IrshadScraper.availabilityFromText
      split
      · split
        · exact hAvailability s _
        · split
          · exact hAvailability s _
          · rfl
      · rfl) doc.all
  have hspec : ∀ p, view (IrshadScraper.specTexts ToLower p doc.all) = view p :=
    foldl_view _ view (fun s x => by
      unfold IrshadScraper.specText
      simp only []
      split
      · split
        · exact IrshadScraper.specPair_view view hMemory hRAM hProcessor hDisplay hOS _ _ _ _
        · rfl
      · rfl) doc.all
  have hbranded : view (IrshadScraper.branded ToLower ParseFloat doc product) =
      view (IrshadScraper.priced ToLower ParseFloat doc product) := by
    have hguardSku : ∀ p, view (if p.SKU = "" then
        each IrshadScraper.skuFromScript doc.scripts p else p) = view p := by
      intro p
      split
      · exact hsku2 p
      · rfl
    have hguardBrand : ∀ p, view (if p.Brand = "" then
        each IrshadScraper.brandFromScript doc.scripts p else p) = view p := by
      intro p
      split
      · exact hbrand2 p
      · rfl
    unfold IrshadScraper.branded
    simp only []
    rw [hguardBrand, hbrand1, hguardSku, hsku1, havail]
  unfold IrshadScraper.extract
  obtain ⟨v, hv⟩ := IrshadScraper.brandFromName_shape ToLower
    (IrshadScraper.specTexts ToLower (IrshadScraper.branded ToLower ParseFloat doc product)
      doc.all)
  rw [hv, Option.getD_some, hBrand, hspec, hbranded]

/-! ## What the Irshad extraction writes where -/

theorem IrshadScraper.assignPrices_fields (ParseFloat : String → Option F64) (product : Product)
    (currentPrice originalPrice : String) :
    ∃ discount, IrshadScraper.assignPrices ParseFloat product currentPrice originalPrice =
      { product with
        CurrentPrice := currentPrice, OriginalPrice := originalPrice, Discount := discount } := by
  unfold IrshadScraper.assignPrices
  simp only []
  split
  · split
    · exact ⟨_, rfl⟩
    · exact ⟨product.Discount, rfl⟩
  · exact ⟨product.Discount, rfl⟩

theorem IrshadScraper.priced_fields (ToLower : String → String)
    (ParseFloat : String → Option F64) (doc : IrshadDoc) (product : Product) :
    (IrshadScraper.priced ToLower ParseFloat doc product).CurrentPrice =
      (IrshadScraper.cascadePrices ToLower ParseFloat doc).1 ∧
    (IrshadScraper.priced ToLower ParseFloat doc product).OriginalPrice =
      (IrshadScraper.cascadePrices ToLower ParseFloat doc).2 ∧
    (IrshadScraper.priced ToLower ParseFloat doc product).Currency =
      (if strings.Contains (IrshadScraper.cascadePrices ToLower ParseFloat doc).1 "AZN" = true
        then "AZN" else product.Currency) ∧
    (IrshadScraper.priced ToLower ParseFloat doc product).Site = product.Site ∧
    (IrshadScraper.priced ToLower ParseFloat doc product).URL = product.URL ∧
    (IrshadScraper.priced ToLower ParseFloat doc product).ScrapedAt = product.ScrapedAt := by
  obtain ⟨discount, hassign⟩ := IrshadScraper.assignPrices_fields ParseFloat
    (IrshadScraper.named ToLower doc product)
    (IrshadScraper.cascadePrices ToLower ParseFloat doc).1
    (IrshadScraper.cascadePrices ToLower ParseFloat doc).2
  have hcurrency := IrshadScraper.named_view Product.Currency (fun _ _ => rfl) ToLower doc product
  have hsite := IrshadScraper.named_view Product.Site (fun _ _ => rfl) ToLower doc product
  have hurl := IrshadScraper.named_view Product.URL (fun _ _ => rfl) ToLower doc product
  have hat := IrshadScraper.named_view Product.ScrapedAt (fun _ _ => rfl) ToLower doc product
  unfold IrshadScraper.priced IrshadScraper.setCurrency
  rw [hassign]
  simp only []
  split
  · exact ⟨rfl, rfl, rfl, hsite, hurl, hat⟩
  · exact ⟨rfl, rfl, hcurrency, hsite, hurl, hat⟩

theorem IrshadScraper.extract_fields (ToLower : String → String)
    (ParseFloat : String → Option F64) (doc : IrshadDoc) (product : Product) :
    (IrshadScraper.extract ToLower ParseFloat doc product).CurrentPrice =
      (IrshadScraper.cascadePrices ToLower ParseFloat doc).1 ∧
    (IrshadScraper.extract ToLower ParseFloat doc product).OriginalPrice =
      (IrshadScraper.cascadePrices ToLower ParseFloat doc).2 ∧
    (IrshadScraper.extract ToLower ParseFloat doc product).Currency =
      (if strings.Contains (IrshadScraper.cascadePrices ToLower ParseFloat doc).1 "AZN" = true
        then "AZN" else product.Currency) ∧
    (IrshadScraper.extract ToLower ParseFloat doc product).Site = product.Site ∧
    (IrshadScraper.extract ToLower ParseFloat doc product).URL = product.URL ∧
    (IrshadScraper.extract ToLower ParseFloat doc product).ScrapedAt = product.ScrapedAt := by
  obtain ⟨h1, h2, h3, h4, h5, h6⟩ := IrshadScraper.priced_fields ToLower ParseFloat doc product
  refine ⟨?_, ?_, ?_, ?_, ?_, ?_⟩
  · rw [← h1]
    exact IrshadScraper.irshadExtract_view Product.CurrentPrice (fun _ _ => rfl) (fun _ _ => rfl)
      (fun _ _ => rfl) (fun _ _ => rfl) (fun _ _ => rfl) (fun _ _ => rfl) (fun _ _ => rfl)
      (fun _ _ => rfl) ToLower ParseFloat doc product
  · rw [← h2]
    exact IrshadScraper.irshadExtract_view Product.OriginalPrice (fun _ _ => rfl) (fun _ _ => rfl)
      (fun _ _ => rfl) (fun _ _ => rfl) (fun _ _ => rfl) (fun _ _ => rfl) (fun _ _ => rfl)
      (fun _ _ => rfl) ToLower ParseFloat doc product
  · rw [← h3]
    exact IrshadScraper.irshadExtract_view Product.Currency (fun _ _ => rfl) (fun _ _ => rfl)
      (fun _ _ => rfl) (fun _ _ => rfl) (fun _ _ => rfl) (fun _ _ => rfl) (fun _ _ => rfl)
      (fun _ _ => rfl) ToLower ParseFloat doc product
  · rw [← h4]
    exact IrshadScraper.irshadExtract_view Product.Site (fun _ _ => rfl) (fun _ _ => rfl)
      (fun _ _ => rfl) (fun _ _ => rfl) (fun _ _ => rfl) (fun _ _ => rfl) (fun _ _ => rfl)
      (fun _ _ => rfl) ToLower ParseFloat doc product
  · rw [← h5]
    exact IrshadScraper.irshadExtract_view Product.URL (fun _ _ => rfl) (fun _ _ => rfl)
      (fun _ _ => rfl) (fun _ _ => rfl) (fun _ _ => rfl) (fun _ _ => rfl) (fun _ _ => rfl)
      (fun _ _ => rfl) ToLower ParseFloat doc product
  · rw [← h6]
    exact IrshadScraper.irshadExtract_view Product.ScrapedAt (fun _ _ => rfl) (fun _ _ => rfl)
      (fun _ _ => rfl) (fun _ _ => rfl) (fun _ _ => rfl) (fun _ _ => rfl) (fun _ _ => rfl)
      (fun _ _ => rfl) ToLower ParseFloat doc product

/-! ## What the Kontakt extraction writes where -/

theorem KontaktScraper.harRow_view {β : Type} (view : Product → β)
    (hBrand : ∀ p v, view { p with Brand := v } = view p)
    (hMemory : ∀ p v, view { p with InternalMemory := v } = view p)
    (hRAM : ∀ p v, view { p with RAM := v } = view p)
    (hMain : ∀ p v, view { p with MainCamera := v } = view p)
    (hFront : ∀ p v, view { p with FrontCamera := v } = view p)
    (hProcessor : ∀ p v, view { p with Processor := v } = view p)
    (hOS : ∀ p v, view { p with OS := v } = view p)
    (hDisplay : ∀ p v, view { p with Display := v } = view p)
    (ToLower : String → String) (product : Product) (row : String × String) :
    view (KontaktScraper.harRow ToLower product row) = view product := by
  unfold KontaktScraper.harRow
  simp only []
  by_cases hempty : strings.TrimSpace row.1 = "" ∨ strings.TrimSpace row.2 = ""
  · rw [if_pos hempty]
  · rw [if_neg hempty]
    split
    · exact hBrand _ _
    · split
      · exact hMemory _ _
      · split
        · exact hRAM _ _
        · split
          · exact hMain _ _
          · split
            · exact hFront _ _
            · split
              · split
                · exact hProcessor _ _
                · split
                  · exact hProcessor _ _
                  · rfl
              · split
                · exact hOS _ _
                · split
                  · exact hDisplay _ _
                  · rfl

theorem KontaktScraper.tableRow_view {β : Type} (view : Product → β)
    (hBrand : ∀ p v, view { p with Brand := v } = view p)
    (hMemory : ∀ p v, view { p with InternalMemory := v } = view p)
    (hRAM : ∀ p v, view { p with RAM := v } = view p)
    (hMain : ∀ p v, view { p with MainCamera := v } = view p)
    (hFront : ∀ p v, view { p with FrontCamera := v } = view p)
    (hProcessor : ∀ p v, view { p with Processor := v } = view p)
    (hOS : ∀ p v, view { p with OS := v } = view p)
    (hDisplay : ∀ p v, view { p with Display := v } = view p)
    (ToLower : String → String) (product : Product) (row : String × String) :
    view (KontaktScraper.tableRow ToLower product row) = view product := by
  unfold KontaktScraper.tableRow
  simp only []
  repeat' split
  all_goals first
    | rfl
    | exact hBrand _ _
    | exact hMemory _ _
    | exact hRAM _ _
    | exact hMain _ _
    | exact hFront _ _
    | exact hProcessor _ _
    | exact hOS _ _
    | exact hDisplay _ _

theorem KontaktScraper.kontaktExtract_view {β : Type} (view : Product → β)
    (hAvailability : ∀ p v, view { p with Availability := v } = view p)
    (hRating : ∀ p v, view { p with Rating := v } = view p)
    (hReviews : ∀ p v, view { p with ReviewCount := v } = view p)
    (hBrand : ∀ p v, view { p with Brand := v } = view p)
    (hMemory : ∀ p v, view { p with InternalMemory := v } = view p)
    (hRAM : ∀ p v, view { p with RAM := v } = view p)
    (hMain : ∀ p v, view { p with MainCamera := v } = view p)
    (hFront : ∀ p v, view { p with FrontCamera := v } = view p)
    (hProcessor : ∀ p v, view { p with Processor := v } = view p)
    (hOS : ∀ p v, view { p with OS := v } = view p)
    (hDisplay : ∀ p v, view { p with Display := v } = view p)
    (ToLower : String → String) (doc : KontaktDoc) (product : Product) :
    view (KontaktScraper.extract ToLower doc product) =
      view (KontaktScraper.priced doc product) := by
  unfold KontaktScraper.extract KontaktScraper.tableRows KontaktScraper.harRows
  rw [foldl_view _ view (KontaktScraper.tableRow_view view hBrand hMemory hRAM hMain hFront
      hProcessor hOS hDisplay ToLower),
    foldl_view _ view (KontaktScraper.harRow_view view hBrand hMemory hRAM hMain hFront
      hProcessor hOS hDisplay ToLower),
    foldl_view _ view (fun s x => by
      unfold KontaktScraper.reviewsFromText
      split
      · exact hReviews s _
      · rfl),
    foldl_view _ view (fun s x => by
      unfold KontaktScraper.ratingFromText
      split
      · exact hRating s _
      · rfl),
    foldl_view _ view (fun s x => by
      unfold KontaktScraper.availabilityFromText
      split
      · split
        · exact hAvailability s _
        · rfl
      · rfl)]

theorem KontaktScraper.priced_view {β : Type} (view : Product → β)
    (hName : ∀ p v, view { p with Name := v } = view p)
    (hSKU : ∀ p v, view { p with SKU := v } = view p)
    (hCurrent : ∀ p v, view { p with CurrentPrice := v } = view p)
    (hOriginal : ∀ p v, view { p with OriginalPrice := v } = view p)
    (hDiscount : ∀ p v, view { p with Discount := v } = view p)
    (hCurrency : ∀ p v, view { p with Currency := v } = view p)
    (doc : KontaktDoc) (product : Product) :
    view (KontaktScraper.priced doc product) = view product := by
  have hset : ∀ p, view (KontaktScraper.setCurrency p) = view p := by
    intro p
    unfold KontaktScraper.setCurrency
    split
    · exact hCurrency p _
    · rfl
  have hfallback : ∀ p, view (KontaktScraper.priceFallback p) = view p := by
    intro p
    unfold KontaktScraper.priceFallback
    split
    · exact (hOriginal { p with CurrentPrice := p.OriginalPrice } "").trans (hCurrent p _)
    · rfl
  unfold KontaktScraper.priced
  rw [hset, each_view KontaktScraper.discountFromText view (fun s x next hstep => by
      obtain ⟨v, hv⟩ := KontaktScraper.discountFromText_shape s x
      rw [hv] at hstep
      cases hstep
      exact hDiscount s v),
    hfallback,
    foldl_view _ view (fun s x => by
      unfold KontaktScraper.currentFromText
      split
      · exact hCurrent s _
      · rfl),
    foldl_view _ view (fun s x => by
      unfold KontaktScraper.originalFromText
      split
      · exact hOriginal s _
      · rfl),
    foldl_view KontaktScraper.skuFromText view (fun s x => hSKU s _),
    foldl_view _ view (fun s x => by
      unfold KontaktScraper.nameFromText
      split
      · exact hName s _
      · rfl)]

theorem KontaktScraper.extract_site (ToLower : String → String) (doc : KontaktDoc)
    (product : Product) :
    (KontaktScraper.extract ToLower doc product).Site = product.Site := by
  rw [KontaktScraper.kontaktExtract_view Product.Site (fun _ _ => rfl) (fun _ _ => rfl)
    (fun _ _ => rfl) (fun _ _ => rfl) (fun _ _ => rfl) (fun _ _ => rfl) (fun _ _ => rfl)
    (fun _ _ => rfl) (fun _ _ => rfl) (fun _ _ => rfl) (fun _ _ => rfl) ToLower doc product]
  exact KontaktScraper.priced_view Product.Site (fun _ _ => rfl) (fun _ _ => rfl)
    (fun _ _ => rfl) (fun _ _ => rfl) (fun _ _ => rfl) (fun _ _ => rfl) doc product

/-! ## The price cascade of the Irshad strategy -/

theorem strings.containsChars_append_right (sub front back : List Char)
    (h : strings.containsChars sub back = true) :
    strings.containsChars sub (front ++ back) = true := by
  induction front with
  | nil => exact h
  | cons c t ih =>
    show (sub.isPrefixOf (c :: (t ++ back)) || strings.containsChars sub (t ++ back)) = true
    rw [ih, Bool.or_true]

theorem IrshadScraper.sprintfAZN_marker (price : F64) :
    strings.Contains (IrshadScraper.sprintfAZN price) "AZN" = true ∧
    IrshadScraper.sprintfAZN price ≠ "" := by
  constructor
  · unfold IrshadScraper.sprintfAZN strings.Contains
    rw [String.data_append]
    exact strings.containsChars_append_right _ _ _ (by decide)
  · intro h
    have hlen := congrArg String.length h
    unfold IrshadScraper.sprintfAZN at hlen
    rw [String.length_append] at hlen
    have h4 : (" AZN" : String).length = 4 := by decide
    have h0 : ("" : String).length = 0 := by decide
    omega

theorem IrshadScraper.textFallback_of_found (ToLower : String → String)
    (ParseFloat : String → Option F64) (re : String → Option String) (texts : List String)
    (prices : String × String) (h : prices.1 ≠ "") :
    IrshadScraper.textFallback ToLower ParseFloat re texts prices = prices := by
  unfold IrshadScraper.textFallback
  rw [if_neg h]

theorem IrshadScraper.cascade_of_calculator (ToLower : String → String)
    (ParseFloat : String → Option F64) (doc : IrshadDoc)
    (h : (each (IrshadScraper.calculatorScript ParseFloat) doc.scripts ("", "")).1 ≠ "") :
    IrshadScraper.cascadePrices ToLower ParseFloat doc =
      each (IrshadScraper.calculatorScript ParseFloat) doc.scripts ("", "") := by
  unfold IrshadScraper.cascadePrices IrshadScraper.visibleTextPrices IrshadScraper.scriptPrices
  rw [if_neg h, IrshadScraper.textFallback_of_found _ _ _ _ _ h,
    IrshadScraper.textFallback_of_found _ _ _ _ _ h]

theorem IrshadScraper.calculatorScript_price (ParseFloat : String → Option F64)
    (prices : String × String) (content whole number : String) (rest : List (List String))
    (price : F64) (hinit : strings.Contains content "Calculator.init" = true)
    (hprice : strings.Contains content "price" = true)
    (hfound : regexp.FindAllStringSubmatch regexp.price content = [whole, number] :: rest)
    (hparse : ParseFloat number = some price) :
    ∃ original, IrshadScraper.calculatorScript ParseFloat prices content =
      some (IrshadScraper.sprintfAZN price, original) := by
  obtain ⟨installment, hinstallment⟩ := IrshadScraper.firstGroupFloat_total ParseFloat
    (regexp.FindAllStringSubmatch regexp.installmentPrice content)
  have hfirst : IrshadScraper.firstGroupFloat ParseFloat
      (regexp.FindAllStringSubmatch regexp.price content) = some (some price) := by
    rw [hfound]
    simp [IrshadScraper.firstGroupFloat, indexAt, hparse]
  unfold IrshadScraper.calculatorScript
  simp only [hinit, hprice, Bool.and_self, if_true, hfirst, hinstallment, Option.bind_eq_bind,
    Option.some_bind]
  exact ⟨_, rfl⟩

theorem IrshadScraper.cascade_last_payload (ToLower : String → String)
    (ParseFloat : String → Option F64) (doc : IrshadDoc) (before : List String)
    (content whole number : String) (rest : List (List String)) (price : F64)
    (hscripts : doc.scripts = before ++ [content])
    (hinit : strings.Contains content "Calculator.init" = true)
    (hprice : strings.Contains content "price" = true)
    (hfound : regexp.FindAllStringSubmatch regexp.price content = [whole, number] :: rest)
    (hparse : ParseFloat number = some price) :
    (IrshadScraper.cascadePrices ToLower ParseFloat doc).1 = IrshadScraper.sprintfAZN price := by
  obtain ⟨original, hstep⟩ := IrshadScraper.calculatorScript_price ParseFloat
    (each (IrshadScraper.calculatorScript ParseFloat) before ("", "")) content whole number rest
    price hinit hprice hfound hparse
  have hlast : each (IrshadScraper.calculatorScript ParseFloat) doc.scripts ("", "") =
      (IrshadScraper.sprintfAZN price, original) := by
    rw [hscripts, each_append]
    simp only [each, List.foldl_cons, List.foldl_nil]
    rw [show List.foldl (fun st x => (IrshadScraper.calculatorScript ParseFloat st x).getD st)
      ("", "") before = each (IrshadScraper.calculatorScript ParseFloat) before ("", "") from rfl,
      hstep]
    rfl
  rw [IrshadScraper.cascade_of_calculator ToLower ParseFloat doc (by
    rw [hlast]
    exact (IrshadScraper.sprintfAZN_marker price).2), hlast]

/-- C15 (as the code has it). In the Irshad price cascade the `return` of the
Calculator.init callback leaves only the callback, so every script is visited:
whenever the last script of the page holds Calculator.init data with a numeric
"price" key, the current price is the price of that last payload (two decimals
and " AZN"), whatever the earlier scripts, the JSON-LD data and the element
texts hold.  On the page with the payloads `"price": 100` and `"price": 200`,
in this order, the current price is "200.00 AZN"; the first payload alone gives
"100.00 AZN". -/
theorem calculator_later_payload_overwrites :
    (∀ (ToLower : String → String) (ParseFloat : String → Option F64) (doc : IrshadDoc)
      (product : Product) (before : List String) (content whole number : String)
      (rest : List (List String)) (price : F64),
      doc.scripts = before ++ [content] →
      strings.Contains content "Calculator.init" = true →
      strings.Contains content "price" = true →
      regexp.FindAllStringSubmatch regexp.price content = [whole, number] :: rest →
      ParseFloat number = some price →
      (IrshadScraper.extract ToLower ParseFloat doc product).CurrentPrice =
        IrshadScraper.sprintfAZN price) ∧
    (IrshadScraper.extract asciiLower strconv.ParseDecimal oneCalculatorPage {}).CurrentPrice =
      "100.00 AZN" ∧
    (IrshadScraper.extract asciiLower strconv.ParseDecimal twoCalculatorsPage {}).CurrentPrice =
      "200.00 AZN" := by
  refine ⟨?_, ?_, ?_⟩
  · intro ToLower ParseFloat doc product before content whole number rest price hscripts hinit
      hprice hfound hparse
    rw [(IrshadScraper.extract_fields ToLower ParseFloat doc product).1]
    exact IrshadScraper.cascade_last_payload ToLower ParseFloat doc before content whole number
      rest price hscripts hinit hprice hfound hparse
  · rw [(IrshadScraper.extract_fields asciiLower strconv.ParseDecimal oneCalculatorPage {}).1]
    decide
  · rw [(IrshadScraper.extract_fields asciiLower strconv.ParseDecimal twoCalculatorsPage {}).1]
    decide

/-! ## A successful `Scrape` -/

theorem IrshadScraper.irshadScrape_product {Doc : Type} (ToLower : String → String) (web : Web Doc)
    (extract : Doc → Product → Product) (url : String) (product : Product)
    (h : (IrshadScraper.Scrape ToLower web extract url).result.product = some product) :
    ∃ doc, web.get url = Except.ok doc ∧
      product = extract doc { URL := url, Site := "irshad", ScrapedAt := web.now } := by
  unfold IrshadScraper.Scrape at h
  split at h
  · cases h
  · simp only [] at h
    split at h
    · cases h
    · split at h
      · cases h
      · rename_i doc hdoc
        simp only [Option.some.injEq] at h
        exact ⟨doc, hdoc, h.symm⟩

theorem KontaktScraper.kontaktScrape_product {Doc : Type} (ToLower : String → String) (web : Web Doc)
    (extract : Doc → Product → Product) (url : String) (product : Product)
    (h : (KontaktScraper.Scrape ToLower web extract url).result.product = some product) :
    ∃ doc, web.get url = Except.ok doc ∧
      product = extract doc { URL := url, Site := "kontakt", ScrapedAt := web.now } := by
  unfold KontaktScraper.Scrape at h
  split at h
  · cases h
  · simp only [] at h
    split at h
    · cases h
    · rename_i doc hdoc
      simp only [Option.some.injEq] at h
      exact ⟨doc, hdoc, h.symm⟩

/-! ## The currency -/

theorem IrshadScraper.pickPrices_shape (prices : List F64) (currentPrice originalPrice : String) :
    (IrshadScraper.pickPrices prices currentPrice originalPrice).1 = currentPrice ∨
    ∃ price, (IrshadScraper.pickPrices prices currentPrice originalPrice).1 =
      IrshadScraper.sprintfAZN price := by
  unfold IrshadScraper.pickPrices
  split
  · split
    · exact Or.inl rfl
    · exact Or.inr ⟨_, rfl⟩
    · exact Or.inr ⟨_, rfl⟩
  · exact Or.inl rfl

theorem IrshadScraper.cascade_shape (ToLower : String → String)
    (ParseFloat : String → Option F64) (doc : IrshadDoc) :
    (IrshadScraper.cascadePrices ToLower ParseFloat doc).1 = "" ∨
    ∃ price, (IrshadScraper.cascadePrices ToLower ParseFloat doc).1 =
      IrshadScraper.sprintfAZN price := by
  have hcalc : (each (IrshadScraper.calculatorScript ParseFloat) doc.scripts ("", "")).1 = "" ∨
      ∃ price, (each (IrshadScraper.calculatorScript ParseFloat) doc.scripts ("", "")).1 =
        IrshadScraper.sprintfAZN price :=
    each_invariant (IrshadScraper.calculatorScript ParseFloat)
      (fun q => q.1 = "" ∨ ∃ price, q.1 = IrshadScraper.sprintfAZN price)
      (fun s x next hs hstep => by
      unfold IrshadScraper.calculatorScript at hstep
      split at hstep
      · obtain ⟨price, hprice⟩ := IrshadScraper.firstGroupFloat_total ParseFloat
          (regexp.FindAllStringSubmatch regexp.price x)
        obtain ⟨installment, hinstallment⟩ := IrshadScraper.firstGroupFloat_total ParseFloat
          (regexp.FindAllStringSubmatch regexp.installmentPrice x)
        simp only [hprice, hinstallment, Option.bind_eq_bind, Option.some_bind] at hstep
        cases hstep
        rcases price with _ | p
        · exact hs
        · exact Or.inr ⟨p, rfl⟩
      · cases hstep
        exact hs) doc.scripts ("", "") (Or.inl rfl)
  have hjson : ∀ q : String × String, (q.1 = "" ∨ ∃ price, q.1 = IrshadScraper.sprintfAZN price) →
      ((each (IrshadScraper.jsonLdScript ParseFloat) doc.scripts q).1 = "" ∨
        ∃ price, (each (IrshadScraper.jsonLdScript ParseFloat) doc.scripts q).1 =
          IrshadScraper.sprintfAZN price) := fun q hq =>
    each_invariant (IrshadScraper.jsonLdScript ParseFloat)
      (fun q => q.1 = "" ∨ ∃ price, q.1 = IrshadScraper.sprintfAZN price)
      (fun s x next hs hstep => by
      unfold IrshadScraper.jsonLdScript at hstep
      split at hstep
      · obtain ⟨price, hprice⟩ := IrshadScraper.firstGroupFloat_total ParseFloat
          (regexp.FindAllStringSubmatch regexp.quotedPrice x)
        simp only [hprice, Option.bind_eq_bind, Option.some_bind] at hstep
        rcases price with _ | p
        · cases hstep
          exact hs
        · simp only [] at hstep
          split at hstep
          · cases hstep
            exact Or.inr ⟨p, rfl⟩
          · cases hstep
            exact hs
      · cases hstep
        exact hs) doc.scripts q hq
  have hscript : (IrshadScraper.scriptPrices ParseFloat doc.scripts).1 = "" ∨
      ∃ price, (IrshadScraper.scriptPrices ParseFloat doc.scripts).1 =
        IrshadScraper.sprintfAZN price := by
    unfold IrshadScraper.scriptPrices
    split
    · exact hjson _ hcalc
    · exact hcalc
  have htext : ∀ (re : String → Option String) (q : String × String),
      (q.1 = "" ∨ ∃ price, q.1 = IrshadScraper.sprintfAZN price) →
      ((IrshadScraper.textFallback ToLower ParseFloat re doc.all q).1 = "" ∨
        ∃ price, (IrshadScraper.textFallback ToLower ParseFloat re doc.all q).1 =
          IrshadScraper.sprintfAZN price) := by
    intro re q hq
    unfold IrshadScraper.textFallback
    split
    · rename_i hempty
      rcases IrshadScraper.pickPrices_shape
          (doc.all.filterMap (IrshadScraper.priceCandidate ToLower ParseFloat re)) q.1 q.2 with
        h | h
      · exact Or.inl (h.trans hempty)
      · exact Or.inr h
    · exact hq
  unfold IrshadScraper.cascadePrices IrshadScraper.visibleTextPrices
  exact htext _ _ (htext _ _ hscript)

theorem KontaktScraper.priced_prices (doc : KontaktDoc) (product : Product)
    (hcurrent : product.CurrentPrice = "") (horiginal : product.OriginalPrice = "")
    (hcurrency : product.Currency = "") :
    ((KontaktScraper.priced doc product).CurrentPrice = "" ∨
      strings.Contains (KontaktScraper.priced doc product).CurrentPrice "₼" = true) ∧
    ((KontaktScraper.priced doc product).OriginalPrice ≠ "" →
      (KontaktScraper.priced doc product).CurrentPrice ≠ "") ∧
    (KontaktScraper.priced doc product).Currency =
      (if strings.Contains (KontaktScraper.priced doc product).CurrentPrice "₼" = true
        then "AZN" else "") := by
  have hstart := foldl_invariant KontaktScraper.skuFromText
    (fun q => q.CurrentPrice = "" ∧ q.OriginalPrice = "" ∧ q.Currency = "")
    (fun s x hs => hs) doc.skus _
    (foldl_invariant KontaktScraper.nameFromText
      (fun q => q.CurrentPrice = "" ∧ q.OriginalPrice = "" ∧ q.Currency = "")
      (fun s x hs => by
        unfold KontaktScraper.nameFromText
        split
        · exact hs
        · exact hs) doc.names product ⟨hcurrent, horiginal, hcurrency⟩)
  have horig := foldl_invariant KontaktScraper.originalFromText
    (fun q => q.CurrentPrice = "" ∧
      (q.OriginalPrice = "" ∨ strings.Contains q.OriginalPrice "₼" = true) ∧ q.Currency = "")
    (fun s x hs => by
      unfold KontaktScraper.originalFromText
      split
      · rename_i hcond
        simp only [Bool.and_eq_true] at hcond
        exact ⟨hs.1, Or.inr hcond.2, hs.2.2⟩
      · exact hs) doc.finalPrices _ ⟨hstart.1, Or.inl hstart.2.1, hstart.2.2⟩
  have hcur := foldl_invariant KontaktScraper.currentFromText
    (fun q => (q.CurrentPrice = "" ∨ strings.Contains q.CurrentPrice "₼" = true) ∧
      (q.OriginalPrice = "" ∨ strings.Contains q.OriginalPrice "₼" = true) ∧ q.Currency = "")
    (fun s x hs => by
      unfold KontaktScraper.currentFromText
      split
      · rename_i hcond
        simp only [Bool.and_eq_true] at hcond
        exact ⟨Or.inr hcond.2, hs.2.1, hs.2.2⟩
      · exact hs) doc.strongSpans _ ⟨Or.inl horig.1, horig.2.1, horig.2.2⟩
  have hfall : ∀ q : Product,
      ((q.CurrentPrice = "" ∨ strings.Contains q.CurrentPrice "₼" = true) ∧
        (q.OriginalPrice = "" ∨ strings.Contains q.OriginalPrice "₼" = true) ∧
        q.Currency = "") →
      (((KontaktScraper.priceFallback q).CurrentPrice = "" ∨
          strings.Contains (KontaktScraper.priceFallback q).CurrentPrice "₼" = true) ∧
        ((KontaktScraper.priceFallback q).OriginalPrice ≠ "" →
          (KontaktScraper.priceFallback q).CurrentPrice ≠ "") ∧
        (KontaktScraper.priceFallback q).Currency = "") := by
    intro q hq
    unfold KontaktScraper.priceFallback
    split
    · rename_i hcond
      simp only [Bool.and_eq_true, beq_iff_eq, bne_iff_ne] at hcond
      refine ⟨?_, fun h => absurd rfl h, hq.2.2⟩
      rcases hq.2.1 with h | h
      · exact absurd h hcond.2
      · exact Or.inr h
    · rename_i hcond
      simp only [Bool.and_eq_true, beq_iff_eq, bne_iff_ne, not_and, not_not] at hcond
      exact ⟨hq.1, fun horig hcur => horig (hcond hcur), hq.2.2⟩
  have hdisc := each_invariant KontaktScraper.discountFromText
    (fun q => (q.CurrentPrice = "" ∨ strings.Contains q.CurrentPrice "₼" = true) ∧
      (q.OriginalPrice ≠ "" → q.CurrentPrice ≠ "") ∧ q.Currency = "")
    (fun s x next hs hstep => by
      obtain ⟨v, hv⟩ := KontaktScraper.discountFromText_shape s x
      rw [hv] at hstep
      cases hstep
      exact hs) doc.discounts _ (hfall _ hcur)
  have hset : ∀ q : Product,
      (KontaktScraper.setCurrency q).CurrentPrice = q.CurrentPrice ∧
      (KontaktScraper.setCurrency q).OriginalPrice = q.OriginalPrice ∧
      (KontaktScraper.setCurrency q).Currency =
        (if strings.Contains q.CurrentPrice "₼" = true then "AZN" else q.Currency) := by
    intro q
    unfold KontaktScraper.setCurrency
    split
    · exact ⟨rfl, rfl, rfl⟩
    · exact ⟨rfl, rfl, rfl⟩
  unfold KontaktScraper.priced
  obtain ⟨hc, ho, hcy⟩ := hset (each KontaktScraper.discountFromText doc.discounts
    (KontaktScraper.priceFallback
      (doc.strongSpans.foldl KontaktScraper.currentFromText
        (doc.finalPrices.foldl KontaktScraper.originalFromText
          (doc.skus.foldl KontaktScraper.skuFromText
            (doc.names.foldl KontaktScraper.nameFromText product))))))
  rw [hc, ho, hcy]
  refine ⟨hdisc.1, hdisc.2.1, ?_⟩
  rw [hdisc.2.2]

/-- C11 (as the code has it). For every product returned by either strategy, the
currency field is "AZN" exactly when the current price contains the marker of
the strategy ("AZN" for Irshad, "₼" for Kontakt) and is empty otherwise; a
populated current price always contains the marker, and in the Kontakt strategy
a populated original price comes with a populated current price.  The original
price and the discount do not set the currency by themselves. -/
theorem currency_follows_current_price (ToLower : String → String)
    (ParseFloat : String → Option F64) :
    (∀ (web : Web IrshadDoc) (url : String) (product : Product),
      (IrshadScraper.Scrape ToLower web (IrshadScraper.extract ToLower ParseFloat)
        url).result.product = some product →
      (product.Currency = "AZN" ↔ strings.Contains product.CurrentPrice "AZN" = true) ∧
      (strings.Contains product.CurrentPrice "AZN" = false → product.Currency = "") ∧
      (product.CurrentPrice ≠ "" → product.Currency = "AZN")) ∧
    (∀ (web : Web KontaktDoc) (url : String) (product : Product),
      (KontaktScraper.Scrape ToLower web (KontaktScraper.extract ToLower)
        url).result.product = some product →
      (product.Currency = "AZN" ↔ strings.Contains product.CurrentPrice "₼" = true) ∧
      (strings.Contains product.CurrentPrice "₼" = false → product.Currency = "") ∧
      (product.CurrentPrice ≠ "" → product.Currency = "AZN") ∧
      (product.OriginalPrice ≠ "" → product.Currency = "AZN")) := by
  constructor
  · intro web url product hproduct
    obtain ⟨doc, -, hdef⟩ := IrshadScraper.irshadScrape_product ToLower web _ url product hproduct
    obtain ⟨hcur, -, hcurrency, -⟩ := IrshadScraper.extract_fields ToLower ParseFloat doc
      { URL := url, Site := "irshad", ScrapedAt := web.now }
    rw [← hdef] at hcur hcurrency
    rw [← hcur] at hcurrency
    have hshape := IrshadScraper.cascade_shape ToLower ParseFloat doc
    rw [← hcur] at hshape
    by_cases hmark : strings.Contains product.CurrentPrice "AZN" = true
    · rw [if_pos hmark] at hcurrency
      refine ⟨⟨fun _ => hmark, fun _ => hcurrency⟩, fun h => ?_, fun _ => hcurrency⟩
      rw [hmark] at h
      cases h
    · rw [if_neg hmark] at hcurrency
      have hempty : product.Currency = "" := hcurrency
      refine ⟨⟨fun h => ?_, fun h => absurd h hmark⟩, fun _ => hempty, fun hne => ?_⟩
      · rw [hempty] at h
        exact absurd h (by decide)
      · rcases hshape with h | ⟨price, h⟩
        · exact absurd h hne
        · rw [h] at hmark
          exact absurd (IrshadScraper.sprintfAZN_marker price).1 hmark
  · intro web url product hproduct
    obtain ⟨doc, -, hdef⟩ := KontaktScraper.kontaktScrape_product ToLower web _ url product hproduct
    have hview := KontaktScraper.kontaktExtract_view
      (fun q : Product => (q.CurrentPrice, q.OriginalPrice, q.Currency))
      (fun _ _ => rfl) (fun _ _ => rfl) (fun _ _ => rfl) (fun _ _ => rfl) (fun _ _ => rfl)
      (fun _ _ => rfl) (fun _ _ => rfl) (fun _ _ => rfl) (fun _ _ => rfl) (fun _ _ => rfl)
      (fun _ _ => rfl) ToLower doc { URL := url, Site := "kontakt", ScrapedAt := web.now }
    rw [← hdef] at hview
    simp only [Prod.mk.injEq] at hview
    obtain ⟨hc, ho, hcy⟩ := hview
    obtain ⟨hshape, hboth, hcurrency⟩ := KontaktScraper.priced_prices doc
      { URL := url, Site := "kontakt", ScrapedAt := web.now } rfl rfl rfl
    rw [← hc] at hshape hboth hcurrency
    rw [← ho] at hboth
    rw [← hcy] at hcurrency
    have hnomark : strings.Contains "" "₼" = false := by decide
    by_cases hmark : strings.Contains product.CurrentPrice "₼" = true
    · rw [if_pos hmark] at hcurrency
      refine ⟨⟨fun _ => hmark, fun _ => hcurrency⟩, fun h => ?_, fun _ => hcurrency,
        fun _ => hcurrency⟩
      rw [hmark] at h
      cases h
    · rw [if_neg hmark] at hcurrency
      have hempty : product.CurrentPrice = "" := by
        rcases hshape with h | h
        · exact h
        · exact absurd h hmark
      refine ⟨⟨fun h => ?_, fun h => absurd h hmark⟩, fun _ => hcurrency,
        fun hne => absurd hempty hne, fun hne => absurd hempty (hboth hne)⟩
      rw [hcurrency] at h
      exact absurd h (by decide)

/-- C11 on the Kontakt page with both prices and the discount label. -/
theorem currency_follows_current_price_witness :
    (KontaktScraper.Scrape asciiLower (kontaktWebOf discountedPage)
      (KontaktScraper.extract asciiLower) "https://kontakt.az/p/1").result.product =
      some (KontaktScraper.extract asciiLower discountedPage
        { URL := "https://kontakt.az/p/1", Site := "kontakt",
          ScrapedAt := "2026-01-01T00:00:00Z" }) ∧
    (KontaktScraper.extract asciiLower discountedPage
        { URL := "https://kontakt.az/p/1", Site := "kontakt",
          ScrapedAt := "2026-01-01T00:00:00Z" }).OriginalPrice ≠ "" ∧
    (KontaktScraper.extract asciiLower discountedPage
        { URL := "https://kontakt.az/p/1", Site := "kontakt",
          ScrapedAt := "2026-01-01T00:00:00Z" }).Currency = "AZN" :=
  ⟨by decide, by decide,
    ((currency_follows_current_price asciiLower strconv.ParseDecimal).2
      (kontaktWebOf discountedPage) "https://kontakt.az/p/1" _ (by decide)).2.2.2 (by decide)⟩

/-- C11 as the specification has it fails: on the Irshad page whose only payload
has an instalment price, the original price is populated and contains "AZN"
while the currency stays empty; on the Kontakt page whose only matched element
is the discount label, the discount contains "₼" while the currency stays
empty. -/
theorem marked_price_field_without_currency :
    (∃ product : Product,
      (IrshadScraper.Scrape asciiLower (irshadWebOf installmentOnlyPage)
        (IrshadScraper.extract asciiLower strconv.ParseDecimal)
        "https://irshad.az/p/1").result = ⟨some product, none⟩ ∧
      product.OriginalPrice = "500.00 AZN" ∧
      strings.Contains product.OriginalPrice "AZN" = true ∧
      product.Currency = "" ∧ product.Currency ≠ "AZN") ∧
    (∃ product : Product,
      (KontaktScraper.Scrape asciiLower (kontaktWebOf discountOnlyPage)
        (KontaktScraper.extract asciiLower) "https://kontakt.az/p/1").result =
        ⟨some product, none⟩ ∧
      product.Discount = "-100₼" ∧
      strings.Contains product.Discount "₼" = true ∧
      product.Currency = "" ∧ product.Currency ≠ "AZN") :=
  ⟨⟨{ OriginalPrice := "500.00 AZN", URL := "https://irshad.az/p/1", Site := "irshad",
      ScrapedAt := "2026-01-01T00:00:00Z" }, by decide, rfl, by decide, rfl, by decide⟩,
   ⟨{ Discount := "-100₼", URL := "https://kontakt.az/p/1", Site := "kontakt",
      ScrapedAt := "2026-01-01T00:00:00Z" }, by decide, rfl, by decide, rfl, by decide⟩⟩

/-! ## Passes that find nothing -/

theorem foldl_idle {σ α : Type} (f : σ → α → σ) (xs : List α)
    (h : ∀ x ∈ xs, ∀ s, f s x = s) (s : σ) : xs.foldl f s = s := by
  induction xs generalizing s with
  | nil => rfl
  | cons x rest ih =>
    rw [List.foldl_cons, h x (List.mem_cons_self _ _) s]
    exact ih (fun y hy => h y (List.mem_cons_of_mem _ hy)) s

theorem eachChecked_idle {σ α : Type} (step : σ → α → Option σ) (xs : List α)
    (h : ∀ x ∈ xs, ∀ s, step s x = some s) (s : σ) : eachChecked step xs s = some s := by
  induction xs generalizing s with
  | nil => rfl
  | cons x rest ih =>
    simp only [eachChecked, List.foldlM_cons, h x (List.mem_cons_self _ _) s,
      Option.bind_eq_bind, Option.some_bind]
    exact ih (fun y hy => h y (List.mem_cons_of_mem _ hy)) s

theorem each_idle {σ α : Type} (step : σ → α → Option σ) (xs : List α)
    (h : ∀ x ∈ xs, ∀ s, step s x = some s) (s : σ) : each step xs s = s :=
  foldl_idle _ xs (fun x hx s => by rw [h x hx s]; rfl) s

theorem foldl_invariant_mem {σ α : Type} (f : σ → α → σ) (P : σ → Prop) (xs : List α)
    (h : ∀ x ∈ xs, ∀ s, P s → P (f s x)) (s : σ) (hs : P s) : P (xs.foldl f s) := by
  induction xs generalizing s with
  | nil => exact hs
  | cons x rest ih =>
    exact ih (fun y hy => h y (List.mem_cons_of_mem _ hy)) (f s x)
      (h x (List.mem_cons_self _ _) s hs)

theorem each_invariant_mem {σ α : Type} (step : σ → α → Option σ) (P : σ → Prop) (xs : List α)
    (h : ∀ x ∈ xs, ∀ s next, P s → step s x = some next → P next) (s : σ) (hs : P s) :
    P (each step xs s) :=
  foldl_invariant_mem _ P xs (fun x hx s hs => by
    cases hstep : step s x with
    | none => exact hs
    | some next => exact h x hx s next hs hstep) s hs

/-! ## The Kontakt passes, one by one -/

theorem KontaktScraper.kontaktPost_invariant (P : Product → Prop) (ToLower : String → String)
    (doc : KontaktDoc) (product : Product)
    (hstocks : ∀ s, P s → P (doc.stocks.foldl (KontaktScraper.availabilityFromText ToLower) s))
    (hratings : ∀ s, P s → P (doc.ratings.foldl KontaktScraper.ratingFromText s))
    (hreviews : ∀ s, P s → P (doc.reviews.foldl KontaktScraper.reviewsFromText s))
    (hhar : ∀ s, P s → P (KontaktScraper.harRows ToLower s doc.harRows))
    (htable : ∀ s, P s → P (KontaktScraper.tableRows ToLower s doc.tableRows))
    (h0 : P (KontaktScraper.priced doc product)) :
    P (KontaktScraper.extract ToLower doc product) := by
  unfold KontaktScraper.extract
  exact htable _ (hhar _ (hreviews _ (hratings _ (hstocks _ h0))))

theorem KontaktScraper.priced_invariant (P : Product → Prop) (doc : KontaktDoc)
    (product : Product)
    (hnames : ∀ s, P s → P (doc.names.foldl KontaktScraper.nameFromText s))
    (hskus : ∀ s, P s → P (doc.skus.foldl KontaktScraper.skuFromText s))
    (hfinal : ∀ s, P s → P (doc.finalPrices.foldl KontaktScraper.originalFromText s))
    (hstrong : ∀ s, P s → P (doc.strongSpans.foldl KontaktScraper.currentFromText s))
    (hfallback : ∀ s, P s → P (KontaktScraper.priceFallback s))
    (hdiscounts : ∀ s, P s → P (each KontaktScraper.discountFromText doc.discounts s))
    (hcurrency : ∀ s, P s → P (KontaktScraper.setCurrency s))
    (h0 : P product) : P (KontaktScraper.priced doc product) := by
  unfold KontaktScraper.priced
  exact hcurrency _ (hdiscounts _ (hfallback _ (hstrong _ (hfinal _ (hskus _ (hnames _ h0))))))

theorem KontaktScraper.names_view {β : Type} (view : Product → β)
    (hName : ∀ p v, view { p with Name := v } = view p) (xs : List String) (s : Product) :
    view (xs.foldl KontaktScraper.nameFromText s) = view s :=
  foldl_view _ view (fun s x => by
    unfold KontaktScraper.nameFromText
    split
    · exact hName s _
    · rfl) xs s

theorem KontaktScraper.skus_view {β : Type} (view : Product → β)
    (hSKU : ∀ p v, view { p with SKU := v } = view p) (xs : List String) (s : Product) :
    view (xs.foldl KontaktScraper.skuFromText s) = view s :=
  foldl_view KontaktScraper.skuFromText view (fun s _ => hSKU s _) xs s

theorem KontaktScraper.finalPrices_view {β : Type} (view : Product → β)
    (hOriginal : ∀ p v, view { p with OriginalPrice := v } = view p) (xs : List String)
    (s : Product) : view (xs.foldl KontaktScraper.originalFromText s) = view s :=
  foldl_view _ view (fun s x => by
    unfold KontaktScraper.originalFromText
    split
    · exact hOriginal s _
    · rfl) xs s

theorem KontaktScraper.strongSpans_view {β : Type} (view : Product → β)
    (hCurrent : ∀ p v, view { p with CurrentPrice := v } = view p) (xs : List String)
    (s : Product) : view (xs.foldl KontaktScraper.currentFromText s) = view s :=
  foldl_view _ view (fun s x => by
    unfold KontaktScraper.currentFromText
    split
    · exact hCurrent s _
    · rfl) xs s

theorem KontaktScraper.priceFallback_view {β : Type} (view : Product → β)
    (hCurrent : ∀ p v, view { p with CurrentPrice := v } = view p)
    (hOriginal : ∀ p v, view { p with OriginalPrice := v } = view p) (s : Product) :
    view (KontaktScraper.priceFallback s) = view s := by
  unfold KontaktScraper.priceFallback
  split
  · exact (hOriginal { s with CurrentPrice := s.OriginalPrice } "").trans (hCurrent s _)
  · rfl

theorem KontaktScraper.discounts_view {β : Type} (view : Product → β)
    (hDiscount : ∀ p v, view { p with Discount := v } = view p) (xs : List String)
    (s : Product) : view (each KontaktScraper.discountFromText xs s) = view s :=
  each_view KontaktScraper.discountFromText view (fun s x next hstep => by
    obtain ⟨v, hv⟩ := KontaktScraper.discountFromText_shape s x
    rw [hv] at hstep
    cases hstep
    exact hDiscount s v) xs s

theorem KontaktScraper.setCurrency_view {β : Type} (view : Product → β)
    (hCurrency : ∀ p v, view { p with Currency := v } = view p) (s : Product) :
    view (KontaktScraper.setCurrency s) = view s := by
  unfold KontaktScraper.setCurrency
  split
  · exact hCurrency s _
  · rfl

theorem KontaktScraper.stocks_view {β : Type} (view : Product → β)
    (hAvailability : ∀ p v, view { p with Availability := v } = view p)
    (ToLower : String → String) (xs : List String) (s : Product) :
    view (xs.foldl (KontaktScraper.availabilityFromText ToLower) s) = view s :=
  foldl_view _ view (fun s x => by
    unfold KontaktScraper.availabilityFromText
    split
    · split
      · exact hAvailability s _
      · rfl
    · rfl) xs s

theorem KontaktScraper.ratings_view {β : Type} (view : Product → β)
    (hRating : ∀ p v, view { p with Rating := v } = view p) (xs : List String) (s : Product) :
    view (xs.foldl KontaktScraper.ratingFromText s) = view s :=
  foldl_view _ view (fun s x => by
    unfold KontaktScraper.ratingFromText
    split
    · exact hRating s _
    · rfl) xs s

theorem KontaktScraper.reviews_view {β : Type} (view : Product → β)
    (hReviews : ∀ p v, view { p with ReviewCount := v } = view p) (xs : List String)
    (s : Product) : view (xs.foldl KontaktScraper.reviewsFromText s) = view s :=
  foldl_view _ view (fun s x => by
    unfold KontaktScraper.reviewsFromText
    split
    · exact hReviews s _
    · rfl) xs s

theorem KontaktScraper.harRow_found {β : Type} (view : Product → β) (ToLower : String → String)
    (product : Product) (row : String × String)
    (hBrand : strings.TrimSpace row.1 ≠ "" → strings.TrimSpace row.2 ≠ "" →
      strings.Contains (ToLower (strings.TrimSpace row.1)) "brend" = true →
      ∀ p v, view { p with Brand := v } = view p)
    (hMemory : strings.TrimSpace row.1 ≠ "" → strings.TrimSpace row.2 ≠ "" →
      strings.Contains (ToLower (strings.TrimSpace row.1)) "daxili yaddaş" = true →
      ∀ p v, view { p with InternalMemory := v } = view p)
    (hRAM : strings.TrimSpace row.1 ≠ "" → strings.TrimSpace row.2 ≠ "" →
      strings.Contains (ToLower (strings.TrimSpace row.1)) "operativ yaddaş" = true →
      ∀ p v, view { p with RAM := v } = view p)
    (hMain : strings.TrimSpace row.1 ≠ "" → strings.TrimSpace row.2 ≠ "" →
      strings.Contains (ToLower (strings.TrimSpace row.1)) "əsas kamera" = true →
      ∀ p v, view { p with MainCamera := v } = view p)
    (hFront : strings.TrimSpace row.1 ≠ "" → strings.TrimSpace row.2 ≠ "" →
      strings.Contains (ToLower (strings.TrimSpace row.1)) "ön kamera" = true →
      ∀ p v, view { p with FrontCamera := v } = view p)
    (hProcessor : strings.TrimSpace row.1 ≠ "" → strings.TrimSpace row.2 ≠ "" →
      (strings.Contains (ToLower (strings.TrimSpace row.1)) "prosessorun adı" = true ∨
        strings.Contains (ToLower (strings.TrimSpace row.1)) "prosessorun növü" = true) →
      ∀ p v, view { p with Processor := v } = view p)
    (hOS : strings.TrimSpace row.1 ≠ "" → strings.TrimSpace row.2 ≠ "" →
      strings.Contains (ToLower (strings.TrimSpace row.1)) "əməliyyat sistemi" = true →
      ∀ p v, view { p with OS := v } = view p)
    (hDisplay : strings.TrimSpace row.1 ≠ "" → strings.TrimSpace row.2 ≠ "" →
      strings.Contains (ToLower (strings.TrimSpace row.1)) "displey növü" = true →
      ∀ p v, view { p with Display := v } = view p) :
    view (KontaktScraper.harRow ToLower product row) = view product := by
  unfold KontaktScraper.harRow
  simp only []
  by_cases hempty : strings.TrimSpace row.1 = "" ∨ strings.TrimSpace row.2 = ""
  · rw [if_pos hempty]
  · rw [if_neg hempty]
    have h1 : strings.TrimSpace row.1 ≠ "" := fun h => hempty (Or.inl h)
    have h2 : strings.TrimSpace row.2 ≠ "" := fun h => hempty (Or.inr h)
    by_cases c1 : strings.Contains (ToLower (strings.TrimSpace row.1)) "brend" = true
    · rw [if_pos c1]
      exact hBrand h1 h2 c1 _ _
    rw [if_neg c1]
    by_cases c2 : strings.Contains (ToLower (strings.TrimSpace row.1)) "daxili yaddaş" = true
    · rw [if_pos c2]
      exact hMemory h1 h2 c2 _ _
    rw [if_neg c2]
    by_cases c3 : strings.Contains (ToLower (strings.TrimSpace row.1)) "operativ yaddaş" = true
    · rw [if_pos c3]
      exact hRAM h1 h2 c3 _ _
    rw [if_neg c3]
    by_cases c4 : strings.Contains (ToLower (strings.TrimSpace row.1)) "əsas kamera" = true
    · rw [if_pos c4]
      exact hMain h1 h2 c4 _ _
    rw [if_neg c4]
    by_cases c5 : strings.Contains (ToLower (strings.TrimSpace row.1)) "ön kamera" = true
    · rw [if_pos c5]
      exact hFront h1 h2 c5 _ _
    rw [if_neg c5]
    by_cases c6 : (strings.Contains (ToLower (strings.TrimSpace row.1)) "prosessorun adı" ||
        strings.Contains (ToLower (strings.TrimSpace row.1)) "prosessorun növü") = true
    · rw [if_pos c6]
      have c6p := Bool.or_eq_true_iff.mp c6
      split
      · exact hProcessor h1 h2 c6p _ _
      · split
        · exact hProcessor h1 h2 c6p _ _
        · rfl
    rw [if_neg c6]
    by_cases c7 : strings.Contains (ToLower (strings.TrimSpace row.1)) "əməliyyat sistemi" = true
    · rw [if_pos c7]
      exact hOS h1 h2 c7 _ _
    rw [if_neg c7]
    by_cases c8 : strings.Contains (ToLower (strings.TrimSpace row.1)) "displey növü" = true
    · rw [if_pos c8]
      exact hDisplay h1 h2 c8 _ _
    rw [if_neg c8]

theorem KontaktScraper.tableRow_found {β : Type} (view : Product → β)
    (ToLower : String → String) (product : Product) (row : String × String)
    (hBrand : strings.TrimSpace row.1 ≠ "" → strings.TrimSpace row.2 ≠ "" →
      strings.Contains (ToLower (strings.TrimSpace row.1)) "brend" = true →
      ∀ p v, view { p with Brand := v } = view p)
    (hMemory : strings.TrimSpace row.1 ≠ "" → strings.TrimSpace row.2 ≠ "" →
      strings.Contains (ToLower (strings.TrimSpace row.1)) "daxili yaddaş" = true →
      ∀ p v, view { p with InternalMemory := v } = view p)
    (hRAM : strings.TrimSpace row.1 ≠ "" → strings.TrimSpace row.2 ≠ "" →
      strings.Contains (ToLower (strings.TrimSpace row.1)) "operativ yaddaş" = true →
      ∀ p v, view { p with RAM := v } = view p)
    (hMain : strings.TrimSpace row.1 ≠ "" → strings.TrimSpace row.2 ≠ "" →
      strings.Contains (ToLower (strings.TrimSpace row.1)) "əsas kamera" = true →
      ∀ p v, view { p with MainCamera := v } = view p)
    (hFront : strings.TrimSpace row.1 ≠ "" → strings.TrimSpace row.2 ≠ "" →
      strings.Contains (ToLower (strings.TrimSpace row.1)) "ön kamera" = true →
      ∀ p v, view { p with FrontCamera := v } = view p)
    (hProcessor : strings.TrimSpace row.1 ≠ "" → strings.TrimSpace row.2 ≠ "" →
      (strings.Contains (ToLower (strings.TrimSpace row.1)) "prosessorun adı" = true ∨
        strings.Contains (ToLower (strings.TrimSpace row.1)) "prosessorun növü" = true) →
      ∀ p v, view { p with Processor := v } = view p)
    (hOS : strings.TrimSpace row.1 ≠ "" → strings.TrimSpace row.2 ≠ "" →
      strings.Contains (ToLower (strings.TrimSpace row.1)) "əməliyyat sistemi" = true →
      ∀ p v, view { p with OS := v } = view p)
    (hDisplay : strings.TrimSpace row.1 ≠ "" → strings.TrimSpace row.2 ≠ "" →
      strings.Contains (ToLower (strings.TrimSpace row.1)) "displey növü" = true →
      ∀ p v, view { p with Display := v } = view p) :
    view (KontaktScraper.tableRow ToLower product row) = view product := by
  unfold KontaktScraper.tableRow
  simp only []
  by_cases hempty : strings.TrimSpace row.1 = "" ∨ strings.TrimSpace row.2 = ""
  · rw [if_pos hempty]
  · rw [if_neg hempty]
    have h1 : strings.TrimSpace row.1 ≠ "" := fun h => hempty (Or.inl h)
    have h2 : strings.TrimSpace row.2 ≠ "" := fun h => hempty (Or.inr h)
    by_cases c1 : (strings.Contains (ToLower (strings.TrimSpace row.1)) "brend" &&
        product.Brand == "") = true
    · rw [if_pos c1]
      exact hBrand h1 h2 (Bool.and_eq_true_iff.mp c1).1 _ _
    rw [if_neg c1]
    by_cases c2 : (strings.Contains (ToLower (strings.TrimSpace row.1)) "daxili yaddaş" &&
        product.InternalMemory == "") = true
    · rw [if_pos c2]
      exact hMemory h1 h2 (Bool.and_eq_true_iff.mp c2).1 _ _
    rw [if_neg c2]
    by_cases c3 : (strings.Contains (ToLower (strings.TrimSpace row.1)) "operativ yaddaş" &&
        product.RAM == "") = true
    · rw [if_pos c3]
      exact hRAM h1 h2 (Bool.and_eq_true_iff.mp c3).1 _ _
    rw [if_neg c3]
    by_cases c4 : (strings.Contains (ToLower (strings.TrimSpace row.1)) "əsas kamera" &&
        product.MainCamera == "") = true
    · rw [if_pos c4]
      exact hMain h1 h2 (Bool.and_eq_true_iff.mp c4).1 _ _
    rw [if_neg c4]
    by_cases c5 : (strings.Contains (ToLower (strings.TrimSpace row.1)) "ön kamera" &&
        product.FrontCamera == "") = true
    · rw [if_pos c5]
      exact hFront h1 h2 (Bool.and_eq_true_iff.mp c5).1 _ _
    rw [if_neg c5]
    by_cases c6 : ((strings.Contains (ToLower (strings.TrimSpace row.1)) "prosessorun adı" ||
        strings.Contains (ToLower (strings.TrimSpace row.1)) "prosessorun növü") &&
        product.Processor == "") = true
    · rw [if_pos c6]
      exact hProcessor h1 h2 (Bool.or_eq_true_iff.mp (Bool.and_eq_true_iff.mp c6).1) _ _
    rw [if_neg c6]
    by_cases c7 : (strings.Contains (ToLower (strings.TrimSpace row.1)) "əməliyyat sistemi" &&
        product.OS == "") = true
    · rw [if_pos c7]
      exact hOS h1 h2 (Bool.and_eq_true_iff.mp c7).1 _ _
    rw [if_neg c7]
    by_cases c8 : (strings.Contains (ToLower (strings.TrimSpace row.1)) "displey növü" &&
        product.Display == "") = true
    · rw [if_pos c8]
      exact hDisplay h1 h2 (Bool.and_eq_true_iff.mp c8).1 _ _
    rw [if_neg c8]

theorem foldl_view_mem {σ α β : Type} (f : σ → α → σ) (view : σ → β) (xs : List α)
    (h : ∀ x ∈ xs, ∀ s, view (f s x) = view s) (s : σ) : view (xs.foldl f s) = view s :=
  foldl_invariant_mem f (fun q => view q = view s) xs
    (fun x hx q hq => (h x hx q).trans hq) s rfl

/-! ## Kontakt: a field without a matching element stays empty -/

theorem KontaktScraper.priced_frame {β : Type} (view : Product → β)
    (hName : ∀ p v, view { p with Name := v } = view p)
    (hSKU : ∀ p v, view { p with SKU := v } = view p)
    (hCurrent : ∀ p v, view { p with CurrentPrice := v } = view p)
    (hOriginal : ∀ p v, view { p with OriginalPrice := v } = view p)
    (hDiscount : ∀ p v, view { p with Discount := v } = view p)
    (hCurrency : ∀ p v, view { p with Currency := v } = view p)
    (doc : KontaktDoc) (product : Product) (c : β) (h0 : view product = c) :
    view (KontaktScraper.priced doc product) = c :=
  (KontaktScraper.priced_view view hName hSKU hCurrent hOriginal hDiscount hCurrency doc
    product).trans h0

theorem KontaktScraper.kontakt_name_empty (ToLower : String → String) (doc : KontaktDoc)
    (product : Product) (hfresh : product.Name = "")
    (hnone : ∀ raw ∈ doc.names, strings.TrimSpace raw = "") :
    (KontaktScraper.extract ToLower doc product).Name = "" := by
  rw [KontaktScraper.kontaktExtract_view Product.Name (fun _ _ => rfl) (fun _ _ => rfl) (fun _ _ => rfl) (fun _ _ => rfl) (fun _ _ => rfl) (fun _ _ => rfl) (fun _ _ => rfl) (fun _ _ => rfl) (fun _ _ => rfl) (fun _ _ => rfl) (fun _ _ => rfl) ToLower doc product]
  exact KontaktScraper.priced_invariant (fun q => q.Name = "") doc product
    (fun s hs => foldl_invariant_mem KontaktScraper.nameFromText (fun q => q.Name = "")
      doc.names (fun raw hraw s hs => by
        unfold KontaktScraper.nameFromText
        split
        · exact hnone raw hraw
        · exact hs) s hs)
    (fun s hs => (KontaktScraper.skus_view Product.Name (fun _ _ => rfl) _ s).trans hs)
    (fun s hs => (KontaktScraper.finalPrices_view Product.Name (fun _ _ => rfl) _ s).trans hs)
    (fun s hs => (KontaktScraper.strongSpans_view Product.Name (fun _ _ => rfl) _ s).trans hs)
    (fun s hs => (KontaktScraper.priceFallback_view Product.Name (fun _ _ => rfl)
      (fun _ _ => rfl) s).trans hs)
    (fun s hs => (KontaktScraper.discounts_view Product.Name (fun _ _ => rfl) _ s).trans hs)
    (fun s hs => (KontaktScraper.setCurrency_view Product.Name (fun _ _ => rfl) s).trans hs)
    hfresh

theorem KontaktScraper.kontakt_sku_empty (ToLower : String → String) (doc : KontaktDoc)
    (product : Product) (hfresh : product.SKU = "")
    (hnone : ∀ raw ∈ doc.skus, strings.TrimSpace raw = "") :
    (KontaktScraper.extract ToLower doc product).SKU = "" := by
  rw [KontaktScraper.kontaktExtract_view Product.SKU (fun _ _ => rfl) (fun _ _ => rfl) (fun _ _ => rfl) (fun _ _ => rfl) (fun _ _ => rfl) (fun _ _ => rfl) (fun _ _ => rfl) (fun _ _ => rfl) (fun _ _ => rfl) (fun _ _ => rfl) (fun _ _ => rfl) ToLower doc product]
  exact KontaktScraper.priced_invariant (fun q => q.SKU = "") doc product
    (fun s hs => (KontaktScraper.names_view Product.SKU (fun _ _ => rfl) _ s).trans hs)
    (fun s hs => foldl_invariant_mem KontaktScraper.skuFromText (fun q => q.SKU = "")
      doc.skus (fun raw hraw s hs => hnone raw hraw) s hs)
    (fun s hs => (KontaktScraper.finalPrices_view Product.SKU (fun _ _ => rfl) _ s).trans hs)
    (fun s hs => (KontaktScraper.strongSpans_view Product.SKU (fun _ _ => rfl) _ s).trans hs)
    (fun s hs => (KontaktScraper.priceFallback_view Product.SKU (fun _ _ => rfl)
      (fun _ _ => rfl) s).trans hs)
    (fun s hs => (KontaktScraper.discounts_view Product.SKU (fun _ _ => rfl) _ s).trans hs)
    (fun s hs => (KontaktScraper.setCurrency_view Product.SKU (fun _ _ => rfl) s).trans hs)
    hfresh

theorem KontaktScraper.originalFromText_idle (s : Product) (raw : String)
    (h : strings.Contains (strings.TrimSpace raw) "₼" = false) :
    KontaktScraper.originalFromText s raw = s := by
  unfold KontaktScraper.originalFromText
  rw [h, Bool.and_false]
  rfl

theorem KontaktScraper.currentFromText_idle (s : Product) (raw : String)
    (h : strings.Contains (strings.TrimSpace raw) "₼" = false) :
    KontaktScraper.currentFromText s raw = s := by
  unfold KontaktScraper.currentFromText
  rw [h, Bool.and_false]
  rfl

theorem KontaktScraper.priceFallback_idle (s : Product) (h : s.OriginalPrice = "") :
    KontaktScraper.priceFallback s = s := by
  unfold KontaktScraper.priceFallback
  rw [h]
  simp

theorem KontaktScraper.setCurrency_idle (s : Product) (h : s.CurrentPrice = "") :
    KontaktScraper.setCurrency s = s := by
  unfold KontaktScraper.setCurrency
  rw [h]
  have hno : strings.Contains "" "₼" = false := by decide
  rw [hno]
  rfl

theorem KontaktScraper.kontakt_original_empty (ToLower : String → String) (doc : KontaktDoc)
    (product : Product) (hfresh : product.OriginalPrice = "")
    (hnone : ∀ raw ∈ doc.finalPrices, strings.Contains (strings.TrimSpace raw) "₼" = false) :
    (KontaktScraper.extract ToLower doc product).OriginalPrice = "" := by
  rw [KontaktScraper.kontaktExtract_view Product.OriginalPrice (fun _ _ => rfl) (fun _ _ => rfl) (fun _ _ => rfl) (fun _ _ => rfl) (fun _ _ => rfl) (fun _ _ => rfl) (fun _ _ => rfl) (fun _ _ => rfl) (fun _ _ => rfl) (fun _ _ => rfl) (fun _ _ => rfl) ToLower doc product]
  exact KontaktScraper.priced_invariant (fun q => q.OriginalPrice = "") doc product
    (fun s hs => (KontaktScraper.names_view Product.OriginalPrice (fun _ _ => rfl) _ s).trans hs)
    (fun s hs => (KontaktScraper.skus_view Product.OriginalPrice (fun _ _ => rfl) _ s).trans hs)
    (fun s hs => by
      rw [foldl_idle _ doc.finalPrices (fun raw hraw s =>
        KontaktScraper.originalFromText_idle s raw (hnone raw hraw))]
      exact hs)
    (fun s hs => (KontaktScraper.strongSpans_view Product.OriginalPrice (fun _ _ => rfl) _
      s).trans hs)
    (fun s hs => by
      rw [KontaktScraper.priceFallback_idle s hs]
      exact hs)
    (fun s hs => (KontaktScraper.discounts_view Product.OriginalPrice (fun _ _ => rfl) _
      s).trans hs)
    (fun s hs => (KontaktScraper.setCurrency_view Product.OriginalPrice (fun _ _ => rfl)
      s).trans hs)
    hfresh

theorem KontaktScraper.kontakt_current_empty (ToLower : String → String) (doc : KontaktDoc)
    (product : Product) (hcurrent : product.CurrentPrice = "")
    (horiginal : product.OriginalPrice = "") (hcurrency : product.Currency = "")
    (hfinal : ∀ raw ∈ doc.finalPrices, strings.Contains (strings.TrimSpace raw) "₼" = false)
    (hstrong : ∀ raw ∈ doc.strongSpans, strings.Contains (strings.TrimSpace raw) "₼" = false) :
    (KontaktScraper.extract ToLower doc product).CurrentPrice = "" ∧
    (KontaktScraper.extract ToLower doc product).Currency = "" := by
  have hview := KontaktScraper.kontaktExtract_view
    (fun q : Product => (q.CurrentPrice, q.OriginalPrice, q.Currency)) (fun _ _ => rfl) (fun _ _ => rfl) (fun _ _ => rfl) (fun _ _ => rfl) (fun _ _ => rfl) (fun _ _ => rfl) (fun _ _ => rfl) (fun _ _ => rfl) (fun _ _ => rfl) (fun _ _ => rfl) (fun _ _ => rfl) ToLower doc product
  have hpriced := KontaktScraper.priced_invariant
    (fun q => (q.CurrentPrice, q.OriginalPrice, q.Currency) = ("", "", "")) doc product
    (fun s hs => (KontaktScraper.names_view
      (fun q : Product => (q.CurrentPrice, q.OriginalPrice, q.Currency)) (fun _ _ => rfl) _
      s).trans hs)
    (fun s hs => (KontaktScraper.skus_view
      (fun q : Product => (q.CurrentPrice, q.OriginalPrice, q.Currency)) (fun _ _ => rfl) _
      s).trans hs)
    (fun s hs => by
      rw [foldl_idle _ doc.finalPrices (fun raw hraw s =>
        KontaktScraper.originalFromText_idle s raw (hfinal raw hraw))]
      exact hs)
    (fun s hs => by
      rw [foldl_idle _ doc.strongSpans (fun raw hraw s =>
        KontaktScraper.currentFromText_idle s raw (hstrong raw hraw))]
      exact hs)
    (fun s hs => by
      rw [KontaktScraper.priceFallback_idle s (congrArg (fun t => t.2.1) hs)]
      exact hs)
    (fun s hs => (KontaktScraper.discounts_view
      (fun q : Product => (q.CurrentPrice, q.OriginalPrice, q.Currency)) (fun _ _ => rfl) _
      s).trans hs)
    (fun s hs => by
      rw [KontaktScraper.setCurrency_idle s (congrArg (fun t => t.1) hs)]
      exact hs)
    (by
      show (product.CurrentPrice, product.OriginalPrice, product.Currency) = ("", "", "")
      rw [hcurrent, horiginal, hcurrency])
  have hall := hview.trans hpriced
  exact ⟨congrArg (fun t => t.1) hall, congrArg (fun t => t.2.2) hall⟩

theorem KontaktScraper.discountFromText_idle (s : Product) (raw : String)
    (h : strings.Contains (strings.TrimSpace raw) "₼" = false ∨
      strings.Contains (strings.TrimSpace raw) "-" = false ∨
      ∀ first ∈ (strings.Split (strings.TrimSpace raw) " ").head?,
        strings.Contains first "-" = false) :
    KontaktScraper.discountFromText s raw = some s := by
  unfold KontaktScraper.discountFromText
  rcases h with h | h | h
  · rw [h, Bool.and_false, Bool.false_and]
    rfl
  · rw [h, Bool.and_false]
    rfl
  · split
    · obtain ⟨first, rest, hsplit⟩ := strings.Split_head (strings.TrimSpace raw) " "
      rw [hsplit] at h ⊢
      have hfirst := h first rfl
      simp only [indexAt, List.length_cons, List.getElem?_cons_zero, Option.bind_eq_bind,
        Option.some_bind, hfirst]
      simp
    · rfl

theorem KontaktScraper.kontakt_discount_empty (ToLower : String → String)
    (doc : KontaktDoc) (product : Product) (hfresh : product.Discount = "")
    (hnone : ∀ raw ∈ doc.discounts,
      strings.Contains (strings.TrimSpace raw) "₼" = false ∨
      strings.Contains (strings.TrimSpace raw) "-" = false ∨
      ∀ first ∈ (strings.Split (strings.TrimSpace raw) " ").head?,
        strings.Contains first "-" = false) :
    (KontaktScraper.extract ToLower doc product).Discount = "" := by
  rw [KontaktScraper.kontaktExtract_view Product.Discount (fun _ _ => rfl) (fun _ _ => rfl) (fun _ _ => rfl) (fun _ _ => rfl) (fun _ _ => rfl) (fun _ _ => rfl) (fun _ _ => rfl) (fun _ _ => rfl) (fun _ _ => rfl) (fun _ _ => rfl) (fun _ _ => rfl) ToLower doc product]
  exact KontaktScraper.priced_invariant (fun q => q.Discount = "") doc product
    (fun s hs => (KontaktScraper.names_view Product.Discount (fun _ _ => rfl) _ s).trans hs)
    (fun s hs => (KontaktScraper.skus_view Product.Discount (fun _ _ => rfl) _ s).trans hs)
    (fun s hs => (KontaktScraper.finalPrices_view Product.Discount (fun _ _ => rfl) _
      s).trans hs)
    (fun s hs => (KontaktScraper.strongSpans_view Product.Discount (fun _ _ => rfl) _
      s).trans hs)
    (fun s hs => (KontaktScraper.priceFallback_view Product.Discount (fun _ _ => rfl)
      (fun _ _ => rfl) s).trans hs)
    (fun s hs => by
      rw [each_idle _ doc.discounts (fun raw hraw s =>
        KontaktScraper.discountFromText_idle s raw (hnone raw hraw))]
      exact hs)
    (fun s hs => (KontaktScraper.setCurrency_view Product.Discount (fun _ _ => rfl) s).trans hs)
    hfresh

theorem KontaktScraper.kontakt_availability_empty (ToLower : String → String) (doc : KontaktDoc)
    (product : Product) (hfresh : product.Availability = "")
    (hnone : ∀ raw ∈ doc.stocks, strings.TrimSpace raw = "" ∨
      (strings.Contains (ToLower (strings.TrimSpace raw)) "mövcud" = false ∧
        strings.Contains (ToLower (strings.TrimSpace raw)) "available" = false ∧
        strings.Contains (ToLower (strings.TrimSpace raw)) "stock" = false)) :
    (KontaktScraper.extract ToLower doc product).Availability = "" := by
  exact KontaktScraper.kontaktPost_invariant (fun q => q.Availability = "") ToLower doc product
    (fun s hs => by
      rw [foldl_idle _ doc.stocks (fun raw hraw s => by
        unfold KontaktScraper.availabilityFromText
        rcases hnone raw hraw with h | ⟨h1, h2, h3⟩
        · rw [h]
          simp
        · rw [h1, h2, h3]
          simp)]
      exact hs)
    (fun s hs => (KontaktScraper.ratings_view Product.Availability (fun _ _ => rfl) _ s).trans hs)
    (fun s hs => (KontaktScraper.reviews_view Product.Availability (fun _ _ => rfl) _ s).trans hs)
    (fun s hs => (foldl_view _ Product.Availability (KontaktScraper.harRow_view Product.Availability (fun _ _ => rfl) (fun _ _ => rfl) (fun _ _ => rfl) (fun _ _ => rfl) (fun _ _ => rfl) (fun _ _ => rfl) (fun _ _ => rfl) (fun _ _ => rfl) ToLower) doc.harRows s).trans hs)
    (fun s hs => (foldl_view _ Product.Availability (KontaktScraper.tableRow_view Product.Availability (fun _ _ => rfl) (fun _ _ => rfl) (fun _ _ => rfl) (fun _ _ => rfl) (fun _ _ => rfl) (fun _ _ => rfl) (fun _ _ => rfl) (fun _ _ => rfl) ToLower) doc.tableRows s).trans hs)
    (KontaktScraper.priced_frame Product.Availability (fun _ _ => rfl) (fun _ _ => rfl) (fun _ _ => rfl) (fun _ _ => rfl) (fun _ _ => rfl) (fun _ _ => rfl) doc product "" hfresh)

theorem KontaktScraper.kontakt_rating_empty (ToLower : String → String) (doc : KontaktDoc)
    (product : Product) (hfresh : product.Rating = "")
    (hnone : ∀ raw ∈ doc.ratings, strings.TrimSpace raw = "") :
    (KontaktScraper.extract ToLower doc product).Rating = "" := by
  exact KontaktScraper.kontaktPost_invariant (fun q => q.Rating = "") ToLower doc product
    (fun s hs => (KontaktScraper.stocks_view Product.Rating (fun _ _ => rfl) ToLower _ s).trans hs)
    (fun s hs => foldl_invariant_mem KontaktScraper.ratingFromText (fun q => q.Rating = "")
      doc.ratings (fun raw hraw s hs => by
        unfold KontaktScraper.ratingFromText
        split
        · exact hnone raw hraw
        · exact hs) s hs)
    (fun s hs => (KontaktScraper.reviews_view Product.Rating (fun _ _ => rfl) _ s).trans hs)
    (fun s hs => (foldl_view _ Product.Rating (KontaktScraper.harRow_view Product.Rating (fun _ _ => rfl) (fun _ _ => rfl) (fun _ _ => rfl) (fun _ _ => rfl) (fun _ _ => rfl) (fun _ _ => rfl) (fun _ _ => rfl) (fun _ _ => rfl) ToLower) doc.harRows s).trans hs)
    (fun s hs => (foldl_view _ Product.Rating (KontaktScraper.tableRow_view Product.Rating (fun _ _ => rfl) (fun _ _ => rfl) (fun _ _ => rfl) (fun _ _ => rfl) (fun _ _ => rfl) (fun _ _ => rfl) (fun _ _ => rfl) (fun _ _ => rfl) ToLower) doc.tableRows s).trans hs)
    (KontaktScraper.priced_frame Product.Rating (fun _ _ => rfl) (fun _ _ => rfl) (fun _ _ => rfl) (fun _ _ => rfl) (fun _ _ => rfl) (fun _ _ => rfl) doc product "" hfresh)

theorem KontaktScraper.kontakt_reviews_empty (ToLower : String → String) (doc : KontaktDoc)
    (product : Product) (hfresh : product.ReviewCount = "")
    (hnone : ∀ raw ∈ doc.reviews, strings.TrimSpace raw = "") :
    (KontaktScraper.extract ToLower doc product).ReviewCount = "" := by
  exact KontaktScraper.kontaktPost_invariant (fun q => q.ReviewCount = "") ToLower doc product
    (fun s hs => (KontaktScraper.stocks_view Product.ReviewCount (fun _ _ => rfl) ToLower _ s).trans hs)
    (fun s hs => (KontaktScraper.ratings_view Product.ReviewCount (fun _ _ => rfl) _ s).trans hs)
    (fun s hs => foldl_invariant_mem KontaktScraper.reviewsFromText (fun q => q.ReviewCount = "")
      doc.reviews (fun raw hraw s hs => by
        unfold KontaktScraper.reviewsFromText
        split
        · exact hnone raw hraw
        · exact hs) s hs)
    (fun s hs => (foldl_view _ Product.ReviewCount (KontaktScraper.harRow_view Product.ReviewCount (fun _ _ => rfl) (fun _ _ => rfl) (fun _ _ => rfl) (fun _ _ => rfl) (fun _ _ => rfl) (fun _ _ => rfl) (fun _ _ => rfl) (fun _ _ => rfl) ToLower) doc.harRows s).trans hs)
    (fun s hs => (foldl_view _ Product.ReviewCount (KontaktScraper.tableRow_view Product.ReviewCount (fun _ _ => rfl) (fun _ _ => rfl) (fun _ _ => rfl) (fun _ _ => rfl) (fun _ _ => rfl) (fun _ _ => rfl) (fun _ _ => rfl) (fun _ _ => rfl) ToLower) doc.tableRows s).trans hs)
    (KontaktScraper.priced_frame Product.ReviewCount (fun _ _ => rfl) (fun _ _ => rfl) (fun _ _ => rfl) (fun _ _ => rfl) (fun _ _ => rfl) (fun _ _ => rfl) doc product "" hfresh)

theorem KontaktScraper.kontakt_brand_empty (ToLower : String → String) (doc : KontaktDoc)
    (product : Product) (hfresh : product.Brand = "")
    (hnone : ∀ row ∈ doc.harRows ++ doc.tableRows,
      strings.TrimSpace row.1 = "" ∨ strings.TrimSpace row.2 = "" ∨
      strings.Contains (ToLower (strings.TrimSpace row.1)) "brend" = false) :
    (KontaktScraper.extract ToLower doc product).Brand = "" := by
  exact KontaktScraper.kontaktPost_invariant (fun q => q.Brand = "") ToLower doc product
    (fun s hs => (KontaktScraper.stocks_view Product.Brand (fun _ _ => rfl) ToLower _ s).trans hs)
    (fun s hs => (KontaktScraper.ratings_view Product.Brand (fun _ _ => rfl) _ s).trans hs)
    (fun s hs => (KontaktScraper.reviews_view Product.Brand (fun _ _ => rfl) _ s).trans hs)
    (fun s hs => (foldl_view_mem (KontaktScraper.harRow ToLower) Product.Brand doc.harRows
      (fun row hrow s => KontaktScraper.harRow_found Product.Brand ToLower s row
        (fun h1 h2 hk => by
          rcases hnone row (List.mem_append.mpr (Or.inl hrow)) with h | h | h
          · exact absurd h h1
          · exact absurd h h2
          · rw [h] at hk
            cases hk)
        (fun _ _ _ _ _ => rfl)
        (fun _ _ _ _ _ => rfl)
        (fun _ _ _ _ _ => rfl)
        (fun _ _ _ _ _ => rfl)
        (fun _ _ _ _ _ => rfl)
        (fun _ _ _ _ _ => rfl)
        (fun _ _ _ _ _ => rfl)) s).trans hs)
    (fun s hs => (foldl_view_mem (KontaktScraper.tableRow ToLower) Product.Brand doc.tableRows
      (fun row hrow s => KontaktScraper.tableRow_found Product.Brand ToLower s row
        (fun h1 h2 hk => by
          rcases hnone row (List.mem_append.mpr (Or.inr hrow)) with h | h | h
          · exact absurd h h1
          · exact absurd h h2
          · rw [h] at hk
            cases hk)
        (fun _ _ _ _ _ => rfl)
        (fun _ _ _ _ _ => rfl)
        (fun _ _ _ _ _ => rfl)
        (fun _ _ _ _ _ => rfl)
        (fun _ _ _ _ _ => rfl)
        (fun _ _ _ _ _ => rfl)
        (fun _ _ _ _ _ => rfl)) s).trans hs)
    (KontaktScraper.priced_frame Product.Brand (fun _ _ => rfl) (fun _ _ => rfl) (fun _ _ => rfl) (fun _ _ => rfl) (fun _ _ => rfl) (fun _ _ => rfl) doc product "" hfresh)

theorem KontaktScraper.kontakt_memory_empty (ToLower : String → String) (doc : KontaktDoc)
    (product : Product) (hfresh : product.InternalMemory = "")
    (hnone : ∀ row ∈ doc.harRows ++ doc.tableRows,
      strings.TrimSpace row.1 = "" ∨ strings.TrimSpace row.2 = "" ∨
      strings.Contains (ToLower (strings.TrimSpace row.1)) "daxili yaddaş" = false) :
    (KontaktScraper.extract ToLower doc product).InternalMemory = "" := by
  exact KontaktScraper.kontaktPost_invariant (fun q => q.InternalMemory = "") ToLower doc product
    (fun s hs => (KontaktScraper.stocks_view Product.InternalMemory (fun _ _ => rfl) ToLower _ s).trans hs)
    (fun s hs => (KontaktScraper.ratings_view Product.InternalMemory (fun _ _ => rfl) _ s).trans hs)
    (fun s hs => (KontaktScraper.reviews_view Product.InternalMemory (fun _ _ => rfl) _ s).trans hs)
    (fun s hs => (foldl_view_mem (KontaktScraper.harRow ToLower) Product.InternalMemory doc.harRows
      (fun row hrow s => KontaktScraper.harRow_found Product.InternalMemory ToLower s row
        (fun _ _ _ _ _ => rfl)
        (fun h1 h2 hk => by
          rcases hnone row (List.mem_append.mpr (Or.inl hrow)) with h | h | h
          · exact absurd h h1
          · exact absurd h h2
          · rw [h] at hk
            cases hk)
        (fun _ _ _ _ _ => rfl)
        (fun _ _ _ _ _ => rfl)
        (fun _ _ _ _ _ => rfl)
        (fun _ _ _ _ _ => rfl)
        (fun _ _ _ _ _ => rfl)
        (fun _ _ _ _ _ => rfl)) s).trans hs)
    (fun s hs => (foldl_view_mem (KontaktScraper.tableRow ToLower) Product.InternalMemory doc.tableRows
      (fun row hrow s => KontaktScraper.tableRow_found Product.InternalMemory ToLower s row
        (fun _ _ _ _ _ => rfl)
        (fun h1 h2 hk => by
          rcases hnone row (List.mem_append.mpr (Or.inr hrow)) with h | h | h
          · exact absurd h h1
          · exact absurd h h2
          · rw [h] at hk
            cases hk)
        (fun _ _ _ _ _ => rfl)
        (fun _ _ _ _ _ => rfl)
        (fun _ _ _ _ _ => rfl)
        (fun _ _ _ _ _ => rfl)
        (fun _ _ _ _ _ => rfl)
        (fun _ _ _ _ _ => rfl)) s).trans hs)
    (KontaktScraper.priced_frame Product.InternalMemory (fun _ _ => rfl) (fun _ _ => rfl) (fun _ _ => rfl) (fun _ _ => rfl) (fun _ _ => rfl) (fun _ _ => rfl) doc product "" hfresh)

theorem KontaktScraper.kontakt_ram_empty (ToLower : String → String) (doc : KontaktDoc)
    (product : Product) (hfresh : product.RAM = "")
    (hnone : ∀ row ∈ doc.harRows ++ doc.tableRows,
      strings.TrimSpace row.1 = "" ∨ strings.TrimSpace row.2 = "" ∨
      strings.Contains (ToLower (strings.TrimSpace row.1)) "operativ yaddaş" = false) :
    (KontaktScraper.extract ToLower doc product).RAM = "" := by
  exact KontaktScraper.kontaktPost_invariant (fun q => q.RAM = "") ToLower doc product
    (fun s hs => (KontaktScraper.stocks_view Product.RAM (fun _ _ => rfl) ToLower _ s).trans hs)
    (fun s hs => (KontaktScraper.ratings_view Product.RAM (fun _ _ => rfl) _ s).trans hs)
    (fun s hs => (KontaktScraper.reviews_view Product.RAM (fun _ _ => rfl) _ s).trans hs)
    (fun s hs => (foldl_view_mem (KontaktScraper.harRow ToLower) Product.RAM doc.harRows
      (fun row hrow s => KontaktScraper.harRow_found Product.RAM ToLower s row
        (fun _ _ _ _ _ => rfl)
        (fun _ _ _ _ _ => rfl)
        (fun h1 h2 hk => by
          rcases hnone row (List.mem_append.mpr (Or.inl hrow)) with h | h | h
          · exact absurd h h1
          · exact absurd h h2
          · rw [h] at hk
            cases hk)
        (fun _ _ _ _ _ => rfl)
        (fun _ _ _ _ _ => rfl)
        (fun _ _ _ _ _ => rfl)
        (fun _ _ _ _ _ => rfl)
        (fun _ _ _ _ _ => rfl)) s).trans hs)
    (fun s hs => (foldl_view_mem (KontaktScraper.tableRow ToLower) Product.RAM doc.tableRows
      (fun row hrow s => KontaktScraper.tableRow_found Product.RAM ToLower s row
        (fun _ _ _ _ _ => rfl)
        (fun _ _ _ _ _ => rfl)
        (fun h1 h2 hk => by
          rcases hnone row (List.mem_append.mpr (Or.inr hrow)) with h | h | h
          · exact absurd h h1
          · exact absurd h h2
          · rw [h] at hk
            cases hk)
        (fun _ _ _ _ _ => rfl)
        (fun _ _ _ _ _ => rfl)
        (fun _ _ _ _ _ => rfl)
        (fun _ _ _ _ _ => rfl)
        (fun _ _ _ _ _ => rfl)) s).trans hs)
    (KontaktScraper.priced_frame Product.RAM (fun _ _ => rfl) (fun _ _ => rfl) (fun _ _ => rfl) (fun _ _ => rfl) (fun _ _ => rfl) (fun _ _ => rfl) doc product "" hfresh)

theorem KontaktScraper.kontakt_mainCamera_empty (ToLower : String → String) (doc : KontaktDoc)
    (product : Product) (hfresh : product.MainCamera = "")
    (hnone : ∀ row ∈ doc.harRows ++ doc.tableRows,
      strings.TrimSpace row.1 = "" ∨ strings.TrimSpace row.2 = "" ∨
      strings.Contains (ToLower (strings.TrimSpace row.1)) "əsas kamera" = false) :
    (KontaktScraper.extract ToLower doc product).MainCamera = "" := by
  exact KontaktScraper.kontaktPost_invariant (fun q => q.MainCamera = "") ToLower doc product
    (fun s hs => (KontaktScraper.stocks_view Product.MainCamera (fun _ _ => rfl) ToLower _ s).trans hs)
    (fun s hs => (KontaktScraper.ratings_view Product.MainCamera (fun _ _ => rfl) _ s).trans hs)
    (fun s hs => (KontaktScraper.reviews_view Product.MainCamera (fun _ _ => rfl) _ s).trans hs)
    (fun s hs => (foldl_view_mem (KontaktScraper.harRow ToLower) Product.MainCamera doc.harRows
      (fun row hrow s => KontaktScraper.harRow_found Product.MainCamera ToLower s row
        (fun _ _ _ _ _ => rfl)
        (fun _ _ _ _ _ => rfl)
        (fun _ _ _ _ _ => rfl)
        (fun h1 h2 hk => by
          rcases hnone row (List.mem_append.mpr (Or.inl hrow)) with h | h | h
          · exact absurd h h1
          · exact absurd h h2
          · rw [h] at hk
            cases hk)
        (fun _ _ _ _ _ => rfl)
        (fun _ _ _ _ _ => rfl)
        (fun _ _ _ _ _ => rfl)
        (fun _ _ _ _ _ => rfl)) s).trans hs)
    (fun s hs => (foldl_view_mem (KontaktScraper.tableRow ToLower) Product.MainCamera doc.tableRows
      (fun row hrow s => KontaktScraper.tableRow_found Product.MainCamera ToLower s row
        (fun _ _ _ _ _ => rfl)
        (fun _ _ _ _ _ => rfl)
        (fun _ _ _ _ _ => rfl)
        (fun h1 h2 hk => by
          rcases hnone row (List.mem_append.mpr (Or.inr hrow)) with h | h | h
          · exact absurd h h1
          · exact absurd h h2
          · rw [h] at hk
            cases hk)
        (fun _ _ _ _ _ => rfl)
        (fun _ _ _ _ _ => rfl)
        (fun _ _ _ _ _ => rfl)
        (fun _ _ _ _ _ => rfl)) s).trans hs)
    (KontaktScraper.priced_frame Product.MainCamera (fun _ _ => rfl) (fun _ _ => rfl) (fun _ _ => rfl) (fun _ _ => rfl) (fun _ _ => rfl) (fun _ _ => rfl) doc product "" hfresh)

theorem KontaktScraper.kontakt_frontCamera_empty (ToLower : String → String) (doc : KontaktDoc)
    (product : Product) (hfresh : product.FrontCamera = "")
    (hnone : ∀ row ∈ doc.harRows ++ doc.tableRows,
      strings.TrimSpace row.1 = "" ∨ strings.TrimSpace row.2 = "" ∨
      strings.Contains (ToLower (strings.TrimSpace row.1)) "ön kamera" = false) :
    (KontaktScraper.extract ToLower doc product).FrontCamera = "" := by
  exact KontaktScraper.kontaktPost_invariant (fun q => q.FrontCamera = "") ToLower doc product
    (fun s hs => (KontaktScraper.stocks_view Product.FrontCamera (fun _ _ => rfl) ToLower _ s).trans hs)
    (fun s hs => (KontaktScraper.ratings_view Product.FrontCamera (fun _ _ => rfl) _ s).trans hs)
    (fun s hs => (KontaktScraper.reviews_view Product.FrontCamera (fun _ _ => rfl) _ s).trans hs)
    (fun s hs => (foldl_view_mem (KontaktScraper.harRow ToLower) Product.FrontCamera doc.harRows
      (fun row hrow s => KontaktScraper.harRow_found Product.FrontCamera ToLower s row
        (fun _ _ _ _ _ => rfl)
        (fun _ _ _ _ _ => rfl)
        (fun _ _ _ _ _ => rfl)
        (fun _ _ _ _ _ => rfl)
        (fun h1 h2 hk => by
          rcases hnone row (List.mem_append.mpr (Or.inl hrow)) with h | h | h
          · exact absurd h h1
          · exact absurd h h2
          · rw [h] at hk
            cases hk)
        (fun _ _ _ _ _ => rfl)
        (fun _ _ _ _ _ => rfl)
        (fun _ _ _ _ _ => rfl)) s).trans hs)
    (fun s hs => (foldl_view_mem (KontaktScraper.tableRow ToLower) Product.FrontCamera doc.tableRows
      (fun row hrow s => KontaktScraper.tableRow_found Product.FrontCamera ToLower s row
        (fun _ _ _ _ _ => rfl)
        (fun _ _ _ _ _ => rfl)
        (fun _ _ _ _ _ => rfl)
        (fun _ _ _ _ _ => rfl)
        (fun h1 h2 hk => by
          rcases hnone row (List.mem_append.mpr (Or.inr hrow)) with h | h | h
          · exact absurd h h1
          · exact absurd h h2
          · rw [h] at hk
            cases hk)
        (fun _ _ _ _ _ => rfl)
        (fun _ _ _ _ _ => rfl)
        (fun _ _ _ _ _ => rfl)) s).trans hs)
    (KontaktScraper.priced_frame Product.FrontCamera (fun _ _ => rfl) (fun _ _ => rfl) (fun _ _ => rfl) (fun _ _ => rfl) (fun _ _ => rfl) (fun _ _ => rfl) doc product "" hfresh)

theorem KontaktScraper.kontakt_processor_empty (ToLower : String → String) (doc : KontaktDoc)
    (product : Product) (hfresh : product.Processor = "")
    (hnone : ∀ row ∈ doc.harRows ++ doc.tableRows,
      strings.TrimSpace row.1 = "" ∨ strings.TrimSpace row.2 = "" ∨
      (strings.Contains (ToLower (strings.TrimSpace row.1)) "prosessorun adı" = false ∧
        strings.Contains (ToLower (strings.TrimSpace row.1)) "prosessorun növü" = false)) :
    (KontaktScraper.extract ToLower doc product).Processor = "" := by
  exact KontaktScraper.kontaktPost_invariant (fun q => q.Processor = "") ToLower doc product
    (fun s hs => (KontaktScraper.stocks_view Product.Processor (fun _ _ => rfl) ToLower _ s).trans hs)
    (fun s hs => (KontaktScraper.ratings_view Product.Processor (fun _ _ => rfl) _ s).trans hs)
    (fun s hs => (KontaktScraper.reviews_view Product.Processor (fun _ _ => rfl) _ s).trans hs)
    (fun s hs => (foldl_view_mem (KontaktScraper.harRow ToLower) Product.Processor doc.harRows
      (fun row hrow s => KontaktScraper.harRow_found Product.Processor ToLower s row
        (fun _ _ _ _ _ => rfl)
        (fun _ _ _ _ _ => rfl)
        (fun _ _ _ _ _ => rfl)
        (fun _ _ _ _ _ => rfl)
        (fun _ _ _ _ _ => rfl)
        (fun h1 h2 hk => by
          rcases hnone row (List.mem_append.mpr (Or.inl hrow)) with h | h | ⟨ha, hb⟩
          · exact absurd h h1
          · exact absurd h h2
          · rcases hk with hk | hk
            · rw [ha] at hk
              cases hk
            · rw [hb] at hk
              cases hk)
        (fun _ _ _ _ _ => rfl)
        (fun _ _ _ _ _ => rfl)) s).trans hs)
    (fun s hs => (foldl_view_mem (KontaktScraper.tableRow ToLower) Product.Processor doc.tableRows
      (fun row hrow s => KontaktScraper.tableRow_found Product.Processor ToLower s row
        (fun _ _ _ _ _ => rfl)
        (fun _ _ _ _ _ => rfl)
        (fun _ _ _ _ _ => rfl)
        (fun _ _ _ _ _ => rfl)
        (fun _ _ _ _ _ => rfl)
        (fun h1 h2 hk => by
          rcases hnone row (List.mem_append.mpr (Or.inr hrow)) with h | h | ⟨ha, hb⟩
          · exact absurd h h1
          · exact absurd h h2
          · rcases hk with hk | hk
            · rw [ha] at hk
              cases hk
            · rw [hb] at hk
              cases hk)
        (fun _ _ _ _ _ => rfl)
        (fun _ _ _ _ _ => rfl)) s).trans hs)
    (KontaktScraper.priced_frame Product.Processor (fun _ _ => rfl) (fun _ _ => rfl) (fun _ _ => rfl) (fun _ _ => rfl) (fun _ _ => rfl) (fun _ _ => rfl) doc product "" hfresh)

theorem KontaktScraper.kontakt_os_empty (ToLower : String → String) (doc : KontaktDoc)
    (product : Product) (hfresh : product.OS = "")
    (hnone : ∀ row ∈ doc.harRows ++ doc.tableRows,
      strings.TrimSpace row.1 = "" ∨ strings.TrimSpace row.2 = "" ∨
      strings.Contains (ToLower (strings.TrimSpace row.1)) "əməliyyat sistemi" = false) :
    (KontaktScraper.extract ToLower doc product).OS = "" := by
  exact KontaktScraper.kontaktPost_invariant (fun q => q.OS = "") ToLower doc product
    (fun s hs => (KontaktScraper.stocks_view Product.OS (fun _ _ => rfl) ToLower _ s).trans hs)
    (fun s hs => (KontaktScraper.ratings_view Product.OS (fun _ _ => rfl) _ s).trans hs)
    (fun s hs => (KontaktScraper.reviews_view Product.OS (fun _ _ => rfl) _ s).trans hs)
    (fun s hs => (foldl_view_mem (KontaktScraper.harRow ToLower) Product.OS doc.harRows
      (fun row hrow s => KontaktScraper.harRow_found Product.OS ToLower s row
        (fun _ _ _ _ _ => rfl)
        (fun _ _ _ _ _ => rfl)
        (fun _ _ _ _ _ => rfl)
        (fun _ _ _ _ _ => rfl)
        (fun _ _ _ _ _ => rfl)
        (fun _ _ _ _ _ => rfl)
        (fun h1 h2 hk => by
          rcases hnone row (List.mem_append.mpr (Or.inl hrow)) with h | h | h
          · exact absurd h h1
          · exact absurd h h2
          · rw [h] at hk
            cases hk)
        (fun _ _ _ _ _ => rfl)) s).trans hs)
    (fun s hs => (foldl_view_mem (KontaktScraper.tableRow ToLower) Product.OS doc.tableRows
      (fun row hrow s => KontaktScraper.tableRow_found Product.OS ToLower s row
        (fun _ _ _ _ _ => rfl)
        (fun _ _ _ _ _ => rfl)
        (fun _ _ _ _ _ => rfl)
        (fun _ _ _ _ _ => rfl)
        (fun _ _ _ _ _ => rfl)
        (fun _ _ _ _ _ => rfl)
        (fun h1 h2 hk => by
          rcases hnone row (List.mem_append.mpr (Or.inr hrow)) with h | h | h
          · exact absurd h h1
          · exact absurd h h2
          · rw [h] at hk
            cases hk)
        (fun _ _ _ _ _ => rfl)) s).trans hs)
    (KontaktScraper.priced_frame Product.OS (fun _ _ => rfl) (fun _ _ => rfl) (fun _ _ => rfl) (fun _ _ => rfl) (fun _ _ => rfl) (fun _ _ => rfl) doc product "" hfresh)

theorem KontaktScraper.kontakt_display_empty (ToLower : String → String) (doc : KontaktDoc)
    (product : Product) (hfresh : product.Display = "")
    (hnone : ∀ row ∈ doc.harRows ++ doc.tableRows,
      strings.TrimSpace row.1 = "" ∨ strings.TrimSpace row.2 = "" ∨
      strings.Contains (ToLower (strings.TrimSpace row.1)) "displey növü" = false) :
    (KontaktScraper.extract ToLower doc product).Display = "" := by
  exact KontaktScraper.kontaktPost_invariant (fun q => q.Display = "") ToLower doc product
    (fun s hs => (KontaktScraper.stocks_view Product.Display (fun _ _ => rfl) ToLower _ s).trans hs)
    (fun s hs => (KontaktScraper.ratings_view Product.Display (fun _ _ => rfl) _ s).trans hs)
    (fun s hs => (KontaktScraper.reviews_view Product.Display (fun _ _ => rfl) _ s).trans hs)
    (fun s hs => (foldl_view_mem (KontaktScraper.harRow ToLower) Product.Display doc.harRows
      (fun row hrow s => KontaktScraper.harRow_found Product.Display ToLower s row
        (fun _ _ _ _ _ => rfl)
        (fun _ _ _ _ _ => rfl)
        (fun _ _ _ _ _ => rfl)
        (fun _ _ _ _ _ => rfl)
        (fun _ _ _ _ _ => rfl)
        (fun _ _ _ _ _ => rfl)
        (fun _ _ _ _ _ => rfl)
        (fun h1 h2 hk => by
          rcases hnone row (List.mem_append.mpr (Or.inl hrow)) with h | h | h
          · exact absurd h h1
          · exact absurd h h2
          · rw [h] at hk
            cases hk)) s).trans hs)
    (fun s hs => (foldl_view_mem (KontaktScraper.tableRow ToLower) Product.Display doc.tableRows
      (fun row hrow s => KontaktScraper.tableRow_found Product.Display ToLower s row
        (fun _ _ _ _ _ => rfl)
        (fun _ _ _ _ _ => rfl)
        (fun _ _ _ _ _ => rfl)
        (fun _ _ _ _ _ => rfl)
        (fun _ _ _ _ _ => rfl)
        (fun _ _ _ _ _ => rfl)
        (fun _ _ _ _ _ => rfl)
        (fun h1 h2 hk => by
          rcases hnone row (List.mem_append.mpr (Or.inr hrow)) with h | h | h
          · exact absurd h h1
          · exact absurd h h2
          · rw [h] at hk
            cases hk)) s).trans hs)
    (KontaktScraper.priced_frame Product.Display (fun _ _ => rfl) (fun _ _ => rfl) (fun _ _ => rfl) (fun _ _ => rfl) (fun _ _ => rfl) (fun _ _ => rfl) doc product "" hfresh)

/-! ## Irshad: callbacks that find nothing -/

theorem IrshadScraper.nameFromH1_idle (ToLower : String → String) (s : Product) (raw : String)
    (h : strings.TrimSpace raw = "" ∨
      strings.Contains (ToLower (strings.TrimSpace raw)) "irşad" = true ∨
      strings.Contains (ToLower (strings.TrimSpace raw)) "məhsul" = true ∨
      (strings.TrimSpace raw).utf8ByteSize ≤ 5) :
    IrshadScraper.nameFromH1 ToLower s raw = s := by
  unfold IrshadScraper.nameFromH1
  rcases h with h | h | h | h
  · rw [h]
    simp
  · rw [h]
    simp
  · rw [h]
    simp
  · have hd : decide ((strings.TrimSpace raw).utf8ByteSize > 5) = false :=
      decide_eq_false (by omega)
    rw [hd]
    simp

theorem IrshadScraper.title_slices (line : String)
    (hstart : strings.Index line "\"title\":\"" ≠ -1) :
    ∃ tail, sliceFrom line (strings.Index line "\"title\":\"" + 9) = some tail ∧
      (strings.Index tail "\"," ≠ -1 →
        ∃ title, sliceStr line (strings.Index line "\"title\":\"" + 9)
          (strings.Index line "\"title\":\"" + 9 + strings.Index tail "\",") = some title) := by
  rcases strings.Index_range line "\"title\":\"" with hneg | ⟨h0, hlen⟩
  · exact absurd hneg hstart
  · have h9 : ((("\"title\":\"" : String).length : Nat) : Int) = 9 := by decide
    rw [h9] at hlen
    obtain ⟨tail, htail, htaildef⟩ := sliceStr_isSome line
      (strings.Index line "\"title\":\"" + 9) line.length (by omega) hlen le_rfl
    refine ⟨tail, htail, fun hend => ?_⟩
    rcases strings.Index_range tail "\"," with hneg2 | ⟨h02, hlen2⟩
    · exact absurd hneg2 hend
    · have htl : (tail.length : Int) =
          (line.length : Int) - (strings.Index line "\"title\":\"" + 9) := by
        rw [htaildef]
        simp only [String.length, List.length_take, List.length_drop]
        simp only [String.length] at hlen
        omega
      have h2 : ((("\"," : String).length : Nat) : Int) = 2 := by decide
      rw [h2] at hlen2
      obtain ⟨title, htitle, -⟩ := sliceStr_isSome line
        (strings.Index line "\"title\":\"" + 9)
        (strings.Index line "\"title\":\"" + 9 + strings.Index tail "\",")
        (by omega) (by omega) (by omega)
      exact ⟨title, htitle⟩

theorem IrshadScraper.titleFromLine_idle (s : Product) (line : String)
    (h : strings.Contains line "\"title\":" = false ∨
      strings.Contains line "PlayStation" = false ∨
      strings.Index line "\"title\":\"" = -1 ∨
      ∀ tail ∈ sliceFrom line (strings.Index line "\"title\":\"" + 9),
        strings.Index tail "\"," = -1 ∨
        ∀ title ∈ sliceStr line (strings.Index line "\"title\":\"" + 9)
            (strings.Index line "\"title\":\"" + 9 + strings.Index tail "\","),
          title.utf8ByteSize ≤ 5) :
    IrshadScraper.titleFromLine s line = some s := by
  unfold IrshadScraper.titleFromLine
  rcases h with h | h | h | h
  · rw [h, Bool.false_and]
    rfl
  · rw [h, Bool.and_false]
    rfl
  · split
    · rw [h]
      rfl
    · rfl
  · split
    · split
      · rename_i hstart
        have hstart2 : strings.Index line "\"title\":\"" ≠ -1 := by simpa using hstart
        obtain ⟨tail, htail, htitles⟩ := IrshadScraper.title_slices line hstart2
        rw [htail]
        simp only [Option.bind_eq_bind, Option.some_bind]
        rcases h tail htail with hend | htitle
        · rw [hend]
          rfl
        · split
          · rename_i hend
            have hend2 : strings.Index tail "\"," ≠ -1 := by simpa using hend
            obtain ⟨title, hslice⟩ := htitles hend2
            rw [hslice]
            simp only [Option.some_bind]
            have hd : decide (title.utf8ByteSize > 5) = false :=
              decide_eq_false (by have := htitle title hslice; omega)
            rw [hd, Bool.false_and]
            rfl
          · rfl
      · rfl
    · rfl

theorem IrshadScraper.titleFromScript_idle (s : Product) (content : String)
    (h : strings.Contains content "\"title\":" = true →
      ∀ line ∈ strings.Split content "\n",
        strings.Contains line "\"title\":" = false ∨
        strings.Contains line "PlayStation" = false ∨
        strings.Index line "\"title\":\"" = -1 ∨
        ∀ tail ∈ sliceFrom line (strings.Index line "\"title\":\"" + 9),
          strings.Index tail "\"," = -1 ∨
          ∀ title ∈ sliceStr line (strings.Index line "\"title\":\"" + 9)
              (strings.Index line "\"title\":\"" + 9 + strings.Index tail "\","),
            title.utf8ByteSize ≤ 5) :
    IrshadScraper.titleFromScript s content = some s := by
  unfold IrshadScraper.titleFromScript
  split
  · rename_i hc
    exact eachChecked_idle _ _ (fun line hline s =>
      IrshadScraper.titleFromLine_idle s line (h hc line hline)) s
  · rfl

theorem IrshadScraper.firstGroupFloat_found (ParseFloat : String → Option F64)
    (found : List (List String)) (value : Option F64)
    (h : IrshadScraper.firstGroupFloat ParseFloat found = some value) :
    value = none ∨ ∃ m ∈ found.head?, ∃ group ∈ m[1]?, ParseFloat group = value := by
  unfold IrshadScraper.firstGroupFloat at h
  rcases found with _ | ⟨first, rest⟩
  · simp at h
    exact Or.inl h.symm
  · rcases first with _ | ⟨whole, _ | ⟨group, more⟩⟩
    · simp [indexAt] at h
      exact Or.inl h.symm
    · simp [indexAt] at h
      exact Or.inl h.symm
    · simp [indexAt] at h
      exact Or.inr ⟨whole :: group :: more, rfl, group, by simp, h⟩

theorem IrshadScraper.calculatorScript_current (ParseFloat : String → Option F64)
    (prices next : String × String) (content : String)
    (h : strings.Contains content "Calculator.init" = false ∨
      strings.Contains content "price" = false ∨
      ∀ m ∈ (regexp.FindAllStringSubmatch regexp.price content).head?,
        ∀ group ∈ m[1]?, ParseFloat group = none)
    (hstep : IrshadScraper.calculatorScript ParseFloat prices content = some next) :
    next.1 = prices.1 := by
  unfold IrshadScraper.calculatorScript at hstep
  split at hstep
  · rename_i hguard
    simp only [Bool.and_eq_true] at hguard
    rcases h with h | h | h
    · rw [h] at hguard
      exact absurd hguard.1 (by simp)
    · rw [h] at hguard
      exact absurd hguard.2 (by simp)
    · obtain ⟨price, hprice⟩ := IrshadScraper.firstGroupFloat_total ParseFloat
        (regexp.FindAllStringSubmatch regexp.price content)
      obtain ⟨installment, hinstallment⟩ := IrshadScraper.firstGroupFloat_total ParseFloat
        (regexp.FindAllStringSubmatch regexp.installmentPrice content)
      simp only [hprice, hinstallment, Option.bind_eq_bind, Option.some_bind] at hstep
      cases hstep
      rcases IrshadScraper.firstGroupFloat_found ParseFloat _ price hprice with hp | hp
      · rw [hp]
      · obtain ⟨m, hm, group, hgroup, hparse⟩ := hp
        rw [← hparse, h m hm group hgroup]
  · cases hstep
    rfl

theorem IrshadScraper.calculatorScript_original (ParseFloat : String → Option F64)
    (prices next : String × String) (content : String)
    (h : strings.Contains content "Calculator.init" = false ∨
      strings.Contains content "price" = false ∨
      ∀ m ∈ (regexp.FindAllStringSubmatch regexp.installmentPrice content).head?,
        ∀ group ∈ m[1]?, ParseFloat group = none)
    (hstep : IrshadScraper.calculatorScript ParseFloat prices content = some next) :
    next.2 = prices.2 := by
  unfold IrshadScraper.calculatorScript at hstep
  split at hstep
  · rename_i hguard
    simp only [Bool.and_eq_true] at hguard
    rcases h with h | h | h
    · rw [h] at hguard
      exact absurd hguard.1 (by simp)
    · rw [h] at hguard
      exact absurd hguard.2 (by simp)
    · obtain ⟨price, hprice⟩ := IrshadScraper.firstGroupFloat_total ParseFloat
        (regexp.FindAllStringSubmatch regexp.price content)
      obtain ⟨installment, hinstallment⟩ := IrshadScraper.firstGroupFloat_total ParseFloat
        (regexp.FindAllStringSubmatch regexp.installmentPrice content)
      simp only [hprice, hinstallment, Option.bind_eq_bind, Option.some_bind] at hstep
      cases hstep
      rcases IrshadScraper.firstGroupFloat_found ParseFloat _ installment hinstallment with
        hp | hp
      · rw [hp]
      · obtain ⟨m, hm, group, hgroup, hparse⟩ := hp
        rw [← hparse, h m hm group hgroup]
  · cases hstep
    rfl

theorem IrshadScraper.jsonLdScript_original (ParseFloat : String → Option F64)
    (prices next : String × String) (content : String)
    (hstep : IrshadScraper.jsonLdScript ParseFloat prices content = some next) :
    next.2 = prices.2 := by
  unfold IrshadScraper.jsonLdScript at hstep
  split at hstep
  · obtain ⟨price, hprice⟩ := IrshadScraper.firstGroupFloat_total ParseFloat
      (regexp.FindAllStringSubmatch regexp.quotedPrice content)
    simp only [hprice, Option.bind_eq_bind, Option.some_bind] at hstep
    rcases price with _ | p
    · cases hstep
      rfl
    · simp only [] at hstep
      split at hstep
      · cases hstep
        rfl
      · cases hstep
        rfl
  · cases hstep
    rfl

theorem IrshadScraper.jsonLdScript_idle (ParseFloat : String → Option F64)
    (prices : String × String) (content : String)
    (h : strings.Contains content "\"@type\"" = false ∨
      strings.Contains content "Product" = false ∨
      ∀ m ∈ (regexp.FindAllStringSubmatch regexp.quotedPrice content).head?,
        ∀ group ∈ m[1]?, ∀ price ∈ ParseFloat group,
          IrshadScraper.priceInRange price = false) :
    IrshadScraper.jsonLdScript ParseFloat prices content = some prices := by
  unfold IrshadScraper.jsonLdScript
  split
  · rename_i hguard
    simp only [Bool.and_eq_true] at hguard
    rcases h with h | h | h
    · rw [h] at hguard
      exact absurd hguard.1 (by simp)
    · rw [h] at hguard
      exact absurd hguard.2 (by simp)
    · obtain ⟨price, hprice⟩ := IrshadScraper.firstGroupFloat_total ParseFloat
        (regexp.FindAllStringSubmatch regexp.quotedPrice content)
      simp only [hprice, Option.bind_eq_bind, Option.some_bind]
      rcases price with _ | p
      · rfl
      · rcases IrshadScraper.firstGroupFloat_found ParseFloat _ (some p) hprice with hp | hp
        · cases hp
        · obtain ⟨m, hm, group, hgroup, hparse⟩ := hp
          have hrange := h m hm group hgroup p hparse
          simp only [hrange]
          rfl
  · rfl

theorem IrshadScraper.priceCandidate_none (ToLower : String → String)
    (ParseFloat : String → Option F64) (re : String → Option String) (raw : String)
    (h : strings.Contains (strings.TrimSpace raw) "AZN" = false ∨
      strings.Contains (strings.TrimSpace raw) "x" = true ∨
      strings.Contains (ToLower (strings.TrimSpace raw)) "aylıq" = true ∨
      strings.Contains (strings.TrimSpace raw) "ay" = true ∨
      strings.Contains (ToLower (strings.TrimSpace raw)) "credit" = true ∨
      strings.Contains (ToLower (strings.TrimSpace raw)) "kredit" = true ∨
      20 ≤ (strings.TrimSpace raw).utf8ByteSize ∨
      ∀ number ∈ re (strings.TrimSpace raw),
        ∀ price ∈ ParseFloat number, IrshadScraper.priceInRange price = false) :
    IrshadScraper.priceCandidate ToLower ParseFloat re raw = none := by
  unfold IrshadScraper.priceCandidate
  simp only []
  rcases h with h | h | h | h | h | h | h | h
  · rw [h]
    simp
  · rw [h]
    simp
  · rw [h]
    simp
  · rw [h]
    simp
  · rw [h]
    simp
  · rw [h]
    simp
  · have hd : decide ((strings.TrimSpace raw).utf8ByteSize < 20) = false :=
      decide_eq_false (by omega)
    rw [hd]
    simp
  · split
    · rcases hre : re (strings.TrimSpace raw) with _ | number
      · rfl
      · simp only []
        rcases hparse : ParseFloat number with _ | price
        · rfl
        · simp only [h number hre price hparse]
          rfl
    · rfl

theorem IrshadScraper.text_not_found (ToLower : String → String)
    (ParseFloat : String → Option F64) (raw : String)
    (h : strings.Contains (strings.TrimSpace raw) "AZN" = false ∨
      strings.Contains (strings.TrimSpace raw) "x" = true ∨
      strings.Contains (ToLower (strings.TrimSpace raw)) "aylıq" = true ∨
      strings.Contains (strings.TrimSpace raw) "ay" = true ∨
      strings.Contains (ToLower (strings.TrimSpace raw)) "credit" = true ∨
      strings.Contains (ToLower (strings.TrimSpace raw)) "kredit" = true ∨
      20 ≤ (strings.TrimSpace raw).utf8ByteSize ∨
      ((∀ number ∈ IrshadScraper.matchPriceStrict (strings.TrimSpace raw),
          ∀ price ∈ ParseFloat number, IrshadScraper.priceInRange price = false) ∧
        (∀ number ∈ IrshadScraper.matchPriceLoose (strings.TrimSpace raw),
          ∀ price ∈ ParseFloat number, IrshadScraper.priceInRange price = false))) :
    IrshadScraper.priceCandidate ToLower ParseFloat IrshadScraper.matchPriceStrict raw = none ∧
    IrshadScraper.priceCandidate ToLower ParseFloat IrshadScraper.matchPriceLoose raw = none := by
  constructor
  · apply IrshadScraper.priceCandidate_none
    tauto
  · apply IrshadScraper.priceCandidate_none
    tauto

theorem IrshadScraper.textFallback_idle (ToLower : String → String)
    (ParseFloat : String → Option F64) (re : String → Option String) (texts : List String)
    (prices : String × String)
    (h : ∀ raw ∈ texts, IrshadScraper.priceCandidate ToLower ParseFloat re raw = none) :
    IrshadScraper.textFallback ToLower ParseFloat re texts prices = prices := by
  have hnil : texts.filterMap (IrshadScraper.priceCandidate ToLower ParseFloat re) = [] :=
    List.filterMap_eq_nil_iff.mpr h
  unfold IrshadScraper.textFallback
  rw [hnil]
  split
  · rfl
  · rfl

theorem IrshadScraper.cascade_current_empty (ToLower : String → String)
    (ParseFloat : String → Option F64) (doc : IrshadDoc)
    (hcalc : ∀ content ∈ doc.scripts,
      strings.Contains content "Calculator.init" = false ∨
      strings.Contains content "price" = false ∨
      ∀ m ∈ (regexp.FindAllStringSubmatch regexp.price content).head?,
        ∀ group ∈ m[1]?, ParseFloat group = none)
    (hjson : ∀ content ∈ doc.scripts,
      strings.Contains content "\"@type\"" = false ∨
      strings.Contains content "Product" = false ∨
      ∀ m ∈ (regexp.FindAllStringSubmatch regexp.quotedPrice content).head?,
        ∀ group ∈ m[1]?, ∀ price ∈ ParseFloat group,
          IrshadScraper.priceInRange price = false)
    (htext : ∀ raw ∈ doc.all,
      strings.Contains (strings.TrimSpace raw) "AZN" = false ∨
      strings.Contains (strings.TrimSpace raw) "x" = true ∨
      strings.Contains (ToLower (strings.TrimSpace raw)) "aylıq" = true ∨
      strings.Contains (strings.TrimSpace raw) "ay" = true ∨
      strings.Contains (ToLower (strings.TrimSpace raw)) "credit" = true ∨
      strings.Contains (ToLower (strings.TrimSpace raw)) "kredit" = true ∨
      20 ≤ (strings.TrimSpace raw).utf8ByteSize ∨
      ((∀ number ∈ IrshadScraper.matchPriceStrict (strings.TrimSpace raw),
          ∀ price ∈ ParseFloat number, IrshadScraper.priceInRange price = false) ∧
        (∀ number ∈ IrshadScraper.matchPriceLoose (strings.TrimSpace raw),
          ∀ price ∈ ParseFloat number, IrshadScraper.priceInRange price = false))) :
    (IrshadScraper.cascadePrices ToLower ParseFloat doc).1 = "" := by
  have h1 : (each (IrshadScraper.calculatorScript ParseFloat) doc.scripts ("", "")).1 = "" :=
    each_invariant_mem (IrshadScraper.calculatorScript ParseFloat) (fun q => q.1 = "")
      doc.scripts (fun content hcontent q next hq hstep =>
        (IrshadScraper.calculatorScript_current ParseFloat q next content
          (hcalc content hcontent) hstep).trans hq) ("", "") rfl
  unfold IrshadScraper.cascadePrices IrshadScraper.visibleTextPrices IrshadScraper.scriptPrices
  rw [if_pos h1, each_idle _ doc.scripts (fun content hcontent q =>
      IrshadScraper.jsonLdScript_idle ParseFloat q content (hjson content hcontent)),
    IrshadScraper.textFallback_idle _ _ _ _ _ (fun raw hraw =>
      (IrshadScraper.text_not_found ToLower ParseFloat raw (htext raw hraw)).1),
    IrshadScraper.textFallback_idle _ _ _ _ _ (fun raw hraw =>
      (IrshadScraper.text_not_found ToLower ParseFloat raw (htext raw hraw)).2)]
  exact h1

theorem IrshadScraper.cascade_original_empty (ToLower : String → String)
    (ParseFloat : String → Option F64) (doc : IrshadDoc)
    (hcalc : ∀ content ∈ doc.scripts,
      strings.Contains content "Calculator.init" = false ∨
      strings.Contains content "price" = false ∨
      ∀ m ∈ (regexp.FindAllStringSubmatch regexp.installmentPrice content).head?,
        ∀ group ∈ m[1]?, ParseFloat group = none)
    (htext : ∀ raw ∈ doc.all,
      strings.Contains (strings.TrimSpace raw) "AZN" = false ∨
      strings.Contains (strings.TrimSpace raw) "x" = true ∨
      strings.Contains (ToLower (strings.TrimSpace raw)) "aylıq" = true ∨
      strings.Contains (strings.TrimSpace raw) "ay" = true ∨
      strings.Contains (ToLower (strings.TrimSpace raw)) "credit" = true ∨
      strings.Contains (ToLower (strings.TrimSpace raw)) "kredit" = true ∨
      20 ≤ (strings.TrimSpace raw).utf8ByteSize ∨
      ((∀ number ∈ IrshadScraper.matchPriceStrict (strings.TrimSpace raw),
          ∀ price ∈ ParseFloat number, IrshadScraper.priceInRange price = false) ∧
        (∀ number ∈ IrshadScraper.matchPriceLoose (strings.TrimSpace raw),
          ∀ price ∈ ParseFloat number, IrshadScraper.priceInRange price = false))) :
    (IrshadScraper.cascadePrices ToLower ParseFloat doc).2 = "" := by
  have h1 : (each (IrshadScraper.calculatorScript ParseFloat) doc.scripts ("", "")).2 = "" :=
    each_invariant_mem (IrshadScraper.calculatorScript ParseFloat) (fun q => q.2 = "")
      doc.scripts (fun content hcontent q next hq hstep =>
        (IrshadScraper.calculatorScript_original ParseFloat q next content
          (hcalc content hcontent) hstep).trans hq) ("", "") rfl
  have h2 : (IrshadScraper.scriptPrices ParseFloat doc.scripts).2 = "" := by
    unfold IrshadScraper.scriptPrices
    split
    · exact each_invariant (IrshadScraper.jsonLdScript ParseFloat) (fun q => q.2 = "")
        (fun q content next hq hstep =>
          (IrshadScraper.jsonLdScript_original ParseFloat q next content hstep).trans hq)
        doc.scripts _ h1
    · exact h1
  unfold IrshadScraper.cascadePrices IrshadScraper.visibleTextPrices
  rw [IrshadScraper.textFallback_idle _ _ _ _ _ (fun raw hraw =>
      (IrshadScraper.text_not_found ToLower ParseFloat raw (htext raw hraw)).1),
    IrshadScraper.textFallback_idle _ _ _ _ _ (fun raw hraw =>
      (IrshadScraper.text_not_found ToLower ParseFloat raw (htext raw hraw)).2)]
  exact h2

theorem IrshadScraper.availabilityFromText_idle (ToLower : String → String) (s : Product)
    (raw : String)
    (h : ToLower (strings.TrimSpace raw) ≠ "stokda var" ∧
      ToLower (strings.TrimSpace raw) ≠ "mövcuddur" ∧
      ToLower (strings.TrimSpace raw) ≠ "var" ∧
      ToLower (strings.TrimSpace raw) ≠ "stokda yoxdur" ∧
      ToLower (strings.TrimSpace raw) ≠ "yoxdur") :
    IrshadScraper.availabilityFromText ToLower s raw = s := by
  obtain ⟨h1, h2, h3, h4, h5⟩ := h
  unfold IrshadScraper.availabilityFromText
  simp [h1, h2, h3, h4, h5]

theorem IrshadScraper.groupOne_none (found : List String) (h : found[1]? = none) :
    IrshadScraper.groupOne found = some none := by
  unfold IrshadScraper.groupOne
  rcases found with _ | ⟨whole, _ | ⟨group, more⟩⟩
  · rfl
  · simp
  · simp at h

theorem IrshadScraper.groupOne_found (found : List String) (value : Option String)
    (h : IrshadScraper.groupOne found = some value) : found[1]? = value := by
  unfold IrshadScraper.groupOne at h
  rcases found with _ | ⟨whole, _ | ⟨group, more⟩⟩
  · simp at h
    simp [h]
  · simp at h
    simp [h]
  · simp [indexAt] at h
    simp [h]

theorem IrshadScraper.skuFromText_idle (ToLower : String → String) (s : Product) (raw : String)
    (h : strings.Contains (strings.TrimSpace raw) "93528" = false ∧
      (strings.Contains (ToLower (strings.TrimSpace raw)) "malın kodu" = false ∨
        (regexp.FindStringSubmatch regexp.digits (strings.TrimSpace raw))[1]? = none)) :
    IrshadScraper.skuFromText ToLower s raw = some s := by
  obtain ⟨h1, h2⟩ := h
  unfold IrshadScraper.skuFromText
  rw [h1, Bool.false_and]
  simp only [Bool.false_eq_true, if_false]
  rcases h2 with h2 | h2
  · rw [h2, Bool.false_and]
    rfl
  · split
    · rw [IrshadScraper.groupOne_none _ h2]
      rfl
    · rfl

theorem IrshadScraper.skuFromScript_idle (s : Product) (content : String)
    (h1 : (strings.Contains content "Calculator.init" && strings.Contains content "code") = true →
      (regexp.FindStringSubmatch regexp.codeSpaced content)[1]? = none)
    (h2 : (strings.Contains content "Calculator.init" && strings.Contains content "code") = false →
      strings.Contains content "\"id\":" = false ∨
      strings.Contains content "\"code\":" = false ∨
      (regexp.FindStringSubmatch regexp.codeTight content)[1]? = none) :
    IrshadScraper.skuFromScript s content = some s := by
  unfold IrshadScraper.skuFromScript
  by_cases hguard : (strings.Contains content "Calculator.init" &&
      strings.Contains content "code") = true
  · rw [if_pos hguard, IrshadScraper.groupOne_none _ (h1 hguard)]
    rfl
  · rw [if_neg hguard]
    rcases h2 (by simpa using hguard) with h | h | h
    · rw [h, Bool.false_and]
      rfl
    · rw [h, Bool.and_false]
      rfl
    · split
      · rw [IrshadScraper.groupOne_none _ h]
        rfl
      · rfl

theorem IrshadScraper.brandFromText_idle (ToLower : String → String) (s : Product)
    (raw : String)
    (h : strings.Contains (ToLower (strings.TrimSpace raw)) "brend :" = false ∨
      ∀ part ∈ (strings.Split (strings.TrimSpace raw) ":")[1]?,
        ∀ first ∈ (strings.Split (strings.TrimSpace part) "\n").head?,
          strings.TrimSpace first = "" ∨ 20 ≤ (strings.TrimSpace first).utf8ByteSize ∨
          strings.Contains (strings.TrimSpace first) "\x7b" = true) :
    IrshadScraper.brandFromText ToLower s raw = some s := by
  unfold IrshadScraper.brandFromText
  rcases h with h | h
  · rw [h, Bool.false_and]
    rfl
  · split
    · split
      · rename_i hlen
        rcases hparts : strings.Split (strings.TrimSpace raw) ":" with
          _ | ⟨p0, _ | ⟨p1, more⟩⟩
        · simp [hparts] at hlen
        · simp [hparts] at hlen
        · obtain ⟨first, rest, hsplit⟩ := strings.Split_head (strings.TrimSpace p1) "\n"
          rw [hparts] at h
          have hfirst := h p1 (by simp) first (by simp [hsplit])
          simp only [indexAt, List.getElem?_cons_succ, List.getElem?_cons_zero,
            Option.bind_eq_bind, Option.some_bind, hsplit]
          rcases hfirst with hf | hf | hf
          · rw [hf]
            simp
          · have hd : decide ((strings.TrimSpace first).utf8ByteSize < 20) = false :=
              decide_eq_false (by omega)
            rw [hd]
            simp
          · rw [hf]
            simp
      · rfl
    · rfl

theorem IrshadScraper.brandFromScript_idle (s : Product) (content : String)
    (h : strings.Contains content "\"brand\"" = false ∨
      ∀ title ∈ (regexp.FindStringSubmatch regexp.brandTitle content)[1]?,
        strings.TrimSpace title = "" ∨ 20 ≤ (strings.TrimSpace title).utf8ByteSize) :
    IrshadScraper.brandFromScript s content = some s := by
  unfold IrshadScraper.brandFromScript
  rcases h with h | h
  · rw [h]
    rfl
  · split
    · obtain ⟨group, hgroup⟩ := IrshadScraper.groupOne_total
        (regexp.FindStringSubmatch regexp.brandTitle content)
      have hfound := IrshadScraper.groupOne_found _ group hgroup
      simp only [hgroup, Option.bind_eq_bind, Option.some_bind]
      rcases group with _ | title
      · rfl
      · simp only []
        split
        · rcases h title hfound with hf | hf
          · rw [hf]
            simp
          · have hd : decide ((strings.TrimSpace title).utf8ByteSize < 20) = false :=
              decide_eq_false (by omega)
            rw [hd]
            simp
        · rfl
    · rfl

theorem IrshadScraper.brandFromName_idle (ToLower : String → String) (s : Product)
    (h : ∀ brand ∈ IrshadScraper.brands, strings.Contains (ToLower s.Name) brand = false) :
    IrshadScraper.brandFromName ToLower s = some s := by
  have hfind : IrshadScraper.brands.find?
      (fun brand => strings.Contains (ToLower s.Name) brand) = none := by
    rw [List.find?_eq_none]
    intro brand hmem
    simp [h brand hmem]
  unfold IrshadScraper.brandFromName
  split
  · rw [hfind]
    rfl
  · rfl

theorem IrshadScraper.specText_found {β : Type} (view : Product → β)
    (ToLower : String → String) (product : Product) (raw : String)
    (hMemory : (∃ label ∈ (strings.Split (strings.TrimSpace raw) " : ").head?,
        strings.Contains (strings.TrimSpace raw) " : " = true ∧
        strings.Contains (strings.TrimSpace (ToLower label)) "daxili yaddaş" = true) →
      ∀ p v, view { p with InternalMemory := v } = view p)
    (hRAM : (∃ label ∈ (strings.Split (strings.TrimSpace raw) " : ").head?,
        strings.Contains (strings.TrimSpace raw) " : " = true ∧
        strings.Contains (strings.TrimSpace (ToLower label)) "operativ yaddaş" = true) →
      ∀ p v, view { p with RAM := v } = view p)
    (hProcessor : (∃ label ∈ (strings.Split (strings.TrimSpace raw) " : ").head?,
        strings.Contains (strings.TrimSpace raw) " : " = true ∧
        strings.Contains (strings.TrimSpace (ToLower label)) "prosessor" = true) →
      ∀ p v, view { p with Processor := v } = view p)
    (hDisplay : (∃ label ∈ (strings.Split (strings.TrimSpace raw) " : ").head?,
        strings.Contains (strings.TrimSpace raw) " : " = true ∧
        strings.Contains (strings.TrimSpace (ToLower label)) "qrafik prosessor" = true) →
      ∀ p v, view { p with Display := v } = view p)
    (hOS : (∃ label ∈ (strings.Split (strings.TrimSpace raw) " : ").head?,
        strings.Contains (strings.TrimSpace raw) " : " = true ∧
        strings.Contains (strings.TrimSpace (ToLower label)) "çəki" = true) →
      ∀ p v, view { p with OS := v } = view p) :
    view (IrshadScraper.specText ToLower product raw) = view product := by
  unfold IrshadScraper.specText
  simp only []
  split
  · rename_i hsep
    rcases hparts : strings.Split (strings.TrimSpace raw) " : " with _ | ⟨p0, _ | ⟨p1, more⟩⟩
    · rfl
    · rfl
    · rw [hparts] at hMemory hRAM hProcessor hDisplay hOS
      simp only []
      unfold IrshadScraper.specPair
      simp only []
      by_cases c1 : (strings.Contains (strings.TrimSpace (ToLower p0)) "daxili yaddaş" &&
          product.InternalMemory == "") = true
      · rw [if_pos c1]
        exact hMemory ⟨p0, by simp, hsep, (Bool.and_eq_true_iff.mp c1).1⟩ _ _
      rw [if_neg c1]
      by_cases c2 : (strings.Contains (strings.TrimSpace (ToLower p0)) "operativ yaddaş" &&
          product.RAM == "") = true
      · rw [if_pos c2]
        exact hRAM ⟨p0, by simp, hsep, (Bool.and_eq_true_iff.mp c2).1⟩ _ _
      rw [if_neg c2]
      by_cases c3 : (strings.Contains (strings.TrimSpace (ToLower p0)) "prosessor" &&
          product.Processor == "") = true
      · rw [if_pos c3]
        exact hProcessor ⟨p0, by simp, hsep, (Bool.and_eq_true_iff.mp c3).1⟩ _ _
      rw [if_neg c3]
      by_cases c4 : (strings.Contains (strings.TrimSpace (ToLower p0)) "qrafik prosessor" &&
          product.Display == "") = true
      · rw [if_pos c4]
        exact hDisplay ⟨p0, by simp, hsep, (Bool.and_eq_true_iff.mp c4).1⟩ _ _
      rw [if_neg c4]
      by_cases c5 : (strings.Contains (strings.TrimSpace (ToLower p0)) "çəki" &&
          product.Brand != "" && product.OS == "") = true
      · rw [if_pos c5]
        exact hOS ⟨p0, by simp, hsep,
          (Bool.and_eq_true_iff.mp (Bool.and_eq_true_iff.mp c5).1).1⟩ _ _
      rw [if_neg c5]
  · rfl

/-! ## The Irshad passes, one by one -/

theorem IrshadScraper.irshadPost_invariant (P : Product → Prop) (ToLower : String → String)
    (ParseFloat : String → Option F64) (doc : IrshadDoc) (product : Product)
    (hstock : ∀ s, P s → P (doc.all.foldl (IrshadScraper.availabilityFromText ToLower) s))
    (hskuText : ∀ s, P s → P (each (IrshadScraper.skuFromText ToLower) doc.all s))
    (hskuScript : ∀ s, P s →
      P (if s.SKU = "" then each IrshadScraper.skuFromScript doc.scripts s else s))
    (hbrandText : ∀ s, P s → P (each (IrshadScraper.brandFromText ToLower) doc.all s))
    (hbrandScript : ∀ s, P s →
      P (if s.Brand = "" then each IrshadScraper.brandFromScript doc.scripts s else s))
    (hspec : ∀ s, P s → P (IrshadScraper.specTexts ToLower s doc.all))
    (hbrandName : ∀ s, P s → P ((IrshadScraper.brandFromName ToLower s).getD s))
    (h0 : P (IrshadScraper.priced ToLower ParseFloat doc product)) :
    P (IrshadScraper.extract ToLower ParseFloat doc product) := by
  unfold IrshadScraper.extract IrshadScraper.branded
  exact hbrandName _ (hspec _ (hbrandScript _ (hbrandText _ (hskuScript _ (hskuText _
    (hstock _ h0))))))

theorem IrshadScraper.irshadPriced_view {β : Type} (view : Product → β)
    (hName : ∀ p v, view { p with Name := v } = view p)
    (hCurrent : ∀ p v, view { p with CurrentPrice := v } = view p)
    (hOriginal : ∀ p v, view { p with OriginalPrice := v } = view p)
    (hDiscount : ∀ p v, view { p with Discount := v } = view p)
    (hCurrency : ∀ p v, view { p with Currency := v } = view p)
    (ToLower : String → String) (ParseFloat : String → Option F64) (doc : IrshadDoc)
    (product : Product) (c : β) (h0 : view product = c) :
    view (IrshadScraper.priced ToLower ParseFloat doc product) = c := by
  obtain ⟨discount, hassign⟩ := IrshadScraper.assignPrices_fields ParseFloat
    (IrshadScraper.named ToLower doc product)
    (IrshadScraper.cascadePrices ToLower ParseFloat doc).1
    (IrshadScraper.cascadePrices ToLower ParseFloat doc).2
  have hnamed := IrshadScraper.named_view view hName ToLower doc product
  have hassigned : view (IrshadScraper.assignPrices ParseFloat
      (IrshadScraper.named ToLower doc product)
      (IrshadScraper.cascadePrices ToLower ParseFloat doc).1
      (IrshadScraper.cascadePrices ToLower ParseFloat doc).2) = c := by
    rw [hassign]
    exact ((hDiscount { IrshadScraper.named ToLower doc product with
        CurrentPrice := (IrshadScraper.cascadePrices ToLower ParseFloat doc).1,
        OriginalPrice := (IrshadScraper.cascadePrices ToLower ParseFloat doc).2 } discount).trans
      ((hOriginal { IrshadScraper.named ToLower doc product with
        CurrentPrice := (IrshadScraper.cascadePrices ToLower ParseFloat doc).1 } _).trans
        (hCurrent _ _))).trans (hnamed.trans h0)
  unfold IrshadScraper.priced IrshadScraper.setCurrency
  split
  · exact (hCurrency _ _).trans hassigned
  · exact hassigned

theorem IrshadScraper.stock_view {β : Type} (view : Product → β)
    (hAvailability : ∀ p v, view { p with Availability := v } = view p)
    (ToLower : String → String) (xs : List String) (s : Product) :
    view (xs.foldl (IrshadScraper.availabilityFromText ToLower) s) = view s :=
  foldl_view _ view (fun s x => by
    unfold IrshadScraper.availabilityFromText
    split
    · split
      · exact hAvailability s _
      · split
        · exact hAvailability s _
        · rfl
    · rfl) xs s

theorem IrshadScraper.skuText_view {β : Type} (view : Product → β)
    (hSKU : ∀ p v, view { p with SKU := v } = view p)
    (ToLower : String → String) (xs : List String) (s : Product) :
    view (each (IrshadScraper.skuFromText ToLower) xs s) = view s :=
  each_view _ view (fun s x next hstep => by
    obtain ⟨v, hv⟩ := IrshadScraper.skuFromText_shape ToLower s x
    rw [hv] at hstep
    cases hstep
    exact hSKU s v) xs s

theorem IrshadScraper.skuScript_view {β : Type} (view : Product → β)
    (hSKU : ∀ p v, view { p with SKU := v } = view p) (xs : List String) (s : Product) :
    view (if s.SKU = "" then each IrshadScraper.skuFromScript xs s else s) = view s := by
  split
  · exact each_view _ view (fun s x next hstep => by
      obtain ⟨v, hv⟩ := IrshadScraper.skuFromScript_shape s x
      rw [hv] at hstep
      cases hstep
      exact hSKU s v) xs s
  · rfl

theorem IrshadScraper.brandText_view {β : Type} (view : Product → β)
    (hBrand : ∀ p v, view { p with Brand := v } = view p)
    (ToLower : String → String) (xs : List String) (s : Product) :
    view (each (IrshadScraper.brandFromText ToLower) xs s) = view s :=
  each_view _ view (fun s x next hstep => by
    obtain ⟨v, hv⟩ := IrshadScraper.brandFromText_shape ToLower s x
    rw [hv] at hstep
    cases hstep
    exact hBrand s v) xs s

theorem IrshadScraper.brandScript_view {β : Type} (view : Product → β)
    (hBrand : ∀ p v, view { p with Brand := v } = view p) (xs : List String) (s : Product) :
    view (if s.Brand = "" then each IrshadScraper.brandFromScript xs s else s) = view s := by
  split
  · exact each_view _ view (fun s x next hstep => by
      obtain ⟨v, hv⟩ := IrshadScraper.brandFromScript_shape s x
      rw [hv] at hstep
      cases hstep
      exact hBrand s v) xs s
  · rfl

theorem IrshadScraper.spec_view {β : Type} (view : Product → β)
    (hMemory : ∀ p v, view { p with InternalMemory := v } = view p)
    (hRAM : ∀ p v, view { p with RAM := v } = view p)
    (hProcessor : ∀ p v, view { p with Processor := v } = view p)
    (hDisplay : ∀ p v, view { p with Display := v } = view p)
    (hOS : ∀ p v, view { p with OS := v } = view p)
    (ToLower : String → String) (xs : List String) (s : Product) :
    view (IrshadScraper.specTexts ToLower s xs) = view s :=
  foldl_view _ view (fun s x => IrshadScraper.specText_found view ToLower s x
    (fun _ => hMemory) (fun _ => hRAM) (fun _ => hProcessor) (fun _ => hDisplay)
    (fun _ => hOS)) xs s

theorem IrshadScraper.brandName_view {β : Type} (view : Product → β)
    (hBrand : ∀ p v, view { p with Brand := v } = view p)
    (ToLower : String → String) (s : Product) :
    view ((IrshadScraper.brandFromName ToLower s).getD s) = view s := by
  obtain ⟨v, hv⟩ := IrshadScraper.brandFromName_shape ToLower s
  rw [hv, Option.getD_some]
  exact hBrand s v

/-! ## Irshad: a field without a matching element stays empty -/

theorem IrshadScraper.priced_named_view {β : Type} (view : Product → β)
    (hCurrent : ∀ p v, view { p with CurrentPrice := v } = view p)
    (hOriginal : ∀ p v, view { p with OriginalPrice := v } = view p)
    (hDiscount : ∀ p v, view { p with Discount := v } = view p)
    (hCurrency : ∀ p v, view { p with Currency := v } = view p)
    (ToLower : String → String)
    (ParseFloat : String → Option F64) (doc : IrshadDoc) (product : Product) :
    view (IrshadScraper.priced ToLower ParseFloat doc product) =
      view (IrshadScraper.named ToLower doc product) := by
  obtain ⟨discount, hassign⟩ := IrshadScraper.assignPrices_fields ParseFloat
    (IrshadScraper.named ToLower doc product)
    (IrshadScraper.cascadePrices ToLower ParseFloat doc).1
    (IrshadScraper.cascadePrices ToLower ParseFloat doc).2
  have hassigned : view (IrshadScraper.assignPrices ParseFloat
      (IrshadScraper.named ToLower doc product)
      (IrshadScraper.cascadePrices ToLower ParseFloat doc).1
      (IrshadScraper.cascadePrices ToLower ParseFloat doc).2) =
      view (IrshadScraper.named ToLower doc product) := by
    rw [hassign]
    exact (hDiscount { IrshadScraper.named ToLower doc product with
        CurrentPrice := (IrshadScraper.cascadePrices ToLower ParseFloat doc).1,
        OriginalPrice := (IrshadScraper.cascadePrices ToLower ParseFloat doc).2 } discount).trans
      ((hOriginal { IrshadScraper.named ToLower doc product with
        CurrentPrice := (IrshadScraper.cascadePrices ToLower ParseFloat doc).1 } _).trans
        (hCurrent _ _))
  unfold IrshadScraper.priced IrshadScraper.setCurrency
  split
  · exact (hCurrency _ _).trans hassigned
  · exact hassigned

theorem IrshadScraper.irshad_name_empty (ToLower : String → String)
    (ParseFloat : String → Option F64) (doc : IrshadDoc) (product : Product)
    (hfresh : product.Name = "")
    (hh1 : ∀ raw ∈ doc.h1, strings.TrimSpace raw = "" ∨
      strings.Contains (ToLower (strings.TrimSpace raw)) "irşad" = true ∨
      strings.Contains (ToLower (strings.TrimSpace raw)) "məhsul" = true ∨
      (strings.TrimSpace raw).utf8ByteSize ≤ 5)
    (hscripts : ∀ content ∈ doc.scripts, strings.Contains content "\"title\":" = true →
      ∀ line ∈ strings.Split content "\n",
        strings.Contains line "\"title\":" = false ∨
        strings.Contains line "PlayStation" = false ∨
        strings.Index line "\"title\":\"" = -1 ∨
        ∀ tail ∈ sliceFrom line (strings.Index line "\"title\":\"" + 9),
          strings.Index tail "\"," = -1 ∨
          ∀ title ∈ sliceStr line (strings.Index line "\"title\":\"" + 9)
              (strings.Index line "\"title\":\"" + 9 + strings.Index tail "\","),
            title.utf8ByteSize ≤ 5) :
    (IrshadScraper.extract ToLower ParseFloat doc product).Name = "" := by
  rw [IrshadScraper.irshadExtract_view Product.Name (fun _ _ => rfl) (fun _ _ => rfl) (fun _ _ => rfl) (fun _ _ => rfl) (fun _ _ => rfl) (fun _ _ => rfl) (fun _ _ => rfl) (fun _ _ => rfl) ToLower ParseFloat doc product,
    IrshadScraper.priced_named_view Product.Name (fun _ _ => rfl) (fun _ _ => rfl) (fun _ _ => rfl) (fun _ _ => rfl) ToLower ParseFloat doc product]
  have hfold : doc.h1.foldl (IrshadScraper.nameFromH1 ToLower) product = product :=
    foldl_idle _ doc.h1 (fun raw hraw s =>
      IrshadScraper.nameFromH1_idle ToLower s raw (hh1 raw hraw)) product
  unfold IrshadScraper.named
  rw [hfold, if_pos hfresh, each_idle _ doc.scripts (fun content hcontent s =>
    IrshadScraper.titleFromScript_idle s content (hscripts content hcontent))]
  exact hfresh

theorem IrshadScraper.assignPrices_without_current (ParseFloat : String → Option F64)
    (product : Product) (originalPrice : String) :
    (IrshadScraper.assignPrices ParseFloat product "" originalPrice).Discount =
      product.Discount := by
  unfold IrshadScraper.assignPrices
  simp

theorem IrshadScraper.irshad_current_empty (ToLower : String → String)
    (ParseFloat : String → Option F64) (doc : IrshadDoc) (product : Product)
    (hfresh : product.Currency = "") (hdiscount : product.Discount = "")
    (hcalc : ∀ content ∈ doc.scripts,
      strings.Contains content "Calculator.init" = false ∨
      strings.Contains content "price" = false ∨
      ∀ m ∈ (regexp.FindAllStringSubmatch regexp.price content).head?,
        ∀ group ∈ m[1]?, ParseFloat group = none)
    (hjson : ∀ content ∈ doc.scripts,
      strings.Contains content "\"@type\"" = false ∨
      strings.Contains content "Product" = false ∨
      ∀ m ∈ (regexp.FindAllStringSubmatch regexp.quotedPrice content).head?,
        ∀ group ∈ m[1]?, ∀ price ∈ ParseFloat group,
          IrshadScraper.priceInRange price = false)
    (htext : ∀ raw ∈ doc.all,
      strings.Contains (strings.TrimSpace raw) "AZN" = false ∨
      strings.Contains (strings.TrimSpace raw) "x" = true ∨
      strings.Contains (ToLower (strings.TrimSpace raw)) "aylıq" = true ∨
      strings.Contains (strings.TrimSpace raw) "ay" = true ∨
      strings.Contains (ToLower (strings.TrimSpace raw)) "credit" = true ∨
      strings.Contains (ToLower (strings.TrimSpace raw)) "kredit" = true ∨
      20 ≤ (strings.TrimSpace raw).utf8ByteSize ∨
      ((∀ number ∈ IrshadScraper.matchPriceStrict (strings.TrimSpace raw),
          ∀ price ∈ ParseFloat number, IrshadScraper.priceInRange price = false) ∧
        (∀ number ∈ IrshadScraper.matchPriceLoose (strings.TrimSpace raw),
          ∀ price ∈ ParseFloat number, IrshadScraper.priceInRange price = false))) :
    (IrshadScraper.extract ToLower ParseFloat doc product).CurrentPrice = "" ∧
    (IrshadScraper.extract ToLower ParseFloat doc product).Currency = "" ∧
    (IrshadScraper.extract ToLower ParseFloat doc product).Discount = "" := by
  obtain ⟨h1, -, h3, -⟩ := IrshadScraper.extract_fields ToLower ParseFloat doc product
  have hempty := IrshadScraper.cascade_current_empty ToLower ParseFloat doc hcalc hjson htext
  have hno : strings.Contains "" "AZN" = false := by decide
  refine ⟨h1.trans hempty, ?_, ?_⟩
  · rw [h3, hempty, hno]
    exact hfresh
  · rw [IrshadScraper.irshadExtract_view Product.Discount (fun _ _ => rfl) (fun _ _ => rfl) (fun _ _ => rfl) (fun _ _ => rfl) (fun _ _ => rfl) (fun _ _ => rfl) (fun _ _ => rfl) (fun _ _ => rfl) ToLower ParseFloat doc product]
    have hnamed := IrshadScraper.named_view Product.Discount (fun _ _ => rfl) ToLower doc
      product
    unfold IrshadScraper.priced IrshadScraper.setCurrency
    rw [hempty]
    split
    · exact (IrshadScraper.assignPrices_without_current ParseFloat
        (IrshadScraper.named ToLower doc product)
        (IrshadScraper.cascadePrices ToLower ParseFloat doc).2).trans (hnamed.trans hdiscount)
    · exact (IrshadScraper.assignPrices_without_current ParseFloat
        (IrshadScraper.named ToLower doc product)
        (IrshadScraper.cascadePrices ToLower ParseFloat doc).2).trans (hnamed.trans hdiscount)

theorem IrshadScraper.assignPrices_without_original (ParseFloat : String → Option F64)
    (product : Product) (currentPrice : String) :
    (IrshadScraper.assignPrices ParseFloat product currentPrice "").Discount =
      product.Discount := by
  unfold IrshadScraper.assignPrices
  simp

theorem IrshadScraper.irshad_original_empty (ToLower : String → String)
    (ParseFloat : String → Option F64) (doc : IrshadDoc) (product : Product)
    (hfresh : product.Discount = "")
    (hcalc : ∀ content ∈ doc.scripts,
      strings.Contains content "Calculator.init" = false ∨
      strings.Contains content "price" = false ∨
      ∀ m ∈ (regexp.FindAllStringSubmatch regexp.installmentPrice content).head?,
        ∀ group ∈ m[1]?, ParseFloat group = none)
    (htext : ∀ raw ∈ doc.all,
      strings.Contains (strings.TrimSpace raw) "AZN" = false ∨
      strings.Contains (strings.TrimSpace raw) "x" = true ∨
      strings.Contains (ToLower (strings.TrimSpace raw)) "aylıq" = true ∨
      strings.Contains (strings.TrimSpace raw) "ay" = true ∨
      strings.Contains (ToLower (strings.TrimSpace raw)) "credit" = true ∨
      strings.Contains (ToLower (strings.TrimSpace raw)) "kredit" = true ∨
      20 ≤ (strings.TrimSpace raw).utf8ByteSize ∨
      ((∀ number ∈ IrshadScraper.matchPriceStrict (strings.TrimSpace raw),
          ∀ price ∈ ParseFloat number, IrshadScraper.priceInRange price = false) ∧
        (∀ number ∈ IrshadScraper.matchPriceLoose (strings.TrimSpace raw),
          ∀ price ∈ ParseFloat number, IrshadScraper.priceInRange price = false))) :
    (IrshadScraper.extract ToLower ParseFloat doc product).OriginalPrice = "" ∧
    (IrshadScraper.extract ToLower ParseFloat doc product).Discount = "" := by
  obtain ⟨-, h2, -⟩ := IrshadScraper.extract_fields ToLower ParseFloat doc product
  have hempty := IrshadScraper.cascade_original_empty ToLower ParseFloat doc hcalc htext
  refine ⟨h2.trans hempty, ?_⟩
  rw [IrshadScraper.irshadExtract_view Product.Discount (fun _ _ => rfl) (fun _ _ => rfl) (fun _ _ => rfl) (fun _ _ => rfl) (fun _ _ => rfl) (fun _ _ => rfl) (fun _ _ => rfl) (fun _ _ => rfl) ToLower ParseFloat doc product]
  have hnamed := IrshadScraper.named_view Product.Discount (fun _ _ => rfl) ToLower doc product
  unfold IrshadScraper.priced IrshadScraper.setCurrency
  rw [hempty]
  split
  · exact (IrshadScraper.assignPrices_without_original ParseFloat _ _).trans
      (hnamed.trans hfresh)
  · exact (IrshadScraper.assignPrices_without_original ParseFloat _ _).trans
      (hnamed.trans hfresh)

theorem IrshadScraper.irshad_availability_empty (ToLower : String → String)
    (ParseFloat : String → Option F64) (doc : IrshadDoc) (product : Product)
    (hfresh : product.Availability = "")
    (hnone : ∀ raw ∈ doc.all,
      ToLower (strings.TrimSpace raw) ≠ "stokda var" ∧
      ToLower (strings.TrimSpace raw) ≠ "mövcuddur" ∧
      ToLower (strings.TrimSpace raw) ≠ "var" ∧
      ToLower (strings.TrimSpace raw) ≠ "stokda yoxdur" ∧
      ToLower (strings.TrimSpace raw) ≠ "yoxdur") :
    (IrshadScraper.extract ToLower ParseFloat doc product).Availability = "" :=
  IrshadScraper.irshadPost_invariant (fun q => q.Availability = "") ToLower ParseFloat doc product
    (fun s hs => by
      rw [foldl_idle _ doc.all (fun raw hraw s =>
        IrshadScraper.availabilityFromText_idle ToLower s raw (hnone raw hraw))]
      exact hs)
    (fun s hs => (IrshadScraper.skuText_view Product.Availability (fun _ _ => rfl) ToLower _ s).trans hs)
    (fun s hs => (IrshadScraper.skuScript_view Product.Availability (fun _ _ => rfl) _ s).trans hs)
    (fun s hs => (IrshadScraper.brandText_view Product.Availability (fun _ _ => rfl) ToLower _ s).trans hs)
    (fun s hs => (IrshadScraper.brandScript_view Product.Availability (fun _ _ => rfl) _ s).trans hs)
    (fun s hs => (IrshadScraper.spec_view Product.Availability (fun _ _ => rfl) (fun _ _ => rfl) (fun _ _ => rfl) (fun _ _ => rfl) (fun _ _ => rfl) ToLower _ s).trans hs)
    (fun s hs => (IrshadScraper.brandName_view Product.Availability (fun _ _ => rfl) ToLower s).trans hs)
    (IrshadScraper.irshadPriced_view Product.Availability (fun _ _ => rfl) (fun _ _ => rfl) (fun _ _ => rfl) (fun _ _ => rfl) (fun _ _ => rfl) ToLower ParseFloat doc product ""
      hfresh)

theorem IrshadScraper.irshad_sku_empty (ToLower : String → String)
    (ParseFloat : String → Option F64) (doc : IrshadDoc) (product : Product)
    (hfresh : product.SKU = "")
    (htexts : ∀ raw ∈ doc.all,
      strings.Contains (strings.TrimSpace raw) "93528" = false ∧
      (strings.Contains (ToLower (strings.TrimSpace raw)) "malın kodu" = false ∨
        (regexp.FindStringSubmatch regexp.digits (strings.TrimSpace raw))[1]? = none))
    (hscripts : ∀ content ∈ doc.scripts,
      ((strings.Contains content "Calculator.init" && strings.Contains content "code") = true →
        (regexp.FindStringSubmatch regexp.codeSpaced content)[1]? = none) ∧
      ((strings.Contains content "Calculator.init" && strings.Contains content "code") = false →
        strings.Contains content "\"id\":" = false ∨
        strings.Contains content "\"code\":" = false ∨
        (regexp.FindStringSubmatch regexp.codeTight content)[1]? = none)) :
    (IrshadScraper.extract ToLower ParseFloat doc product).SKU = "" :=
  IrshadScraper.irshadPost_invariant (fun q => q.SKU = "") ToLower ParseFloat doc product
    (fun s hs => (IrshadScraper.stock_view Product.SKU (fun _ _ => rfl) ToLower _ s).trans hs)
    (fun s hs => by
      rw [each_idle _ doc.all (fun raw hraw s =>
        IrshadScraper.skuFromText_idle ToLower s raw (htexts raw hraw))]
      exact hs)
    (fun s hs => by
      rw [each_idle _ doc.scripts (fun content hcontent s =>
        IrshadScraper.skuFromScript_idle s content (hscripts content hcontent).1
          (hscripts content hcontent).2), ite_self]
      exact hs)
    (fun s hs => (IrshadScraper.brandText_view Product.SKU (fun _ _ => rfl) ToLower _ s).trans hs)
    (fun s hs => (IrshadScraper.brandScript_view Product.SKU (fun _ _ => rfl) _ s).trans hs)
    (fun s hs => (IrshadScraper.spec_view Product.SKU (fun _ _ => rfl) (fun _ _ => rfl) (fun _ _ => rfl) (fun _ _ => rfl) (fun _ _ => rfl) ToLower _ s).trans hs)
    (fun s hs => (IrshadScraper.brandName_view Product.SKU (fun _ _ => rfl) ToLower s).trans hs)
    (IrshadScraper.irshadPriced_view Product.SKU (fun _ _ => rfl) (fun _ _ => rfl) (fun _ _ => rfl) (fun _ _ => rfl) (fun _ _ => rfl) ToLower ParseFloat doc product "" hfresh)

theorem IrshadScraper.irshad_brand_empty (ToLower : String → String)
    (ParseFloat : String → Option F64) (doc : IrshadDoc) (product : Product)
    (hfresh : product.Brand = "")
    (htexts : ∀ raw ∈ doc.all,
      strings.Contains (ToLower (strings.TrimSpace raw)) "brend :" = false ∨
      ∀ part ∈ (strings.Split (strings.TrimSpace raw) ":")[1]?,
        ∀ first ∈ (strings.Split (strings.TrimSpace part) "\n").head?,
          strings.TrimSpace first = "" ∨ 20 ≤ (strings.TrimSpace first).utf8ByteSize ∨
          strings.Contains (strings.TrimSpace first) "\x7b" = true)
    (hscripts : ∀ content ∈ doc.scripts,
      strings.Contains content "\"brand\"" = false ∨
      ∀ title ∈ (regexp.FindStringSubmatch regexp.brandTitle content)[1]?,
        strings.TrimSpace title = "" ∨ 20 ≤ (strings.TrimSpace title).utf8ByteSize)
    (hname : ∀ brand ∈ IrshadScraper.brands,
      strings.Contains (ToLower (IrshadScraper.extract ToLower ParseFloat doc product).Name)
        brand = false) :
    (IrshadScraper.extract ToLower ParseFloat doc product).Brand = "" := by
  rw [IrshadScraper.irshadExtract_view Product.Name (fun _ _ => rfl) (fun _ _ => rfl) (fun _ _ => rfl) (fun _ _ => rfl) (fun _ _ => rfl) (fun _ _ => rfl) (fun _ _ => rfl) (fun _ _ => rfl) ToLower ParseFloat doc product] at hname
  have hpair := IrshadScraper.irshadPost_invariant (fun q => (q.Brand, q.Name) = ("", (IrshadScraper.priced ToLower ParseFloat doc product).Name)) ToLower ParseFloat doc product
    (fun s hs => (IrshadScraper.stock_view (fun q : Product => (q.Brand, q.Name)) (fun _ _ => rfl) ToLower _ s).trans hs)
    (fun s hs => (IrshadScraper.skuText_view (fun q : Product => (q.Brand, q.Name)) (fun _ _ => rfl) ToLower _ s).trans hs)
    (fun s hs => (IrshadScraper.skuScript_view (fun q : Product => (q.Brand, q.Name)) (fun _ _ => rfl) _ s).trans hs)
    (fun s hs => by
      rw [each_idle _ doc.all (fun raw hraw s =>
        IrshadScraper.brandFromText_idle ToLower s raw (htexts raw hraw))]
      exact hs)
    (fun s hs => by
      rw [each_idle _ doc.scripts (fun content hcontent s =>
        IrshadScraper.brandFromScript_idle s content (hscripts content hcontent)), ite_self]
      exact hs)
    (fun s hs => (IrshadScraper.spec_view (fun q : Product => (q.Brand, q.Name)) (fun _ _ => rfl) (fun _ _ => rfl) (fun _ _ => rfl) (fun _ _ => rfl) (fun _ _ => rfl) ToLower _ s).trans hs)
    (fun s hs => by
      have hn : s.Name = (IrshadScraper.priced ToLower ParseFloat doc product).Name :=
        congrArg (fun t => t.2) hs
      rw [IrshadScraper.brandFromName_idle ToLower s (by rw [hn]; exact hname)]
      exact hs)
    (by
      show ((IrshadScraper.priced ToLower ParseFloat doc product).Brand,
        (IrshadScraper.priced ToLower ParseFloat doc product).Name) = _
      rw [IrshadScraper.irshadPriced_view Product.Brand (fun _ _ => rfl) (fun _ _ => rfl) (fun _ _ => rfl) (fun _ _ => rfl) (fun _ _ => rfl) ToLower ParseFloat doc product ""
        hfresh])
  exact congrArg (fun t => t.1) hpair

theorem IrshadScraper.irshad_memory_empty (ToLower : String → String)
    (ParseFloat : String → Option F64) (doc : IrshadDoc) (product : Product)
    (hfresh : product.InternalMemory = "")
    (hnone : ∀ raw ∈ doc.all,
      strings.Contains (strings.TrimSpace raw) " : " = false ∨
      ∀ label ∈ (strings.Split (strings.TrimSpace raw) " : ").head?,
        strings.Contains (strings.TrimSpace (ToLower label)) "daxili yaddaş" = false) :
    (IrshadScraper.extract ToLower ParseFloat doc product).InternalMemory = "" :=
  IrshadScraper.irshadPost_invariant (fun q => q.InternalMemory = "") ToLower ParseFloat doc product
    (fun s hs => (IrshadScraper.stock_view Product.InternalMemory (fun _ _ => rfl) ToLower _ s).trans hs)
    (fun s hs => (IrshadScraper.skuText_view Product.InternalMemory (fun _ _ => rfl) ToLower _ s).trans hs)
    (fun s hs => (IrshadScraper.skuScript_view Product.InternalMemory (fun _ _ => rfl) _ s).trans hs)
    (fun s hs => (IrshadScraper.brandText_view Product.InternalMemory (fun _ _ => rfl) ToLower _ s).trans hs)
    (fun s hs => (IrshadScraper.brandScript_view Product.InternalMemory (fun _ _ => rfl) _ s).trans hs)
    (fun s hs => (foldl_view_mem (IrshadScraper.specText ToLower) Product.InternalMemory doc.all
      (fun raw hraw s => IrshadScraper.specText_found Product.InternalMemory ToLower s raw
        (fun hfound => by
          obtain ⟨label, hlabel, hsep, hkw⟩ := hfound
          rcases hnone raw hraw with h | h
          · rw [h] at hsep
            cases hsep
          · rw [h label hlabel] at hkw
            cases hkw)
        (fun _ _ _ => rfl)
        (fun _ _ _ => rfl)
        (fun _ _ _ => rfl)
        (fun _ _ _ => rfl)) s).trans hs)
    (fun s hs => (IrshadScraper.brandName_view Product.InternalMemory (fun _ _ => rfl) ToLower s).trans hs)
    (IrshadScraper.irshadPriced_view Product.InternalMemory (fun _ _ => rfl) (fun _ _ => rfl) (fun _ _ => rfl) (fun _ _ => rfl) (fun _ _ => rfl) ToLower ParseFloat doc product "" hfresh)

theorem IrshadScraper.irshad_ram_empty (ToLower : String → String)
    (ParseFloat : String → Option F64) (doc : IrshadDoc) (product : Product)
    (hfresh : product.RAM = "")
    (hnone : ∀ raw ∈ doc.all,
      strings.Contains (strings.TrimSpace raw) " : " = false ∨
      ∀ label ∈ (strings.Split (strings.TrimSpace raw) " : ").head?,
        strings.Contains (strings.TrimSpace (ToLower label)) "operativ yaddaş" = false) :
    (IrshadScraper.extract ToLower ParseFloat doc product).RAM = "" :=
  IrshadScraper.irshadPost_invariant (fun q => q.RAM = "") ToLower ParseFloat doc product
    (fun s hs => (IrshadScraper.stock_view Product.RAM (fun _ _ => rfl) ToLower _ s).trans hs)
    (fun s hs => (IrshadScraper.skuText_view Product.RAM (fun _ _ => rfl) ToLower _ s).trans hs)
    (fun s hs => (IrshadScraper.skuScript_view Product.RAM (fun _ _ => rfl) _ s).trans hs)
    (fun s hs => (IrshadScraper.brandText_view Product.RAM (fun _ _ => rfl) ToLower _ s).trans hs)
    (fun s hs => (IrshadScraper.brandScript_view Product.RAM (fun _ _ => rfl) _ s).trans hs)
    (fun s hs => (foldl_view_mem (IrshadScraper.specText ToLower) Product.RAM doc.all
      (fun raw hraw s => IrshadScraper.specText_found Product.RAM ToLower s raw
        (fun _ _ _ => rfl)
        (fun hfound => by
          obtain ⟨label, hlabel, hsep, hkw⟩ := hfound
          rcases hnone raw hraw with h | h
          · rw [h] at hsep
            cases hsep
          · rw [h label hlabel] at hkw
            cases hkw)
        (fun _ _ _ => rfl)
        (fun _ _ _ => rfl)
        (fun _ _ _ => rfl)) s).trans hs)
    (fun s hs => (IrshadScraper.brandName_view Product.RAM (fun _ _ => rfl) ToLower s).trans hs)
    (IrshadScraper.irshadPriced_view Product.RAM (fun _ _ => rfl) (fun _ _ => rfl) (fun _ _ => rfl) (fun _ _ => rfl) (fun _ _ => rfl) ToLower ParseFloat doc product "" hfresh)

theorem IrshadScraper.irshad_processor_empty (ToLower : String → String)
    (ParseFloat : String → Option F64) (doc : IrshadDoc) (product : Product)
    (hfresh : product.Processor = "")
    (hnone : ∀ raw ∈ doc.all,
      strings.Contains (strings.TrimSpace raw) " : " = false ∨
      ∀ label ∈ (strings.Split (strings.TrimSpace raw) " : ").head?,
        strings.Contains (strings.TrimSpace (ToLower label)) "prosessor" = false) :
    (IrshadScraper.extract ToLower ParseFloat doc product).Processor = "" :=
  IrshadScraper.irshadPost_invariant (fun q => q.Processor = "") ToLower ParseFloat doc product
    (fun s hs => (IrshadScraper.stock_view Product.Processor (fun _ _ => rfl) ToLower _ s).trans hs)
    (fun s hs => (IrshadScraper.skuText_view Product.Processor (fun _ _ => rfl) ToLower _ s).trans hs)
    (fun s hs => (IrshadScraper.skuScript_view Product.Processor (fun _ _ => rfl) _ s).trans hs)
    (fun s hs => (IrshadScraper.brandText_view Product.Processor (fun _ _ => rfl) ToLower _ s).trans hs)
    (fun s hs => (IrshadScraper.brandScript_view Product.Processor (fun _ _ => rfl) _ s).trans hs)
    (fun s hs => (foldl_view_mem (IrshadScraper.specText ToLower) Product.Processor doc.all
      (fun raw hraw s => IrshadScraper.specText_found Product.Processor ToLower s raw
        (fun _ _ _ => rfl)
        (fun _ _ _ => rfl)
        (fun hfound => by
          obtain ⟨label, hlabel, hsep, hkw⟩ := hfound
          rcases hnone raw hraw with h | h
          · rw [h] at hsep
            cases hsep
          · rw [h label hlabel] at hkw
            cases hkw)
        (fun _ _ _ => rfl)
        (fun _ _ _ => rfl)) s).trans hs)
    (fun s hs => (IrshadScraper.brandName_view Product.Processor (fun _ _ => rfl) ToLower s).trans hs)
    (IrshadScraper.irshadPriced_view Product.Processor (fun _ _ => rfl) (fun _ _ => rfl) (fun _ _ => rfl) (fun _ _ => rfl) (fun _ _ => rfl) ToLower ParseFloat doc product "" hfresh)

theorem IrshadScraper.irshad_display_empty (ToLower : String → String)
    (ParseFloat : String → Option F64) (doc : IrshadDoc) (product : Product)
    (hfresh : product.Display = "")
    (hnone : ∀ raw ∈ doc.all,
      strings.Contains (strings.TrimSpace raw) " : " = false ∨
      ∀ label ∈ (strings.Split (strings.TrimSpace raw) " : ").head?,
        strings.Contains (strings.TrimSpace (ToLower label)) "qrafik prosessor" = false) :
    (IrshadScraper.extract ToLower ParseFloat doc product).Display = "" :=
  IrshadScraper.irshadPost_invariant (fun q => q.Display = "") ToLower ParseFloat doc product
    (fun s hs => (IrshadScraper.stock_view Product.Display (fun _ _ => rfl) ToLower _ s).trans hs)
    (fun s hs => (IrshadScraper.skuText_view Product.Display (fun _ _ => rfl) ToLower _ s).trans hs)
    (fun s hs => (IrshadScraper.skuScript_view Product.Display (fun _ _ => rfl) _ s).trans hs)
    (fun s hs => (IrshadScraper.brandText_view Product.Display (fun _ _ => rfl) ToLower _ s).trans hs)
    (fun s hs => (IrshadScraper.brandScript_view Product.Display (fun _ _ => rfl) _ s).trans hs)
    (fun s hs => (foldl_view_mem (IrshadScraper.specText ToLower) Product.Display doc.all
      (fun raw hraw s => IrshadScraper.specText_found Product.Display ToLower s raw
        (fun _ _ _ => rfl)
        (fun _ _ _ => rfl)
        (fun _ _ _ => rfl)
        (fun hfound => by
          obtain ⟨label, hlabel, hsep, hkw⟩ := hfound
          rcases hnone raw hraw with h | h
          · rw [h] at hsep
            cases hsep
          · rw [h label hlabel] at hkw
            cases hkw)
        (fun _ _ _ => rfl)) s).trans hs)
    (fun s hs => (IrshadScraper.brandName_view Product.Display (fun _ _ => rfl) ToLower s).trans hs)
    (IrshadScraper.irshadPriced_view Product.Display (fun _ _ => rfl) (fun _ _ => rfl) (fun _ _ => rfl) (fun _ _ => rfl) (fun _ _ => rfl) ToLower ParseFloat doc product "" hfresh)

theorem IrshadScraper.irshad_os_empty (ToLower : String → String)
    (ParseFloat : String → Option F64) (doc : IrshadDoc) (product : Product)
    (hfresh : product.OS = "")
    (hnone : ∀ raw ∈ doc.all,
      strings.Contains (strings.TrimSpace raw) " : " = false ∨
      ∀ label ∈ (strings.Split (strings.TrimSpace raw) " : ").head?,
        strings.Contains (strings.TrimSpace (ToLower label)) "çəki" = false) :
    (IrshadScraper.extract ToLower ParseFloat doc product).OS = "" :=
  IrshadScraper.irshadPost_invariant (fun q => q.OS = "") ToLower ParseFloat doc product
    (fun s hs => (IrshadScraper.stock_view Product.OS (fun _ _ => rfl) ToLower _ s).trans hs)
    (fun s hs => (IrshadScraper.skuText_view Product.OS (fun _ _ => rfl) ToLower _ s).trans hs)
    (fun s hs => (IrshadScraper.skuScript_view Product.OS (fun _ _ => rfl) _ s).trans hs)
    (fun s hs => (IrshadScraper.brandText_view Product.OS (fun _ _ => rfl) ToLower _ s).trans hs)
    (fun s hs => (IrshadScraper.brandScript_view Product.OS (fun _ _ => rfl) _ s).trans hs)
    (fun s hs => (foldl_view_mem (IrshadScraper.specText ToLower) Product.OS doc.all
      (fun raw hraw s => IrshadScraper.specText_found Product.OS ToLower s raw
        (fun _ _ _ => rfl)
        (fun _ _ _ => rfl)
        (fun _ _ _ => rfl)
        (fun _ _ _ => rfl)
        (fun hfound => by
          obtain ⟨label, hlabel, hsep, hkw⟩ := hfound
          rcases hnone raw hraw with h | h
          · rw [h] at hsep
            cases hsep
          · rw [h label hlabel] at hkw
            cases hkw)) s).trans hs)
    (fun s hs => (IrshadScraper.brandName_view Product.OS (fun _ _ => rfl) ToLower s).trans hs)
    (IrshadScraper.irshadPriced_view Product.OS (fun _ _ => rfl) (fun _ _ => rfl) (fun _ _ => rfl) (fun _ _ => rfl) (fun _ _ => rfl) ToLower ParseFloat doc product "" hfresh)

theorem IrshadScraper.irshad_unwritten (ToLower : String → String)
    (ParseFloat : String → Option F64) (doc : IrshadDoc) (product : Product) :
    (IrshadScraper.extract ToLower ParseFloat doc product).Rating = product.Rating ∧
    (IrshadScraper.extract ToLower ParseFloat doc product).ReviewCount = product.ReviewCount ∧
    (IrshadScraper.extract ToLower ParseFloat doc product).MainCamera = product.MainCamera ∧
    (IrshadScraper.extract ToLower ParseFloat doc product).FrontCamera = product.FrontCamera := by
  refine ⟨?_, ?_, ?_, ?_⟩
  · rw [IrshadScraper.irshadExtract_view Product.Rating (fun _ _ => rfl) (fun _ _ => rfl) (fun _ _ => rfl) (fun _ _ => rfl) (fun _ _ => rfl) (fun _ _ => rfl) (fun _ _ => rfl) (fun _ _ => rfl) ToLower ParseFloat doc product]
    exact IrshadScraper.irshadPriced_view Product.Rating (fun _ _ => rfl) (fun _ _ => rfl) (fun _ _ => rfl) (fun _ _ => rfl) (fun _ _ => rfl) ToLower ParseFloat doc product _ rfl
  · rw [IrshadScraper.irshadExtract_view Product.ReviewCount (fun _ _ => rfl) (fun _ _ => rfl) (fun _ _ => rfl) (fun _ _ => rfl) (fun _ _ => rfl) (fun _ _ => rfl) (fun _ _ => rfl) (fun _ _ => rfl) ToLower ParseFloat doc product]
    exact IrshadScraper.irshadPriced_view Product.ReviewCount (fun _ _ => rfl) (fun _ _ => rfl) (fun _ _ => rfl) (fun _ _ => rfl) (fun _ _ => rfl) ToLower ParseFloat doc product _ rfl
  · rw [IrshadScraper.irshadExtract_view Product.MainCamera (fun _ _ => rfl) (fun _ _ => rfl) (fun _ _ => rfl) (fun _ _ => rfl) (fun _ _ => rfl) (fun _ _ => rfl) (fun _ _ => rfl) (fun _ _ => rfl) ToLower ParseFloat doc product]
    exact IrshadScraper.irshadPriced_view Product.MainCamera (fun _ _ => rfl) (fun _ _ => rfl) (fun _ _ => rfl) (fun _ _ => rfl) (fun _ _ => rfl) ToLower ParseFloat doc product _ rfl
  · rw [IrshadScraper.irshadExtract_view Product.FrontCamera (fun _ _ => rfl) (fun _ _ => rfl) (fun _ _ => rfl) (fun _ _ => rfl) (fun _ _ => rfl) (fun _ _ => rfl) (fun _ _ => rfl) (fun _ _ => rfl) ToLower ParseFloat doc product]
    exact IrshadScraper.irshadPriced_view Product.FrontCamera (fun _ _ => rfl) (fun _ _ => rfl) (fun _ _ => rfl) (fun _ _ => rfl) (fun _ _ => rfl) ToLower ParseFloat doc product _ rfl

/-! ## The site field and the registry key -/

/-- C13 (as the code has it). For every registry state reached by
`RegisterScraper` calls that register the Irshad strategy under "irshad" and
the Kontakt strategy under "kontakt" only (as the two `init` functions do),
every identifier with a registered strategy, and every successful `Scrape` by
the strategy looked up under it, the site field of the returned product equals
the identifier. -/
theorem site_matches_own_key (ToLower : String → String) (ParseFloat : String → Option F64)
    (calls : List (String × Scraper))
    (hcalls : ∀ call ∈ calls,
      (∃ web, call = ("irshad", NewIrshadScraper ToLower ParseFloat web)) ∨
      (∃ web, call = ("kontakt", NewKontaktScraper ToLower web)))
    (id : String) (scraper : Scraper)
    (hget : GetScraper (registryAfter calls) id = Except.ok scraper)
    (url : String) (product : Product)
    (hscrape : scraper.Scrape url = ⟨some product, none⟩) :
    product.Site = id := by
  have hmem := registry_lookup_mem calls id scraper hget
  rcases hcalls _ hmem with ⟨web, hcall⟩ | ⟨web, hcall⟩
  · simp only [Prod.mk.injEq] at hcall
    obtain ⟨hid, hscraper⟩ := hcall
    subst hid hscraper
    have hproduct : (IrshadScraper.Scrape ToLower web (IrshadScraper.extract ToLower ParseFloat)
        url).result.product = some product := by
      have := congrArg ScrapeResult.product hscrape
      exact this
    obtain ⟨doc, -, hdef⟩ := IrshadScraper.irshadScrape_product ToLower web _ url product hproduct
    rw [hdef, (IrshadScraper.extract_fields ToLower ParseFloat doc _).2.2.2.1]
  · simp only [Prod.mk.injEq] at hcall
    obtain ⟨hid, hscraper⟩ := hcall
    subst hid hscraper
    have hproduct : (KontaktScraper.Scrape ToLower web (KontaktScraper.extract ToLower)
        url).result.product = some product := by
      have := congrArg ScrapeResult.product hscrape
      exact this
    obtain ⟨doc, -, hdef⟩ := KontaktScraper.kontaktScrape_product ToLower web _ url product hproduct
    rw [hdef, KontaktScraper.extract_site]

/-- C13 on the registry that the two `init` functions build, for the identifier
"kontakt" and the page with both prices. -/
theorem site_matches_own_key_witness :
    (GetScraper (registryAfter
        [("irshad", NewIrshadScraper asciiLower strconv.ParseDecimal
            (irshadWebOf oneCalculatorPage)),
          ("kontakt", NewKontaktScraper asciiLower (kontaktWebOf discountedPage))]) "kontakt" =
      Except.ok (NewKontaktScraper asciiLower (kontaktWebOf discountedPage))) ∧
    (NewKontaktScraper asciiLower (kontaktWebOf discountedPage)).Scrape
        "https://kontakt.az/p/1" =
      ⟨some (KontaktScraper.extract asciiLower discountedPage
        { URL := "https://kontakt.az/p/1", Site := "kontakt",
          ScrapedAt := "2026-01-01T00:00:00Z" }), none⟩ ∧
    (KontaktScraper.extract asciiLower discountedPage
        { URL := "https://kontakt.az/p/1", Site := "kontakt",
          ScrapedAt := "2026-01-01T00:00:00Z" }).Site = "kontakt" :=
  ⟨rfl, by decide,
    site_matches_own_key asciiLower strconv.ParseDecimal
      [("irshad", NewIrshadScraper asciiLower strconv.ParseDecimal
          (irshadWebOf oneCalculatorPage)),
        ("kontakt", NewKontaktScraper asciiLower (kontaktWebOf discountedPage))]
      (fun call hcall => by
        simp only [List.mem_cons, List.mem_singleton, List.not_mem_nil, or_false] at hcall
        rcases hcall with h | h
        · exact Or.inl ⟨_, h⟩
        · exact Or.inr ⟨_, h⟩)
      "kontakt" _ rfl "https://kontakt.az/p/1" _ (by decide)⟩

/-- C13 as the specification has it fails: `RegisterScraper` accepts any key.
With the Irshad strategy registered under "shop", the strategy looked up under
"shop" scrapes a page successfully and the site field of the product is
"irshad". -/
theorem site_differs_from_foreign_key :
    ∃ (scraper : Scraper) (product : Product),
      GetScraper (registryAfter
        [("shop", NewIrshadScraper asciiLower strconv.ParseDecimal
          (irshadWebOf oneCalculatorPage))]) "shop" = Except.ok scraper ∧
      scraper.Scrape "https://irshad.az/p/1" = ⟨some product, none⟩ ∧
      product.Site = "irshad" ∧ product.Site ≠ "shop" :=
  ⟨NewIrshadScraper asciiLower strconv.ParseDecimal (irshadWebOf oneCalculatorPage),
    { CurrentPrice := "100.00 AZN", Currency := "AZN", URL := "https://irshad.az/p/1",
      Site := "irshad", ScrapedAt := "2026-01-01T00:00:00Z" },
    rfl, by decide, rfl, by decide⟩

/-! ## Extraction returns a product -/

/-- C12. For both strategies, for every URL that passes the validity check of
the strategy and every document that was fetched and parsed successfully,
`Scrape` returns a product and no error, whatever the document holds: the
extraction with every index and slice checked (the title slice in script lines,
the regex submatches, the first and last of the sorted prices, the pieces of
the brand and label texts, the capital letter of the brand token) never goes out
of range, and its product is the one returned.  In that product the URL, the
site and the time stamp are those of the call, and a field for which no element
of the document meets the conditions under which the code writes it is empty:
for every field, if every element that the passes for this field visit fails
one of the tests on the way to the assignment (the text filters, the pattern
match, the numeric reading, the label keyword), the field is left empty.  On a
document without any matching element the fresh product is returned as it is. -/
theorem extraction_always_returns_product (ToLower : String → String)
    (ParseFloat : String → Option F64) :
    (∀ (web : Web IrshadDoc) (url : String) (doc : IrshadDoc),
      IrshadScraper.IsValidURL ToLower url = true → web.newRequestErr url = none →
      web.get url = Except.ok doc →
      ∃ product,
        IrshadScraper.extractChecked ToLower ParseFloat doc
          { URL := url, Site := "irshad", ScrapedAt := web.now } = some product ∧
        (IrshadScraper.Scrape ToLower web (IrshadScraper.extract ToLower ParseFloat) url).result =
          ⟨some product, none⟩ ∧
        product.URL = url ∧ product.Site = "irshad" ∧ product.ScrapedAt = web.now ∧
        product.Rating = "" ∧ product.ReviewCount = "" ∧ product.MainCamera = "" ∧
        product.FrontCamera = "" ∧
        ((∀ raw ∈ doc.h1, strings.TrimSpace raw = "" ∨
            strings.Contains (ToLower (strings.TrimSpace raw)) "irşad" = true ∨
            strings.Contains (ToLower (strings.TrimSpace raw)) "məhsul" = true ∨
            (strings.TrimSpace raw).utf8ByteSize ≤ 5) →
          (∀ content ∈ doc.scripts, strings.Contains content "\"title\":" = true →
            ∀ line ∈ strings.Split content "\n",
              strings.Contains line "\"title\":" = false ∨
              strings.Contains line "PlayStation" = false ∨
              strings.Index line "\"title\":\"" = -1 ∨
              ∀ tail ∈ sliceFrom line (strings.Index line "\"title\":\"" + 9),
                strings.Index tail "\"," = -1 ∨
                ∀ title ∈ sliceStr line (strings.Index line "\"title\":\"" + 9)
                    (strings.Index line "\"title\":\"" + 9 + strings.Index tail "\","),
                  title.utf8ByteSize ≤ 5) →
          product.Name = "") ∧
        ((∀ content ∈ doc.scripts,
            strings.Contains content "Calculator.init" = false ∨
            strings.Contains content "price" = false ∨
            ∀ m ∈ (regexp.FindAllStringSubmatch regexp.price content).head?,
              ∀ group ∈ m[1]?, ParseFloat group = none) →
          (∀ content ∈ doc.scripts,
            strings.Contains content "\"@type\"" = false ∨
            strings.Contains content "Product" = false ∨
            ∀ m ∈ (regexp.FindAllStringSubmatch regexp.quotedPrice content).head?,
              ∀ group ∈ m[1]?, ∀ price ∈ ParseFloat group,
                IrshadScraper.priceInRange price = false) →
          (∀ raw ∈ doc.all,
            strings.Contains (strings.TrimSpace raw) "AZN" = false ∨
            strings.Contains (strings.TrimSpace raw) "x" = true ∨
            strings.Contains (ToLower (strings.TrimSpace raw)) "aylıq" = true ∨
            strings.Contains (strings.TrimSpace raw) "ay" = true ∨
            strings.Contains (ToLower (strings.TrimSpace raw)) "credit" = true ∨
            strings.Contains (ToLower (strings.TrimSpace raw)) "kredit" = true ∨
            20 ≤ (strings.TrimSpace raw).utf8ByteSize ∨
            ((∀ number ∈ IrshadScraper.matchPriceStrict (strings.TrimSpace raw),
                ∀ price ∈ ParseFloat number, IrshadScraper.priceInRange price = false) ∧
              (∀ number ∈ IrshadScraper.matchPriceLoose (strings.TrimSpace raw),
                ∀ price ∈ ParseFloat number, IrshadScraper.priceInRange price = false))) →
          product.CurrentPrice = "" ∧ product.Currency = "" ∧ product.Discount = "") ∧
        ((∀ content ∈ doc.scripts,
            strings.Contains content "Calculator.init" = false ∨
            strings.Contains content "price" = false ∨
            ∀ m ∈ (regexp.FindAllStringSubmatch regexp.installmentPrice content).head?,
              ∀ group ∈ m[1]?, ParseFloat group = none) →
          (∀ raw ∈ doc.all,
            strings.Contains (strings.TrimSpace raw) "AZN" = false ∨
            strings.Contains (strings.TrimSpace raw) "x" = true ∨
            strings.Contains (ToLower (strings.TrimSpace raw)) "aylıq" = true ∨
            strings.Contains (strings.TrimSpace raw) "ay" = true ∨
            strings.Contains (ToLower (strings.TrimSpace raw)) "credit" = true ∨
            strings.Contains (ToLower (strings.TrimSpace raw)) "kredit" = true ∨
            20 ≤ (strings.TrimSpace raw).utf8ByteSize ∨
            ((∀ number ∈ IrshadScraper.matchPriceStrict (strings.TrimSpace raw),
                ∀ price ∈ ParseFloat number, IrshadScraper.priceInRange price = false) ∧
              (∀ number ∈ IrshadScraper.matchPriceLoose (strings.TrimSpace raw),
                ∀ price ∈ ParseFloat number, IrshadScraper.priceInRange price = false))) →
          product.OriginalPrice = "" ∧ product.Discount = "") ∧
        ((∀ raw ∈ doc.all,
            ToLower (strings.TrimSpace raw) ≠ "stokda var" ∧
            ToLower (strings.TrimSpace raw) ≠ "mövcuddur" ∧
            ToLower (strings.TrimSpace raw) ≠ "var" ∧
            ToLower (strings.TrimSpace raw) ≠ "stokda yoxdur" ∧
            ToLower (strings.TrimSpace raw) ≠ "yoxdur") →
          product.Availability = "") ∧
        ((∀ raw ∈ doc.all,
            strings.Contains (strings.TrimSpace raw) "93528" = false ∧
            (strings.Contains (ToLower (strings.TrimSpace raw)) "malın kodu" = false ∨
              (regexp.FindStringSubmatch regexp.digits (strings.TrimSpace raw))[1]? = none)) →
          (∀ content ∈ doc.scripts,
            ((strings.Contains content "Calculator.init" &&
                strings.Contains content "code") = true →
              (regexp.FindStringSubmatch regexp.codeSpaced content)[1]? = none) ∧
            ((strings.Contains content "Calculator.init" &&
                strings.Contains content "code") = false →
              strings.Contains content "\"id\":" = false ∨
              strings.Contains content "\"code\":" = false ∨
              (regexp.FindStringSubmatch regexp.codeTight content)[1]? = none)) →
          product.SKU = "") ∧
        ((∀ raw ∈ doc.all,
            strings.Contains (ToLower (strings.TrimSpace raw)) "brend :" = false ∨
            ∀ part ∈ (strings.Split (strings.TrimSpace raw) ":")[1]?,
              ∀ first ∈ (strings.Split (strings.TrimSpace part) "\n").head?,
                strings.TrimSpace first = "" ∨ 20 ≤ (strings.TrimSpace first).utf8ByteSize ∨
                strings.Contains (strings.TrimSpace first) "\x7b" = true) →
          (∀ content ∈ doc.scripts,
            strings.Contains content "\"brand\"" = false ∨
            ∀ title ∈ (regexp.FindStringSubmatch regexp.brandTitle content)[1]?,
              strings.TrimSpace title = "" ∨ 20 ≤ (strings.TrimSpace title).utf8ByteSize) →
          (∀ brand ∈ IrshadScraper.brands,
            strings.Contains (ToLower product.Name) brand = false) →
          product.Brand = "") ∧
        ((∀ raw ∈ doc.all,
            strings.Contains (strings.TrimSpace raw) " : " = false ∨
            ∀ label ∈ (strings.Split (strings.TrimSpace raw) " : ").head?,
              strings.Contains (strings.TrimSpace (ToLower label)) "daxili yaddaş" = false) →
          product.InternalMemory = "") ∧
        ((∀ raw ∈ doc.all,
            strings.Contains (strings.TrimSpace raw) " : " = false ∨
            ∀ label ∈ (strings.Split (strings.TrimSpace raw) " : ").head?,
              strings.Contains (strings.TrimSpace (ToLower label)) "operativ yaddaş" = false) →
          product.RAM = "") ∧
        ((∀ raw ∈ doc.all,
            strings.Contains (strings.TrimSpace raw) " : " = false ∨
            ∀ label ∈ (strings.Split (strings.TrimSpace raw) " : ").head?,
              strings.Contains (strings.TrimSpace (ToLower label)) "prosessor" = false) →
          product.Processor = "") ∧
        ((∀ raw ∈ doc.all,
            strings.Contains (strings.TrimSpace raw) " : " = false ∨
            ∀ label ∈ (strings.Split (strings.TrimSpace raw) " : ").head?,
              strings.Contains (strings.TrimSpace (ToLower label)) "qrafik prosessor" = false) →
          product.Display = "") ∧
        ((∀ raw ∈ doc.all,
            strings.Contains (strings.TrimSpace raw) " : " = false ∨
            ∀ label ∈ (strings.Split (strings.TrimSpace raw) " : ").head?,
              strings.Contains (strings.TrimSpace (ToLower label)) "çəki" = false) →
          product.OS = "")) ∧
    (∀ (web : Web KontaktDoc) (url : String) (doc : KontaktDoc),
      KontaktScraper.IsValidURL ToLower url = true → web.get url = Except.ok doc →
      ∃ product,
        KontaktScraper.extractChecked ToLower doc
          { URL := url, Site := "kontakt", ScrapedAt := web.now } = some product ∧
        (KontaktScraper.Scrape ToLower web (KontaktScraper.extract ToLower) url).result =
          ⟨some product, none⟩ ∧
        product.URL = url ∧ product.Site = "kontakt" ∧ product.ScrapedAt = web.now ∧
        ((∀ raw ∈ doc.names, strings.TrimSpace raw = "") → product.Name = "") ∧
        ((∀ raw ∈ doc.skus, strings.TrimSpace raw = "") → product.SKU = "") ∧
        ((∀ raw ∈ doc.finalPrices, strings.Contains (strings.TrimSpace raw) "₼" = false) →
          product.OriginalPrice = "") ∧
        ((∀ raw ∈ doc.finalPrices, strings.Contains (strings.TrimSpace raw) "₼" = false) →
          (∀ raw ∈ doc.strongSpans, strings.Contains (strings.TrimSpace raw) "₼" = false) →
          product.CurrentPrice = "" ∧ product.Currency = "") ∧
        ((∀ raw ∈ doc.discounts,
            strings.Contains (strings.TrimSpace raw) "₼" = false ∨
            strings.Contains (strings.TrimSpace raw) "-" = false ∨
            ∀ first ∈ (strings.Split (strings.TrimSpace raw) " ").head?,
              strings.Contains first "-" = false) →
          product.Discount = "") ∧
        ((∀ raw ∈ doc.stocks, strings.TrimSpace raw = "" ∨
            (strings.Contains (ToLower (strings.TrimSpace raw)) "mövcud" = false ∧
              strings.Contains (ToLower (strings.TrimSpace raw)) "available" = false ∧
              strings.Contains (ToLower (strings.TrimSpace raw)) "stock" = false)) →
          product.Availability = "") ∧
        ((∀ raw ∈ doc.ratings, strings.TrimSpace raw = "") → product.Rating = "") ∧
        ((∀ raw ∈ doc.reviews, strings.TrimSpace raw = "") → product.ReviewCount = "") ∧
        ((∀ row ∈ doc.harRows ++ doc.tableRows,
            strings.TrimSpace row.1 = "" ∨ strings.TrimSpace row.2 = "" ∨
            strings.Contains (ToLower (strings.TrimSpace row.1)) "brend" = false) →
          product.Brand = "") ∧
        ((∀ row ∈ doc.harRows ++ doc.tableRows,
            strings.TrimSpace row.1 = "" ∨ strings.TrimSpace row.2 = "" ∨
            strings.Contains (ToLower (strings.TrimSpace row.1)) "daxili yaddaş" = false) →
          product.InternalMemory = "") ∧
        ((∀ row ∈ doc.harRows ++ doc.tableRows,
            strings.TrimSpace row.1 = "" ∨ strings.TrimSpace row.2 = "" ∨
            strings.Contains (ToLower (strings.TrimSpace row.1)) "operativ yaddaş" = false) →
          product.RAM = "") ∧
        ((∀ row ∈ doc.harRows ++ doc.tableRows,
            strings.TrimSpace row.1 = "" ∨ strings.TrimSpace row.2 = "" ∨
            strings.Contains (ToLower (strings.TrimSpace row.1)) "əsas kamera" = false) →
          product.MainCamera = "") ∧
        ((∀ row ∈ doc.harRows ++ doc.tableRows,
            strings.TrimSpace row.1 = "" ∨ strings.TrimSpace row.2 = "" ∨
            strings.Contains (ToLower (strings.TrimSpace row.1)) "ön kamera" = false) →
          product.FrontCamera = "") ∧
        ((∀ row ∈ doc.harRows ++ doc.tableRows,
            strings.TrimSpace row.1 = "" ∨ strings.TrimSpace row.2 = "" ∨
            (strings.Contains (ToLower (strings.TrimSpace row.1)) "prosessorun adı" = false ∧
              strings.Contains (ToLower (strings.TrimSpace row.1)) "prosessorun növü" = false)) →
          product.Processor = "") ∧
        ((∀ row ∈ doc.harRows ++ doc.tableRows,
            strings.TrimSpace row.1 = "" ∨ strings.TrimSpace row.2 = "" ∨
            strings.Contains (ToLower (strings.TrimSpace row.1)) "əməliyyat sistemi" = false) →
          product.OS = "") ∧
        ((∀ row ∈ doc.harRows ++ doc.tableRows,
            strings.TrimSpace row.1 = "" ∨ strings.TrimSpace row.2 = "" ∨
            strings.Contains (ToLower (strings.TrimSpace row.1)) "displey növü" = false) →
          product.Display = "")) ∧
    (∀ (url now : String), ToLower "" = "" →
      IrshadScraper.extractChecked ToLower ParseFloat ⟨[], [], []⟩
          { URL := url, Site := "irshad", ScrapedAt := now } =
        some { URL := url, Site := "irshad", ScrapedAt := now }) ∧
    (∀ (url now : String),
      KontaktScraper.extractChecked ToLower ⟨[], [], [], [], [], [], [], [], [], []⟩
          { URL := url, Site := "kontakt", ScrapedAt := now } =
        some { URL := url, Site := "kontakt", ScrapedAt := now }) := by
  refine ⟨?_, ?_, ?_, ?_⟩
  · intro web url doc hvalid hrequest hget
    refine ⟨_, IrshadScraper.irshadExtractChecked_eq ToLower ParseFloat doc _, ?_, ?_⟩
    · simp only [IrshadScraper.Scrape, hvalid, hrequest, hget, Bool.not_true,
        Bool.false_eq_true, if_false]
    · obtain ⟨-, -, -, hsite, hurl, hat⟩ := IrshadScraper.extract_fields ToLower ParseFloat doc
        { URL := url, Site := "irshad", ScrapedAt := web.now }
      obtain ⟨hr1, hr2, hr3, hr4⟩ := IrshadScraper.irshad_unwritten ToLower ParseFloat doc
        { URL := url, Site := "irshad", ScrapedAt := web.now }
      exact ⟨hurl, hsite, hat, hr1, hr2, hr3, hr4,
        IrshadScraper.irshad_name_empty ToLower ParseFloat doc _ rfl,
        IrshadScraper.irshad_current_empty ToLower ParseFloat doc _ rfl rfl,
        IrshadScraper.irshad_original_empty ToLower ParseFloat doc _ rfl,
        IrshadScraper.irshad_availability_empty ToLower ParseFloat doc _ rfl,
        IrshadScraper.irshad_sku_empty ToLower ParseFloat doc _ rfl,
        IrshadScraper.irshad_brand_empty ToLower ParseFloat doc _ rfl,
        IrshadScraper.irshad_memory_empty ToLower ParseFloat doc _ rfl,
        IrshadScraper.irshad_ram_empty ToLower ParseFloat doc _ rfl,
        IrshadScraper.irshad_processor_empty ToLower ParseFloat doc _ rfl,
        IrshadScraper.irshad_display_empty ToLower ParseFloat doc _ rfl,
        IrshadScraper.irshad_os_empty ToLower ParseFloat doc _ rfl⟩
  · intro web url doc hvalid hget
    refine ⟨_, KontaktScraper.kontaktExtractChecked_eq ToLower doc _, ?_, ?_⟩
    · simp only [KontaktScraper.Scrape, hvalid, hget, Bool.not_true, Bool.false_eq_true,
        if_false]
    · have hframe : ∀ view : Product → String,
          (∀ p v, view { p with Name := v } = view p) →
          (∀ p v, view { p with SKU := v } = view p) →
          (∀ p v, view { p with CurrentPrice := v } = view p) →
          (∀ p v, view { p with OriginalPrice := v } = view p) →
          (∀ p v, view { p with Discount := v } = view p) →
          (∀ p v, view { p with Currency := v } = view p) →
          (∀ p v, view { p with Availability := v } = view p) →
          (∀ p v, view { p with Rating := v } = view p) →
          (∀ p v, view { p with ReviewCount := v } = view p) →
          (∀ p v, view { p with Brand := v } = view p) →
          (∀ p v, view { p with InternalMemory := v } = view p) →
          (∀ p v, view { p with RAM := v } = view p) →
          (∀ p v, view { p with MainCamera := v } = view p) →
          (∀ p v, view { p with FrontCamera := v } = view p) →
          (∀ p v, view { p with Processor := v } = view p) →
          (∀ p v, view { p with OS := v } = view p) →
          (∀ p v, view { p with Display := v } = view p) →
          view (KontaktScraper.extract ToLower doc
            { URL := url, Site := "kontakt", ScrapedAt := web.now }) =
          view { URL := url, Site := "kontakt", ScrapedAt := web.now } := by
        intro view h1 h2 h3 h4 h5 h6 h7 h8 h9 h10 h11 h12 h13 h14 h15 h16 h17
        rw [KontaktScraper.kontaktExtract_view view h7 h8 h9 h10 h11 h12 h13 h14 h15 h16 h17
          ToLower doc _]
        exact KontaktScraper.priced_view view h1 h2 h3 h4 h5 h6 doc _
      exact ⟨hframe Product.URL (fun _ _ => rfl) (fun _ _ => rfl) (fun _ _ => rfl) (fun _ _ => rfl) (fun _ _ => rfl) (fun _ _ => rfl) (fun _ _ => rfl) (fun _ _ => rfl) (fun _ _ => rfl) (fun _ _ => rfl) (fun _ _ => rfl) (fun _ _ => rfl) (fun _ _ => rfl) (fun _ _ => rfl) (fun _ _ => rfl) (fun _ _ => rfl) (fun _ _ => rfl),
        hframe Product.Site (fun _ _ => rfl) (fun _ _ => rfl) (fun _ _ => rfl) (fun _ _ => rfl) (fun _ _ => rfl) (fun _ _ => rfl) (fun _ _ => rfl) (fun _ _ => rfl) (fun _ _ => rfl) (fun _ _ => rfl) (fun _ _ => rfl) (fun _ _ => rfl) (fun _ _ => rfl) (fun _ _ => rfl) (fun _ _ => rfl) (fun _ _ => rfl) (fun _ _ => rfl),
        hframe Product.ScrapedAt (fun _ _ => rfl) (fun _ _ => rfl) (fun _ _ => rfl) (fun _ _ => rfl) (fun _ _ => rfl) (fun _ _ => rfl) (fun _ _ => rfl) (fun _ _ => rfl) (fun _ _ => rfl) (fun _ _ => rfl) (fun _ _ => rfl) (fun _ _ => rfl) (fun _ _ => rfl) (fun _ _ => rfl) (fun _ _ => rfl) (fun _ _ => rfl) (fun _ _ => rfl),
        KontaktScraper.kontakt_name_empty ToLower doc _ rfl,
        KontaktScraper.kontakt_sku_empty ToLower doc _ rfl,
        KontaktScraper.kontakt_original_empty ToLower doc _ rfl,
        KontaktScraper.kontakt_current_empty ToLower doc _ rfl rfl rfl,
        KontaktScraper.kontakt_discount_empty ToLower doc _ rfl,
        KontaktScraper.kontakt_availability_empty ToLower doc _ rfl,
        KontaktScraper.kontakt_rating_empty ToLower doc _ rfl,
        KontaktScraper.kontakt_reviews_empty ToLower doc _ rfl,
        KontaktScraper.kontakt_brand_empty ToLower doc _ rfl,
        KontaktScraper.kontakt_memory_empty ToLower doc _ rfl,
        KontaktScraper.kontakt_ram_empty ToLower doc _ rfl,
        KontaktScraper.kontakt_mainCamera_empty ToLower doc _ rfl,
        KontaktScraper.kontakt_frontCamera_empty ToLower doc _ rfl,
        KontaktScraper.kontakt_processor_empty ToLower doc _ rfl,
        KontaktScraper.kontakt_os_empty ToLower doc _ rfl,
        KontaktScraper.kontakt_display_empty ToLower doc _ rfl⟩
  · intro url now hlower
    have hfind : IrshadScraper.brands.find?
        (fun brand => strings.Contains (ToLower "") brand) = none := by
      rw [hlower]
      decide
    rw [IrshadScraper.irshadExtractChecked_eq]
    have hspec : IrshadScraper.specTexts ToLower
        (IrshadScraper.branded ToLower ParseFloat ⟨[], [], []⟩
          { URL := url, Site := "irshad", ScrapedAt := now }) [] =
        { URL := url, Site := "irshad", ScrapedAt := now } := rfl
    unfold IrshadScraper.extract
    rw [hspec]
    unfold IrshadScraper.brandFromName
    simp only [beq_self_eq_true, if_true, hfind]
    rfl
  · intro url now
    rfl

/-- C12 on the Irshad page whose script holds a product object and a
`Calculator.init` payload: the name comes from the title slice, the prices and
the product code from the regex submatches, the processor from the split label
text and the brand from the capitalised token; no element text has a label for
the internal memory, which stays empty. -/
theorem extraction_always_returns_product_witness :
    IrshadScraper.IsValidURL asciiLower "https://irshad.az/p/1" = true ∧
    (∃ product,
      IrshadScraper.extractChecked asciiLower strconv.ParseDecimal consolePage
        { URL := "https://irshad.az/p/1", Site := "irshad",
          ScrapedAt := "2026-01-01T00:00:00Z" } = some product ∧
      (IrshadScraper.Scrape asciiLower (irshadWebOf consolePage)
        (IrshadScraper.extract asciiLower strconv.ParseDecimal)
        "https://irshad.az/p/1").result = ⟨some product, none⟩ ∧
      product.InternalMemory = "") ∧
    IrshadScraper.extractChecked asciiLower strconv.ParseDecimal consolePage
        { URL := "https://irshad.az/p/1", Site := "irshad",
          ScrapedAt := "2026-01-01T00:00:00Z" } =
      some
        { Name := "Sony PlayStation 5 Slim", SKU := "93001", CurrentPrice := "1499.99 AZN",
          OriginalPrice := "1650.00 AZN", Discount := "-9%", Currency := "AZN",
          Availability := "Stokda var", Brand := "Sony", Processor := "AMD Zen 2",
          URL := "https://irshad.az/p/1", Site := "irshad",
          ScrapedAt := "2026-01-01T00:00:00Z" } :=
  ⟨by decide,
    ((extraction_always_returns_product asciiLower strconv.ParseDecimal).1
      (irshadWebOf consolePage) "https://irshad.az/p/1" consolePage (by decide) rfl rfl).imp
      fun _ h => ⟨h.1, h.2.1, h.2.2.2.2.2.2.2.2.2.2.2.2.2.2.2.1 (by decide)⟩,
    by decide⟩
